import Mathlib

/-!
# GIST (Grid Inhomogeneous Solvation Theory) action: a shallow embedding

Embedding of `Action_GIST.cpp` (cpptraj).  Floating-point quantities are
modelled in exact arithmetic over `ℚ`; the C++ `int` is modelled by `Int`
with an explicit wrap to 32 bits; `size_t`/`unsigned` indices by `Nat`.
Where a property depends on the outcome of a division by zero, the value that
is not a finite number is `none`: in the order grid, and in the quaternion
construction, which is also stated over an ordered field `K`, so that the real
numbers give its exact arithmetic.
-/

set_option autoImplicit false

namespace GIST

/-! ## Machine integers and small array helpers -/

/-- The value a 32-bit two's-complement `int` holds after an arithmetic
operation whose mathematical result is `x`. -/
def wrapInt (x : Int) : Int := (x + 2147483648) % 4294967296 - 2147483648

/-- Sentinel `Action_GIST::OFF_GRID_` (source line 698). -/
def OFF_GRID_ : Int := -1

/-- Three grid dimensions `griddim_[0..2]` (C++ `int`). -/
structure GridDim where
  nx : Int
  ny : Int
  nz : Int
deriving DecidableEq, Repr

/-- The return expression of `Action_GIST::calcVoxelIndex` (source line 1340):
`int(i)*griddim_[1]*griddim_[2] + int(j)*griddim_[2] + int(k)`, evaluated left
to right in `int` arithmetic. -/
def voxelOfBins (d : GridDim) (i j k : Nat) : Int :=
  wrapInt (wrapInt (wrapInt (wrapInt ((i : Int) * d.ny) * d.nz) + wrapInt ((j : Int) * d.nz))
    + (k : Int))

/-- Source `Action_GIST::calcVoxelIndex` (source lines 1337-1343).  The binning routine
`gridBin_->Calc`, which is not part of this file of the source, is the
parameter `Calc`: it yields the bin triple of a point, or `none` when the point
is off the grid. -/
def calcVoxelIndex (d : GridDim) (Calc : ℚ → ℚ → ℚ → Option (Nat × Nat × Nat))
    (x y z : ℚ) : Int :=
  match Calc x y z with
  | some (i, j, k) => voxelOfBins d i j k
  | none => OFF_GRID_

/-- The decomposition of a voxel index used by `Action_GIST::Print`
(source lines 1596-1598): `ix = gr_pt / (ny*nz)`, `iy = (gr_pt / nz) % ny`,
`iz = gr_pt % nz` (all operands non-negative). -/
def printBins (d : GridDim) (gr_pt : Nat) : Nat × Nat × Nat :=
  (gr_pt / (d.ny.toNat * d.nz.toNat), (gr_pt / d.nz.toNat) % d.ny.toNat, gr_pt % d.nz.toNat)

/-! ## Vectors, arrays and the grid geometry -/

/-- Modelled from the spec: the 3-vector class `Vec3` (not among the source
files): three `double` components, in exact arithmetic. -/
structure Vec3 where
  x : ℚ
  y : ℚ
  z : ℚ
deriving DecidableEq, Repr

/-- Modelled from the spec: `Vec3::operator-`, the difference of two vectors. -/
def Vec3.sub (a b : Vec3) : Vec3 := ⟨a.x - b.x, a.y - b.y, a.z - b.z⟩

/-- Modelled from the spec: `Vec3::operator*(Vec3)`, the dot product. -/
def Vec3.dot (a b : Vec3) : ℚ := a.x * b.x + a.y * b.y + a.z * b.z

/-- Modelled from the spec: `Vec3::Magnitude2`, the squared length. -/
def Vec3.Magnitude2 (a : Vec3) : ℚ := a.x * a.x + a.y * a.y + a.z * a.z

/-- The update `v[i] += x` on a `std::vector<double>` (also
`DataSet_3D::UpdateVoxel(i, x)`); an index past the end leaves the vector as it
is. -/
def addAt : List ℚ → Nat → ℚ → List ℚ
  | [], _, _ => []
  | a :: t, 0, x => (a + x) :: t
  | a :: t, n + 1, x => a :: addAt t n x

/-- The update `v[i]++` on a `std::vector<int>`. -/
def incrAt : List Nat → Nat → List Nat
  | [], _ => []
  | a :: t, 0 => (a + 1) :: t
  | a :: t, n + 1 => a :: incrAt t n

/-- The quotient `a / b` of two `double`s that are numbers: `some` of the
quotient, and `none` when the divisor is zero, where the quotient is not a
finite number (`0.0/0.0` is NaN, and `a/0.0` is an infinity for `a ≠ 0`). -/
def divDbl (a b : ℚ) : Option ℚ := if b = 0 then none else some (a / b)

/-- The sum of two `double`s, each a number (`some`) or not a finite number
(`none`): a sum with a term that is not a finite number is not one either. -/
def addDbl (a b : Option ℚ) : Option ℚ :=
  match a, b with
  | some x, some y => some (x + y)
  | _, _ => none

/-- The sum `total += x` over a list of `double`s that need not be finite
numbers. -/
def sumDbl (l : List (Option ℚ)) : Option ℚ := l.foldl addDbl (some 0)

/-- The update `DataSet_3D::UpdateVoxel(i, x)`, `v[i] += x`, on a grid whose
elements need not be finite numbers; an index past the end leaves the grid as
it is. -/
def UpdateVoxel : List (Option ℚ) → Nat → Option ℚ → List (Option ℚ)
  | [], _, _ => []
  | a :: t, 0, x => addDbl a x :: t
  | a :: t, n + 1, x => a :: UpdateVoxel t n x

/-- The updates `v[i].push_back(x0); v[i].push_back(x1); ...` on a vector of
vectors. -/
def pushAt : List (List ℚ) → Nat → List ℚ → List (List ℚ)
  | [], _, _ => []
  | a :: t, 0, xs => (a ++ xs) :: t
  | a :: t, n + 1, xs => a :: pushAt t n xs

/-- Modelled from the spec: the grid geometry `GridBin` behind `gridBin_`
(its class is not among the source files).  Origin `O`, counts, spacing `h`. -/
structure GridBin where
  O : Vec3
  nx : Nat
  ny : Nat
  nz : Nat
  h : ℚ

/-- Modelled from the spec: `GridBin::Calc`, the operation `locate(p)` of the
spec: with `u = (p - O)/h`, the integer floors of `u` when `0 ≤ u_a < N_a` on
each axis, and off-grid otherwise. -/
def GridBin.Calc (g : GridBin) (x y z : ℚ) : Option (Nat × Nat × Nat) :=
  let ux := (x - g.O.x) / g.h
  let uy := (y - g.O.y) / g.h
  let uz := (z - g.O.z) / g.h
  if 0 ≤ ux ∧ ux < g.nx ∧ 0 ≤ uy ∧ uy < g.ny ∧ 0 ≤ uz ∧ uz < g.nz then
    some (⌊ux⌋.toNat, ⌊uy⌋.toNat, ⌊uz⌋.toNat)
  else none

/-- Modelled from the spec: `GridBin::VoxelVolume`, `Vvox = h³`. -/
def GridBin.VoxelVolume (g : GridBin) : ℚ := g.h * g.h * g.h

/-! ## Topology, frame and the members set by `Init` and `Setup` -/

/-- The values of `ImageOption::ImagingType()`. -/
inductive ImagingType where
  | NO_IMAGE
  | ORTHO
  | NONORTHO
deriving DecidableEq, Repr

/-- Modelled from the spec: the class `Matrix_3x3` of the unit cell and its
inverse (not among the source files), a 3x3 matrix given by its rows. -/
structure Matrix_3x3 where
  r0 : Vec3
  r1 : Vec3
  r2 : Vec3

/-- Modelled from the spec: `Matrix_3x3::operator*(Vec3)` and `TimesVec`, matrix
times column vector. -/
def Matrix_3x3.TimesVec (m : Matrix_3x3) (v : Vec3) : Vec3 :=
  ⟨m.r0.dot v, m.r1.dot v, m.r2.dot v⟩

/-- Modelled from the spec: `Matrix_3x3::TransposeMult`, transposed matrix times
column vector. -/
def Matrix_3x3.TransposeMult (m : Matrix_3x3) (v : Vec3) : Vec3 :=
  ⟨m.r0.x * v.x + m.r1.x * v.y + m.r2.x * v.z,
   m.r0.y * v.x + m.r1.y * v.y + m.r2.y * v.z,
   m.r0.z * v.x + m.r1.z * v.y + m.r2.z * v.z⟩

/-- The parts of `Topology` read by the action. -/
structure Topology where
  /-- Source `topIn[a].MolNum()` -/
  MolNum : Nat → Nat
  /-- Source `topIn[a].Charge()` -/
  Charge : Nat → ℚ
  /-- Source `topIn.GetLJparam(a1, a2).A()` -/
  LJ_A : Nat → Nat → ℚ
  /-- Source `topIn.GetLJparam(a1, a2).B()` -/
  LJ_B : Nat → Nat → ℚ
  /-- Source `topIn[a].Mass()` -/
  Mass : Nat → ℚ

/-- The parts of `Frame` read by the action, with the imaging type that
`imageOpt_` holds for the frame and the box of the frame. -/
structure Frame where
  Natom : Nat
  XYZ : Nat → Vec3
  imaging : ImagingType
  UnitCell : Matrix_3x3
  FracCell : Matrix_3x3
  /-- Source `DIST2_ImageOrtho(a1, a2, frameIn.BoxCrd())` (DistRoutines, not in the source files) -/
  DIST2_ImageOrtho : Vec3 → Vec3 → ℚ

/-! ## The state of the action -/

/-- Modelled from the spec: the water-water matrix `DataSet_MatrixFlt` behind
`ww_Eij_` (its class is not among the source files): a symmetric triangular
matrix without diagonal, whose element for the voxel pair `{x, y}` is keyed by
`(min x y, max x y)`. -/
structure TriMatrix where
  elt : Nat → Nat → ℚ

/-- Modelled from the spec: `UpdateElement(x, y, v)` adds `v` to the element of
the unordered pair `{x, y}`. -/
def TriMatrix.UpdateElement (m : TriMatrix) (x y : Nat) (v : ℚ) : TriMatrix :=
  if x = y then m
  else ⟨fun i j => if i = min x y ∧ j = max x y then m.elt i j + v else m.elt i j⟩

/-- Modelled from the spec: `GetElement(x, y)`, the element of the unordered
pair `{x, y}`; the matrix has no diagonal. -/
def TriMatrix.GetElement (m : TriMatrix) (x y : Nat) : ℚ :=
  if x = y then 0 else m.elt (min x y) (max x y)

/-- One call of `Ecalc` made by `NonbondEnergy`, as a record: the atom pair,
their voxels, the squared distance passed, the two energies returned, and
whether it was the solute branch. -/
structure EcalcCall where
  a1 : Nat
  a2 : Nat
  a1_voxel : Int
  a2_voxel : Int
  rij2 : ℚ
  Evdw : ℚ
  Eelec : ℚ
  solute : Bool
deriving DecidableEq

/-- The mutable members of `Action_GIST` (one thread, i.e. the build without
OpenMP, for the per-thread energy arrays), together with two records kept for
the statement of properties only: `calls`, the calls of `Ecalc`, and
`orderUpdates`, the voxel and value of every `UpdateVoxel` done by `Order`.
An element of the `order` grid is `some` number, or `none` when a division by
zero in `Order` made it a value that is not a finite number. -/
structure GistState where
  NFRAME_ : Nat
  N_ON_GRID_ : Nat
  OnGrid_idxs_ : List Nat
  OnGrid_XYZ_ : List ℚ
  atom_voxel_ : List Int
  U_onGrid_idxs_ : List Nat
  N_waters_ : List Nat
  N_solute_atoms_ : List Nat
  max_nwat_ : Nat
  voxel_xyz_ : List (List ℚ)
  voxel_Q_ : List (List ℚ)
  dipolex : List ℚ
  dipoley : List ℚ
  dipolez : List ℚ
  density : List (List ℚ)
  order : List (Option ℚ)
  E_UV_VDW_ : List ℚ
  E_UV_Elec_ : List ℚ
  E_VV_VDW_ : List ℚ
  E_VV_Elec_ : List ℚ
  neighbor_ : List ℚ
  ww_Eij_ : TriMatrix
  calls : List EcalcCall
  orderUpdates : List (Nat × Option ℚ)

/-- The library functions of `<cmath>` that exact rational arithmetic does not
provide. -/
structure MathFns where
  sqrt : ℚ → ℚ
  acos : ℚ → ℚ
  cos : ℚ → ℚ
  sin : ℚ → ℚ
  log : ℚ → ℚ

/-- The members of `Action_GIST` that are fixed once `Init` and `Setup` have
run. -/
structure Gist where
  griddim_ : GridDim
  gridBin_ : GridBin
  G_max_ : Vec3
  NeighborCut2_ : ℚ
  doOrder_ : Bool
  doEij_ : Bool
  skipE_ : Bool
  usePme_ : Bool
  useCom_ : Bool
  rigidAtomIndices_ : Nat × Nat × Nat
  O_idxs_ : List Nat
  U_idxs_ : List Nat
  nMolAtoms_ : Nat
  atomIsSolute_ : Nat → Bool
  atomIsSolventO_ : Nat → Bool
  Q_ : List ℚ
  i_element : List Nat
  n_unique_elements : Nat
  MAX_GRID_PT_ : Nat
  CurrentParm_ : Topology
  math : MathFns
  /-- Source `Constants::SMALL` -/
  SMALL : ℚ
  /-- Source `QFAC_ = Constants::ELECTOAMBER * Constants::ELECTOAMBER` -/
  QFAC_ : ℚ
  /-- The value found in a `Vec3` that was declared without initialiser
  (`Vec3 WAT[4]` in `Order`). -/
  uninitVec3 : Vec3
  /-- Source `gistPme_.CalcNonbondEnergy_GIST` (the mesh-Ewald back-end, library
  `LIBPME`): the new contents of the five arrays it is given by reference,
  `E_UV_VDW_, E_UV_Elec_, E_VV_VDW_, E_VV_Elec_, neighbor_`. -/
  CalcNonbondEnergy_GIST : Frame → GistState → List ℚ × List ℚ × List ℚ × List ℚ × List ℚ
  skipS_ : Bool
  exactNnVolume_ : Bool
  nNnSearchLayers_ : Int
  temperature_ : ℚ
  BULK_DENS_ : ℚ
  gridspacing_ : ℚ
  /-- Source `solventInfo_.element_count` -/
  element_count : List Nat
  /-- Source `Constants::PI` -/
  PI : ℚ
  /-- Source `Constants::TWOPI` -/
  TWOPI : ℚ
  /-- Source `Constants::GASK_KCAL` -/
  GASK_KCAL : ℚ
  /-- Source `Constants::EULER_MASC` -/
  EULER_MASC : ℚ
  /-- Source `Constants::DEBYE_EA` -/
  DEBYE_EA : ℚ
  /-- Source `GIST_TINY` (source line 24) -/
  GIST_TINY : ℚ
  /-- Source `GistEntropyUtils::GIST_HUGE` -/
  GIST_HUGE : ℚ
  /-- Source `GistEntropyUtils::searchGridNearestNeighbors6D(center, W4, X4, Y4, Z4,
  voxel_xyz_, voxel_Q_, nx, ny, nz, grid_origin, gridspacing_, nNnSearchLayers_, n0)`
  (not among the source files): the squared nearest-neighbour distances in
  position and in position-orientation space. -/
  searchGridNearestNeighbors6D : Vec3 → ℚ → ℚ → ℚ → ℚ → List (List ℚ) → List (List ℚ) →
    Int → Int → Int → Vec3 → ℚ → Int → Nat → ℚ × ℚ
  /-- Source `GistEntropyUtils::sixVolumeCorrFactor` (not among the source files) -/
  sixVolumeCorrFactor : ℚ → ℚ

/-- Source `Action_GIST::maxD_ = DBL_MAX` (source line 23). -/
def maxD_ : ℚ := 2 ^ 1024 - 2 ^ 971

/-- Source `NSOLVENT_ = O_idxs_.size()` (source line 522). -/
def Gist.NSOLVENT_ (g : Gist) : Nat := g.O_idxs_.length

/-- The member function `calcVoxelIndex` (source lines 1337-1343) applied with
the action's own grid. -/
def Gist.calcVoxelIndex (g : Gist) (p : Vec3) : Int :=
  GIST.calcVoxelIndex g.griddim_ g.gridBin_.Calc p.x p.y p.z

/-- Modelled from the spec: `Frame::VCenterOfMass(begin, end)`, the center of
mass of the atoms `begin ≤ a < end` (the class `Frame` is not among the source
files). -/
def VCenterOfMass (top : Topology) (frm : Frame) (first last : Nat) : Vec3 :=
  let atoms := (List.range (last - first)).map (fun i => first + i)
  let m := (atoms.map top.Mass).sum
  ⟨(atoms.map (fun a => top.Mass a * (frm.XYZ a).x)).sum / m,
   (atoms.map (fun a => top.Mass a * (frm.XYZ a).y)).sum / m,
   (atoms.map (fun a => top.Mass a * (frm.XYZ a).z)).sum / m⟩

/-- Source `Action_GIST::calcMolCenter` (source lines 1328-1335). -/
def Gist.calcMolCenter (g : Gist) (frm : Frame) (first last : Nat) : Vec3 :=
  if g.useCom_ then VCenterOfMass g.CurrentParm_ frm first last
  else frm.XYZ (first + g.rigidAtomIndices_.1)

/-- The state left by `Init` (source lines 297-301 and 312-324) and by the
allocation of the data sets: every accumulator of every voxel is zero, every
per-voxel list is empty. -/
def Gist.Init (g : Gist) : GistState where
  NFRAME_ := 0
  N_ON_GRID_ := 0
  OnGrid_idxs_ := []
  OnGrid_XYZ_ := []
  atom_voxel_ := []
  U_onGrid_idxs_ := []
  N_waters_ := List.replicate g.MAX_GRID_PT_ 0
  N_solute_atoms_ := List.replicate g.MAX_GRID_PT_ 0
  max_nwat_ := 0
  voxel_xyz_ := List.replicate g.MAX_GRID_PT_ []
  voxel_Q_ := List.replicate g.MAX_GRID_PT_ []
  dipolex := List.replicate g.MAX_GRID_PT_ 0
  dipoley := List.replicate g.MAX_GRID_PT_ 0
  dipolez := List.replicate g.MAX_GRID_PT_ 0
  density := List.replicate g.n_unique_elements (List.replicate g.MAX_GRID_PT_ 0)
  order := List.replicate g.MAX_GRID_PT_ (some 0)
  E_UV_VDW_ := List.replicate g.MAX_GRID_PT_ 0
  E_UV_Elec_ := List.replicate g.MAX_GRID_PT_ 0
  E_VV_VDW_ := List.replicate g.MAX_GRID_PT_ 0
  E_VV_Elec_ := List.replicate g.MAX_GRID_PT_ 0
  neighbor_ := List.replicate g.MAX_GRID_PT_ 0
  ww_Eij_ := ⟨fun _ _ => 0⟩
  calls := []
  orderUpdates := []

/-! ## `DoAction`: the loop over the solvent molecules -/

/-- Modelled from the spec: `Vec3::Cross`, the cross product. -/
def Vec3.Cross (a b : Vec3) : Vec3 :=
  ⟨a.y * b.z - a.z * b.y, a.z * b.x - a.x * b.z, a.x * b.y - a.y * b.x⟩

/-- Modelled from the spec: `Vec3::Normalize`, division by the length. -/
def Vec3.Normalize (m : MathFns) (a : Vec3) : Vec3 :=
  let b := 1 / m.sqrt a.Magnitude2
  ⟨a.x * b, a.y * b, a.z * b⟩

/-- The rotation formula that `DoAction` applies to `H1_wat` and to `H2_wat`
(source lines 1166-1177 and 1181-1192). -/
def quatRotate (w2 x2 y2 z2 : ℚ) (H : Vec3) : Vec3 :=
  ⟨(2 * (x2 * z2 - w2 * y2) * H.z)
      + ((2 * (x2 * y2 + w2 * z2) * H.y) + ((w2 * w2 + x2 * x2) - (y2 * y2 + z2 * z2)) * H.x),
   (2 * (y2 * z2 + w2 * x2) * H.z)
      + (((w2 * w2 - x2 * x2 + y2 * y2 - z2 * z2) * H.y) + 2 * (x2 * y2 - w2 * z2) * H.x),
   ((w2 * w2 - x2 * x2 - y2 * y2 + z2 * z2) * H.z)
      + ((2 * (y2 * z2 - w2 * x2) * H.y) + 2 * (x2 * z2 + w2 * y2) * H.x)⟩

/-- Source `x_lab_` (source line 694). -/
def x_lab_ : Vec3 := ⟨1, 0, 0⟩

/-- Source `z_lab_` (source line 696). -/
def z_lab_ : Vec3 := ⟨0, 0, 1⟩

/-- The orientation quaternion `(w4, x4, y4, z4)` of one water, from the
coordinates of its three rigid atoms (source lines 1133-1218). -/
def waterQuaternion (m : MathFns) (SMALL : ℚ) (O_XYZ H1_XYZ H2_XYZ : Vec3) : List ℚ :=
  let H1_wat := (H1_XYZ.sub O_XYZ).Normalize m
  let H2_wat := (H2_XYZ.sub O_XYZ).Normalize m
  let sar := H1_wat.Cross x_lab_
  let ar1 := sar.Normalize m
  let dp1 := x_lab_.dot H1_wat
  let theta := m.acos dp1
  let sign := sar.dot H1_wat
  let theta1 := if sign > SMALL then theta / 2 else theta / (-2)
  let w1 := m.cos theta1
  let sin_theta := m.sin theta1
  let x1 := ar1.x * sin_theta
  let y1 := ar1.y * sin_theta
  let z1 := ar1.z * sin_theta
  let H_temp := quatRotate w1 x1 y1 z1 H1_wat
  let H_temp2 := quatRotate w1 x1 y1 z1 H2_wat
  let ar2 := (H_temp.Cross H_temp2).Normalize m
  let dp2 := ar2.dot z_lab_
  let theta' := m.acos dp2
  let sar2 := ar2.Cross z_lab_
  let sign2 := sar2.dot H_temp
  let theta2 := if sign2 < 0 then theta' / 2 else theta' / (-2)
  let w3 := m.cos theta2
  let sin_theta2 := m.sin theta2
  let x3 := x_lab_.x * sin_theta2
  let y3 := x_lab_.y * sin_theta2
  let z3 := x_lab_.z * sin_theta2
  [w1 * w3 - x1 * x3 - y1 * y3 - z1 * z3,
   w1 * x3 + x1 * w3 + y1 * z3 - z1 * y3,
   w1 * y3 - x1 * z3 + y1 * w3 + z1 * x3,
   w1 * z3 + x1 * y3 - y1 * x3 + z1 * w3]

/-- The body of the loop `for IDX` of source lines 1113-1121, for one atom of
an on-grid molecule. -/
def recordAtom (frm : Frame) (oidx : Nat) (voxel : Int) (st : GistState) (IDX : Nat) :
    GistState :=
  { st with
    atom_voxel_ := st.atom_voxel_.set (oidx + IDX) voxel
    OnGrid_idxs_ := st.OnGrid_idxs_ ++ [oidx + IDX]
    OnGrid_XYZ_ := st.OnGrid_XYZ_ ++
      [(frm.XYZ (oidx + IDX)).x, (frm.XYZ (oidx + IDX)).y, (frm.XYZ (oidx + IDX)).z] }

/-- The dipole sums `DPX, DPY, DPZ` of one molecule (source lines 1237-1245). -/
def molDipole (g : Gist) (frm : Frame) (oidx : Nat) : Vec3 :=
  (List.range g.nMolAtoms_).foldl
    (fun D IDX => ⟨D.x + (frm.XYZ (oidx + IDX)).x * g.Q_.getD IDX 0,
                   D.y + (frm.XYZ (oidx + IDX)).y * g.Q_.getD IDX 0,
                   D.z + (frm.XYZ (oidx + IDX)).z * g.Q_.getD IDX 0⟩)
    ⟨0, 0, 0⟩

/-- The branch `voxel != OFF_GRID_` of `DoAction` (source lines 1108-1251):
what is recorded for a molecule whose center is in voxel `voxel`. -/
def recordOnGrid (g : Gist) (frm : Frame) (oidx : Nat) (mol_center : Vec3) (voxel : Int)
    (st : GistState) : GistState :=
  let st1 := (List.range g.nMolAtoms_).foldl (recordAtom frm oidx voxel) st
  let v := voxel.toNat
  let N_waters := incrAt st1.N_waters_ v
  let D := molDipole g frm oidx
  { st1 with
    N_ON_GRID_ := st1.N_ON_GRID_ + g.nMolAtoms_
    N_waters_ := N_waters
    max_nwat_ := max (N_waters.getD v 0) st1.max_nwat_
    voxel_xyz_ := pushAt st1.voxel_xyz_ v [mol_center.x, mol_center.y, mol_center.z]
    voxel_Q_ := pushAt st1.voxel_Q_ v
      (waterQuaternion g.math g.SMALL (frm.XYZ (oidx + g.rigidAtomIndices_.1))
        (frm.XYZ (oidx + g.rigidAtomIndices_.2.1)) (frm.XYZ (oidx + g.rigidAtomIndices_.2.2)))
    dipolex := addAt st1.dipolex v D.x
    dipoley := addAt st1.dipoley v D.y
    dipolez := addAt st1.dipolez v D.z }

/-- The update `densityDataSets[i_elem]->UpdateVoxel(vox, 1.0)`. -/
def densityUpdate : List (List ℚ) → Nat → Nat → List (List ℚ)
  | [], _, _ => []
  | a :: t, 0, vox => addAt a vox 1 :: t
  | a :: t, n + 1, vox => a :: densityUpdate t n vox

/-- The loop over the atoms of a molecule near the grid (source lines
1255-1262): per-element density counts. -/
def recordDensity (g : Gist) (frm : Frame) (oidx : Nat) (st : GistState) : GistState :=
  (List.range g.nMolAtoms_).foldl
    (fun s i =>
      let vox := g.calcVoxelIndex (frm.XYZ (oidx + i))
      if vox ≠ OFF_GRID_ then
        { s with density := densityUpdate s.density (g.i_element.getD i 0) vox.toNat }
      else s)
    st

/-- The test of source lines 1099-1101 on `W_G = mol_center - Origin`. -/
def Gist.nearGrid (g : Gist) (W_G : Vec3) : Bool :=
  decide (W_G.x ≤ g.G_max_.x ∧ W_G.x ≥ -(3 / 2) ∧
          W_G.y ≤ g.G_max_.y ∧ W_G.y ≥ -(3 / 2) ∧
          W_G.z ≤ g.G_max_.z ∧ W_G.z ≥ -(3 / 2))

/-- The body of the loop over the solvent molecules of `DoAction` (source lines
1089-1264), for the molecule whose first atom is `oidx`. -/
def molStep (g : Gist) (frm : Frame) (st : GistState) (oidx : Nat) : GistState :=
  let mol_center := g.calcMolCenter frm oidx (oidx + g.nMolAtoms_)
  let W_G := mol_center.sub g.gridBin_.O
  if g.nearGrid W_G then
    let voxel := g.calcVoxelIndex mol_center
    let st1 := if voxel ≠ OFF_GRID_ then recordOnGrid g frm oidx mol_center voxel st else st
    recordDensity g frm oidx st1
  else st

/-- The start of `DoAction` (source lines 1057-1062). -/
def frameStart (frm : Frame) (st : GistState) : GistState :=
  { st with
    NFRAME_ := st.NFRAME_ + 1
    N_ON_GRID_ := 0
    OnGrid_idxs_ := []
    OnGrid_XYZ_ := []
    atom_voxel_ := List.replicate frm.Natom OFF_GRID_ }

/-- The loop over the solvent molecules of `DoAction` (source lines 1089-1264). -/
def assignMolecules (g : Gist) (frm : Frame) (st : GistState) : GistState :=
  g.O_idxs_.foldl (molStep g frm) st

/-- The body of the loop over the solute atoms of `DoAction` in PME mode
(source lines 1270-1293); the last comparison is written `>- -1.5` in the
source, that is `> -(-1.5)`. -/
def soluteStep (g : Gist) (frm : Frame) (st : GistState) (uidx : Nat) : GistState :=
  let u_XYZ := frm.XYZ uidx
  let U_G := u_XYZ.sub g.gridBin_.O
  if U_G.x ≤ g.G_max_.x ∧ U_G.x ≥ -(3 / 2) ∧
     U_G.y ≤ g.G_max_.y ∧ U_G.y ≥ -(3 / 2) ∧
     U_G.z ≤ g.G_max_.z ∧ U_G.z > -(-(3 / 2)) then
    let voxel := g.calcVoxelIndex u_XYZ
    if voxel ≠ OFF_GRID_ then
      { st with
        atom_voxel_ := st.atom_voxel_.set uidx voxel
        N_solute_atoms_ := incrAt st.N_solute_atoms_ voxel.toNat
        U_onGrid_idxs_ := st.U_onGrid_idxs_ ++ [uidx] }
    else st
  else st

/-! ## `Order` -/

/-- Modelled from the spec: `DIST2_NoImage`, the squared distance without
imaging (DistRoutines is not among the source files). -/
def DIST2_NoImage (a b : Vec3) : ℚ :=
  (a.x - b.x) * (a.x - b.x) + (a.y - b.y) * (a.y - b.y) + (a.z - b.z) * (a.z - b.z)

/-- The running values of the neighbour scan of `Order`: `d1..d4` and
`WAT[0..3]`. -/
structure NearestScan where
  d1 : ℚ
  d2 : ℚ
  d3 : ℚ
  d4 : ℚ
  WAT0 : Vec3
  WAT1 : Vec3
  WAT2 : Vec3
  WAT3 : Vec3

/-- The array element `WAT[i]`. -/
def NearestScan.WAT (s : NearestScan) (i : Nat) : Vec3 :=
  match i with
  | 0 => s.WAT0
  | 1 => s.WAT1
  | 2 => s.WAT2
  | _ => s.WAT3

/-- The body of the scan over all solvent head atoms (source lines 1006-1024). -/
def orderScanStep (frm : Frame) (XYZ1 : Vec3) (oidx1 : Nat) (s : NearestScan) (oidx2 : Nat) :
    NearestScan :=
  if oidx2 ≠ oidx1 then
    let XYZ2 := frm.XYZ oidx2
    let dist2 := DIST2_NoImage XYZ1 XYZ2
    if dist2 < s.d1 then
      { d4 := s.d3, d3 := s.d2, d2 := s.d1, d1 := dist2,
        WAT3 := s.WAT2, WAT2 := s.WAT1, WAT1 := s.WAT0, WAT0 := XYZ2 }
    else if dist2 < s.d2 then
      { s with d4 := s.d3, d3 := s.d2, d2 := dist2,
               WAT3 := s.WAT2, WAT2 := s.WAT1, WAT1 := XYZ2 }
    else if dist2 < s.d3 then
      { s with d4 := s.d3, d3 := dist2, WAT3 := s.WAT2, WAT2 := XYZ2 }
    else if dist2 < s.d4 then
      { s with d4 := dist2, WAT3 := XYZ2 }
    else s
  else s

/-- The cosine term of one pair of neighbours (source lines 1030-1035):
`(cos + 1.0/3)*(cos + 1.0/3)` with `cos = (v1*v2)/sqrt(r1*r2)`; not a finite
number when `sqrt(r1*r2)` is zero. -/
def orderTerm (m : MathFns) (WAT : Nat → Vec3) (XYZ1 : Vec3) (mol1 mol2 : Nat) : Option ℚ :=
  let v1 := (WAT mol1).sub XYZ1
  let v2 := (WAT mol2).sub XYZ1
  let r1 := v1.Magnitude2
  let r2 := v2.Magnitude2
  (divDbl (v1.dot v2) (m.sqrt (r1 * r2))).map fun cos => (cos + 1 / 3) * (cos + 1 / 3)

/-- The double loop `for mol1 < 3, for mol1 < mol2 < 4` of source lines
1027-1037. -/
def orderSum (m : MathFns) (WAT : Nat → Vec3) (XYZ1 : Vec3) : Option ℚ :=
  (List.range 3).foldl
    (fun sum mol1 =>
      ((List.range (4 - (mol1 + 1))).map (fun t => mol1 + 1 + t)).foldl
        (fun sum mol2 => addDbl sum (orderTerm m WAT XYZ1 mol1 mol2)) sum)
    (some 0)

/-- The value passed to `order_norm->UpdateVoxel` (source line 1038):
`1.0 - (3.0/8)*sum`. -/
def orderValue (m : MathFns) (WAT : Nat → Vec3) (XYZ1 : Vec3) : Option ℚ :=
  (orderSum m WAT XYZ1).map fun sum => 1 - (3 / 8) * sum

/-- The three coordinates stored at `(&OnGrid_XYZ_[0]) + gidx*3`. -/
def onGridXYZ (st : GistState) (gidx : Nat) : Vec3 :=
  ⟨st.OnGrid_XYZ_.getD (gidx * 3) 0, st.OnGrid_XYZ_.getD (gidx * 3 + 1) 0,
   st.OnGrid_XYZ_.getD (gidx * 3 + 2) 0⟩

/-- The body of the loop of `Order` over the on-grid molecules (source lines
993-1039). -/
def orderMol (g : Gist) (frm : Frame) (st : GistState) (gidx : Nat) : GistState :=
  let oidx1 := st.OnGrid_idxs_.getD gidx 0
  let voxel1 := st.atom_voxel_.getD oidx1 OFF_GRID_
  let XYZ1 := onGridXYZ st gidx
  let scan := g.O_idxs_.foldl (orderScanStep frm XYZ1 oidx1)
    ⟨maxD_, maxD_, maxD_, maxD_, g.uninitVec3, g.uninitVec3, g.uninitVec3, g.uninitVec3⟩
  let value := orderValue g.math scan.WAT XYZ1
  { st with
    order := UpdateVoxel st.order voxel1.toNat value
    orderUpdates := st.orderUpdates ++ [(voxel1.toNat, value)] }

/-- Source `Action_GIST::Order` (source lines 988-1041): the loop
`for (gidx = 0; gidx < N_ON_GRID_; gidx += nMolAtoms_)`.  `N_ON_GRID_` is only
ever increased by `nMolAtoms_`, so the loop runs `N_ON_GRID_ / nMolAtoms_`
times (rounded up), and not at all when `N_ON_GRID_` is zero. -/
def Order (g : Gist) (frm : Frame) (st : GistState) : GistState :=
  ((List.range ((st.N_ON_GRID_ + g.nMolAtoms_ - 1) / g.nMolAtoms_)).map
    (fun k => k * g.nMolAtoms_)).foldl (orderMol g frm) st

/-! ## `NonbondEnergy` -/

/-- Source `Action_GIST::Ecalc` (source lines 764-778): the pair `(Evdw, Eelec)`. -/
def Ecalc (g : Gist) (rij2 q1 q2 A B : ℚ) : ℚ × ℚ :=
  let rij := g.math.sqrt rij2
  let r2 := 1 / rij2
  let r6 := r2 * r2 * r2
  let r12 := r6 * r6
  let f12 := A * r12
  let f6 := B * r6
  let qiqj := g.QFAC_ * q1 * q2
  (f12 - f6, qiqj / rij)

/-- The wrap of the on-grid coordinates into the primary cell, done once per
frame for a non-orthogonal cell (source lines 801-812). -/
def wrapOnGrid (frm : Frame) : List ℚ → List ℚ
  | x :: y :: z :: rest =>
    let f := frm.FracCell.TimesVec ⟨x, y, z⟩
    let w := frm.UnitCell.TransposeMult ⟨f.x - ⌊f.x⌋, f.y - ⌊f.y⌋, f.z - ⌊f.z⌋⟩
    w.x :: w.y :: w.z :: wrapOnGrid frm rest
  | l => l

/-- The 27 images `vImages` of atom 1 (source lines 861-875); empty unless the
cell is non-orthogonal. -/
def vImages (frm : Frame) (A1_XYZ : Vec3) : List Vec3 :=
  if frm.imaging = ImagingType.NONORTHO then
    let f := frm.FracCell.TimesVec A1_XYZ
    let vFrac : Vec3 := ⟨f.x - ⌊f.x⌋, f.y - ⌊f.y⌋, f.z - ⌊f.z⌋⟩
    ([-1, 0, 1] : List ℚ).flatMap fun ix =>
      ([-1, 0, 1] : List ℚ).flatMap fun iy =>
        ([-1, 0, 1] : List ℚ).map fun iz =>
          frm.UnitCell.TransposeMult ⟨vFrac.x + ix, vFrac.y + iy, vFrac.z + iz⟩
  else []

/-- The squared distance `rij2` of a pair (source lines 889-907 and 922-940,
the build without `GIST_USE_NONORTHO_DIST2`). -/
def pairDist2 (frm : Frame) (A1_XYZ A2_XYZ : Vec3) : ℚ :=
  match frm.imaging with
  | ImagingType.NONORTHO =>
    (vImages frm A1_XYZ).foldl
      (fun rij2 vCart =>
        min rij2 ((vCart.x - A2_XYZ.x) * (vCart.x - A2_XYZ.x)
          + (vCart.y - A2_XYZ.y) * (vCart.y - A2_XYZ.y)
          + (vCart.z - A2_XYZ.z) * (vCart.z - A2_XYZ.z)))
      maxD_
  | ImagingType.ORTHO => frm.DIST2_ImageOrtho A1_XYZ A2_XYZ
  | ImagingType.NO_IMAGE => DIST2_NoImage A1_XYZ A2_XYZ

/-- The solute branch of the pair loop (source lines 885-914). -/
def pairSolute (g : Gist) (frm : Frame) (a1 a2 : Nat) (a1_voxel a2_voxel : Int) (A2_XYZ : Vec3)
    (st : GistState) : GistState :=
  let rij2 := pairDist2 frm (frm.XYZ a1) A2_XYZ
  let E := Ecalc g rij2 (g.CurrentParm_.Charge a1) (g.CurrentParm_.Charge a2)
    (g.CurrentParm_.LJ_A a1 a2) (g.CurrentParm_.LJ_B a1 a2)
  { st with
    E_UV_VDW_ := addAt st.E_UV_VDW_ a2_voxel.toNat E.1
    E_UV_Elec_ := addAt st.E_UV_Elec_ a2_voxel.toNat E.2
    calls := st.calls ++ [⟨a1, a2, a1_voxel, a2_voxel, rij2, E.1, E.2, true⟩] }

/-- The solvent branch of the pair loop once its guard has passed (source lines
920-970). -/
def pairSolvent (g : Gist) (frm : Frame) (a1 a2 : Nat) (a1_voxel a2_voxel : Int) (A2_XYZ : Vec3)
    (st : GistState) : GistState :=
  let rij2 := pairDist2 frm (frm.XYZ a1) A2_XYZ
  let E := Ecalc g rij2 (g.CurrentParm_.Charge a1) (g.CurrentParm_.Charge a2)
    (g.CurrentParm_.LJ_A a1 a2) (g.CurrentParm_.LJ_B a1 a2)
  let is_O_O := g.atomIsSolventO_ a1 && g.atomIsSolventO_ a2
  let VV_VDW := addAt st.E_VV_VDW_ a2_voxel.toNat E.1
  let VV_Elec := addAt st.E_VV_Elec_ a2_voxel.toNat E.2
  let Neighbor :=
    if is_O_O = true ∧ rij2 < g.NeighborCut2_ then addAt st.neighbor_ a2_voxel.toNat 1
    else st.neighbor_
  let log := st.calls ++ [⟨a1, a2, a1_voxel, a2_voxel, rij2, E.1, E.2, false⟩]
  if a1_voxel ≠ OFF_GRID_ then
    { st with
      E_VV_VDW_ := addAt VV_VDW a1_voxel.toNat E.1
      E_VV_Elec_ := addAt VV_Elec a1_voxel.toNat E.2
      neighbor_ :=
        if is_O_O = true ∧ rij2 < g.NeighborCut2_ then addAt Neighbor a1_voxel.toNat 1
        else Neighbor
      ww_Eij_ :=
        if g.doEij_ = true ∧ a1_voxel ≠ a2_voxel then
          st.ww_Eij_.UpdateElement a1_voxel.toNat a2_voxel.toNat (E.1 + E.2)
        else st.ww_Eij_
      calls := log }
  else
    { st with
      E_VV_VDW_ := VV_VDW
      E_VV_Elec_ := VV_Elec
      neighbor_ := Neighbor
      calls := log }

/-- The body of the inner loop of `NonbondEnergy` (source lines 879-973), for
atom `a1` and the on-grid slot `gidx`. -/
def nbPair (g : Gist) (frm : Frame) (a1 : Nat) (st : GistState) (gidx : Nat) : GistState :=
  let a1_voxel := st.atom_voxel_.getD a1 OFF_GRID_
  let a1_mol := g.CurrentParm_.MolNum a1
  let a2 := st.OnGrid_idxs_.getD gidx 0
  let a2_mol := g.CurrentParm_.MolNum a2
  if a1_mol ≠ a2_mol then
    let a2_voxel := st.atom_voxel_.getD a2 OFF_GRID_
    let A2_XYZ := onGridXYZ st gidx
    if g.atomIsSolute_ a1 = true then
      pairSolute g frm a1 a2 a1_voxel a2_voxel A2_XYZ st
    else if a2 ≠ a1 ∧ (a2 > a1 ∨ a1_voxel = OFF_GRID_) then
      pairSolvent g frm a1 a2 a1_voxel a2_voxel A2_XYZ st
    else st
  else st

/-- Source `Action_GIST::NonbondEnergy` (source lines 788-985, one thread). -/
def NonbondEnergy (g : Gist) (frm : Frame) (st : GistState) : GistState :=
  let st0 :=
    if frm.imaging = ImagingType.NONORTHO then
      { st with OnGrid_XYZ_ := wrapOnGrid frm st.OnGrid_XYZ_ }
    else st
  (List.range frm.Natom).foldl
    (fun s aidx => (List.range s.N_ON_GRID_).foldl (nbPair g frm aidx) s)
    st0

/-- Source `Action_GIST::NonbondEnergy_pme` (source lines 703-761), as far as it
writes members of the state embedded here. -/
def NonbondEnergy_pme (g : Gist) (frm : Frame) (st : GistState) : GistState :=
  let r := g.CalcNonbondEnergy_GIST frm st
  { st with
    E_UV_VDW_ := r.1
    E_UV_Elec_ := r.2.1
    E_VV_VDW_ := r.2.2.1
    E_VV_Elec_ := r.2.2.2.1
    neighbor_ := r.2.2.2.2 }

/-! ## `DoAction` -/

/-- The solute grid assignment of `DoAction`, done in PME mode only (source
lines 1267-1295). -/
def assignSolute (g : Gist) (frm : Frame) (st : GistState) : GistState :=
  if g.usePme_ = true then
    g.U_idxs_.foldl (soluteStep g frm) { st with U_onGrid_idxs_ := [] }
  else st

/-- The statement `if (doOrder_) Order(frm.Frm());` (source line 1304). -/
def orderPhase (g : Gist) (frm : Frame) (st : GistState) : GistState :=
  if g.doOrder_ = true then Order g frm st else st

/-- The non-bonded energy calculation of `DoAction` (source lines 1309-1321). -/
def energyPhase (g : Gist) (frm : Frame) (st : GistState) : GistState :=
  if g.skipE_ = false then
    if g.usePme_ = true then NonbondEnergy_pme g frm st else NonbondEnergy g frm st
  else st

/-- Source `Action_GIST::DoAction` (source lines 1055-1326, the build without CUDA). -/
def DoAction (g : Gist) (st : GistState) (frm : Frame) : GistState :=
  energyPhase g frm (orderPhase g frm (assignSolute g frm
    (assignMolecules g frm (frameStart frm st))))

/-- The state after `Init` and the frames of a trajectory, in order. -/
def Gist.run (g : Gist) (frames : List Frame) : GistState :=
  frames.foldl (DoAction g) g.Init

/-! ## `Print`: the normalisation of the energy, neighbour and order grids -/

/-- Source `Action_GIST::SumEVV` for one grid (source lines 1351-1354): the data set,
zero after allocation, receives `a[gr_pt] + b[gr_pt]` of the single thread. -/
def SumEVV (MAX_GRID_PT_ : Nat) (a b : List ℚ) : List ℚ :=
  (List.range MAX_GRID_PT_).map fun gr_pt => 0 + (a.getD gr_pt 0 + b.getD gr_pt 0)

/-- Source `Action_GIST::NormalizeFarray` and `NormalizeDataSet` (source lines
1382-1404). -/
def NormalizeFarray (arr : List ℚ) (norm : List Nat) : List ℚ :=
  (List.range arr.length).map fun i =>
    if norm.getD i 0 = 0 then 0 else arr.getD i 0 / (norm.getD i 0 : ℚ)

/-- Source `Action_GIST::NormalizeDataSet` (source lines 1394-1404) on a grid
whose elements need not be finite numbers: an element with norm zero is set to
`0.0`, any other is divided by its norm. -/
def NormalizeDataSet (ds : List (Option ℚ)) (norm : List Nat) : List (Option ℚ) :=
  (List.range ds.length).map fun i =>
    if norm.getD i 0 = 0 then some 0
    else (ds.getD i (some 0)).map fun a => a / (norm.getD i 0 : ℚ)

/-- Source `Action_GIST::ScaleFarray` and `ScaleDataSet` (source lines 1368-1380). -/
def ScaleFarray (arr : List ℚ) (factor : ℚ) : List ℚ :=
  arr.map fun a => a * factor

/-- The normalisation of the Eij matrix in `Print` (source lines 1801-1809),
applied to every stored element. -/
def normalizeEij (g : Gist) (NFRAME_ : Nat) (m : TriMatrix) : TriMatrix :=
  let fac : ℚ := 1 / ((NFRAME_ * 2 : Nat) : ℚ)
  ⟨fun i j => if |m.elt i j| < g.SMALL then 0 else m.elt i j * fac⟩

/-! ### The entropy estimator of `Print` -/

/-- The quaternion distance `rR` of the samples `n0` and `n1` of a voxel whose
quaternions are `Q` (source lines 1530-1541). -/
def quat_rR (m : MathFns) (Q : List ℚ) (n0 n1 : Nat) : ℚ :=
  let q0 := n0 * 4
  let q1 := n1 * 4
  2 * m.acos |Q.getD q1 0 * Q.getD q0 0
    + Q.getD (q1 + 1) 0 * Q.getD (q0 + 1) 0
    + Q.getD (q1 + 2) 0 * Q.getD (q0 + 2) 0
    + Q.getD (q1 + 3) 0 * Q.getD (q0 + 3) 0|

/-- The inner loop of the orientational entropy (source lines 1529-1545): the
value of `NNr` for sample `n0` once all samples `n1` have been scanned. -/
def orient_NNr (m : MathFns) (Q : List ℚ) (nw_total n0 : Nat) : ℚ :=
  (List.range nw_total).foldl
    (fun NNr n1 =>
      if n0 ≠ n1 then
        if quat_rR m Q n0 n1 > 0 ∧ quat_rR m Q n0 n1 < NNr then quat_rR m Q n0 n1 else NNr
      else NNr)
    10000

/-- The test `NNr < 9999 && NNr > 0` of source line 1547: whether a sample adds
a logarithm to `sorient_norm`. -/
def orientGuard (NNr : ℚ) : Bool := decide (NNr < 9999 ∧ NNr > 0)

/-- The logarithm `dbl` of source lines 1549-1553. -/
def orient_dbl (g : Gist) (nw_total : Nat) (NNr : ℚ) : ℚ :=
  if g.exactNnVolume_ = true then
    g.math.log ((NNr - g.math.sin NNr) * (nw_total : ℚ) / g.PI)
  else
    g.math.log (NNr * NNr * NNr * (nw_total : ℚ) / (3 * g.TWOPI))

/-- The outer loop of the orientational entropy (source lines 1526-1558): the
value of `sorient_norm` for a voxel with `nw_total` samples. -/
def sorient_norm (g : Gist) (Q : List ℚ) (nw_total : Nat) : ℚ :=
  (List.range nw_total).foldl
    (fun s n0 =>
      if orientGuard (orient_NNr g.math Q nw_total n0) = true then
        s + orient_dbl g nw_total (orient_NNr g.math Q nw_total n0)
      else s)
    0

/-- The value of `dTSorient[gr_pt]` after the loop over the voxels of source
lines 1516-1564 (the data set is zero after allocation). -/
def dTSorient_voxel (g : Gist) (st : GistState) (gr_pt : Nat) : ℚ :=
  if g.skipS_ = false then
    if st.N_waters_.getD gr_pt 0 > 1 then
      g.GASK_KCAL * g.temperature_ * (st.N_waters_.getD gr_pt 0 : ℚ)
        * (sorient_norm g (st.voxel_Q_.getD gr_pt []) (st.N_waters_.getD gr_pt 0)
            / (st.N_waters_.getD gr_pt 0 : ℚ) + g.EULER_MASC)
    else 0
  else 0

/-- Modelled from the spec: `GridBin::Center(i, j, k)`, the voxel center
`O + h·(i+½, j+½, k+½)`. -/
def GridBin.Center (g : GridBin) (i j k : Nat) : Vec3 :=
  ⟨g.O.x + g.h * ((i : ℚ) + 1 / 2), g.O.y + g.h * ((j : ℚ) + 1 / 2),
   g.O.z + g.h * ((k : ℚ) + 1 / 2)⟩

/-- The flag `boundary` of source lines 1596-1599. -/
def boundary (d : GridDim) (gr_pt : Nat) : Bool :=
  decide (((printBins d gr_pt).1 : Int) = 0 ∨ ((printBins d gr_pt).2.1 : Int) = 0
    ∨ ((printBins d gr_pt).2.2 : Int) = 0
    ∨ ((printBins d gr_pt).1 : Int) = d.nx - 1 ∨ ((printBins d gr_pt).2.1 : Int) = d.ny - 1
    ∨ ((printBins d gr_pt).2.2 : Int) = d.nz - 1)

/-- The body of the loop over the samples of a voxel in the translational and
six-dimensional entropy (source lines 1604-1638); `acc` is
`(strans_norm, ssix_norm)`. -/
def transStep (g : Gist) (st : GistState) (gr_pt : Nat) (acc : ℚ × ℚ) (n0 : Nat) : ℚ × ℚ :=
  let xyz := st.voxel_xyz_.getD gr_pt []
  let Q := st.voxel_Q_.getD gr_pt []
  let center : Vec3 := ⟨xyz.getD (3 * n0) 0, xyz.getD (3 * n0 + 1) 0, xyz.getD (3 * n0 + 2) 0⟩
  let q0 := n0 * 4
  let NN := g.searchGridNearestNeighbors6D center
    (Q.getD q0 0) (Q.getD (q0 + 1) 0) (Q.getD (q0 + 2) 0) (Q.getD (q0 + 3) 0)
    st.voxel_xyz_ st.voxel_Q_ g.griddim_.nx g.griddim_.ny g.griddim_.nz
    (g.gridBin_.Center 0 0 0) g.gridspacing_ g.nNnSearchLayers_ n0
  let NNd := max (g.math.sqrt NN.1) g.GIST_TINY
  let NNs := max (g.math.sqrt NN.2) g.GIST_TINY
  if NN.1 < g.GIST_HUGE then
    let dbl := g.math.log ((NNd * NNd * NNd * (st.NFRAME_ : ℚ) * 4 * g.PI * g.BULK_DENS_) / 3)
    let sixDens := (NNs * NNs * NNs * NNs * NNs * NNs * (st.NFRAME_ : ℚ) * g.PI * g.BULK_DENS_) / 48
    let sixDens1 := if g.exactNnVolume_ = true then sixDens / g.sixVolumeCorrFactor NNs else sixDens
    (acc.1 + dbl, acc.2 + g.math.log sixDens1)
  else acc

/-- The values of `dTStrans[gr_pt]` and `dTSsix[gr_pt]` after the loop over the
voxels of source lines 1592-1647 (both data sets are zero after allocation). -/
def dTStrans_voxel (g : Gist) (st : GistState) (gr_pt : Nat) : ℚ × ℚ :=
  if g.skipS_ = false then
    if boundary g.griddim_ gr_pt = false then
      let s := (List.range (st.N_waters_.getD gr_pt 0)).foldl (transStep g st gr_pt) (0, 0)
      if s.1 ≠ 0 then
        (g.GASK_KCAL * g.temperature_ * (st.N_waters_.getD gr_pt 0 : ℚ)
            * (s.1 / (st.N_waters_.getD gr_pt 0 : ℚ) + g.EULER_MASC),
         g.GASK_KCAL * g.temperature_ * (st.N_waters_.getD gr_pt 0 : ℚ)
            * (s.2 / (st.N_waters_.getD gr_pt 0 : ℚ) + g.EULER_MASC))
      else (0, 0)
    else (0, 0)
  else (0, 0)

/-- The grids written by `Print` that are embedded here. -/
structure PrintOutput where
  Esw_dens : List ℚ
  Esw_norm : List ℚ
  Eww_dens : List ℚ
  Eww_norm : List ℚ
  neighbor_dens : List ℚ
  neighbor_norm : List ℚ
  qtet : List (Option ℚ)
  ww_Eij : TriMatrix
  dTStrans : List ℚ
  dTStrans_norm : List ℚ
  dTSorient : List ℚ
  dTSorient_norm : List ℚ
  dTSsix : List ℚ
  dTSsix_norm : List ℚ
  dipolex : List ℚ
  dipoley : List ℚ
  dipolez : List ℚ
  pol : List ℚ
  density : List (List ℚ)

/-- Source `Action_GIST::Print` (source lines 1504-1729 and 1798-1809): the
entropy, energy, neighbour, dipole, density and order grids and the Eij
matrix. -/
def Print (g : Gist) (st : GistState) : PrintOutput :=
  let Vvox := g.gridBin_.VoxelVolume
  let Esw := SumEVV g.MAX_GRID_PT_ st.E_UV_VDW_ st.E_UV_Elec_
  let Eww := SumEVV g.MAX_GRID_PT_ st.E_VV_VDW_ st.E_VV_Elec_
  let neighbor := (List.range g.MAX_GRID_PT_).map fun gr_pt => 0 + st.neighbor_.getD gr_pt 0
  let dTStrans := (List.range g.MAX_GRID_PT_).map fun gr_pt => (dTStrans_voxel g st gr_pt).1
  let dTSsix := (List.range g.MAX_GRID_PT_).map fun gr_pt => (dTStrans_voxel g st gr_pt).2
  let dTSorient := (List.range g.MAX_GRID_PT_).map fun gr_pt => dTSorient_voxel g st gr_pt
  let dipolex := ScaleFarray st.dipolex (1 / (g.DEBYE_EA * (st.NFRAME_ : ℚ) * Vvox))
  let dipoley := ScaleFarray st.dipoley (1 / (g.DEBYE_EA * (st.NFRAME_ : ℚ) * Vvox))
  let dipolez := ScaleFarray st.dipolez (1 / (g.DEBYE_EA * (st.NFRAME_ : ℚ) * Vvox))
  { dTStrans_norm := NormalizeFarray dTStrans st.N_waters_
    dTSsix_norm := NormalizeFarray dTSsix st.N_waters_
    dTStrans := ScaleFarray dTStrans (1 / ((st.NFRAME_ : ℚ) * Vvox))
    dTSorient := ScaleFarray dTSorient (1 / ((st.NFRAME_ : ℚ) * Vvox))
    dTSsix := ScaleFarray dTSsix (1 / ((st.NFRAME_ : ℚ) * Vvox))
    dTSorient_norm := List.replicate g.MAX_GRID_PT_ 0
    dipolex := dipolex
    dipoley := dipoley
    dipolez := dipolez
    pol := (List.range g.MAX_GRID_PT_).map fun gr_pt =>
      g.math.sqrt (dipolex.getD gr_pt 0 * dipolex.getD gr_pt 0
        + dipoley.getD gr_pt 0 * dipoley.getD gr_pt 0
        + dipolez.getD gr_pt 0 * dipolez.getD gr_pt 0)
    density := (List.range g.n_unique_elements).map fun i_ds =>
      ScaleFarray (st.density.getD i_ds [])
        (1 / ((st.NFRAME_ : ℚ) * Vvox * g.BULK_DENS_ * (g.element_count.getD i_ds 0 : ℚ)))
    Eww_norm := ScaleFarray (NormalizeFarray Eww st.N_waters_) (1 / 2)
    Esw_norm := NormalizeFarray Esw st.N_waters_
    Esw_dens := ScaleFarray Esw (1 / ((st.NFRAME_ : ℚ) * Vvox))
    Eww_dens := ScaleFarray Eww (1 / (2 * (st.NFRAME_ : ℚ) * Vvox))
    neighbor_norm := NormalizeFarray neighbor st.N_waters_
    neighbor_dens := ScaleFarray neighbor (1 / ((st.NFRAME_ : ℚ) * Vvox))
    qtet := NormalizeDataSet st.order st.N_waters_
    ww_Eij := if g.doEij_ = true then normalizeEij g st.NFRAME_ st.ww_Eij_ else st.ww_Eij_ }

/-! ## What `Init` establishes, and the quantities the properties speak of -/

/-- The relations between the members that `Init` sets (source lines 240-243,
277, 284, 294-296), for a grid whose voxel count fits the C++ `int`. -/
structure Gist.InitOK (g : Gist) : Prop where
  nx_pos : 1 ≤ g.griddim_.nx
  ny_pos : 1 ≤ g.griddim_.ny
  nz_pos : 1 ≤ g.griddim_.nz
  fits : g.griddim_.nx * g.griddim_.ny * g.griddim_.nz < 2147483648
  bin_nx : (g.gridBin_.nx : Int) = g.griddim_.nx
  bin_ny : (g.gridBin_.ny : Int) = g.griddim_.ny
  bin_nz : (g.gridBin_.nz : Int) = g.griddim_.nz
  max_pt : (g.MAX_GRID_PT_ : Int) = g.griddim_.nx * g.griddim_.ny * g.griddim_.nz
  G_max : g.G_max_ = ⟨(g.griddim_.nx : ℚ) * g.gridBin_.h + 3 / 2,
                      (g.griddim_.ny : ℚ) * g.gridBin_.h + 3 / 2,
                      (g.griddim_.nz : ℚ) * g.gridBin_.h + 3 / 2⟩

/-- The center of the solvent molecule that starts at atom `oidx`, as
`DoAction` computes it. -/
def Gist.molCenter (g : Gist) (frm : Frame) (oidx : Nat) : Vec3 :=
  g.calcMolCenter frm oidx (oidx + g.nMolAtoms_)

/-- Whether the center of the solvent molecule that starts at `oidx` is
located inside the grid. -/
def Gist.centerOnGrid (g : Gist) (frm : Frame) (oidx : Nat) : Bool :=
  (g.gridBin_.Calc (g.molCenter frm oidx).x (g.molCenter frm oidx).y
    (g.molCenter frm oidx).z).isSome

/-- The number of solvent molecules of a frame whose center is located inside
the grid. -/
def Gist.onGridMolecules (g : Gist) (frm : Frame) : Nat :=
  (g.O_idxs_.filter (g.centerOnGrid frm)).length

/-- The call of `Ecalc` that the body of the pair loop makes for atom `a1` and
on-grid slot `gidx`, if its guards let it make one. -/
def nbCall (g : Gist) (frm : Frame) (st : GistState) (a1 gidx : Nat) : Option EcalcCall :=
  let a1_voxel := st.atom_voxel_.getD a1 OFF_GRID_
  let a2 := st.OnGrid_idxs_.getD gidx 0
  let a2_voxel := st.atom_voxel_.getD a2 OFF_GRID_
  let rij2 := pairDist2 frm (frm.XYZ a1) (onGridXYZ st gidx)
  let E := Ecalc g rij2 (g.CurrentParm_.Charge a1) (g.CurrentParm_.Charge a2)
    (g.CurrentParm_.LJ_A a1 a2) (g.CurrentParm_.LJ_B a1 a2)
  if g.CurrentParm_.MolNum a1 ≠ g.CurrentParm_.MolNum a2 then
    if g.atomIsSolute_ a1 = true then
      some ⟨a1, a2, a1_voxel, a2_voxel, rij2, E.1, E.2, true⟩
    else if a2 ≠ a1 ∧ (a2 > a1 ∨ a1_voxel = OFF_GRID_) then
      some ⟨a1, a2, a1_voxel, a2_voxel, rij2, E.1, E.2, false⟩
    else none
  else none

/-- What the pair loop adds to the accumulators for one call of `Ecalc`. -/
def applyCall (g : Gist) (st : GistState) (c : EcalcCall) : GistState :=
  if c.solute = true then
    { st with
      E_UV_VDW_ := addAt st.E_UV_VDW_ c.a2_voxel.toNat c.Evdw
      E_UV_Elec_ := addAt st.E_UV_Elec_ c.a2_voxel.toNat c.Eelec
      calls := st.calls ++ [c] }
  else
    let near : Prop :=
      (g.atomIsSolventO_ c.a1 && g.atomIsSolventO_ c.a2) = true ∧ c.rij2 < g.NeighborCut2_
    let VV_VDW := addAt st.E_VV_VDW_ c.a2_voxel.toNat c.Evdw
    let VV_Elec := addAt st.E_VV_Elec_ c.a2_voxel.toNat c.Eelec
    let Neighbor := if near then addAt st.neighbor_ c.a2_voxel.toNat 1 else st.neighbor_
    if c.a1_voxel ≠ OFF_GRID_ then
      { st with
        E_VV_VDW_ := addAt VV_VDW c.a1_voxel.toNat c.Evdw
        E_VV_Elec_ := addAt VV_Elec c.a1_voxel.toNat c.Eelec
        neighbor_ := if near then addAt Neighbor c.a1_voxel.toNat 1 else Neighbor
        ww_Eij_ :=
          if g.doEij_ = true ∧ c.a1_voxel ≠ c.a2_voxel then
            st.ww_Eij_.UpdateElement c.a1_voxel.toNat c.a2_voxel.toNat (c.Evdw + c.Eelec)
          else st.ww_Eij_
        calls := st.calls ++ [c] }
    else
      { st with
        E_VV_VDW_ := VV_VDW
        E_VV_Elec_ := VV_Elec
        neighbor_ := Neighbor
        calls := st.calls ++ [c] }

/-- The state on which the pair loop of `NonbondEnergy` runs: the on-grid
coordinates wrapped when the cell is non-orthogonal (source lines 791-816). -/
def nbStart (frm : Frame) (st : GistState) : GistState :=
  if frm.imaging = ImagingType.NONORTHO then
    { st with OnGrid_XYZ_ := wrapOnGrid frm st.OnGrid_XYZ_ }
  else st

/-- The calls of `Ecalc` of one run of the pair loop, in the order of the
loops: `a1` over all atoms, `gidx` over the on-grid slots. -/
def frameCalls (g : Gist) (frm : Frame) (st : GistState) : List EcalcCall :=
  (List.range frm.Natom).flatMap fun a1 =>
    (List.range st.N_ON_GRID_).filterMap (nbCall g frm st a1)

/-- Two states hold the same per-frame sample of on-grid atoms. -/
def sameSample (s t : GistState) : Prop :=
  s.atom_voxel_ = t.atom_voxel_ ∧ s.OnGrid_idxs_ = t.OnGrid_idxs_
    ∧ s.OnGrid_XYZ_ = t.OnGrid_XYZ_ ∧ s.N_ON_GRID_ = t.N_ON_GRID_

/-- What `Setup` establishes about the solvent molecules of a topology: each
has `nMolAtoms_ ≥ 1` atoms, stored contiguously, and the molecules come in the
order of their first atoms (`O_idxs_` is filled in topology order, source lines
492-514); and the order calculation stays enabled only with at least 5 solvent
molecules (source lines 526-529). -/
structure Gist.SetupOK (g : Gist) : Prop where
  nMol_pos : 1 ≤ g.nMolAtoms_
  mols_sorted : g.O_idxs_.Pairwise (fun o o' => o + g.nMolAtoms_ ≤ o')
  order_mols : g.doOrder_ = true → 5 ≤ g.O_idxs_.length

/-- A frame has coordinates for every atom of every solvent molecule. -/
def Gist.FrameOK (g : Gist) (frm : Frame) : Prop :=
  ∀ o ∈ g.O_idxs_, o + g.nMolAtoms_ ≤ frm.Natom

/-- The per-frame sample of on-grid solvent atoms is consistent: `N_ON_GRID_`
counts `OnGrid_idxs_`, no atom is listed twice, the listed atoms are those with
a voxel in `atom_voxel_`, and all are atoms of the frame. -/
structure SampleOK (st : GistState) (frm : Frame) : Prop where
  count : st.N_ON_GRID_ = st.OnGrid_idxs_.length
  nodup : st.OnGrid_idxs_.Nodup
  onGrid_iff : ∀ a, a ∈ st.OnGrid_idxs_ ↔ st.atom_voxel_.getD a OFF_GRID_ ≠ OFF_GRID_
  inFrame : ∀ a ∈ st.OnGrid_idxs_, a < frm.Natom
  voxel_len : st.atom_voxel_.length = frm.Natom

/-- Whether `DoAction` records the solvent molecule that starts at `oidx` as
on-grid: it passes the test of source lines 1099-1101 and `calcVoxelIndex` of
its center is not `OFF_GRID_`. -/
def Gist.molOnGrid (g : Gist) (frm : Frame) (oidx : Nat) : Bool :=
  g.nearGrid ((g.molCenter frm oidx).sub g.gridBin_.O)
    && decide (g.calcVoxelIndex (g.molCenter frm oidx) ≠ OFF_GRID_)

/-- How many of the calls are for the unordered atom pair `{a, b}`. -/
def pairCount (calls : List EcalcCall) (a b : Nat) : Nat :=
  calls.countP fun c => decide ((c.a1 = a ∧ c.a2 = b) ∨ (c.a1 = b ∧ c.a2 = a))

/-- The guards of the pair loop (source lines 881, 885 and 918), for atom `a1`
against the on-grid atom `a2`. -/
def nbGuard (g : Gist) (st : GistState) (a1 a2 : Nat) : Bool :=
  decide (g.CurrentParm_.MolNum a1 ≠ g.CurrentParm_.MolNum a2 ∧
    (g.atomIsSolute_ a1 = true ∨
      (a2 ≠ a1 ∧ (a2 > a1 ∨ st.atom_voxel_.getD a1 OFF_GRID_ = OFF_GRID_))))

/-- How many of the calls have `a` as atom 1 and `b` as atom 2. -/
def orderedCount (calls : List EcalcCall) (a b : Nat) : Nat :=
  calls.countP fun c => decide (c.a1 = a ∧ c.a2 = b)

/-! ## A worked example: two three-atom waters on an 8 x 1 x 1 grid -/

/-- Newton's iteration for the integer square root of `n` from the estimate
`x`, at most `fuel` steps: it stops as soon as a step does not decrease the
estimate. -/
def sqrtIter : Nat → Nat → Nat → Nat
  | 0, _, x => x
  | fuel + 1, n, x =>
    let y := (x + n / x) / 2
    if y < x then sqrtIter fuel n y else x

/-- The integer square root of `n`, rounded down. -/
def natSqrt (n : Nat) : Nat := sqrtIter n n n

/-- A square root that is exact on squares of rationals. -/
def ratSqrt (q : ℚ) : ℚ := (natSqrt q.num.toNat : ℚ) / (natSqrt q.den : ℚ)

/-- The `<cmath>` functions of the examples: the exact square root on squares,
the trigonometric values of the angle zero, and the logarithm of one. -/
def exMath : MathFns := ⟨ratSqrt, fun _ => 0, fun _ => 1, fun _ => 0, fun _ => 0⟩

/-- The topology of the examples: molecule `a / 3` holds atom `a` (three atoms
per molecule), TIP3P-like charges, unit Lennard-Jones coefficients. -/
def exTop : Topology where
  MolNum := fun a => a / 3
  Charge := fun a => if a % 3 = 0 then -834 / 1000 else 417 / 1000
  LJ_A := fun _ _ => 1
  LJ_B := fun _ _ => 1
  Mass := fun a => if a % 3 = 0 then 16 else 1

/-- The action of the examples after `Init` and `Setup`: an 8 x 1 x 1 grid of
spacing 1 with origin (0,0,0), neighbour cutoff 3.5 Å, two solvent molecules of
three atoms starting at atoms 0 and 3, no solute, no PME, no order
calculation, the Eij matrix enabled, molecule centers taken at the first rigid
atom. -/
def exGist : Gist where
  griddim_ := ⟨8, 1, 1⟩
  gridBin_ := ⟨⟨0, 0, 0⟩, 8, 1, 1, 1⟩
  G_max_ := ⟨8 * 1 + 3 / 2, 1 * 1 + 3 / 2, 1 * 1 + 3 / 2⟩
  NeighborCut2_ := 49 / 4
  doOrder_ := false
  doEij_ := true
  skipE_ := false
  usePme_ := false
  useCom_ := false
  rigidAtomIndices_ := (0, 1, 2)
  O_idxs_ := [0, 3]
  U_idxs_ := []
  nMolAtoms_ := 3
  atomIsSolute_ := fun _ => false
  atomIsSolventO_ := fun a => decide (a = 0 ∨ a = 3)
  Q_ := [-834 / 1000, 417 / 1000, 417 / 1000]
  i_element := [0, 1, 1]
  n_unique_elements := 2
  MAX_GRID_PT_ := 8
  CurrentParm_ := exTop
  math := exMath
  SMALL := 1 / 100000000000000
  QFAC_ := 332
  uninitVec3 := ⟨0, 0, 0⟩
  CalcNonbondEnergy_GIST := fun _ s =>
    (s.E_UV_VDW_, s.E_UV_Elec_, s.E_VV_VDW_, s.E_VV_Elec_, s.neighbor_)
  skipS_ := false
  exactNnVolume_ := true
  nNnSearchLayers_ := 1
  temperature_ := 300
  BULK_DENS_ := 334 / 10000
  gridspacing_ := 1
  element_count := [1, 2]
  PI := 3141592653589793 / 1000000000000000
  TWOPI := 6283185307179586 / 1000000000000000
  GASK_KCAL := 19872041 / 10000000000
  EULER_MASC := 5772156649 / 10000000000
  DEBYE_EA := 20822678 / 100000000
  GIST_TINY := 1 / 10000000000
  GIST_HUGE := 10000
  searchGridNearestNeighbors6D := fun _ _ _ _ _ _ _ _ _ _ _ _ _ _ => (10000, 10000)
  sixVolumeCorrFactor := fun _ => 1

/-- A frame of the examples: the first water has its oxygen at (1/2,1/2,1/2),
the second at `p`; the hydrogens of each sit at +1/4 along y and along z from
their oxygen.  No imaging. -/
def exFrame (p : Vec3) : Frame where
  Natom := 6
  XYZ := fun a =>
    match a with
    | 0 => ⟨1 / 2, 1 / 2, 1 / 2⟩
    | 1 => ⟨1 / 2, 3 / 4, 1 / 2⟩
    | 2 => ⟨1 / 2, 1 / 2, 3 / 4⟩
    | 3 => p
    | 4 => ⟨p.x, p.y + 1 / 4, p.z⟩
    | _ => ⟨p.x, p.y, p.z + 1 / 4⟩
  imaging := ImagingType.NO_IMAGE
  UnitCell := ⟨⟨10, 0, 0⟩, ⟨0, 10, 0⟩, ⟨0, 0, 10⟩⟩
  FracCell := ⟨⟨1 / 10, 0, 0⟩, ⟨0, 1 / 10, 0⟩, ⟨0, 0, 1 / 10⟩⟩
  DIST2_ImageOrtho := DIST2_NoImage

/-- The state of the example after one frame whose second water has its oxygen
at `p`. -/
def exRun (p : Vec3) : GistState := exGist.run [exFrame p]

/-- The accumulators of the pair loop: the four energy arrays, the neighbour
array, the Eij matrix, and the record of calls. -/
def GistState.nbAcc (s : GistState) :
    List ℚ × List ℚ × List ℚ × List ℚ × List ℚ × TriMatrix × List EcalcCall :=
  (s.E_UV_VDW_, s.E_UV_Elec_, s.E_VV_VDW_, s.E_VV_Elec_, s.neighbor_, s.ww_Eij_, s.calls)

/-- The state on which `DoAction` runs the pair loop of `NonbondEnergy` for a
frame. -/
def nbInput (g : Gist) (frm : Frame) (st : GistState) : GistState :=
  nbStart frm (orderPhase g frm (assignSolute g frm
    (assignMolecules g frm (frameStart frm st))))

/-- The example with a single water: one solvent molecule, all atoms in
molecule 0. -/
def exGist1 : Gist :=
  { exGist with
    O_idxs_ := [0]
    CurrentParm_ := { exTop with MolNum := fun _ => 0 } }

/-- A frame with the single water of `exGist1`, its oxygen at (1/2,1/2,1/2). -/
def exFrame1 : Frame := { exFrame ⟨0, 0, 0⟩ with Natom := 3 }

/-- The cosine of the angle between the neighbour vectors `i` and `j` as
`Order` computes it: `(v_i * v_j) / sqrt(r_i * r_j)`. -/
def cosTheta (m : MathFns) (WAT : Nat → Vec3) (XYZ1 : Vec3) (i j : Nat) : ℚ :=
  ((WAT i).sub XYZ1).dot ((WAT j).sub XYZ1)
    / m.sqrt (((WAT i).sub XYZ1).Magnitude2 * ((WAT j).sub XYZ1).Magnitude2)

/-- Four neighbours at vertices of a regular tetrahedron around `c`. -/
def tetrahedron (c : Vec3) (i : Nat) : Vec3 :=
  match i with
  | 0 => ⟨c.x + 1, c.y + 1, c.z + 1⟩
  | 1 => ⟨c.x + 1, c.y - 1, c.z - 1⟩
  | 2 => ⟨c.x - 1, c.y + 1, c.z - 1⟩
  | _ => ⟨c.x - 1, c.y - 1, c.z + 1⟩

/-- The voxel that `DoAction` computes for the solvent molecule starting at
`o`. -/
def Gist.molVoxel (g : Gist) (frm : Frame) (o : Nat) : Int :=
  g.calcVoxelIndex (g.molCenter frm o)

/-- The first atoms of the solvent molecules that `DoAction` records as
on-grid in a frame, in order. -/
def Gist.onGridHeads (g : Gist) (frm : Frame) : List Nat :=
  g.O_idxs_.filter (g.molOnGrid frm)

/-- The voxels of the on-grid solvent molecules of a frame, in order. -/
def Gist.onGridVoxels (g : Gist) (frm : Frame) : List Nat :=
  (g.onGridHeads frm).map fun o => (g.molVoxel frm o).toNat

/-- The neighbour scan of `Order` for the on-grid slot `gidx` (source lines
999-1025): the running values after the loop over all solvent head atoms. -/
def orderScan (g : Gist) (frm : Frame) (st : GistState) (gidx : Nat) : NearestScan :=
  g.O_idxs_.foldl (orderScanStep frm (onGridXYZ st gidx) (st.OnGrid_idxs_.getD gidx 0))
    ⟨maxD_, maxD_, maxD_, maxD_, g.uninitVec3, g.uninitVec3, g.uninitVec3, g.uninitVec3⟩

/-- The update `(voxel1, value)` that `Order` makes for the on-grid slot
`gidx` (source lines 993-1038). -/
def orderUpdateOf (g : Gist) (frm : Frame) (st : GistState) (gidx : Nat) : Nat × Option ℚ :=
  let oidx1 := st.OnGrid_idxs_.getD gidx 0
  let XYZ1 := onGridXYZ st gidx
  let scan := g.O_idxs_.foldl (orderScanStep frm XYZ1 oidx1)
    ⟨maxD_, maxD_, maxD_, maxD_, g.uninitVec3, g.uninitVec3, g.uninitVec3, g.uninitVec3⟩
  ((st.atom_voxel_.getD oidx1 OFF_GRID_).toNat, orderValue g.math scan.WAT XYZ1)

/-- The number of order updates made to voxel `v` (`order_count[v]`). -/
def orderCount (st : GistState) (v : Nat) : Nat :=
  (st.orderUpdates.filter fun u => decide (u.1 = v)).length

/-- The sum of the order values accumulated into voxel `v` (`order_sum[v]`). -/
def orderSumAt (st : GistState) (v : Nat) : Option ℚ :=
  sumDbl ((st.orderUpdates.filter fun u => decide (u.1 = v)).map fun u => u.2)

/-- The example with five waters and the order calculation enabled. -/
def exGist5 : Gist :=
  { exGist with
    O_idxs_ := [0, 3, 6, 9, 12]
    doOrder_ := true
    atomIsSolventO_ := fun a => decide (a % 3 = 0) }

/-- A frame for `exGist5`: a central water with its oxygen at (9/2,1/2,1/2),
in voxel 4, and four waters with their oxygens at the vertices of a regular
tetrahedron around it (these four are off the grid); each hydrogen sits 1/4
from its oxygen, along y or z. -/
def exFrame5 : Frame :=
  { exFrame ⟨0, 0, 0⟩ with
    Natom := 15
    XYZ := fun a =>
      let O : Vec3 :=
        if a / 3 = 0 then ⟨9 / 2, 1 / 2, 1 / 2⟩
        else tetrahedron ⟨9 / 2, 1 / 2, 1 / 2⟩ (a / 3 - 1)
      if a % 3 = 0 then O
      else if a % 3 = 1 then ⟨O.x, O.y + 1 / 4, O.z⟩
      else ⟨O.x, O.y, O.z + 1 / 4⟩ }

/-- Four neighbours of a water at `c` of which the nearest lies at `c` itself,
the other three at vertices of the tetrahedron around `c`. -/
def exNeighbourOnWater (c : Vec3) (i : Nat) : Vec3 :=
  if i = 0 then c else tetrahedron c i

/-- A frame for `exGist5` in which the second water lies on the first: both
have their oxygen at (9/2,1/2,1/2), in voxel 4; the other three waters have
their oxygens at vertices of the tetrahedron around it. -/
def exFrame5OnWater : Frame :=
  { exFrame ⟨0, 0, 0⟩ with
    Natom := 15
    XYZ := fun a =>
      let O : Vec3 :=
        if a / 3 ≤ 1 then ⟨9 / 2, 1 / 2, 1 / 2⟩
        else tetrahedron ⟨9 / 2, 1 / 2, 1 / 2⟩ (a / 3 - 1)
      if a % 3 = 0 then O
      else if a % 3 = 1 then ⟨O.x, O.y + 1 / 4, O.z⟩
      else ⟨O.x, O.y, O.z + 1 / 4⟩ }

/-- The row sum of the Eij matrix for voxel `v`: the sum over all other voxels
`j < n` of the element for `(v, j)`. -/
def rowSum (m : TriMatrix) (n v : Nat) : ℚ :=
  (((List.range n).filter fun j => decide (j ≠ v)).map fun j => m.GetElement v j).sum

/-- The energy `Evdw + Eelec` of a call. -/
def EcalcCall.E (c : EcalcCall) : ℚ := c.Evdw + c.Eelec

/-- Whether a call is a water-water call between two on-grid atoms in different
voxels, one of them `v`: the calls that the pair loop enters into the Eij
matrix (source lines 953-968). -/
def EcalcCall.crossAt (c : EcalcCall) (v : Nat) : Bool :=
  decide (c.solute = false ∧ c.a1_voxel ≠ OFF_GRID_ ∧ c.a1_voxel ≠ c.a2_voxel
    ∧ (c.a1_voxel.toNat = v ∨ c.a2_voxel.toNat = v))

/-- The sum of the energies of the calls that the pair loop enters into the
row of voxel `v` of the Eij matrix. -/
def crossEnergy (calls : List EcalcCall) (v : Nat) : ℚ :=
  ((calls.filter fun c => c.crossAt v).map EcalcCall.E).sum

/-- What a call adds to the water-water energy of voxel `v` (source lines
946-947 and 953-955): its energy if atom 2 is in `v`, and once more if atom 1
is on the grid and in `v`; nothing if it is a solute call. -/
def EcalcCall.wwAt (c : EcalcCall) (v : Nat) : ℚ :=
  if c.solute = true then 0
  else (if c.a2_voxel.toNat = v then c.E else 0)
    + (if c.a1_voxel ≠ OFF_GRID_ ∧ c.a1_voxel.toNat = v then c.E else 0)

/-- The sum over the calls of what each adds to the water-water energy of
voxel `v`. -/
def wwEnergy (calls : List EcalcCall) (v : Nat) : ℚ :=
  (calls.map fun c => c.wwAt v).sum

/-- The voxels recorded in a call are voxels of the grid: atom 2 has one, atom
1 has one or is off the grid. -/
def EcalcCall.voxelsOK (c : EcalcCall) (n : Nat) : Prop :=
  (0 ≤ c.a2_voxel ∧ c.a2_voxel.toNat < n)
    ∧ (c.a1_voxel = OFF_GRID_ ∨ (0 ≤ c.a1_voxel ∧ c.a1_voxel.toNat < n))

/-- The relation between the accumulators of the pair loop and its record of
calls: the water-water energy of each voxel is the sum of what the calls add to
it, every call has voxels of the grid, and (with the Eij matrix enabled) the
row sum of each voxel is the sum of the energies of the calls entered into its
row. -/
def eijInv (g : Gist)
    (acc : List ℚ × List ℚ × List ℚ × List ℚ × List ℚ × TriMatrix × List EcalcCall) : Prop :=
  acc.2.2.1.length = g.MAX_GRID_PT_ ∧ acc.2.2.2.1.length = g.MAX_GRID_PT_
    ∧ (∀ c ∈ acc.2.2.2.2.2.2, c.voxelsOK g.MAX_GRID_PT_)
    ∧ (∀ v, v < g.MAX_GRID_PT_ →
        acc.2.2.1.getD v 0 + acc.2.2.2.1.getD v 0 = wwEnergy acc.2.2.2.2.2.2 v)
    ∧ (g.doEij_ = true → ∀ v, v < g.MAX_GRID_PT_ →
        rowSum acc.2.2.2.2.2.1 g.MAX_GRID_PT_ v = crossEnergy acc.2.2.2.2.2.2 v)

/-- An entry of `atom_voxel_` is `OFF_GRID_` or a voxel of the grid. -/
def voxelOK (n : Nat) (x : Int) : Prop := x = OFF_GRID_ ∨ (0 ≤ x ∧ x.toNat < n)

/-- The example on a smaller grid: 2 x 1 x 1 voxels of spacing 1, origin
(0,0,0). -/
def exGist2 : Gist :=
  { exGist with
    griddim_ := ⟨2, 1, 1⟩
    gridBin_ := ⟨⟨0, 0, 0⟩, 2, 1, 1, 1⟩
    G_max_ := ⟨2 * 1 + 3 / 2, 1 * 1 + 3 / 2, 1 * 1 + 3 / 2⟩
    MAX_GRID_PT_ := 2 }

/-- The state of the small-grid example after one frame whose second water has
its oxygen at `p`. -/
def exRun2 (p : Vec3) : GistState := exGist2.run [exFrame p]

/-! ## `Init`: the keywords and their validation -/

/-- The keywords of the `gist` command as `Init` reads them from its argument
list, and the outcomes of its calls into the file and data set lists.  A
keyword that takes a value is `none` when it is absent; `gridcntr` and
`griddim` are `some none` when present with a value that is not a valid
number. -/
structure InitArgs where
  /-- `init.DFL().AddCpptrajFile(gistout, ...)` returned a file -/
  datafileOK : Bool
  /-- `init.DFL().AddCpptrajFile(info, ...)` returned a file -/
  infofileOK : Bool
  floatfmt : String
  neighborcut : Option ℚ
  oldnnvolume : Bool
  nnsearchlayers : Option Int
  noimage : Bool
  nonortho : Bool
  doorder : Bool
  doeij : Bool
  nocom : Bool
  skipE : Bool
  pme : Bool
  nopme : Bool
  skipS : Bool
  /-- the build has `LIBPME` -/
  LIBPME : Bool
  /-- `pmeOpts_.GetOptions(...)` returned non-zero -/
  pmeOptsFail : Bool
  /-- `init.DFL().AddCpptrajFile(prefix_ + "-Eww_ij.dat", ...)` returned a file -/
  eijfileOK : Bool
  refdens : Option ℚ
  temp : Option ℚ
  gridspacn : Option ℚ
  gridcntr : Option (Option Vec3)
  griddim : Option (Option (Int × Int × Int))
  rigidatomindices : Option (Int × Int × Int)
  /-- every call of `AddDatasetAndFile` returned a data set -/
  datasetsOK : Bool
  /-- `init.DSL().AddSet(DataSet::MATRIX_FLT, ...)` returned a data set -/
  eijSetOK : Bool
  /-- `ww_Eij_->AllocateTriangle(MAX_GRID_PT_)` returned non-zero -/
  eijAllocFail : Bool

/-- The members of `Action_GIST` that `Init` has set when it returns
`Action::OK`. -/
structure InitMembers where
  NeighborCut2_ : ℚ
  exactNnVolume_ : Bool
  nNnSearchLayers_ : Int
  doOrder_ : Bool
  doEij_ : Bool
  useCom_ : Bool
  skipE_ : Bool
  usePme_ : Bool
  skipS_ : Bool
  BULK_DENS_ : ℚ
  temperature_ : ℚ
  gridspacing_ : ℚ
  gridcntr_ : Vec3
  griddim_ : GridDim
  rigidAtomIndices_ : Int × Int × Int
  gridBin_ : GridBin
  MAX_GRID_PT_ : Nat
  G_max_ : Vec3

/-- Modelled from the spec: the grid geometry that `Allocate_N_C_D(nx, ny, nz,
center, spacing)` gives a data set (`DataSet_3D` is not among the source
files): counts and spacing as given, origin such that `center` is the middle of
the grid. -/
def Allocate_N_C_D (d : GridDim) (cxyz : Vec3) (h : ℚ) : GridBin :=
  ⟨⟨cxyz.x - (d.nx : ℚ) * h / 2, cxyz.y - (d.ny : ℚ) * h / 2, cxyz.z - (d.nz : ℚ) * h / 2⟩,
   d.nx.toNat, d.ny.toNat, d.nz.toNat, h⟩

/-- Source `Action_GIST::Init` (source lines 95-423, the build without MPI and
CUDA): `none` is the return value `Action::ERR`, `some m` is `Action::OK` with
the members `m`. -/
def Init (a : InitArgs) : Option InitMembers :=
  if a.datafileOK = false then none
  else if a.infofileOK = false then none
  else if ¬ (a.floatfmt = "" ∨ a.floatfmt = "double" ∨ a.floatfmt = "scientific"
      ∨ a.floatfmt = "general") then none
  else
    let neighborCut := a.neighborcut.getD (7 / 2)
    let doEij_ := a.doeij
    let skipE_ := a.skipE
    if skipE_ = true ∧ doEij_ = true then none
    else
      let usePme_ := if a.pme = true then true else false
      if usePme_ = true ∧ doEij_ = true then none
      else if usePme_ = true ∧ (a.LIBPME = false ∨ a.pmeOptsFail = true) then none
      else if doEij_ = true ∧ a.eijfileOK = false then none
      else
        let temperature_ := a.temp.getD 300
        if temperature_ < 0 then none
        else
          let gridspacing_ := a.gridspacn.getD (1 / 2)
          match a.gridcntr.getD (some ⟨0, 0, 0⟩) with
          | none => none
          | some gridcntr_ =>
            match a.griddim.getD (some (40, 40, 40)) with
            | none => none
            | some (nx, ny, nz) =>
              if nx < 1 ∨ ny < 1 ∨ nz < 1 then none
              else if a.datasetsOK = false then none
              else if doEij_ = true ∧ a.eijSetOK = false then none
              else if doEij_ = true ∧ a.eijAllocFail = true then none
              else
                some
                  { NeighborCut2_ := neighborCut * neighborCut
                    exactNnVolume_ := !a.oldnnvolume
                    nNnSearchLayers_ := a.nnsearchlayers.getD 1
                    doOrder_ := a.doorder
                    doEij_ := doEij_
                    useCom_ := !a.nocom
                    skipE_ := skipE_
                    usePme_ := usePme_
                    skipS_ := a.skipS
                    BULK_DENS_ := a.refdens.getD (334 / 10000)
                    temperature_ := temperature_
                    gridspacing_ := gridspacing_
                    gridcntr_ := gridcntr_
                    griddim_ := ⟨nx, ny, nz⟩
                    rigidAtomIndices_ := a.rigidatomindices.getD (0, 1, 2)
                    gridBin_ := Allocate_N_C_D ⟨nx, ny, nz⟩ gridcntr_ gridspacing_
                    MAX_GRID_PT_ := (wrapInt (wrapInt (nx * ny) * nz) % 4294967296).toNat
                    G_max_ := ⟨(nx : ℚ) * gridspacing_ + 3 / 2, (ny : ℚ) * gridspacing_ + 3 / 2,
                               (nz : ℚ) * gridspacing_ + 3 / 2⟩ }

/-- The `gist` command without keywords, every file and data set call
succeeding, in a build without `LIBPME`. -/
def defaultArgs : InitArgs where
  datafileOK := true
  infofileOK := true
  floatfmt := ""
  neighborcut := none
  oldnnvolume := false
  nnsearchlayers := none
  noimage := false
  nonortho := false
  doorder := false
  doeij := false
  nocom := false
  skipE := false
  pme := false
  nopme := false
  skipS := false
  LIBPME := false
  pmeOptsFail := false
  eijfileOK := true
  refdens := none
  temp := none
  gridspacn := none
  gridcntr := none
  griddim := none
  rigidatomindices := none
  datasetsOK := true
  eijSetOK := true
  eijAllocFail := false

/-! ## An example with tabulated trigonometric values -/

/-- The arc cosine at the points the examples use, to four decimals:
`acos 1 = 0`, `acos (7/25) = 1.2870`, `acos (4/5) = 0.6435`; elsewhere the
value at zero. -/
def exAcos (x : ℚ) : ℚ :=
  if x = 1 then 0
  else if x = 7 / 25 then 1287 / 1000
  else if x = 4 / 5 then 6435 / 10000
  else 15708 / 10000

/-- The cosine at the points the examples use: `cos 0 = 1`, and
`cos (± acos (7/25) / 2) = 4/5` exactly; elsewhere the value at `π/2`. -/
def exCos (t : ℚ) : ℚ :=
  if t = 0 then 1 else if |t| = 1287 / 2000 then 4 / 5 else 0

/-- The sine at the points the examples use: `sin 0 = 0`, and
`sin (± acos (7/25) / 2) = ± 3/5` exactly; elsewhere the value at `π/2`. -/
def exSin (t : ℚ) : ℚ :=
  if t = 0 then 0
  else if t = 1287 / 2000 then 3 / 5
  else if t = -(1287 / 2000) then -(3 / 5)
  else 1

/-- The `<cmath>` functions of the examples with oriented waters: the exact
square root on squares, the tabulated trigonometric values, and the logarithm
of one. -/
def exMathQ : MathFns := ⟨ratSqrt, exAcos, exCos, exSin, fun _ => 0⟩

/-- The example with a single water and the tabulated trigonometric values. -/
def exGistQ : Gist := { exGist1 with math := exMathQ }

/-- A frame with the single water of `exGistQ`: oxygen at (1/2,1/2,1/2), first
hydrogen at the unit vector (7/25, 24/25, 0) from it, second hydrogen at the
unit vector `h2` from it. -/
def exFrameQ (h2 : Vec3) : Frame :=
  { exFrame1 with
    XYZ := fun a =>
      match a with
      | 0 => ⟨1 / 2, 1 / 2, 1 / 2⟩
      | 1 => ⟨1 / 2 + 7 / 25, 1 / 2 + 24 / 25, 1 / 2⟩
      | _ => ⟨1 / 2 + h2.x, 1 / 2 + h2.y, 1 / 2 + h2.z⟩ }

/-- The second hydrogen of a water in the xy plane, at a right angle. -/
def h2Flat : Vec3 := ⟨-(24 / 25), 7 / 25, 0⟩

/-- The second hydrogen of a water whose plane is tilted out of the xy plane,
at a right angle to the first. -/
def h2Tilt : Vec3 := ⟨-(168 / 625), 49 / 625, -(24 / 25)⟩

/-- The distance `d_min` of the specification for sample `n0` of a voxel: the
minimum over all other samples `n1` of `2·acos(|q_n0 · q_n1|)`; `none` (no
finite value) when there is no other sample. -/
def spec_d_min (m : MathFns) (Q : List ℚ) (nw_total n0 : Nat) : Option ℚ :=
  (((List.range nw_total).filter fun n1 => decide (n1 ≠ n0)).map
    fun n1 => quat_rR m Q n0 n1).min?

/-! ## The orientation quaternion, step by step -/

/-- The unit vector `H1_wat` or `H2_wat` from the oxygen to a hydrogen (source
lines 1133-1136). -/
def quat_H_wat (m : MathFns) (O_XYZ H1_XYZ : Vec3) : Vec3 := (H1_XYZ.sub O_XYZ).Normalize m

/-- The vector `sar = H1_wat x x_lab_` (source lines 1138-1139). -/
def quat_sar (m : MathFns) (O_XYZ H1_XYZ : Vec3) : Vec3 :=
  (quat_H_wat m O_XYZ H1_XYZ).Cross x_lab_

/-- The half angle `theta` of the first rotation (source lines 1146-1154). -/
def quat_theta1 (m : MathFns) (SMALL : ℚ) (O_XYZ H1_XYZ : Vec3) : ℚ :=
  if (quat_sar m O_XYZ H1_XYZ).dot (quat_H_wat m O_XYZ H1_XYZ) > SMALL then
    m.acos (x_lab_.dot (quat_H_wat m O_XYZ H1_XYZ)) / 2
  else m.acos (x_lab_.dot (quat_H_wat m O_XYZ H1_XYZ)) / (-2)

/-- A quaternion `(w, x, y, z)`. -/
structure Quat4 where
  w : ℚ
  x : ℚ
  y : ℚ
  z : ℚ
deriving DecidableEq

/-- The rotation formula of `DoAction` applied with a quaternion. -/
def Quat4.rotate (q : Quat4) (H : Vec3) : Vec3 := quatRotate q.w q.x q.y q.z H

/-- The product `(w4, x4, y4, z4)` of source lines 1215-1218. -/
def Quat4.mul (p q : Quat4) : Quat4 :=
  ⟨p.w * q.w - p.x * q.x - p.y * q.y - p.z * q.z,
   p.w * q.x + p.x * q.w + p.y * q.z - p.z * q.y,
   p.w * q.y - p.x * q.z + p.y * q.w + p.z * q.x,
   p.w * q.z + p.x * q.y - p.y * q.x + p.z * q.w⟩

/-- The coordinates `O_XYZ`, `H1_XYZ`, `H2_XYZ` of the three rigid atoms of the
molecule that starts at `oidx` (source lines 1103-1105). -/
def Gist.O_XYZ (g : Gist) (frm : Frame) (oidx : Nat) : Vec3 :=
  frm.XYZ (oidx + g.rigidAtomIndices_.1)

/-- See `Gist.O_XYZ`. -/
def Gist.H1_XYZ (g : Gist) (frm : Frame) (oidx : Nat) : Vec3 :=
  frm.XYZ (oidx + g.rigidAtomIndices_.2.1)

/-- See `Gist.O_XYZ`. -/
def Gist.H2_XYZ (g : Gist) (frm : Frame) (oidx : Nat) : Vec3 :=
  frm.XYZ (oidx + g.rigidAtomIndices_.2.2)

/-! ## Relations between two runs -/

/-- The list `l'` is the list `l` with the entries of `d` added, entry by
entry. -/
def ShiftL (d l l' : List ℚ) : Prop :=
  l'.length = l.length ∧ ∀ v, l'.getD v 0 = l.getD v 0 + d.getD v 0

/-- The relation `ShiftL`, grid by grid, for the per-element density grids. -/
def ShiftLL (d L L' : List (List ℚ)) : Prop :=
  L'.length = L.length ∧ ∀ i, ShiftL (d.getD i []) (L.getD i []) (L'.getD i [])

/-- The accumulated grids behind the density outputs of state `t` are those of
state `s` with those of state `d` added, and `s` and `t` hold the same
per-frame sample. -/
structure Shifted (d s t : GistState) : Prop where
  sample : sameSample s t
  uv_vdw : ShiftL d.E_UV_VDW_ s.E_UV_VDW_ t.E_UV_VDW_
  uv_elec : ShiftL d.E_UV_Elec_ s.E_UV_Elec_ t.E_UV_Elec_
  vv_vdw : ShiftL d.E_VV_VDW_ s.E_VV_VDW_ t.E_VV_VDW_
  vv_elec : ShiftL d.E_VV_Elec_ s.E_VV_Elec_ t.E_VV_Elec_
  neighbor : ShiftL d.neighbor_ s.neighbor_ t.neighbor_
  dipolex : ShiftL d.dipolex s.dipolex t.dipolex
  dipoley : ShiftL d.dipoley s.dipoley t.dipoley
  dipolez : ShiftL d.dipolez s.dipolez t.dipolez
  density : ShiftLL d.density s.density t.density

/-- The lengths of the accumulated grids behind the density outputs. -/
def GistState.accLens (s : GistState) :
    Nat × Nat × Nat × Nat × Nat × Nat × Nat × Nat × List Nat :=
  (s.E_UV_VDW_.length, s.E_UV_Elec_.length, s.E_VV_VDW_.length, s.E_VV_Elec_.length,
   s.neighbor_.length, s.dipolex.length, s.dipoley.length, s.dipolez.length,
   s.density.map List.length)

/-! ## Translation of a trajectory -/

/-- Modelled from the spec: `Vec3::operator+`, the sum of two vectors. -/
def Vec3.add (a b : Vec3) : Vec3 := ⟨a.x + b.x, a.y + b.y, a.z + b.z⟩

/-- The frame with every atom translated by `t`; the box stays as it is. -/
def Frame.translate (frm : Frame) (t : Vec3) : Frame :=
  { frm with XYZ := fun a => (frm.XYZ a).add t }

/-- The action with the origin of its grid translated by `t`. -/
def Gist.translateGrid (g : Gist) (t : Vec3) : Gist :=
  { g with gridBin_ := { g.gridBin_ with O := g.gridBin_.O.add t } }

/-- The integer combination `n1·a + n2·b + n3·c` of the box vectors of a frame
(the rows of its unit cell matrix). -/
def Frame.boxShift (frm : Frame) (n1 n2 n3 : Int) : Vec3 :=
  frm.UnitCell.TransposeMult ⟨n1, n2, n3⟩

/-- A flat list of coordinates with `t` added to every triple. -/
def shiftXYZ (t : Vec3) : List ℚ → List ℚ
  | x :: y :: z :: rest => (x + t.x) :: (y + t.y) :: (z + t.z) :: shiftXYZ t rest
  | l => l

/-- Modelled from the spec: the minimum-image squared distance in an
orthorhombic box with edge lengths `L` (`DIST2_ImageOrtho` of DistRoutines is
not among the source files). -/
def orthoDist2 (L : Vec3) (a b : Vec3) : ℚ :=
  let dx := a.x - b.x - L.x * (round ((a.x - b.x) / L.x) : ℚ)
  let dy := a.y - b.y - L.y * (round ((a.y - b.y) / L.y) : ℚ)
  let dz := a.z - b.z - L.z * (round ((a.z - b.z) / L.z) : ℚ)
  dx * dx + dy * dy + dz * dz

/-- The frame `exFrame p` in an orthorhombic box of edge 10 with imaging on. -/
def exFrameOrtho (p : Vec3) : Frame :=
  { exFrame p with
    imaging := ImagingType.ORTHO
    DIST2_ImageOrtho := orthoDist2 ⟨10, 10, 10⟩ }

/-- The total mass of the solvent molecule that starts at atom `o`, as
`VCenterOfMass` sums it. -/
def Gist.molMass (g : Gist) (o : Nat) : ℚ :=
  (((List.range (o + g.nMolAtoms_ - o)).map fun i => o + i).map g.CurrentParm_.Mass).sum

/-- The pair distances of a frame do not change when every atom is translated
by `t`: always so without imaging; for an orthorhombic cell it is required of
the distance routine, which is not among the source files; for a
non-orthogonal cell `t` has to be an integer combination of the box vectors,
that is, its fractional coordinates are integers. -/
def Frame.distInvariant (frm : Frame) (t : Vec3) : Prop :=
  match frm.imaging with
  | ImagingType.NO_IMAGE => True
  | ImagingType.ORTHO =>
    ∀ a b, frm.DIST2_ImageOrtho (a.add t) (b.add t) = frm.DIST2_ImageOrtho a b
  | ImagingType.NONORTHO => ∃ n1 n2 n3 : Int, frm.FracCell.TimesVec t = ⟨n1, n2, n3⟩

/-- The accumulators of the state `s'` of a run on translated frames with a
translated grid are those of the state `s` of the original run, and the
per-frame sample is the same with translated coordinates. -/
structure Trans (t : Vec3) (s s' : GistState) : Prop where
  voxel : s'.atom_voxel_ = s.atom_voxel_
  idxs : s'.OnGrid_idxs_ = s.OnGrid_idxs_
  count : s'.N_ON_GRID_ = s.N_ON_GRID_
  xyz : s'.OnGrid_XYZ_ = shiftXYZ t s.OnGrid_XYZ_
  xyz_len : s.OnGrid_XYZ_.length = 3 * s.N_ON_GRID_
  acc : s'.nbAcc = s.nbAcc
  waters : s'.N_waters_ = s.N_waters_
  nframe : s'.NFRAME_ = s.NFRAME_

/-- The example action with molecule centers taken at the center of mass. -/
def exGistCom : Gist := { exGist with useCom_ := true }

/-- The members that the translated run shares with the original one between
two frames. -/
def Kept (s s' : GistState) : Prop :=
  s'.nbAcc = s.nbAcc ∧ s'.N_waters_ = s.N_waters_ ∧ s'.NFRAME_ = s.NFRAME_

/-! ## `Setup` -/

/-- The values of `Atom::AtomicElementType` (Atom.h is not among the source
files) that `setSolventProperties` compares with; every other element is
`OTHER`. -/
inductive AtomicElementType where
  | HYDROGEN
  | OXYGEN
  | OTHER
deriving DecidableEq

/-- The parts of a `Molecule` read by `Setup`. -/
structure Molecule where
  /-- Source `mol.MolUnit().Front()` -/
  Front : Nat
  /-- Source `mol.MolUnit().Back()` -/
  Back : Nat
  NumAtoms : Nat
  IsSolvent : Bool
deriving DecidableEq

/-- The parts of `ActionSetup` read by `Setup`: the topology with its molecules,
the box flag of the coordinate info, and the outcomes of the calls that `Setup`
makes into other classes. -/
structure ActionSetup where
  /-- Source `setup.CoordInfo().TrajBox().HasBox()` -/
  HasBox : Bool
  Top : Topology
  Natom : Nat
  /-- The molecules from `MolStart()` to `MolEnd()` -/
  mols : List Molecule
  /-- Source `top[a].Element()` -/
  Element : Nat → AtomicElementType
  /-- Source `top[a].ElementName()` -/
  ElementName : Nat → String
  /-- Source `isSolute_.AtomInCharMask(i)` for the mask `soluteMask_` -/
  AtomInCharMask : Nat → Bool
  /-- the build has `LIBPME` -/
  LIBPME : Bool
  /-- `gistPme_.Init(...)` returned non-zero -/
  pmeInitFail : Bool
  /-- `gistPme_.Setup_PME_GIST(...)` returned non-zero -/
  pmeSetupFail : Bool
  /-- `AddDatasetAndFile(name, ...)` returned a data set -/
  AddDatasetAndFile : String → Bool

/-- The messages that `Setup` and its helpers print with `mprintf`. -/
inductive SetupMsg where
  /-- "First solvent molecule '%s' is not water." -/
  | notWater (o_idx : Nat)
  /-- "Warning: Charges on solvent do not sum to 0 (%g)" -/
  | chargeSum (q_sum : ℚ)
  /-- "Warning: Charge on water '%s' (%g) does not match first water (%g)." -/
  | chargeMismatch (atom : Nat) (q_atom q_first : ℚ)
  /-- "Warning: Less than 5 solvent molecules. Cannot perform order calculation." -/
  | fewSolvent
deriving DecidableEq

/-- Source `solventInfo_`. -/
structure SolventInfo where
  unique_elements : List String
  i_element : List Nat
  element_count : List Nat

/-- The members of `Action_GIST` that `Setup` reads and writes, the constant
`Constants::SMALL`, and the messages printed so far. -/
structure SetupMembers where
  usePme_ : Bool
  doOrder_ : Bool
  soluteMask_ : String
  nMolAtoms_ : Nat
  Q_ : List ℚ
  O_idxs_ : List Nat
  U_idxs_ : List Nat
  atomIsSolute_ : List Bool
  atomIsSolventO_ : List Bool
  solventInfo_ : SolventInfo
  NSOLVENT_ : Nat
  N_ON_GRID_ : Nat
  /-- Source `Constants::SMALL` -/
  SMALL : ℚ
  msgs : List SetupMsg

/-- Source `NotEqual` (source line 448): `fabs(v1 - v2) > Constants::SMALL`. -/
def NotEqual (SMALL v1 v2 : ℚ) : Bool := decide (|v1 - v2| > SMALL)

/-- Source `Action_GIST::setSolventProperties` (source lines 582-608): the
return value and the members after the call. -/
def setSolventProperties (mol : Molecule) (a : ActionSetup) (m : SetupMembers) :
    Int × SetupMembers :=
  let o_idx := mol.Front
  let nMolAtoms := mol.NumAtoms
  let msgs1 :=
    if a.Element o_idx ≠ AtomicElementType.OXYGEN
        ∨ a.Element (o_idx + 1) ≠ AtomicElementType.HYDROGEN
        ∨ a.Element (o_idx + 2) ≠ AtomicElementType.HYDROGEN then
      m.msgs ++ [SetupMsg.notWater o_idx]
    else m.msgs
  let r := (List.range nMolAtoms).foldl
    (fun (s : ℚ × List ℚ) IDX =>
      (s.1 + a.Top.Charge (o_idx + IDX), s.2 ++ [a.Top.Charge (o_idx + IDX)]))
    (0, m.Q_)
  let msgs2 := if |r.1| > 0 then msgs1 ++ [SetupMsg.chargeSum r.1] else msgs1
  (0, { m with nMolAtoms_ := nMolAtoms, Q_ := r.2, msgs := msgs2 })

/-- Source `Action_GIST::checkSolventProperties` (source lines 610-627), a
`const` method: the return value and the messages it prints. -/
def checkSolventProperties (mol : Molecule) (a : ActionSetup) (m : SetupMembers) :
    Int × List SetupMsg :=
  let o_idx := mol.Front
  if mol.NumAtoms ≠ m.nMolAtoms_ then (1, [])
  else
    (0, (List.range m.nMolAtoms_).foldl
      (fun msgs IDX =>
        let q_atom := a.Top.Charge (o_idx + IDX)
        if NotEqual m.SMALL (m.Q_.getD IDX 0) q_atom = true then
          msgs ++ [SetupMsg.chargeMismatch (o_idx + IDX) q_atom (m.Q_.getD IDX 0)]
        else msgs)
      [])

/-- The inner loop of `analyzeSolventElements` (source lines 635-642): the
first index `i_elem` with `unique_elements[i_elem] == elem`, if there is one. -/
def findElement : List String → String → Option Nat
  | [], _ => none
  | u :: rest, elem =>
    if u = elem then some 0
    else
      match findElement rest elem with
      | some i => some (i + 1)
      | none => none

/-- The body of the loop of `analyzeSolventElements` over the atoms of the
molecule (source lines 633-647), for the element name `elem`. -/
def analyzeElement (info : SolventInfo) (elem : String) : SolventInfo :=
  match findElement info.unique_elements elem with
  | some i_elem =>
    { info with
      i_element := info.i_element ++ [i_elem]
      element_count := incrAt info.element_count i_elem }
  | none =>
    { unique_elements := info.unique_elements ++ [elem]
      i_element := info.i_element ++ [(info.unique_elements ++ [elem]).length - 1]
      element_count := info.element_count ++ [1] }

/-- Source `Action_GIST::analyzeSolventElements` (source lines 629-649). -/
def analyzeSolventElements (mol : Molecule) (a : ActionSetup) (m : SetupMembers) :
    SetupMembers :=
  { m with
    solventInfo_ := (List.range m.nMolAtoms_).foldl
      (fun info i_mol => analyzeElement info (a.ElementName (mol.Front + i_mol)))
      m.solventInfo_ }

/-- Source `Action_GIST::createAtomDensityDatasets` (source lines 651-662):
whether every data set could be added. -/
def createAtomDensityDatasets (a : ActionSetup) (m : SetupMembers) : Bool :=
  m.solventInfo_.unique_elements.foldl
    (fun all_successful elem_name =>
      if a.AddDatasetAndFile ("g" ++ elem_name) = false then false else all_successful)
    true

/-- Source `Action_GIST::setSoluteSolvent` (source lines 664-692). -/
def setSoluteSolvent (a : ActionSetup) (m : SetupMembers) : SetupMembers :=
  let useMask := decide (m.soluteMask_.length > 0)
  let isSolute :=
    if useMask = false then
      a.mols.foldl
        (fun v mol =>
          (List.range' mol.Front (mol.Back + 1 - mol.Front)).foldl
            (fun v atom => v.set atom (!mol.IsSolvent)) v)
        m.atomIsSolute_
    else
      (List.range a.Natom).foldl (fun v i => v.set i (a.AtomInCharMask i)) m.atomIsSolute_
  { m with
    atomIsSolute_ := isSolute
    U_idxs_ := (List.range a.Natom).foldl
      (fun U i => if isSolute.getD i false = true then U ++ [i] else U) m.U_idxs_ }

/-- The body of the loop of `Setup` over the molecules (source lines 495-513):
`none` when it returns `Action::ERR`, else the flag `isFirstSolvent` and the
members after the molecule. -/
def setupMol (a : ActionSetup) (st : Bool × SetupMembers) (mol : Molecule) :
    Option (Bool × SetupMembers) :=
  let o_idx := mol.Front
  if st.2.atomIsSolute_.getD o_idx false = false then
    let r : Int × SetupMembers :=
      if st.1 = true then
        let r1 := setSolventProperties mol a st.2
        let m2 := analyzeSolventElements mol a r1.2
        (if createAtomDensityDatasets a m2 = false then 1 else r1.1, m2)
      else
        let r1 := checkSolventProperties mol a st.2
        (r1.1, { st.2 with msgs := st.2.msgs ++ r1.2 })
    if r.1 ≠ 0 then none
    else
      some (false,
        { r.2 with
          O_idxs_ := r.2.O_idxs_ ++ [o_idx]
          atomIsSolventO_ := r.2.atomIsSolventO_.set o_idx true })
  else some st

/-- The loop of `Setup` over the molecules (source lines 491-514). -/
def setupLoop (a : ActionSetup) : List Molecule → Bool × SetupMembers → Option (Bool × SetupMembers)
  | [], st => some st
  | mol :: rest, st =>
    match setupMol a st mol with
    | none => none
    | some st1 => setupLoop a rest st1

/-- The members when the loop of `Setup` over the molecules starts (source lines
484-489): the two flag vectors sized and cleared, then `setSoluteSolvent`. -/
def setupStart (a : ActionSetup) (m : SetupMembers) : SetupMembers :=
  setSoluteSolvent a
    { m with
      atomIsSolute_ := List.replicate a.Natom false
      atomIsSolventO_ := List.replicate a.Natom false }

/-- Source `Action_GIST::Setup` (source lines 451-580, the build without CUDA):
`none` when it returns `Action::ERR`, else the members when it returns
`Action::OK`. -/
def Setup (a : ActionSetup) (m : SetupMembers) : Option SetupMembers :=
  if a.HasBox = false then none
  else if m.usePme_ = true ∧ (a.LIBPME = false ∨ a.pmeInitFail = true ∨ a.pmeSetupFail = true)
  then none
  else
    match setupLoop a a.mols (true, setupStart a m) with
    | none => none
    | some (_, m3) =>
      let NSOLVENT := m3.O_idxs_.length
      let m4 : SetupMembers := { m3 with NSOLVENT_ := NSOLVENT }
      let m5 : SetupMembers :=
        if m4.doOrder_ = true ∧ NSOLVENT < 5 then
          { m4 with doOrder_ := false, msgs := m4.msgs ++ [SetupMsg.fewSolvent] }
        else m4
      some { m5 with N_ON_GRID_ := 0 }

/-- The members before the first `Setup`: what the constructor and `Init`
leave in the members that `Setup` reads and writes. -/
def SetupMembers.initial (usePme doOrder : Bool) (soluteMask : String) (SMALL : ℚ) :
    SetupMembers where
  usePme_ := usePme
  doOrder_ := doOrder
  soluteMask_ := soluteMask
  nMolAtoms_ := 0
  Q_ := []
  O_idxs_ := []
  U_idxs_ := []
  atomIsSolute_ := []
  atomIsSolventO_ := []
  solventInfo_ := ⟨[], [], []⟩
  NSOLVENT_ := 0
  N_ON_GRID_ := 0
  SMALL := SMALL
  msgs := []

/-- Whether the loop of `Setup` treats a molecule as solvent: its first atom is
not marked as solute (source line 496). -/
def SetupMembers.isSolventMol (m : SetupMembers) (mol : Molecule) : Bool :=
  !(m.atomIsSolute_.getD mol.Front false)

/-- What `analyzeSolventElements` has established after the element names
`pre`: the names found so far without duplicates and in the order of their
first occurrence, the index of each atom's name, and the count of each name. -/
structure AnalyzeInv (pre : List String) (info : SolventInfo) : Prop where
  nodup : info.unique_elements.Nodup
  mem : ∀ x, x ∈ info.unique_elements ↔ x ∈ pre
  order : (info.unique_elements.map fun u => pre.indexOf u).Pairwise (fun i j => i < j)
  idx_len : info.i_element.length = pre.length
  idx : ∀ a, a < pre.length → info.unique_elements[info.i_element.getD a 0]? = pre[a]?
  cnt_len : info.element_count.length = info.unique_elements.length
  cnt : ∀ j x, info.unique_elements[j]? = some x → info.element_count.getD j 0 = pre.count x
  cnt_sum : info.element_count.sum = pre.length

/-- What the loop of `Setup` leaves as it found it once the first solvent
molecule has been seen. -/
structure SameTemplate (m m1 : SetupMembers) : Prop where
  nMol : m1.nMolAtoms_ = m.nMolAtoms_
  Q : m1.Q_ = m.Q_
  info : m1.solventInfo_ = m.solventInfo_
  solute : m1.atomIsSolute_ = m.atomIsSolute_
  doOrder : m1.doOrder_ = m.doOrder_

/-- The topology of the examples as `Setup` sees it: two waters of three atoms
each (atoms 0-2 and 3-5, oxygen first), both solvent, in a box, no solute mask
atoms, every data set can be added. -/
def exSetup : ActionSetup where
  HasBox := true
  Top := exTop
  Natom := 6
  mols := [⟨0, 2, 3, true⟩, ⟨3, 5, 3, true⟩]
  Element := fun a => if a % 3 = 0 then AtomicElementType.OXYGEN else AtomicElementType.HYDROGEN
  ElementName := fun a => if a % 3 = 0 then "O" else "H"
  AtomInCharMask := fun _ => false
  LIBPME := false
  pmeInitFail := false
  pmeSetupFail := false
  AddDatasetAndFile := fun _ => true

/-- The example topology with a second solvent molecule that has three atoms
but other charges (atom 3 has charge 1) and another element sequence
(H, O, H). -/
def exSetupMixed : ActionSetup :=
  { exSetup with
    Top := { exTop with Charge := fun a => if a = 3 then 1 else exTop.Charge a }
    ElementName := fun a => if a = 3 then "H" else if a = 4 then "O" else exSetup.ElementName a }

/-- The example topology with a second solvent molecule of four atoms. -/
def exSetupUneven : ActionSetup :=
  { exSetup with
    Natom := 7
    mols := [⟨0, 2, 3, true⟩, ⟨3, 6, 4, true⟩] }

/-- The members before `Setup` in the examples: no PME, order calculation
requested, no solute mask, `Constants::SMALL` = 1e-14. -/
def exMembers : SetupMembers := SetupMembers.initial false true "" (1 / 100000000000000)

/-- The sum of the charges `Q_[IDX]` over the atoms of the solvent template,
`q_sum` of `setSolventProperties` (source lines 597-602). -/
def Gist.q_sum (g : Gist) : ℚ := ((List.range g.nMolAtoms_).map fun IDX => g.Q_.getD IDX 0).sum

/-- The example action in PME mode on a 1 x 1 x 3 grid of spacing 1 with origin
(0,0,0), with one solute atom, atom 6. -/
def exGistPme : Gist :=
  { exGist with
    griddim_ := ⟨1, 1, 3⟩
    gridBin_ := ⟨⟨0, 0, 0⟩, 1, 1, 3, 1⟩
    G_max_ := ⟨1 * 1 + 3 / 2, 1 * 1 + 3 / 2, 3 * 1 + 3 / 2⟩
    MAX_GRID_PT_ := 3
    usePme_ := true
    doEij_ := false
    U_idxs_ := [6]
    atomIsSolute_ := fun a => decide (a = 6) }

/-- A frame of the PME example: the two waters of `exFrame` (the second at
(1/2,1/2,5/2)) and the solute atom 6 at `u`. -/
def exFramePme (u : Vec3) : Frame :=
  { exFrame ⟨1 / 2, 1 / 2, 5 / 2⟩ with
    Natom := 7
    XYZ := fun a => if a = 6 then u else (exFrame ⟨1 / 2, 1 / 2, 5 / 2⟩).XYZ a }

/-- The relation between the per-voxel samples and the populations:
`voxel_xyz_[v]` holds three numbers and `voxel_Q_[v]` four for each of the
`N_waters_[v]` waters counted in `v`. -/
def SamplesOK (st : GistState) : Prop :=
  st.voxel_xyz_.map List.length = st.N_waters_.map (fun n => 3 * n)
    ∧ st.voxel_Q_.map List.length = st.N_waters_.map (fun n => 4 * n)

/-- The running values of the neighbour scan as four pairs
`(d1, WAT[0]), ..., (d4, WAT[3])`. -/
def NearestScan.top (s : NearestScan) : List (ℚ × Vec3) :=
  [(s.d1, s.WAT0), (s.d2, s.WAT1), (s.d3, s.WAT2), (s.d4, s.WAT3)]

/-- The squared distance from `XYZ1` and the coordinates of every head atom in
`l` other than `oidx1`, in the order of the scan of `Order` (source lines
1004-1010). -/
def scanInput (frm : Frame) (XYZ1 : Vec3) (oidx1 : Nat) (l : List Nat) : List (ℚ × Vec3) :=
  (l.filter fun oidx2 => decide (oidx2 ≠ oidx1)).map
    fun oidx2 => (DIST2_NoImage XYZ1 (frm.XYZ oidx2), frm.XYZ oidx2)

/-- The invariant of the neighbour scan over the entries `L` seen so far (the
four initial entries `(maxD_, WAT[i])` included): the running distances are in
order, the four running pairs are entries of `L`, and every other entry of `L`
is at least as far as the fourth. -/
structure ScanInv (L : List (ℚ × Vec3)) (s : NearestScan) : Prop where
  le12 : s.d1 ≤ s.d2
  le23 : s.d2 ≤ s.d3
  le34 : s.d3 ≤ s.d4
  perm : ∃ rest, L.Perm (s.top ++ rest) ∧ ∀ x ∈ rest, s.d4 ≤ x.1

/-- The raw accumulators of voxel `v`: the two solute-water and the two
water-water energy sums, the neighbour count, the three dipole sums and the
order sum. -/
def GistState.rawAt (s : GistState) (v : Nat) : List (Option ℚ) :=
  [some (s.E_UV_VDW_.getD v 0), some (s.E_UV_Elec_.getD v 0), some (s.E_VV_VDW_.getD v 0),
   some (s.E_VV_Elec_.getD v 0), some (s.neighbor_.getD v 0), some (s.dipolex.getD v 0),
   some (s.dipoley.getD v 0), some (s.dipolez.getD v 0), s.order.getD v (some 0)]

/-- The five arrays of the pair loop at voxel `v`. -/
def nbAt (acc : List ℚ × List ℚ × List ℚ × List ℚ × List ℚ × TriMatrix × List EcalcCall)
    (v : Nat) : List ℚ :=
  [acc.1.getD v 0, acc.2.1.getD v 0, acc.2.2.1.getD v 0, acc.2.2.2.1.getD v 0,
   acc.2.2.2.2.1.getD v 0]

/-- The three dipole sums of a state. -/
def GistState.dip (s : GistState) : List ℚ × List ℚ × List ℚ := (s.dipolex, s.dipoley, s.dipolez)

/-- The three dipole sums at voxel `v`. -/
def dipAt (d : List ℚ × List ℚ × List ℚ) (v : Nat) : List ℚ :=
  [d.1.getD v 0, d.2.1.getD v 0, d.2.2.getD v 0]

/-! ## The orientation quaternion in exact arithmetic -/

/-- Modelled from the spec: the 3-vector class `Vec3` with components in an
ordered field `K`; `Vec3` is the case of the rational numbers, and the real
numbers are the case of exact arithmetic. -/
structure Vec3K (K : Type) where
  x : K
  y : K
  z : K

/-- The functions of `<cmath>` that the quaternion construction calls, on the
field `K`. -/
structure MathFnsK (K : Type) where
  sqrt : K → K
  acos : K → K
  cos : K → K
  sin : K → K

/-- A quaternion `(w, x, y, z)` with components in `K`. -/
structure Quat4K (K : Type) where
  w : K
  x : K
  y : K
  z : K

/-- The vector `Vec3(a[0]-b[0], a[1]-b[1], a[2]-b[2])` (source lines
1133-1134). -/
def Vec3K.sub {K : Type} [LinearOrderedField K] (a b : Vec3K K) : Vec3K K :=
  ⟨a.x - b.x, a.y - b.y, a.z - b.z⟩

/-- Modelled from the spec: `Vec3::operator*`, the dot product. -/
def Vec3K.dot {K : Type} [LinearOrderedField K] (a b : Vec3K K) : K :=
  a.x * b.x + a.y * b.y + a.z * b.z

/-- Modelled from the spec: `Vec3::Magnitude2`, the squared length. -/
def Vec3K.Magnitude2 {K : Type} [LinearOrderedField K] (a : Vec3K K) : K :=
  a.x * a.x + a.y * a.y + a.z * a.z

/-- Modelled from the spec: `Vec3::Cross`, the cross product. -/
def Vec3K.Cross {K : Type} [LinearOrderedField K] (a b : Vec3K K) : Vec3K K :=
  ⟨a.y * b.z - a.z * b.y, a.z * b.x - a.x * b.z, a.x * b.y - a.y * b.x⟩

/-- Modelled from the spec: `Vec3::Normalize`, division by the length; `none`
when the length is zero, where the quotients are not numbers. -/
def Vec3K.Normalize {K : Type} [LinearOrderedField K] (m : MathFnsK K) (a : Vec3K K) :
    Option (Vec3K K) :=
  if m.sqrt a.Magnitude2 = 0 then none
  else some ⟨a.x * (1 / m.sqrt a.Magnitude2), a.y * (1 / m.sqrt a.Magnitude2),
    a.z * (1 / m.sqrt a.Magnitude2)⟩

/-- Source `x_lab_` (source line 694). -/
def x_labK {K : Type} [LinearOrderedField K] : Vec3K K := ⟨1, 0, 0⟩

/-- Source `z_lab_` (source line 696). -/
def z_labK {K : Type} [LinearOrderedField K] : Vec3K K := ⟨0, 0, 1⟩

/-- The rotation formula that `DoAction` applies to `H1_wat` and to `H2_wat`
(source lines 1166-1177 and 1181-1192), with the quaternion `(w2, x2, y2, z2)`. -/
def Quat4K.rotate {K : Type} [LinearOrderedField K] (q : Quat4K K) (H : Vec3K K) : Vec3K K :=
  ⟨(2 * (q.x * q.z - q.w * q.y) * H.z)
      + ((2 * (q.x * q.y + q.w * q.z) * H.y)
        + ((q.w * q.w + q.x * q.x) - (q.y * q.y + q.z * q.z)) * H.x),
   (2 * (q.y * q.z + q.w * q.x) * H.z)
      + (((q.w * q.w - q.x * q.x + q.y * q.y - q.z * q.z) * H.y)
        + 2 * (q.x * q.y - q.w * q.z) * H.x),
   ((q.w * q.w - q.x * q.x - q.y * q.y + q.z * q.z) * H.z)
      + ((2 * (q.y * q.z - q.w * q.x) * H.y) + 2 * (q.x * q.z + q.w * q.y) * H.x)⟩

/-- The product `(w4, x4, y4, z4)` of source lines 1215-1218. -/
def Quat4K.mul {K : Type} [LinearOrderedField K] (p q : Quat4K K) : Quat4K K :=
  ⟨p.w * q.w - p.x * q.x - p.y * q.y - p.z * q.z,
   p.w * q.x + p.x * q.w + p.y * q.z - p.z * q.y,
   p.w * q.y - p.x * q.z + p.y * q.w + p.z * q.x,
   p.w * q.z + p.x * q.y - p.y * q.x + p.z * q.w⟩

/-- The squared norm `w² + x² + y² + z²` of a quaternion. -/
def Quat4K.norm2 {K : Type} [LinearOrderedField K] (q : Quat4K K) : K :=
  q.w * q.w + q.x * q.x + q.y * q.y + q.z * q.z

/-- The half angle `theta` of the first rotation (source lines 1146-1154), from
the unit vector `H1_wat`. -/
def quatK_theta1 {K : Type} [LinearOrderedField K] (m : MathFnsK K) (SMALL : K)
    (H1_wat : Vec3K K) : K :=
  if (H1_wat.Cross x_labK).dot H1_wat > SMALL then m.acos (Vec3K.dot x_labK H1_wat) / 2
  else m.acos (Vec3K.dot x_labK H1_wat) / (-2)

/-- The first rotation `(w1, x1, y1, z1)` (source lines 1138-1160), from the
unit vector `H1_wat`; `none` when `ar1` cannot be normalized. -/
def quatK_q1 {K : Type} [LinearOrderedField K] (m : MathFnsK K) (SMALL : K)
    (H1_wat : Vec3K K) : Option (Quat4K K) :=
  ((H1_wat.Cross x_labK).Normalize m).map fun ar1 =>
    ⟨m.cos (quatK_theta1 m SMALL H1_wat), ar1.x * m.sin (quatK_theta1 m SMALL H1_wat),
     ar1.y * m.sin (quatK_theta1 m SMALL H1_wat), ar1.z * m.sin (quatK_theta1 m SMALL H1_wat)⟩

/-- The half angle `theta` of the second rotation (source lines 1198-1207),
from the unit vector `ar2` and the rotated `H_temp`. -/
def quatK_theta2 {K : Type} [LinearOrderedField K] (m : MathFnsK K) (ar2 H_temp : Vec3K K) :
    K :=
  if (ar2.Cross z_labK).dot H_temp < 0 then m.acos (ar2.dot z_labK) / 2
  else m.acos (ar2.dot z_labK) / (-2)

/-- The second rotation `(w3, x3, y3, z3)`, about `x_lab_` (source lines
1196-1213), from the rotated vectors `H_temp` and `H_temp2`; `none` when `ar2`
cannot be normalized. -/
def quatK_q3 {K : Type} [LinearOrderedField K] (m : MathFnsK K) (H_temp H_temp2 : Vec3K K) :
    Option (Quat4K K) :=
  ((H_temp.Cross H_temp2).Normalize m).map fun ar2 =>
    ⟨m.cos (quatK_theta2 m ar2 H_temp), (x_labK : Vec3K K).x * m.sin (quatK_theta2 m ar2 H_temp),
     (x_labK : Vec3K K).y * m.sin (quatK_theta2 m ar2 H_temp),
     (x_labK : Vec3K K).z * m.sin (quatK_theta2 m ar2 H_temp)⟩

/-- The orientation quaternion `(w4, x4, y4, z4)` of one water, from the
coordinates of its three rigid atoms (source lines 1133-1218), over the field
`K`; `none` when one of the four vectors that the code normalizes has length
zero, so that the quaternion is not made of numbers. -/
def waterQuaternionK {K : Type} [LinearOrderedField K] (m : MathFnsK K) (SMALL : K)
    (O_XYZ H1_XYZ H2_XYZ : Vec3K K) : Option (Quat4K K) :=
  ((H1_XYZ.sub O_XYZ).Normalize m).bind fun H1_wat =>
    ((H2_XYZ.sub O_XYZ).Normalize m).bind fun H2_wat =>
      (quatK_q1 m SMALL H1_wat).bind fun q1 =>
        (quatK_q3 m (q1.rotate H1_wat) (q1.rotate H2_wat)).map fun q3 => q1.mul q3

/-- The identities of exact arithmetic that the quaternion construction relies
on; the functions of the real numbers satisfy them. -/
structure MathFnsK.Exact {K : Type} [LinearOrderedField K] (m : MathFnsK K) : Prop where
  sqrt_mul_self : ∀ x, 0 ≤ x → m.sqrt x * m.sqrt x = x
  sqrt_nonneg : ∀ x, 0 ≤ m.sqrt x
  cos_sq_add_sin_sq : ∀ t, m.cos t * m.cos t + m.sin t * m.sin t = 1
  cos_acos : ∀ x, -1 ≤ x → x ≤ 1 → m.cos (m.acos x) = x
  sin_acos : ∀ x, -1 ≤ x → x ≤ 1 → m.sin (m.acos x) = m.sqrt (1 - x * x)
  cos_half : ∀ t, m.cos (t / 2) * m.cos (t / 2) - m.sin (t / 2) * m.sin (t / 2) = m.cos t
  sin_half : ∀ t, 2 * m.sin (t / 2) * m.cos (t / 2) = m.sin t
  cos_neg : ∀ t, m.cos (-t) = m.cos t
  sin_neg : ∀ t, m.sin (-t) = -m.sin t

/-- The vector of `Vec3` as a vector over the rational numbers. -/
def Vec3.toK (v : Vec3) : Vec3K ℚ := ⟨v.x, v.y, v.z⟩

/-- The functions of `MathFns` that the quaternion construction calls. -/
def MathFns.toK (m : MathFns) : MathFnsK ℚ := ⟨m.sqrt, m.acos, m.cos, m.sin⟩

/-- The quaternion of `Quat4` as a quaternion over the rational numbers. -/
def Quat4.toK (q : Quat4) : Quat4K ℚ := ⟨q.w, q.x, q.y, q.z⟩

/-! ## Voxel index algebra -/

theorem wrapInt_of_range (x : Int) (h0 : 0 ≤ x) (h1 : x < 2147483648) : wrapInt x = x := by
  unfold wrapInt
  omega

theorem voxelOfBins_eq (d : GridDim) (i j k : Nat)
    (_hx : 1 ≤ d.nx) (hy : 1 ≤ d.ny) (hz : 1 ≤ d.nz)
    (hfit : d.nx * d.ny * d.nz < 2147483648)
    (hi : (i : Int) < d.nx) (hj : (j : Int) < d.ny) (hk : (k : Int) < d.nz) :
    voxelOfBins d i j k = (i : Int) * d.ny * d.nz + (j : Int) * d.nz + (k : Int)
      ∧ 0 ≤ (i : Int) * d.ny * d.nz + (j : Int) * d.nz + (k : Int)
      ∧ (i : Int) * d.ny * d.nz + (j : Int) * d.nz + (k : Int) < d.nx * d.ny * d.nz := by
  have hi0 : (0 : Int) ≤ i := Int.natCast_nonneg i
  have hj0 : (0 : Int) ≤ j := Int.natCast_nonneg j
  have hk0 : (0 : Int) ≤ k := Int.natCast_nonneg k
  have hyz : 0 < d.ny * d.nz := by positivity
  have h1 : (i : Int) * d.ny * d.nz ≤ (d.nx - 1) * (d.ny * d.nz) := by
    rw [mul_assoc]
    exact mul_le_mul_of_nonneg_right (by omega) hyz.le
  have h2 : (j : Int) * d.nz ≤ (d.ny - 1) * d.nz :=
    mul_le_mul_of_nonneg_right (by omega) (by omega)
  have h3 : (i : Int) * d.ny ≤ (i : Int) * d.ny * d.nz := by
    have : 0 ≤ (i : Int) * d.ny := by positivity
    nlinarith
  have hA : 0 ≤ (i : Int) * d.ny := by positivity
  have hB : 0 ≤ (i : Int) * d.ny * d.nz := by positivity
  have hC : 0 ≤ (j : Int) * d.nz := by positivity
  have hlt : (i : Int) * d.ny * d.nz + (j : Int) * d.nz + (k : Int) < d.nx * d.ny * d.nz := by
    nlinarith
  refine ⟨?_, by positivity, hlt⟩
  unfold voxelOfBins
  rw [wrapInt_of_range ((i : Int) * d.ny) hA (by omega)]
  rw [wrapInt_of_range ((i : Int) * d.ny * d.nz) hB (by omega)]
  rw [wrapInt_of_range ((j : Int) * d.nz) hC (by omega)]
  rw [wrapInt_of_range ((i : Int) * d.ny * d.nz + (j : Int) * d.nz) (by omega) (by omega)]
  rw [wrapInt_of_range ((i : Int) * d.ny * d.nz + (j : Int) * d.nz + (k : Int)) (by omega)
    (by omega)]

theorem nat_bins_of_index (Ny Nz i j k : Nat) (hj : j < Ny) (hk : k < Nz) :
    (i * Ny * Nz + j * Nz + k) / (Ny * Nz) = i
      ∧ ((i * Ny * Nz + j * Nz + k) / Nz) % Ny = j
      ∧ (i * Ny * Nz + j * Nz + k) % Nz = k := by
  have hNz : 0 < Nz := by omega
  have hNy : 0 < Ny := by omega
  have e1 : i * Ny * Nz + j * Nz + k = k + Nz * (i * Ny + j) := by ring
  have hq : (i * Ny * Nz + j * Nz + k) / Nz = i * Ny + j := by
    rw [e1, Nat.add_mul_div_left _ _ hNz, Nat.div_eq_of_lt hk, Nat.zero_add]
  have e2 : i * Ny + j = j + Ny * i := by ring
  refine ⟨?_, ?_, ?_⟩
  · rw [Nat.mul_comm Ny Nz, ← Nat.div_div_eq_div_mul, hq, e2, Nat.add_mul_div_left _ _ hNy,
      Nat.div_eq_of_lt hj, Nat.zero_add]
  · rw [hq, e2, Nat.add_mul_mod_self_left, Nat.mod_eq_of_lt hj]
  · rw [e1, Nat.add_mul_mod_self_left, Nat.mod_eq_of_lt hk]

theorem nat_index_of_bins (Nx Ny Nz v : Nat) (hNy : 0 < Ny) (hNz : 0 < Nz)
    (hv : v < Nx * Ny * Nz) :
    v / (Ny * Nz) < Nx ∧ (v / Nz) % Ny < Ny ∧ v % Nz < Nz
      ∧ v / (Ny * Nz) * Ny * Nz + (v / Nz) % Ny * Nz + v % Nz = v := by
  have h1 : v / (Ny * Nz) < Nx := by
    rw [Nat.div_lt_iff_lt_mul (Nat.mul_pos hNy hNz)]
    calc v < Nx * Ny * Nz := hv
      _ = Nx * (Ny * Nz) := by ring
  refine ⟨h1, Nat.mod_lt _ hNy, Nat.mod_lt _ hNz, ?_⟩
  have e : v / (Ny * Nz) = v / Nz / Ny := by
    rw [Nat.mul_comm Ny Nz, Nat.div_div_eq_div_mul]
  rw [e]
  have a1 : Ny * (v / Nz / Ny) + v / Nz % Ny = v / Nz := Nat.div_add_mod _ _
  have a2 : Nz * (v / Nz) + v % Nz = v := Nat.div_add_mod _ _
  calc v / Nz / Ny * Ny * Nz + v / Nz % Ny * Nz + v % Nz
      = Nz * (Ny * (v / Nz / Ny) + v / Nz % Ny) + v % Nz := by ring
    _ = v := by rw [a1, a2]

/-- C1 (amended): for a grid with Nx,Ny,Nz >= 1 whose voxel count Nx*Ny*Nz is
below 2^31 (it fits the C++ `int`), `calcVoxelIndex` maps every valid bin
triple (i,j,k) to v = i*Ny*Nz + j*Nz + k;
v lies in [0, Nx*Ny*Nz) and is never the OFF_GRID sentinel; the map is
injective on valid triples and onto [0, Nx*Ny*Nz); and its inverse is the
decomposition used by Print (ix = v/(Ny*Nz), iy = (v/Nz) mod Ny, iz = v mod Nz). -/
theorem calcVoxelIndex_bijection (d : GridDim)
    (hx : 1 ≤ d.nx) (hy : 1 ≤ d.ny) (hz : 1 ≤ d.nz)
    (hfit : d.nx * d.ny * d.nz < 2147483648) :
    (∀ (Calc : ℚ → ℚ → ℚ → Option (Nat × Nat × Nat)) (x y z : ℚ) (i j k : Nat),
        Calc x y z = some (i, j, k) →
        (i : Int) < d.nx → (j : Int) < d.ny → (k : Int) < d.nz →
        calcVoxelIndex d Calc x y z = (i : Int) * d.ny * d.nz + (j : Int) * d.nz + (k : Int)
          ∧ 0 ≤ calcVoxelIndex d Calc x y z
          ∧ calcVoxelIndex d Calc x y z < d.nx * d.ny * d.nz
          ∧ calcVoxelIndex d Calc x y z ≠ OFF_GRID_
          ∧ printBins d (calcVoxelIndex d Calc x y z).toNat = (i, j, k))
      ∧ (∀ i j k i' j' k' : Nat,
        (i : Int) < d.nx → (j : Int) < d.ny → (k : Int) < d.nz →
        (i' : Int) < d.nx → (j' : Int) < d.ny → (k' : Int) < d.nz →
        voxelOfBins d i j k = voxelOfBins d i' j' k' → (i, j, k) = (i', j', k'))
      ∧ (∀ v : Nat, (v : Int) < d.nx * d.ny * d.nz →
        ((printBins d v).1 : Int) < d.nx ∧ ((printBins d v).2.1 : Int) < d.ny
          ∧ ((printBins d v).2.2 : Int) < d.nz
          ∧ voxelOfBins d (printBins d v).1 (printBins d v).2.1 (printBins d v).2.2 = (v : Int)) := by
  obtain ⟨nx, ny, nz⟩ := d
  simp only at hx hy hz hfit ⊢
  lift nx to ℕ using (by omega)
  lift ny to ℕ using (by omega)
  lift nz to ℕ using (by omega)
  have key : ∀ i j k : Nat, i < nx → j < ny → k < nz →
      voxelOfBins ⟨nx, ny, nz⟩ i j k = ((i * ny * nz + j * nz + k : Nat) : Int)
        ∧ i * ny * nz + j * nz + k < nx * ny * nz := by
    intro i j k hi hj hk
    have h := voxelOfBins_eq ⟨nx, ny, nz⟩ i j k hx hy hz hfit
      (show (i : Int) < (nx : Int) by exact_mod_cast hi)
      (show (j : Int) < (ny : Int) by exact_mod_cast hj)
      (show (k : Int) < (nz : Int) by exact_mod_cast hk)
    simp only at h
    refine ⟨by rw [h.1]; push_cast; ring, ?_⟩
    have h3 := h.2.2
    exact_mod_cast h3
  have hpb : ∀ v : Nat, printBins ⟨nx, ny, nz⟩ v = (v / (ny * nz), (v / nz) % ny, v % nz) := by
    intro v
    simp [printBins]
  refine ⟨?_, ?_, ?_⟩
  · intro Calc x y z i j k hC hi hj hk
    have hi' : i < nx := by exact_mod_cast hi
    have hj' : j < ny := by exact_mod_cast hj
    have hk' : k < nz := by exact_mod_cast hk
    obtain ⟨hv, hlt⟩ := key i j k hi' hj' hk'
    have hcv : calcVoxelIndex ⟨nx, ny, nz⟩ Calc x y z
        = ((i * ny * nz + j * nz + k : Nat) : Int) := by
      simp only [calcVoxelIndex, hC]
      exact hv
    obtain ⟨b1, b2, b3⟩ := nat_bins_of_index ny nz i j k hj' hk'
    refine ⟨by rw [hcv]; push_cast; ring, by rw [hcv]; positivity,
      by rw [hcv]; exact_mod_cast hlt, ?_, ?_⟩
    · rw [hcv]
      unfold OFF_GRID_
      omega
    · rw [hcv, Int.toNat_natCast, hpb, b1, b2, b3]
  · intro i j k i' j' k' hi hj hk hi' hj' hk' he
    have hi1 : i < nx := by exact_mod_cast hi
    have hj1 : j < ny := by exact_mod_cast hj
    have hk1 : k < nz := by exact_mod_cast hk
    have hi2 : i' < nx := by exact_mod_cast hi'
    have hj2 : j' < ny := by exact_mod_cast hj'
    have hk2 : k' < nz := by exact_mod_cast hk'
    rw [(key i j k hi1 hj1 hk1).1, (key i' j' k' hi2 hj2 hk2).1] at he
    have he' : i * ny * nz + j * nz + k = i' * ny * nz + j' * nz + k' := by exact_mod_cast he
    obtain ⟨b1, b2, b3⟩ := nat_bins_of_index ny nz i j k hj1 hk1
    obtain ⟨c1, c2, c3⟩ := nat_bins_of_index ny nz i' j' k' hj2 hk2
    rw [he'] at b1 b2 b3
    rw [← b1, ← b2, ← b3, c1, c2, c3]
  · intro v hv
    have hv' : v < nx * ny * nz := by exact_mod_cast hv
    obtain ⟨a1, a2, a3, a4⟩ := nat_index_of_bins nx ny nz v (by omega) (by omega) hv'
    rw [hpb]
    simp only
    refine ⟨by exact_mod_cast a1, by exact_mod_cast a2, by exact_mod_cast a3, ?_⟩
    rw [(key _ _ _ a1 a2 a3).1, a4]

/-- Witness for C1 (amended): the 2x3x4 grid. -/
theorem calcVoxelIndex_bijection_witness :
    printBins ⟨2, 3, 4⟩ (calcVoxelIndex ⟨2, 3, 4⟩ (fun _ _ _ => some (1, 2, 3)) 0 0 0).toNat
      = (1, 2, 3) :=
  ((calcVoxelIndex_bijection ⟨2, 3, 4⟩ (by decide) (by decide) (by decide) (by decide)).1
    (fun _ _ _ => some (1, 2, 3)) 0 0 0 1 2 3 rfl (by decide) (by decide) (by decide)).2.2.2.2

/-- C1 (counterexample): the grid 2048 x 2048 x 1024, which `Init` accepts
(every dimension is at least 1), has 2^32 voxels.  For the valid bin triple
(2047, 2047, 1023) the `int` expression of `calcVoxelIndex` wraps around: the
function returns -1, the `OFF_GRID_` sentinel, and not
`i*Ny*Nz + j*Nz + k = 4294967295`. -/
theorem calcVoxelIndex_wraps_on_large_grid :
    (Init { defaultArgs with griddim := some (some (2048, 2048, 1024)) }).map
        (fun m => m.griddim_) = some ⟨2048, 2048, 1024⟩
      ∧ calcVoxelIndex ⟨2048, 2048, 1024⟩ (fun _ _ _ => some (2047, 2047, 1023)) 0 0 0
          = OFF_GRID_
      ∧ calcVoxelIndex ⟨2048, 2048, 1024⟩ (fun _ _ _ => some (2047, 2047, 1023)) 0 0 0
          ≠ (2047 : Int) * 2048 * 1024 + 2047 * 1024 + 1023
      ∧ ¬ (0 ≤ calcVoxelIndex ⟨2048, 2048, 1024⟩ (fun _ _ _ => some (2047, 2047, 1023)) 0 0 0) := by
  decide!

/-! ## Array helpers -/

theorem addAt_length (l : List ℚ) (v : Nat) (x : ℚ) : (addAt l v x).length = l.length := by
  induction l generalizing v with
  | nil => rfl
  | cons a t ih => cases v <;> simp [addAt, ih]

theorem addAt_getD (l : List ℚ) (v u : Nat) (x : ℚ) (hv : v < l.length) :
    (addAt l v x).getD u 0 = l.getD u 0 + if u = v then x else 0 := by
  induction l generalizing v u with
  | nil => simp at hv
  | cons a t ih =>
    cases v with
    | zero => cases u <;> simp [addAt]
    | succ n =>
      cases u with
      | zero => simp [addAt]
      | succ m =>
        have := ih n m (by simpa using hv)
        simpa [addAt] using this

theorem incrAt_length (l : List Nat) (v : Nat) : (incrAt l v).length = l.length := by
  induction l generalizing v with
  | nil => rfl
  | cons a t ih => cases v <;> simp [incrAt, ih]

theorem incrAt_getD (l : List Nat) (v u : Nat) (hv : v < l.length) :
    (incrAt l v).getD u 0 = l.getD u 0 + if u = v then 1 else 0 := by
  induction l generalizing v u with
  | nil => simp at hv
  | cons a t ih =>
    cases v with
    | zero => cases u <;> simp [incrAt]
    | succ n =>
      cases u with
      | zero => simp [incrAt]
      | succ m =>
        have := ih n m (by simpa using hv)
        simpa [incrAt] using this

theorem incrAt_sum (l : List Nat) (v : Nat) (hv : v < l.length) :
    (incrAt l v).sum = l.sum + 1 := by
  induction l generalizing v with
  | nil => simp at hv
  | cons a t ih =>
    cases v with
    | zero => simp [incrAt]; ring
    | succ n =>
      have := ih n (by simpa using hv)
      simp [incrAt, this]; ring

theorem foldl_preserves {α σ β : Type} (f : σ → α → σ) (proj : σ → β)
    (h : ∀ s a, proj (f s a) = proj s) (l : List α) (s : σ) :
    proj (l.foldl f s) = proj s := by
  induction l generalizing s with
  | nil => rfl
  | cons a t ih => rw [List.foldl_cons, ih, h]

/-! ## The worked example is well formed -/

theorem exGist_InitOK : exGist.InitOK := by
  refine ⟨?_, ?_, ?_, ?_, ?_, ?_, ?_, ?_, ?_⟩ <;> simp [exGist]

theorem exGist_SetupOK : exGist.SetupOK := by
  refine ⟨?_, ?_, ?_⟩ <;> simp [exGist]

theorem exGist_FrameOK (p : Vec3) : exGist.FrameOK (exFrame p) := by
  intro o ho
  simp [exGist] at ho
  rcases ho with rfl | rfl <;> simp [exGist, exFrame]


theorem exGist2_InitOK : exGist2.InitOK := by
  refine ⟨?_, ?_, ?_, ?_, ?_, ?_, ?_, ?_, ?_⟩ <;> simp [exGist2, exGist]

theorem exGist2_SetupOK : exGist2.SetupOK := by
  refine ⟨?_, ?_, ?_⟩ <;> simp [exGist2, exGist]

theorem exGist2_FrameOK (p : Vec3) : exGist2.FrameOK (exFrame p) := by
  intro o ho
  simp [exGist2, exGist] at ho
  rcases ho with rfl | rfl <;> simp [exGist2, exGist, exFrame]

/-! ## Locating a point on the grid -/

theorem Calc_some_lt (gb : GridBin) (x y z : ℚ) (i j k : Nat)
    (h : gb.Calc x y z = some (i, j, k)) : i < gb.nx ∧ j < gb.ny ∧ k < gb.nz := by
  unfold GridBin.Calc at h
  simp only at h
  split_ifs at h with hc
  obtain ⟨hx0, hx1, hy0, hy1, hz0, hz1⟩ := hc
  simp only [Option.some.injEq, Prod.mk.injEq] at h
  obtain ⟨rfl, rfl, rfl⟩ := h
  refine ⟨?_, ?_, ?_⟩
  · have : ⌊(x - gb.O.x) / gb.h⌋ < (gb.nx : Int) := Int.floor_lt.mpr (by exact_mod_cast hx1)
    have h0 : 0 ≤ ⌊(x - gb.O.x) / gb.h⌋ := Int.floor_nonneg.mpr hx0
    omega
  · have : ⌊(y - gb.O.y) / gb.h⌋ < (gb.ny : Int) := Int.floor_lt.mpr (by exact_mod_cast hy1)
    have h0 : 0 ≤ ⌊(y - gb.O.y) / gb.h⌋ := Int.floor_nonneg.mpr hy0
    omega
  · have : ⌊(z - gb.O.z) / gb.h⌋ < (gb.nz : Int) := Int.floor_lt.mpr (by exact_mod_cast hz1)
    have h0 : 0 ≤ ⌊(z - gb.O.z) / gb.h⌋ := Int.floor_nonneg.mpr hz0
    omega

theorem Calc_isSome_window (gb : GridBin) (hh : 0 < gb.h) (x y z : ℚ)
    (h : (gb.Calc x y z).isSome = true) :
    (0 ≤ x - gb.O.x ∧ x - gb.O.x < gb.nx * gb.h)
      ∧ (0 ≤ y - gb.O.y ∧ y - gb.O.y < gb.ny * gb.h)
      ∧ (0 ≤ z - gb.O.z ∧ z - gb.O.z < gb.nz * gb.h) := by
  unfold GridBin.Calc at h
  simp only at h
  split_ifs at h with hc
  · obtain ⟨hx0, hx1, hy0, hy1, hz0, hz1⟩ := hc
    refine ⟨⟨?_, ?_⟩, ⟨?_, ?_⟩, ⟨?_, ?_⟩⟩
    · exact (div_nonneg_iff.mp hx0).elim (fun a => a.1) (fun a => absurd a.2 (not_le.mpr hh))
    · exact (div_lt_iff₀ hh).mp hx1
    · exact (div_nonneg_iff.mp hy0).elim (fun a => a.1) (fun a => absurd a.2 (not_le.mpr hh))
    · exact (div_lt_iff₀ hh).mp hy1
    · exact (div_nonneg_iff.mp hz0).elim (fun a => a.1) (fun a => absurd a.2 (not_le.mpr hh))
    · exact (div_lt_iff₀ hh).mp hz1
  · simp at h

theorem Gist.nearGrid_of_onGrid (g : Gist) (hI : g.InitOK) (hh : 0 < g.gridBin_.h) (p : Vec3)
    (h : (g.gridBin_.Calc p.x p.y p.z).isSome = true) :
    g.nearGrid (p.sub g.gridBin_.O) = true := by
  obtain ⟨⟨x0, x1⟩, ⟨y0, y1⟩, ⟨z0, z1⟩⟩ := Calc_isSome_window g.gridBin_ hh p.x p.y p.z h
  have ex : (g.gridBin_.nx : ℚ) = (g.griddim_.nx : ℚ) := by
    have := hI.bin_nx
    exact_mod_cast congrArg (fun t : Int => (t : ℚ)) this
  have ey : (g.gridBin_.ny : ℚ) = (g.griddim_.ny : ℚ) := by
    have := hI.bin_ny
    exact_mod_cast congrArg (fun t : Int => (t : ℚ)) this
  have ez : (g.gridBin_.nz : ℚ) = (g.griddim_.nz : ℚ) := by
    have := hI.bin_nz
    exact_mod_cast congrArg (fun t : Int => (t : ℚ)) this
  rw [ex] at x1
  rw [ey] at y1
  rw [ez] at z1
  unfold Gist.nearGrid
  rw [hI.G_max]
  simp only [Vec3.sub, decide_eq_true_eq]
  refine ⟨?_, ?_, ?_, ?_, ?_, ?_⟩ <;> linarith

theorem Gist.calcVoxelIndex_on (g : Gist) (hI : g.InitOK) (p : Vec3)
    (h : (g.gridBin_.Calc p.x p.y p.z).isSome = true) :
    0 ≤ g.calcVoxelIndex p ∧ (g.calcVoxelIndex p).toNat < g.MAX_GRID_PT_
      ∧ g.calcVoxelIndex p ≠ OFF_GRID_ := by
  obtain ⟨⟨i, j, k⟩, hc⟩ := Option.isSome_iff_exists.mp h
  obtain ⟨hi, hj, hk⟩ := Calc_some_lt g.gridBin_ p.x p.y p.z i j k hc
  have hi' : (i : Int) < g.griddim_.nx := by rw [← hI.bin_nx]; exact_mod_cast hi
  have hj' : (j : Int) < g.griddim_.ny := by rw [← hI.bin_ny]; exact_mod_cast hj
  have hk' : (k : Int) < g.griddim_.nz := by rw [← hI.bin_nz]; exact_mod_cast hk
  obtain ⟨e, h0, h1⟩ := voxelOfBins_eq g.griddim_ i j k hI.nx_pos hI.ny_pos hI.nz_pos hI.fits
    hi' hj' hk'
  have hv : g.calcVoxelIndex p = voxelOfBins g.griddim_ i j k := by
    simp only [Gist.calcVoxelIndex, GIST.calcVoxelIndex, hc]
  rw [hv, e]
  have hm := hI.max_pt
  refine ⟨h0, by omega, ?_⟩
  unfold OFF_GRID_
  omega

theorem Gist.calcVoxelIndex_off (g : Gist) (p : Vec3)
    (h : (g.gridBin_.Calc p.x p.y p.z).isSome = false) :
    g.calcVoxelIndex p = OFF_GRID_ := by
  have hn : g.gridBin_.Calc p.x p.y p.z = none := by
    cases hc : g.gridBin_.Calc p.x p.y p.z with
    | none => rfl
    | some v => rw [hc] at h; simp at h
  simp only [Gist.calcVoxelIndex, GIST.calcVoxelIndex, hn]

/-! ## The water population `N_waters_` -/

theorem recordDensity_N_waters (g : Gist) (frm : Frame) (oidx : Nat) (st : GistState) :
    (recordDensity g frm oidx st).N_waters_ = st.N_waters_ := by
  unfold recordDensity
  refine foldl_preserves _ GistState.N_waters_ ?_ _ _
  intro s a
  simp only
  split <;> rfl

theorem recordOnGrid_N_waters (g : Gist) (frm : Frame) (oidx : Nat) (c : Vec3) (voxel : Int)
    (st : GistState) :
    (recordOnGrid g frm oidx c voxel st).N_waters_ = incrAt st.N_waters_ voxel.toNat := by
  have h : ((List.range g.nMolAtoms_).foldl (recordAtom frm oidx voxel) st).N_waters_
      = st.N_waters_ :=
    foldl_preserves (recordAtom frm oidx voxel) GistState.N_waters_ (fun _ _ => rfl) _ _
  simp only [recordOnGrid, h]

theorem molStep_N_waters (g : Gist) (hI : g.InitOK) (hh : 0 < g.gridBin_.h) (frm : Frame)
    (st : GistState) (oidx : Nat) :
    (molStep g frm st oidx).N_waters_ =
      if g.centerOnGrid frm oidx = true then
        incrAt st.N_waters_ (g.calcVoxelIndex (g.molCenter frm oidx)).toNat
      else st.N_waters_ := by
  by_cases hc : g.centerOnGrid frm oidx = true
  · have hn := g.nearGrid_of_onGrid hI hh (g.molCenter frm oidx) hc
    have hv := (g.calcVoxelIndex_on hI (g.molCenter frm oidx) hc).2.2
    unfold Gist.molCenter at hn hv
    simp only [molStep, hn, if_true, hc, recordDensity_N_waters, Gist.molCenter]
    rw [if_pos hv, recordOnGrid_N_waters]
  · have hc' : g.centerOnGrid frm oidx = false := by simpa using hc
    have hv := g.calcVoxelIndex_off (g.molCenter frm oidx) hc'
    unfold Gist.molCenter at hv
    simp only [molStep, hc']
    split
    · rw [recordDensity_N_waters]
      simp [hv]
    · simp

theorem assignMolecules_N_waters (g : Gist) (hI : g.InitOK) (hh : 0 < g.gridBin_.h)
    (frm : Frame) (l : List Nat) (st : GistState)
    (hlen : st.N_waters_.length = g.MAX_GRID_PT_) :
    (l.foldl (molStep g frm) st).N_waters_.length = g.MAX_GRID_PT_
      ∧ (l.foldl (molStep g frm) st).N_waters_.sum
          = st.N_waters_.sum + (l.filter (g.centerOnGrid frm)).length := by
  induction l generalizing st with
  | nil => simp [hlen]
  | cons a t ih =>
    rw [List.foldl_cons]
    have hs := molStep_N_waters g hI hh frm st a
    by_cases hc : g.centerOnGrid frm a = true
    · rw [if_pos hc] at hs
      have hv := (g.calcVoxelIndex_on hI (g.molCenter frm a) hc).2.1
      have hl : (molStep g frm st a).N_waters_.length = g.MAX_GRID_PT_ := by
        rw [hs, incrAt_length, hlen]
      obtain ⟨i1, i2⟩ := ih (molStep g frm st a) hl
      refine ⟨i1, ?_⟩
      rw [i2, hs, incrAt_sum _ _ (by rw [hlen]; exact hv), List.filter_cons_of_pos hc]
      simp only [List.length_cons]
      ring
    · rw [if_neg hc] at hs
      have hl : (molStep g frm st a).N_waters_.length = g.MAX_GRID_PT_ := by rw [hs, hlen]
      obtain ⟨i1, i2⟩ := ih (molStep g frm st a) hl
      refine ⟨i1, ?_⟩
      rw [i2, hs, List.filter_cons_of_neg hc]

theorem soluteStep_N_waters (g : Gist) (frm : Frame) (st : GistState) (uidx : Nat) :
    (soluteStep g frm st uidx).N_waters_ = st.N_waters_ := by
  unfold soluteStep
  simp only
  split
  · split <;> rfl
  · rfl

theorem Order_N_waters (g : Gist) (frm : Frame) (st : GistState) :
    (Order g frm st).N_waters_ = st.N_waters_ := by
  unfold Order
  exact foldl_preserves (orderMol g frm) GistState.N_waters_ (fun _ _ => rfl) _ _

theorem nbPair_N_waters (g : Gist) (frm : Frame) (a1 : Nat) (st : GistState) (gidx : Nat) :
    (nbPair g frm a1 st gidx).N_waters_ = st.N_waters_ := by
  unfold nbPair pairSolute pairSolvent
  simp only
  split_ifs <;> rfl

theorem NonbondEnergy_N_waters (g : Gist) (frm : Frame) (st : GistState) :
    (NonbondEnergy g frm st).N_waters_ = st.N_waters_ := by
  unfold NonbondEnergy
  simp only
  rw [foldl_preserves
    (fun s aidx => (List.range s.N_ON_GRID_).foldl (nbPair g frm aidx) s) GistState.N_waters_
    (fun s a => foldl_preserves (nbPair g frm a) GistState.N_waters_ (nbPair_N_waters g frm a) _ s)]
  split <;> rfl

theorem assignSolute_N_waters (g : Gist) (frm : Frame) (st : GistState) :
    (assignSolute g frm st).N_waters_ = st.N_waters_ := by
  unfold assignSolute
  split
  · exact foldl_preserves (soluteStep g frm) GistState.N_waters_
      (soluteStep_N_waters g frm) _ _
  · rfl

theorem orderPhase_N_waters (g : Gist) (frm : Frame) (st : GistState) :
    (orderPhase g frm st).N_waters_ = st.N_waters_ := by
  unfold orderPhase
  split
  · exact Order_N_waters g frm st
  · rfl

theorem energyPhase_N_waters (g : Gist) (frm : Frame) (st : GistState) :
    (energyPhase g frm st).N_waters_ = st.N_waters_ := by
  unfold energyPhase
  split
  · split
    · rfl
    · exact NonbondEnergy_N_waters g frm st
  · rfl

theorem DoAction_N_waters (g : Gist) (st : GistState) (frm : Frame) :
    (DoAction g st frm).N_waters_ = (assignMolecules g frm (frameStart frm st)).N_waters_ := by
  unfold DoAction
  rw [energyPhase_N_waters, orderPhase_N_waters, assignSolute_N_waters]

theorem run_N_waters (g : Gist) (hI : g.InitOK) (hh : 0 < g.gridBin_.h) (frames : List Frame)
    (st : GistState) (hlen : st.N_waters_.length = g.MAX_GRID_PT_) :
    (frames.foldl (DoAction g) st).N_waters_.length = g.MAX_GRID_PT_
      ∧ (frames.foldl (DoAction g) st).N_waters_.sum
          = st.N_waters_.sum + (frames.map g.onGridMolecules).sum := by
  induction frames generalizing st with
  | nil => simp [hlen]
  | cons f t ih =>
    rw [List.foldl_cons]
    obtain ⟨a1, a2⟩ := assignMolecules_N_waters g hI hh f g.O_idxs_ (frameStart f st) hlen
    have hd := DoAction_N_waters g st f
    unfold assignMolecules at hd
    obtain ⟨i1, i2⟩ := ih (DoAction g st f) (by rw [hd]; exact a1)
    refine ⟨i1, ?_⟩
    rw [i2, hd, a2]
    simp only [List.map_cons, List.sum_cons, Gist.onGridMolecules, frameStart]
    ring

/-- C2: after any sequence of frames processed by `DoAction` from the state of
`Init` (grid spacing h > 0), the sum over all voxels of `N_waters_` equals the
number of (frame, solvent molecule) pairs whose molecule center is located
inside the grid; and one molecule step adds exactly 1 to exactly one voxel
when the center is inside the grid, and leaves `N_waters_` as it is otherwise. -/
theorem N_waters_sum_eq_onGrid_count (g : Gist) (hI : g.InitOK) (hh : 0 < g.gridBin_.h)
    (frames : List Frame) :
    (g.run frames).N_waters_.length = g.MAX_GRID_PT_
      ∧ (g.run frames).N_waters_.sum = (frames.map g.onGridMolecules).sum
      ∧ ∀ (st : GistState) (frm : Frame) (oidx : Nat),
          st.N_waters_.length = g.MAX_GRID_PT_ →
          (g.centerOnGrid frm oidx = true →
            ∃ v, v < g.MAX_GRID_PT_ ∧ ∀ u, (molStep g frm st oidx).N_waters_.getD u 0
              = st.N_waters_.getD u 0 + if u = v then 1 else 0)
          ∧ (g.centerOnGrid frm oidx = false →
              (molStep g frm st oidx).N_waters_ = st.N_waters_) := by
  have h0 : g.Init.N_waters_.length = g.MAX_GRID_PT_ := by simp [Gist.Init]
  obtain ⟨r1, r2⟩ := run_N_waters g hI hh frames g.Init h0
  refine ⟨r1, ?_, ?_⟩
  · unfold Gist.run
    rw [r2]
    simp [Gist.Init]
  · intro st frm oidx hlen
    have hs := molStep_N_waters g hI hh frm st oidx
    refine ⟨fun hc => ?_, fun hc => ?_⟩
    · rw [if_pos hc] at hs
      have hv := (g.calcVoxelIndex_on hI (g.molCenter frm oidx) hc).2.1
      refine ⟨_, hv, fun u => ?_⟩
      rw [hs, incrAt_getD _ _ _ (by rw [hlen]; exact hv)]
    · rw [hc] at hs
      simpa using hs

/-! ## The pair loop of `NonbondEnergy` as a list of calls -/

theorem nbCall_congr (g : Gist) (frm : Frame) (s t : GistState) (h : sameSample s t)
    (a1 gidx : Nat) : nbCall g frm s a1 gidx = nbCall g frm t a1 gidx := by
  obtain ⟨h1, h2, h3, _⟩ := h
  simp only [nbCall, onGridXYZ, h1, h2, h3]

theorem applyCall_sameSample (g : Gist) (s : GistState) (c : EcalcCall) :
    sameSample (applyCall g s c) s := by
  unfold applyCall sameSample
  simp only
  split_ifs <;> exact ⟨rfl, rfl, rfl, rfl⟩

theorem nbPair_eq (g : Gist) (frm : Frame) (a1 : Nat) (st : GistState) (gidx : Nat) :
    nbPair g frm a1 st gidx =
      match nbCall g frm st a1 gidx with
      | none => st
      | some c => applyCall g st c := by
  unfold nbPair nbCall
  simp only
  split_ifs <;> simp [applyCall, pairSolute, pairSolvent, *]

theorem sameSample_trans {s t u : GistState} (h1 : sameSample s t) (h2 : sameSample t u) :
    sameSample s u :=
  ⟨h1.1.trans h2.1, h1.2.1.trans h2.2.1, h1.2.2.1.trans h2.2.2.1, h1.2.2.2.trans h2.2.2.2⟩

theorem foldl_applyCall_sameSample (g : Gist) (l : List EcalcCall) (s : GistState) :
    sameSample (l.foldl (applyCall g) s) s := by
  induction l generalizing s with
  | nil => exact ⟨rfl, rfl, rfl, rfl⟩
  | cons c t ih =>
    rw [List.foldl_cons]
    exact sameSample_trans (ih _) (applyCall_sameSample g s c)

theorem nb_inner_fold (g : Gist) (frm : Frame) (a1 : Nat) (t : GistState) (l : List Nat)
    (s : GistState) (hs : sameSample s t) :
    l.foldl (nbPair g frm a1) s = (l.filterMap (nbCall g frm t a1)).foldl (applyCall g) s := by
  induction l generalizing s with
  | nil => rfl
  | cons x l ih =>
    rw [List.foldl_cons, nbPair_eq, nbCall_congr g frm s t hs]
    cases hc : nbCall g frm t a1 x with
    | none =>
      simp only [List.filterMap_cons, hc]
      exact ih s hs
    | some c =>
      simp only [List.filterMap_cons, hc, List.foldl_cons]
      exact ih _ (sameSample_trans (applyCall_sameSample g s c) hs)

theorem nb_outer_fold (g : Gist) (frm : Frame) (t : GistState) (l : List Nat)
    (s : GistState) (hs : sameSample s t) :
    l.foldl (fun s aidx => (List.range s.N_ON_GRID_).foldl (nbPair g frm aidx) s) s
      = (l.flatMap fun a1 => (List.range t.N_ON_GRID_).filterMap (nbCall g frm t a1)).foldl
          (applyCall g) s := by
  induction l generalizing s with
  | nil => rfl
  | cons a l ih =>
    rw [List.foldl_cons, List.flatMap_cons, List.foldl_append, hs.2.2.2,
      nb_inner_fold g frm a t _ s hs]
    exact ih _ (sameSample_trans (foldl_applyCall_sameSample g _ s) hs)

theorem NonbondEnergy_eq (g : Gist) (frm : Frame) (st : GistState) :
    NonbondEnergy g frm st
      = (frameCalls g frm (nbStart frm st)).foldl (applyCall g) (nbStart frm st) := by
  have h := nb_outer_fold g frm (nbStart frm st) (List.range frm.Natom) (nbStart frm st)
    ⟨rfl, rfl, rfl, rfl⟩
  unfold NonbondEnergy frameCalls
  exact h

theorem foldl_applyCall_calls (g : Gist) (l : List EcalcCall) (s : GistState) :
    (l.foldl (applyCall g) s).calls = s.calls ++ l := by
  induction l generalizing s with
  | nil => simp
  | cons c t ih =>
    rw [List.foldl_cons, ih]
    have : (applyCall g s c).calls = s.calls ++ [c] := by
      unfold applyCall
      simp only
      split_ifs <;> rfl
    rw [this, List.append_assoc, List.singleton_append]

theorem NonbondEnergy_calls (g : Gist) (frm : Frame) (st : GistState) :
    (NonbondEnergy g frm st).calls = st.calls ++ frameCalls g frm (nbStart frm st) := by
  rw [NonbondEnergy_eq, foldl_applyCall_calls]
  congr 1
  unfold nbStart
  split <;> rfl

/-! ## The per-frame sample of on-grid atoms -/

theorem recordAtom_fold (frm : Frame) (o : Nat) (v : Int) (st : GistState) (k : Nat) :
    ((List.range k).foldl (recordAtom frm o v) st).OnGrid_idxs_
        = st.OnGrid_idxs_ ++ (List.range k).map (fun i => o + i)
      ∧ ((List.range k).foldl (recordAtom frm o v) st).atom_voxel_.length
        = st.atom_voxel_.length
      ∧ (∀ a, ((List.range k).foldl (recordAtom frm o v) st).atom_voxel_.getD a OFF_GRID_
        = if o ≤ a ∧ a < o + k ∧ a < st.atom_voxel_.length then v
          else st.atom_voxel_.getD a OFF_GRID_)
      ∧ ((List.range k).foldl (recordAtom frm o v) st).N_ON_GRID_ = st.N_ON_GRID_ := by
  induction k with
  | zero =>
    refine ⟨by simp, by simp, fun a => ?_, by simp⟩
    rw [if_neg (by omega)]
    simp
  | succ k ih =>
    obtain ⟨h1, h2, h3, h4⟩ := ih
    rw [List.range_succ, List.foldl_append]
    simp only [List.foldl_cons, List.foldl_nil, recordAtom, List.map_append, List.map_cons,
      List.map_nil, List.length_set]
    refine ⟨by rw [h1, List.append_assoc], h2, ?_, h4⟩
    intro a
    have h3a := h3 a
    simp only [List.getD_eq_getElem?_getD] at h3a ⊢
    rw [List.getElem?_set, h2]
    by_cases ha : o + k = a
    · subst ha
      by_cases hl : o + k < st.atom_voxel_.length
      · simp [hl]
      · rw [if_neg (by omega)] at h3a
        have hnone : st.atom_voxel_[o + k]? = none := List.getElem?_eq_none (by omega)
        simp [hl, hnone]
    · rw [if_neg ha, h3a]
      by_cases c1 : o ≤ a ∧ a < o + k ∧ a < st.atom_voxel_.length
      · rw [if_pos c1, if_pos ⟨c1.1, by omega, c1.2.2⟩]
      · rw [if_neg c1, if_neg (by omega)]

theorem sameSample_refl (s : GistState) : sameSample s s := ⟨rfl, rfl, rfl, rfl⟩

theorem foldl_sameSample {α : Type} (f : GistState → α → GistState)
    (h : ∀ s a, sameSample (f s a) s) (l : List α) (s : GistState) :
    sameSample (l.foldl f s) s := by
  induction l generalizing s with
  | nil => exact sameSample_refl s
  | cons a t ih =>
    rw [List.foldl_cons]
    exact sameSample_trans (ih _) (h s a)

theorem recordDensity_sameSample (g : Gist) (frm : Frame) (oidx : Nat) (st : GistState) :
    sameSample (recordDensity g frm oidx st) st := by
  unfold recordDensity
  refine foldl_sameSample _ ?_ _ _
  intro s a
  simp only
  split
  · exact ⟨rfl, rfl, rfl, rfl⟩
  · exact sameSample_refl s

theorem recordOnGrid_sample (g : Gist) (frm : Frame) (o : Nat) (c : Vec3) (v : Int)
    (st : GistState) :
    (recordOnGrid g frm o c v st).OnGrid_idxs_
        = st.OnGrid_idxs_ ++ (List.range g.nMolAtoms_).map (fun i => o + i)
      ∧ (recordOnGrid g frm o c v st).atom_voxel_.length = st.atom_voxel_.length
      ∧ (∀ a, (recordOnGrid g frm o c v st).atom_voxel_.getD a OFF_GRID_
        = if o ≤ a ∧ a < o + g.nMolAtoms_ ∧ a < st.atom_voxel_.length then v
          else st.atom_voxel_.getD a OFF_GRID_)
      ∧ (recordOnGrid g frm o c v st).N_ON_GRID_ = st.N_ON_GRID_ + g.nMolAtoms_ := by
  obtain ⟨h1, h2, h3, h4⟩ := recordAtom_fold frm o v st g.nMolAtoms_
  simp only [recordOnGrid]
  exact ⟨h1, h2, h3, by rw [h4]⟩

theorem molStep_sample (g : Gist) (frm : Frame) (st : GistState) (o : Nat) :
    (g.molOnGrid frm o = true →
        sameSample (molStep g frm st o)
          (recordOnGrid g frm o (g.molCenter frm o) (g.calcVoxelIndex (g.molCenter frm o)) st))
      ∧ (g.molOnGrid frm o = false → sameSample (molStep g frm st o) st) := by
  unfold Gist.molOnGrid Gist.molCenter
  constructor
  · intro h
    simp only [Bool.and_eq_true, decide_eq_true_eq] at h
    simp only [molStep, h.1, if_true, if_pos h.2]
    exact recordDensity_sameSample g frm o _
  · intro h
    simp only [Bool.and_eq_false_iff, decide_eq_false_iff_not, not_not] at h
    simp only [molStep]
    split
    · rename_i hn
      rcases h with h | h
      · rw [h] at hn
        simp at hn
      · rw [if_neg (by simpa using h)]
        exact recordDensity_sameSample g frm o _
    · exact sameSample_refl st

theorem SampleOK_of_sameSample {s t : GistState} {frm : Frame} (h : sameSample s t)
    (ht : SampleOK t frm) : SampleOK s frm := by
  obtain ⟨h1, h2, _, h4⟩ := h
  exact ⟨by rw [h4, h2]; exact ht.count, by rw [h2]; exact ht.nodup,
    by rw [h1, h2]; exact ht.onGrid_iff, by rw [h2]; exact ht.inFrame,
    by rw [h1]; exact ht.voxel_len⟩

theorem assign_sample (g : Gist) (frm : Frame) (l : List Nat)
    (hsorted : l.Pairwise (fun o o' => o + g.nMolAtoms_ ≤ o'))
    (hframe : ∀ o ∈ l, o + g.nMolAtoms_ ≤ frm.Natom)
    (s : GistState) (hs : SampleOK s frm)
    (hbelow : ∀ a ∈ s.OnGrid_idxs_, ∀ o ∈ l, a < o) :
    SampleOK (l.foldl (molStep g frm) s) frm := by
  induction l generalizing s with
  | nil => exact hs
  | cons o rest ih =>
    rw [List.foldl_cons]
    rw [List.pairwise_cons] at hsorted
    obtain ⟨hhead, hrest⟩ := hsorted
    have hfo : o + g.nMolAtoms_ ≤ frm.Natom := hframe o (List.mem_cons_self _ _)
    have hf' : ∀ o' ∈ rest, o' + g.nMolAtoms_ ≤ frm.Natom :=
      fun o' ho' => hframe o' (List.mem_cons_of_mem _ ho')
    by_cases hon : g.molOnGrid frm o = true
    · have hsame := (molStep_sample g frm s o).1 hon
      have hv : g.calcVoxelIndex (g.molCenter frm o) ≠ OFF_GRID_ := by
        unfold Gist.molOnGrid at hon
        simp only [Bool.and_eq_true, decide_eq_true_eq] at hon
        exact hon.2
      obtain ⟨r1, r2, r3, r4⟩ := recordOnGrid_sample g frm o (g.molCenter frm o)
        (g.calcVoxelIndex (g.molCenter frm o)) s
      have hmem : ∀ a, a ∈ (List.range g.nMolAtoms_).map (fun i => o + i)
          ↔ o ≤ a ∧ a < o + g.nMolAtoms_ := by
        intro a
        simp only [List.mem_map, List.mem_range]
        constructor
        · rintro ⟨i, hi, rfl⟩
          omega
        · intro ha
          exact ⟨a - o, by omega, by omega⟩
      have hok : SampleOK (recordOnGrid g frm o (g.molCenter frm o)
          (g.calcVoxelIndex (g.molCenter frm o)) s) frm := by
        refine ⟨?_, ?_, ?_, ?_, ?_⟩
        · rw [r4, r1, hs.count]
          simp
        · rw [r1]
          refine List.Nodup.append hs.nodup ?_ ?_
          · exact (List.nodup_range _).map (fun i j h => by simpa using h)
          · intro a ha hb
            have := hbelow a ha o (List.mem_cons_self _ _)
            have := (hmem a).mp hb
            omega
        · intro a
          rw [r1, r3, List.mem_append, hmem, hs.voxel_len]
          by_cases c : o ≤ a ∧ a < o + g.nMolAtoms_
          · have c' : o ≤ a ∧ a < o + g.nMolAtoms_ ∧ a < frm.Natom := ⟨c.1, c.2, by omega⟩
            rw [if_pos c']
            exact ⟨fun _ => hv, fun _ => Or.inr c⟩
          · have c' : ¬(o ≤ a ∧ a < o + g.nMolAtoms_ ∧ a < frm.Natom) :=
              fun h => c ⟨h.1, h.2.1⟩
            rw [if_neg c', ← hs.onGrid_iff]
            exact ⟨fun h => h.elim id (fun h => absurd h c), Or.inl⟩
        · intro a ha
          rw [r1, List.mem_append, hmem] at ha
          rcases ha with ha | ha
          · exact hs.inFrame a ha
          · omega
        · rw [r2]
          exact hs.voxel_len
      refine ih hrest hf' _ (SampleOK_of_sameSample hsame hok) ?_
      intro a ha o' ho'
      rw [hsame.2.1, r1, List.mem_append, hmem] at ha
      rcases ha with ha | ha
      · exact hbelow a ha o' (List.mem_cons_of_mem _ ho')
      · have := hhead o' ho'
        omega
    · have hoff : g.molOnGrid frm o = false := by simpa using hon
      have hsame := (molStep_sample g frm s o).2 hoff
      refine ih hrest hf' _ (SampleOK_of_sameSample hsame hs) ?_
      intro a ha o' ho'
      rw [hsame.2.1] at ha
      exact hbelow a ha o' (List.mem_cons_of_mem _ ho')

theorem frameStart_sample (frm : Frame) (st : GistState) : SampleOK (frameStart frm st) frm := by
  refine ⟨rfl, List.nodup_nil, ?_, ?_, ?_⟩
  · intro a
    simp only [frameStart, List.not_mem_nil, false_iff, not_not, List.getD_eq_getElem?_getD]
    by_cases h : a < frm.Natom
    · simp [h]
    · simp [List.getElem?_eq_none, h]
  · intro a ha
    simp [frameStart] at ha
  · simp [frameStart]

theorem assignMolecules_sample (g : Gist) (hS : g.SetupOK) (frm : Frame) (hF : g.FrameOK frm)
    (st : GistState) : SampleOK (assignMolecules g frm (frameStart frm st)) frm := by
  unfold assignMolecules
  refine assign_sample g frm g.O_idxs_ hS.mols_sorted hF _ (frameStart_sample frm st) ?_
  intro a ha
  simp [frameStart] at ha

/-! ## Counting the calls of `Ecalc` -/

theorem map_getD_range (l : List Nat) (d : Nat) :
    (List.range l.length).map (fun i => l.getD i d) = l := by
  apply List.ext_getElem
  · simp
  · intro i h1 h2
    simp [List.getD_eq_getElem?_getD, List.getElem?_eq_getElem h2]

theorem countP_flatMap_single {ι β : Type} (l : List ι) (hl : l.Nodup) (f : ι → List β)
    (p : β → Bool) (i0 : ι) (h0 : ∀ i ∈ l, i ≠ i0 → (f i).countP p = 0) [DecidableEq ι] :
    (l.flatMap f).countP p = if i0 ∈ l then (f i0).countP p else 0 := by
  induction l with
  | nil => simp
  | cons a t ih =>
    rw [List.nodup_cons] at hl
    rw [List.flatMap_cons, List.countP_append,
      ih hl.2 (fun i hi => h0 i (List.mem_cons_of_mem _ hi))]
    by_cases ha : a = i0
    · subst ha
      simp [hl.1]
    · rw [h0 a (List.mem_cons_self _ _) ha]
      have : (i0 ∈ a :: t) ↔ i0 ∈ t := by
        simp only [List.mem_cons]
        exact ⟨fun h => h.elim (fun e => absurd e.symm ha) id, Or.inr⟩
      simp only [this, Nat.zero_add]

theorem nbCall_hit (g : Gist) (frm : Frame) (s : GistState) (a b gidx : Nat) :
    (Option.map (fun c : EcalcCall => decide (c.a1 = a ∧ c.a2 = b))
        (nbCall g frm s a gidx)).getD false
      = (decide (s.OnGrid_idxs_.getD gidx 0 = b) && nbGuard g s a b) := by
  unfold nbCall nbGuard
  simp only
  by_cases hb : s.OnGrid_idxs_.getD gidx 0 = b
  · subst hb
    split_ifs <;> simp_all
  · split_ifs <;> simp_all

theorem nbCall_miss (g : Gist) (frm : Frame) (s : GistState) (a a1 b gidx : Nat)
    (h : a1 ≠ a) :
    (Option.map (fun c : EcalcCall => decide (c.a1 = a ∧ c.a2 = b))
        (nbCall g frm s a1 gidx)).getD false = false := by
  unfold nbCall
  simp only
  split_ifs <;> simp_all

theorem orderedCount_frameCalls (g : Gist) (frm : Frame) (s : GistState) (hs : SampleOK s frm)
    (a b : Nat) :
    orderedCount (frameCalls g frm s) a b
      = if a < frm.Natom ∧ b ∈ s.OnGrid_idxs_ ∧ nbGuard g s a b = true then 1 else 0 := by
  unfold orderedCount frameCalls
  rw [countP_flatMap_single (List.range frm.Natom) (List.nodup_range _) _ _ a]
  · simp only [List.mem_range]
    by_cases ha : a < frm.Natom
    · simp only [ha, if_true, true_and]
      rw [List.countP_filterMap]
      simp only [nbCall_hit]
      rw [hs.count]
      have e : (fun gidx => decide (s.OnGrid_idxs_.getD gidx 0 = b) && nbGuard g s a b)
          = (fun x => decide (x = b) && nbGuard g s a b) ∘ (fun i => s.OnGrid_idxs_.getD i 0) := rfl
      rw [e, ← List.countP_map, map_getD_range]
      by_cases hg : nbGuard g s a b = true
      · simp only [hg, Bool.and_true, and_true]
        have : List.countP (fun x => decide (x = b)) s.OnGrid_idxs_ = List.count b s.OnGrid_idxs_ := by
          unfold List.count
          apply List.countP_congr
          intro x _
          simp only [decide_eq_true_eq, beq_iff_eq]
        rw [this, List.count_eq_of_nodup hs.nodup]
      · have hg' : nbGuard g s a b = false := by simpa using hg
        rw [if_neg (fun h => hg h.2), List.countP_eq_zero]
        intro x _
        rw [hg', Bool.and_false]
        exact Bool.false_ne_true
    · simp [ha]
  · intro i _ hi
    rw [List.countP_filterMap]
    rw [List.countP_eq_zero]
    intro gidx _
    rw [nbCall_miss g frm s a i b gidx hi]
    simp

theorem pairCount_eq (calls : List EcalcCall) (a b : Nat) (hab : a ≠ b) :
    pairCount calls a b = orderedCount calls a b + orderedCount calls b a := by
  unfold pairCount orderedCount
  induction calls with
  | nil => rfl
  | cons c t ih =>
    rw [List.countP_cons, List.countP_cons, List.countP_cons, ih]
    by_cases h1 : c.a1 = a ∧ c.a2 = b
    · have h2 : ¬(c.a1 = b ∧ c.a2 = a) := fun h => hab (h1.1.symm.trans h.1)
      rw [if_pos (decide_eq_true (Or.inl h1)), if_pos (decide_eq_true h1),
        if_neg (by rw [decide_eq_false h2]; exact Bool.false_ne_true)]
      omega
    · by_cases h2 : c.a1 = b ∧ c.a2 = a
      · rw [if_pos (decide_eq_true (Or.inr h2)), if_pos (decide_eq_true h2),
          if_neg (by rw [decide_eq_false h1]; exact Bool.false_ne_true)]
        omega
      · have h3 : ¬((c.a1 = a ∧ c.a2 = b) ∨ (c.a1 = b ∧ c.a2 = a)) := fun h => h.elim h1 h2
        rw [if_neg (by rw [decide_eq_false h3]; exact Bool.false_ne_true),
          if_neg (by rw [decide_eq_false h1]; exact Bool.false_ne_true),
          if_neg (by rw [decide_eq_false h2]; exact Bool.false_ne_true)]
        omega

theorem orderPhase_sameSample (g : Gist) (frm : Frame) (st : GistState) :
    sameSample (orderPhase g frm st) st := by
  unfold orderPhase
  split
  · unfold Order
    exact foldl_sameSample (orderMol g frm) (fun _ _ => ⟨rfl, rfl, rfl, rfl⟩) _ _
  · exact sameSample_refl st

theorem nbStart_fields (frm : Frame) (st : GistState) :
    (nbStart frm st).atom_voxel_ = st.atom_voxel_
      ∧ (nbStart frm st).OnGrid_idxs_ = st.OnGrid_idxs_
      ∧ (nbStart frm st).N_ON_GRID_ = st.N_ON_GRID_ := by
  unfold nbStart
  split <;> exact ⟨rfl, rfl, rfl⟩

theorem nbStart_sample (frm : Frame) (st : GistState) (h : SampleOK st frm) :
    SampleOK (nbStart frm st) frm := by
  obtain ⟨h1, h2, h3⟩ := nbStart_fields frm st
  exact ⟨by rw [h3, h2]; exact h.count, by rw [h2]; exact h.nodup,
    by rw [h1, h2]; exact h.onGrid_iff, by rw [h2]; exact h.inFrame,
    by rw [h1]; exact h.voxel_len⟩

/-- C3: in the frame's run of `NonbondEnergy` (on the state that `DoAction`
hands to it: atoms of the frame assigned to voxels, molecules contiguous), the
accumulators are the result of applying the recorded calls of `Ecalc` in order,
and every unordered pair `{a, b}` of solvent atoms of different molecules is
the subject of exactly one call when at least one of the two is on the grid,
and of no call when neither is. -/
theorem NonbondEnergy_pair_once (g : Gist) (hS : g.SetupOK) (frm : Frame) (hF : g.FrameOK frm)
    (st0 : GistState) (a b : Nat) (ha : a < frm.Natom) (hb : b < frm.Natom)
    (hsa : g.atomIsSolute_ a = false) (hsb : g.atomIsSolute_ b = false)
    (hmol : g.CurrentParm_.MolNum a ≠ g.CurrentParm_.MolNum b) :
    let st := orderPhase g frm (assignMolecules g frm (frameStart frm st0))
    let calls := frameCalls g frm (nbStart frm st)
    NonbondEnergy g frm st = calls.foldl (applyCall g) (nbStart frm st)
      ∧ (NonbondEnergy g frm st).calls = st.calls ++ calls
      ∧ ((st.atom_voxel_.getD a OFF_GRID_ ≠ OFF_GRID_ ∨ st.atom_voxel_.getD b OFF_GRID_ ≠ OFF_GRID_)
          → pairCount calls a b = 1)
      ∧ ((st.atom_voxel_.getD a OFF_GRID_ = OFF_GRID_ ∧ st.atom_voxel_.getD b OFF_GRID_ = OFF_GRID_)
          → pairCount calls a b = 0) := by
  intro st calls
  have hab : a ≠ b := fun h => hmol (by rw [h])
  have hst : SampleOK st frm :=
    SampleOK_of_sameSample (orderPhase_sameSample g frm _) (assignMolecules_sample g hS frm hF st0)
  have hns := nbStart_sample frm st hst
  obtain ⟨f1, f2, _⟩ := nbStart_fields frm st
  have c1 := orderedCount_frameCalls g frm (nbStart frm st) hns a b
  have c2 := orderedCount_frameCalls g frm (nbStart frm st) hns b a
  have hpc : pairCount calls a b = orderedCount calls a b + orderedCount calls b a :=
    pairCount_eq calls a b hab
  have hia := hns.onGrid_iff a
  have hib := hns.onGrid_iff b
  rw [f1] at hia hib
  have g1 : nbGuard g (nbStart frm st) a b = true
      ↔ (b > a ∨ st.atom_voxel_.getD a OFF_GRID_ = OFF_GRID_) := by
    unfold nbGuard
    rw [f1]
    simp only [decide_eq_true_eq, hsa, Bool.false_eq_true, false_or]
    exact ⟨fun h => h.2.2, fun h => ⟨hmol, fun e => hab e.symm, h⟩⟩
  have g2 : nbGuard g (nbStart frm st) b a = true
      ↔ (a > b ∨ st.atom_voxel_.getD b OFF_GRID_ = OFF_GRID_) := by
    unfold nbGuard
    rw [f1]
    simp only [decide_eq_true_eq, hsb, Bool.false_eq_true, false_or]
    exact ⟨fun h => h.2.2, fun h => ⟨fun e => hmol e.symm, hab, h⟩⟩
  refine ⟨NonbondEnergy_eq g frm st, NonbondEnergy_calls g frm st, ?_, ?_⟩
  · intro hon
    rw [hpc, c1, c2]
    simp only [ha, hb, true_and, g1, g2, hia, hib]
    by_cases va : st.atom_voxel_.getD a OFF_GRID_ = OFF_GRID_
    · have vb : st.atom_voxel_.getD b OFF_GRID_ ≠ OFF_GRID_ := hon.resolve_left (fun h => h va)
      rw [if_pos ⟨vb, Or.inr va⟩, if_neg (fun h => h.1 va)]
    · by_cases vb : st.atom_voxel_.getD b OFF_GRID_ = OFF_GRID_
      · rw [if_neg (fun h => h.1 vb), if_pos ⟨va, Or.inr vb⟩]
      · rcases Nat.lt_or_gt_of_ne hab with h | h
        · rw [if_pos ⟨vb, Or.inl h⟩, if_neg (fun h' => h'.2.elim (fun x => by omega) vb)]
        · rw [if_neg (fun h' => h'.2.elim (fun x => by omega) va), if_pos ⟨va, Or.inl h⟩]
  · rintro ⟨va, vb⟩
    rw [hpc, c1, c2]
    simp only [ha, hb, true_and, g1, g2, hia, hib]
    rw [if_neg (fun h => h.1 vb), if_neg (fun h => h.1 va)]

/-! ## `Print`: normalisation -/

theorem getD_map_range (n v : Nat) (f : Nat → ℚ) (hv : v < n) :
    ((List.range n).map f).getD v 0 = f v := by
  rw [List.getD_eq_getElem?_getD, List.getElem?_map, List.getElem?_range hv]
  rfl

theorem ScaleFarray_getD (arr : List ℚ) (c : ℚ) (v : Nat) :
    (ScaleFarray arr c).getD v 0 = arr.getD v 0 * c := by
  unfold ScaleFarray
  rw [List.getD_eq_getElem?_getD, List.getD_eq_getElem?_getD, List.getElem?_map]
  cases arr[v]? <;> simp

theorem SumEVV_getD (n : Nat) (a b : List ℚ) (v : Nat) (hv : v < n) :
    (SumEVV n a b).getD v 0 = a.getD v 0 + b.getD v 0 := by
  unfold SumEVV
  rw [getD_map_range n v _ hv, zero_add]

theorem SumEVV_length (n : Nat) (a b : List ℚ) : (SumEVV n a b).length = n := by
  simp [SumEVV]

theorem NormalizeFarray_getD (arr : List ℚ) (norm : List Nat) (v : Nat) (hv : v < arr.length) :
    (NormalizeFarray arr norm).getD v 0
      = if norm.getD v 0 = 0 then 0 else arr.getD v 0 / (norm.getD v 0 : ℚ) := by
  unfold NormalizeFarray
  rw [getD_map_range _ v _ hv]

/-- C4: after `Print`, for every voxel v (exact arithmetic, at least one frame,
voxel volume not zero), with `Esw_raw = E_UV_VDW_[v] + E_UV_Elec_[v]` and
`Eww_raw = E_VV_VDW_[v] + E_VV_Elec_[v]`:
`Esw_dens[v] = Esw_raw/(NFRAME_*Vvox)`, `Eww_dens[v] = Eww_raw/(2*NFRAME_*Vvox)`;
when `N_waters_[v] > 0`, `Esw_norm[v] = Esw_dens[v]*NFRAME_*Vvox/N_waters_[v]`
and `Eww_norm[v] = Eww_dens[v]*NFRAME_*Vvox/N_waters_[v]`, that is
`Esw_raw/N_waters_[v]` and `Eww_raw/(2*N_waters_[v])`: the factor 1/2 is
applied to Eww only; when `N_waters_[v] = 0` both norms are 0. -/
theorem Print_energy_normalisation (g : Gist) (st : GistState) (v : Nat)
    (hv : v < g.MAX_GRID_PT_) (hN : 0 < st.NFRAME_) (hV : g.gridBin_.VoxelVolume ≠ 0) :
    (Print g st).Esw_dens.getD v 0
        = (st.E_UV_VDW_.getD v 0 + st.E_UV_Elec_.getD v 0)
            / ((st.NFRAME_ : ℚ) * g.gridBin_.VoxelVolume)
      ∧ (Print g st).Eww_dens.getD v 0
        = (st.E_VV_VDW_.getD v 0 + st.E_VV_Elec_.getD v 0)
            / (2 * (st.NFRAME_ : ℚ) * g.gridBin_.VoxelVolume)
      ∧ (0 < st.N_waters_.getD v 0 →
          (Print g st).Esw_norm.getD v 0
              = (Print g st).Esw_dens.getD v 0 * (st.NFRAME_ : ℚ) * g.gridBin_.VoxelVolume
                  / (st.N_waters_.getD v 0 : ℚ)
            ∧ (Print g st).Eww_norm.getD v 0
              = (Print g st).Eww_dens.getD v 0 * (st.NFRAME_ : ℚ) * g.gridBin_.VoxelVolume
                  / (st.N_waters_.getD v 0 : ℚ)
            ∧ (Print g st).Esw_norm.getD v 0
              = (st.E_UV_VDW_.getD v 0 + st.E_UV_Elec_.getD v 0) / (st.N_waters_.getD v 0 : ℚ)
            ∧ (Print g st).Eww_norm.getD v 0
              = (st.E_VV_VDW_.getD v 0 + st.E_VV_Elec_.getD v 0)
                  / (2 * (st.N_waters_.getD v 0 : ℚ)))
      ∧ (st.N_waters_.getD v 0 = 0 →
          (Print g st).Esw_norm.getD v 0 = 0 ∧ (Print g st).Eww_norm.getD v 0 = 0) := by
  have hNq : (st.NFRAME_ : ℚ) ≠ 0 := by
    have : 0 < (st.NFRAME_ : ℚ) := by exact_mod_cast hN
    exact ne_of_gt this
  have e1 : (Print g st).Esw_dens.getD v 0
      = (st.E_UV_VDW_.getD v 0 + st.E_UV_Elec_.getD v 0)
          / ((st.NFRAME_ : ℚ) * g.gridBin_.VoxelVolume) := by
    simp only [Print, ScaleFarray_getD, SumEVV_getD _ _ _ _ hv]
    rw [mul_one_div]
  have e2 : (Print g st).Eww_dens.getD v 0
      = (st.E_VV_VDW_.getD v 0 + st.E_VV_Elec_.getD v 0)
          / (2 * (st.NFRAME_ : ℚ) * g.gridBin_.VoxelVolume) := by
    simp only [Print, ScaleFarray_getD, SumEVV_getD _ _ _ _ hv]
    rw [mul_one_div]
  have n1 : (Print g st).Esw_norm.getD v 0
      = if st.N_waters_.getD v 0 = 0 then 0
        else (st.E_UV_VDW_.getD v 0 + st.E_UV_Elec_.getD v 0) / (st.N_waters_.getD v 0 : ℚ) := by
    simp only [Print]
    rw [NormalizeFarray_getD _ _ _ (by rw [SumEVV_length]; exact hv), SumEVV_getD _ _ _ _ hv]
  have n2 : (Print g st).Eww_norm.getD v 0
      = (if st.N_waters_.getD v 0 = 0 then 0
        else (st.E_VV_VDW_.getD v 0 + st.E_VV_Elec_.getD v 0) / (st.N_waters_.getD v 0 : ℚ))
          * (1 / 2) := by
    simp only [Print, ScaleFarray_getD]
    rw [NormalizeFarray_getD _ _ _ (by rw [SumEVV_length]; exact hv), SumEVV_getD _ _ _ _ hv]
  refine ⟨e1, e2, ?_, ?_⟩
  · intro hw
    have hw0 : st.N_waters_.getD v 0 ≠ 0 := by omega
    have hwq : (st.N_waters_.getD v 0 : ℚ) ≠ 0 := by exact_mod_cast hw0
    rw [n1, n2, e1, e2, if_neg hw0, if_neg hw0]
    generalize st.E_UV_VDW_.getD v 0 + st.E_UV_Elec_.getD v 0 = A
    generalize st.E_VV_VDW_.getD v 0 + st.E_VV_Elec_.getD v 0 = B
    generalize (st.N_waters_.getD v 0 : ℚ) = n at hwq ⊢
    generalize (st.NFRAME_ : ℚ) = F at hNq ⊢
    generalize g.gridBin_.VoxelVolume = V at hV ⊢
    refine ⟨?_, ?_, rfl, ?_⟩
    · field_simp
      ring
    · field_simp
      ring
    · rw [div_mul_eq_mul_div, mul_one_div, div_div]
  · intro hw
    rw [n1, n2, if_pos hw, if_pos hw]
    exact ⟨rfl, zero_mul _⟩

/-- Witness for C4: voxel 0 of the example after one frame (it holds one
water). -/
theorem Print_energy_normalisation_witness :
    (Print exGist (exRun ⟨3, 1 / 2, 1 / 2⟩)).Eww_norm.getD 0 0
      = ((exRun ⟨3, 1 / 2, 1 / 2⟩).E_VV_VDW_.getD 0 0 + (exRun ⟨3, 1 / 2, 1 / 2⟩).E_VV_Elec_.getD 0 0)
          / (2 * ((exRun ⟨3, 1 / 2, 1 / 2⟩).N_waters_.getD 0 0 : ℚ)) :=
  ((Print_energy_normalisation exGist (exRun ⟨3, 1 / 2, 1 / 2⟩) 0 (by decide!) (by decide!)
    (by decide!)).2.2.1 (by decide!)).2.2.2

/-! ## Neighbour counts -/

/-- Counterexample to C5 as stated: the two oxygens of the example at a distance
of exactly 3.5 Å, the cutoff (`r² = 49/4 = NeighborCut2_`, so `r² ≤ cutoff²`):
the pair is evaluated once, both atoms are head atoms on the grid, and no
neighbour counter is incremented. -/
theorem neighbor_at_cutoff_not_counted :
    (((exRun ⟨4, 1 / 2, 1 / 2⟩).calls.filter
        (fun c => decide (c.a1 = 0 ∧ c.a2 = 3))).map (fun c => (c.rij2, c.solute))
        = [(49 / 4, false)])
      ∧ exGist.NeighborCut2_ = 49 / 4
      ∧ exGist.atomIsSolventO_ 0 = true ∧ exGist.atomIsSolventO_ 3 = true
      ∧ (exRun ⟨4, 1 / 2, 1 / 2⟩).N_waters_ = [1, 0, 0, 0, 1, 0, 0, 0]
      ∧ (exRun ⟨4, 1 / 2, 1 / 2⟩).neighbor_ = [0, 0, 0, 0, 0, 0, 0, 0] := by
  decide!

/-- C5 (amended): for a water-water pair evaluated by the pair loop in which
both atoms are solvent head atoms, the neighbour counter of v(a2), and of v(a1)
when a1 is on the grid, is incremented by 1 if and only if `rij2 <
NeighborCut2_` (strictly: a pair at exactly the cutoff is not counted); and a
voxel that holds one water and has neighbour count 1 has `neighbor_norm = 1`
after `Print`. -/
theorem neighbor_counted_iff_below_cutoff (g : Gist) (frm : Frame) (a1 a2 : Nat)
    (a1_voxel a2_voxel : Int) (A2_XYZ : Vec3) (st : GistState)
    (h1 : g.atomIsSolventO_ a1 = true) (h2 : g.atomIsSolventO_ a2 = true) :
    (pairSolvent g frm a1 a2 a1_voxel a2_voxel A2_XYZ st).neighbor_
        = (if pairDist2 frm (frm.XYZ a1) A2_XYZ < g.NeighborCut2_ then
            if a1_voxel ≠ OFF_GRID_ then
              addAt (addAt st.neighbor_ a2_voxel.toNat 1) a1_voxel.toNat 1
            else addAt st.neighbor_ a2_voxel.toNat 1
          else st.neighbor_)
      ∧ ∀ v, v < g.MAX_GRID_PT_ → st.neighbor_.length = g.MAX_GRID_PT_ →
          st.N_waters_.getD v 0 = 1 → st.neighbor_.getD v 0 = 1 →
          (Print g st).neighbor_norm.getD v 0 = 1 := by
  constructor
  · unfold pairSolvent
    simp only [h1, h2, Bool.and_self, true_and]
    split_ifs <;> rfl
  · intro v hv hlen hN hn
    simp only [Print]
    rw [NormalizeFarray_getD _ _ _ (by simpa using hv), getD_map_range _ _ _ hv, hN, hn]
    norm_num

/-- Witness for C5 (amended): the two oxygens of the example at a distance of
2.5 Å with cutoff 3.5 Å, in voxels 0 and 3: each neighbour counter is 1, and
`neighbor_norm` is 1 in each of the two voxels. -/
theorem neighbor_counted_iff_below_cutoff_witness :
    (((exRun ⟨3, 1 / 2, 1 / 2⟩).calls.filter
        (fun c => decide (c.a1 = 0 ∧ c.a2 = 3))).map (fun c => c.rij2) = [25 / 4])
      ∧ (exRun ⟨3, 1 / 2, 1 / 2⟩).neighbor_ = [1, 0, 0, 1, 0, 0, 0, 0]
      ∧ (Print exGist (exRun ⟨3, 1 / 2, 1 / 2⟩)).neighbor_norm.getD 0 0 = 1
      ∧ (Print exGist (exRun ⟨3, 1 / 2, 1 / 2⟩)).neighbor_norm.getD 3 0 = 1 :=
  ⟨by decide!, by decide!,
    (neighbor_counted_iff_below_cutoff exGist (exFrame ⟨3, 1 / 2, 1 / 2⟩) 0 3 0 3
      ⟨3, 1 / 2, 1 / 2⟩ (exRun ⟨3, 1 / 2, 1 / 2⟩) rfl rfl).2 0 (by decide!) (by decide!)
      (by decide!) (by decide!),
    (neighbor_counted_iff_below_cutoff exGist (exFrame ⟨3, 1 / 2, 1 / 2⟩) 0 3 0 3
      ⟨3, 1 / 2, 1 / 2⟩ (exRun ⟨3, 1 / 2, 1 / 2⟩) rfl rfl).2 3 (by decide!) (by decide!)
      (by decide!) (by decide!)⟩

/-! ## The accumulators of the pair loop over a run -/

theorem molStep_nbAcc (g : Gist) (frm : Frame) (st : GistState) (o : Nat) :
    (molStep g frm st o).nbAcc = st.nbAcc := by
  have hd : ∀ s : GistState, (recordDensity g frm o s).nbAcc = s.nbAcc := by
    intro s
    unfold recordDensity
    refine foldl_preserves _ GistState.nbAcc ?_ _ _
    intro t a
    simp only
    split <;> rfl
  have hr : ∀ (c : Vec3) (v : Int) (s : GistState),
      (recordOnGrid g frm o c v s).nbAcc = s.nbAcc := by
    intro c v s
    have h : ((List.range g.nMolAtoms_).foldl (recordAtom frm o v) s).nbAcc = s.nbAcc :=
      foldl_preserves (recordAtom frm o v) GistState.nbAcc (fun _ _ => rfl) _ _
    rw [← h]
    rfl
  unfold molStep
  simp only
  split
  · rw [hd]
    split
    · rw [hr]
    · rfl
  · rfl

theorem nbInput_nbAcc (g : Gist) (frm : Frame) (st : GistState) :
    (nbInput g frm st).nbAcc = st.nbAcc := by
  have h1 : (assignMolecules g frm (frameStart frm st)).nbAcc = st.nbAcc := by
    unfold assignMolecules
    rw [foldl_preserves (molStep g frm) GistState.nbAcc (molStep_nbAcc g frm)]
    rfl
  have h2 : ∀ s : GistState, (assignSolute g frm s).nbAcc = s.nbAcc := by
    intro s
    unfold assignSolute
    split
    · rw [foldl_preserves (soluteStep g frm) GistState.nbAcc]
      · rfl
      · intro t u
        unfold soluteStep
        simp only
        split
        · split <;> rfl
        · rfl
    · rfl
  have h3 : ∀ s : GistState, (orderPhase g frm s).nbAcc = s.nbAcc := by
    intro s
    unfold orderPhase
    split
    · unfold Order
      exact foldl_preserves (orderMol g frm) GistState.nbAcc (fun _ _ => rfl) _ _
    · rfl
  have h4 : ∀ s : GistState, (nbStart frm s).nbAcc = s.nbAcc := by
    intro s
    unfold nbStart
    split <;> rfl
  unfold nbInput
  rw [h4, h3, h2, h1]

theorem DoAction_eq_calls (g : Gist) (hp : g.usePme_ = false) (he : g.skipE_ = false)
    (st : GistState) (frm : Frame) :
    DoAction g st frm
      = (frameCalls g frm (nbInput g frm st)).foldl (applyCall g) (nbInput g frm st) := by
  unfold DoAction energyPhase
  rw [if_pos he, if_neg (by rw [hp]; exact Bool.false_ne_true), NonbondEnergy_eq]
  rfl

theorem DoAction_skipE_nbAcc (g : Gist) (he : g.skipE_ = true)
    (st : GistState) (frm : Frame) : (DoAction g st frm).nbAcc = st.nbAcc := by
  have h := nbInput_nbAcc g frm st
  unfold nbInput at h
  have h4 : ∀ s : GistState, (nbStart frm s).nbAcc = s.nbAcc := by
    intro s
    unfold nbStart
    split <;> rfl
  rw [h4] at h
  unfold DoAction energyPhase
  rw [if_neg (by rw [he]; exact Bool.noConfusion)]
  exact h

theorem foldl_applyCall_inv (g : Gist)
    (Q : List ℚ × List ℚ × List ℚ × List ℚ × List ℚ × TriMatrix × List EcalcCall → Prop)
    (l : List EcalcCall) (hstep : ∀ c ∈ l, ∀ t : GistState, Q t.nbAcc → Q (applyCall g t c).nbAcc)
    (s : GistState) (hs : Q s.nbAcc) : Q (l.foldl (applyCall g) s).nbAcc := by
  induction l generalizing s with
  | nil => exact hs
  | cons c t ih =>
    rw [List.foldl_cons]
    exact ih (fun c' hc' => hstep c' (List.mem_cons_of_mem _ hc')) _
      (hstep c (List.mem_cons_self _ _) s hs)

theorem run_nbAcc_inv (g : Gist) (hp : g.usePme_ = false)
    (Q : List ℚ × List ℚ × List ℚ × List ℚ × List ℚ × TriMatrix × List EcalcCall → Prop)
    (frames : List Frame)
    (hstep : ∀ frm ∈ frames, ∀ st : GistState, ∀ c ∈ frameCalls g frm (nbInput g frm st),
      ∀ t : GistState, Q t.nbAcc → Q (applyCall g t c).nbAcc)
    (s : GistState) (hs : Q s.nbAcc) : Q (frames.foldl (DoAction g) s).nbAcc := by
  induction frames generalizing s with
  | nil => exact hs
  | cons f t ih =>
    rw [List.foldl_cons]
    refine ih (fun frm hf => hstep frm (List.mem_cons_of_mem _ hf)) _ ?_
    by_cases he : g.skipE_ = true
    · rw [DoAction_skipE_nbAcc g he]
      exact hs
    · have he' : g.skipE_ = false := by simpa using he
      rw [DoAction_eq_calls g hp he']
      refine foldl_applyCall_inv g Q _ (hstep f (List.mem_cons_self _ _) s) _ ?_
      rw [nbInput_nbAcc]
      exact hs

theorem nbCall_some (g : Gist) (frm : Frame) (s : GistState) (a1 gidx : Nat) (c : EcalcCall)
    (h : nbCall g frm s a1 gidx = some c) :
    c.a1 = a1 ∧ c.a2 = s.OnGrid_idxs_.getD gidx 0
      ∧ c.a1_voxel = s.atom_voxel_.getD a1 OFF_GRID_
      ∧ c.a2_voxel = s.atom_voxel_.getD (s.OnGrid_idxs_.getD gidx 0) OFF_GRID_
      ∧ c.rij2 = pairDist2 frm (frm.XYZ a1) (onGridXYZ s gidx)
      ∧ g.CurrentParm_.MolNum c.a1 ≠ g.CurrentParm_.MolNum c.a2
      ∧ c.solute = g.atomIsSolute_ a1 := by
  unfold nbCall at h
  simp only at h
  split_ifs at h with hm hs hg
  · simp only [Option.some.injEq] at h
    subst h
    exact ⟨rfl, rfl, rfl, rfl, rfl, hm, hs.symm⟩
  · simp only [Option.some.injEq] at h
    subst h
    refine ⟨rfl, rfl, rfl, rfl, rfl, hm, ?_⟩
    simp only
    cases hq : g.atomIsSolute_ a1
    · rfl
    · exact absurd hq hs

theorem mem_frameCalls (g : Gist) (frm : Frame) (s : GistState) (c : EcalcCall)
    (h : c ∈ frameCalls g frm s) :
    ∃ a1, a1 < frm.Natom ∧ ∃ gidx, gidx < s.N_ON_GRID_ ∧ nbCall g frm s a1 gidx = some c := by
  unfold frameCalls at h
  simp only [List.mem_flatMap, List.mem_range, List.mem_filterMap] at h
  obtain ⟨a1, ha1, gidx, hg, hc⟩ := h
  exact ⟨a1, ha1, gidx, hg, hc⟩

theorem getD_replicate_zero (n v : Nat) : (List.replicate n (0 : ℚ)).getD v 0 = 0 := by
  rw [List.getD_eq_getElem?_getD, List.getElem?_replicate]
  split <;> rfl

theorem getD_replicate_some_zero (n v : Nat) :
    (List.replicate n (some (0 : ℚ))).getD v (some 0) = some 0 := by
  rw [List.getD_eq_getElem?_getD, List.getElem?_replicate]
  split <;> rfl

theorem NormalizeDataSet_getD (ds : List (Option ℚ)) (norm : List Nat) (v : Nat)
    (hv : v < ds.length) :
    (NormalizeDataSet ds norm).getD v (some 0)
      = if norm.getD v 0 = 0 then some 0
        else (ds.getD v (some 0)).map fun a => a / (norm.getD v 0 : ℚ) := by
  unfold NormalizeDataSet
  rw [List.getD_eq_getElem?_getD, List.getElem?_map, List.getElem?_range hv]
  rfl

theorem DIST2_NoImage_pos_iff (a b : Vec3) :
    0 ≤ DIST2_NoImage a b ∧ (0 < DIST2_NoImage a b ↔ a ≠ b) := by
  have h0 : 0 ≤ DIST2_NoImage a b := by
    unfold DIST2_NoImage
    nlinarith [mul_self_nonneg (a.x - b.x), mul_self_nonneg (a.y - b.y),
      mul_self_nonneg (a.z - b.z)]
  refine ⟨h0, ?_⟩
  constructor
  · intro h e
    subst e
    simp [DIST2_NoImage] at h
  · intro hne
    rcases lt_or_eq_of_le h0 with h | h
    · exact h
    · exfalso
      apply hne
      unfold DIST2_NoImage at h
      have hx : (a.x - b.x) * (a.x - b.x) = 0 := by
        nlinarith [mul_self_nonneg (a.x - b.x), mul_self_nonneg (a.y - b.y),
          mul_self_nonneg (a.z - b.z)]
      have hy : (a.y - b.y) * (a.y - b.y) = 0 := by
        nlinarith [mul_self_nonneg (a.x - b.x), mul_self_nonneg (a.y - b.y),
          mul_self_nonneg (a.z - b.z)]
      have hz : (a.z - b.z) * (a.z - b.z) = 0 := by
        nlinarith [mul_self_nonneg (a.x - b.x), mul_self_nonneg (a.y - b.y),
          mul_self_nonneg (a.z - b.z)]
      obtain ⟨ax, ay, az⟩ := a
      obtain ⟨bx, byy, bz⟩ := b
      simp only [mul_self_eq_zero, sub_eq_zero] at hx hy hz
      rw [hx, hy, hz]

/-- Counterexample to C7 as stated: the example frame in which the oxygen of the
second water has the coordinates of the oxygen of the first.  The two atoms are
in different molecules, so the molecule-index guard passes, and `Ecalc` is
called for the pair with squared distance 0. -/
theorem Ecalc_called_at_zero_distance :
    (((exRun ⟨1 / 2, 1 / 2, 1 / 2⟩).calls.filter
        (fun c => decide (c.a1 = 0 ∧ c.a2 = 3))).map (fun c => c.rij2) = [0])
      ∧ exGist.CurrentParm_.MolNum 0 ≠ exGist.CurrentParm_.MolNum 3 := by
  decide!

/-- C7 (amended): for every call of `Ecalc` made by the pair loop, the
molecule-index guard guarantees that the two atoms belong to different
molecules, hence are different atoms; the squared distance passed is that of
atom 1 to the stored on-grid coordinates of atom 2, and without imaging it is
non-negative, and strictly positive exactly when the two positions differ.
The guard alone does not make it positive. -/
theorem Ecalc_distance_of_call (g : Gist) (frm : Frame) (s : GistState) (c : EcalcCall)
    (hc : c ∈ frameCalls g frm s) :
    g.CurrentParm_.MolNum c.a1 ≠ g.CurrentParm_.MolNum c.a2 ∧ c.a1 ≠ c.a2
      ∧ ∃ gidx, gidx < s.N_ON_GRID_ ∧ c.a2 = s.OnGrid_idxs_.getD gidx 0
          ∧ c.rij2 = pairDist2 frm (frm.XYZ c.a1) (onGridXYZ s gidx)
          ∧ (frm.imaging = ImagingType.NO_IMAGE →
              0 ≤ c.rij2 ∧ (0 < c.rij2 ↔ frm.XYZ c.a1 ≠ onGridXYZ s gidx)) := by
  obtain ⟨a1, _, gidx, hg, hcall⟩ := mem_frameCalls g frm s c hc
  obtain ⟨e1, e2, _, _, e5, e6, _⟩ := nbCall_some g frm s a1 gidx c hcall
  refine ⟨e6, fun h => e6 (by rw [h]), gidx, hg, e2, by rw [e5, e1], ?_⟩
  intro him
  have hd : c.rij2 = DIST2_NoImage (frm.XYZ c.a1) (onGridXYZ s gidx) := by
    rw [e5, e1]
    unfold pairDist2
    rw [him]
  rw [hd]
  exact DIST2_NoImage_pos_iff _ _

/-- Witness for C7 (amended): the call for the two oxygens of the example at
2.5 Å. -/
theorem Ecalc_distance_of_call_witness :
    exGist.CurrentParm_.MolNum 0 ≠ exGist.CurrentParm_.MolNum 3 :=
  (Ecalc_distance_of_call exGist (exFrame ⟨3, 1 / 2, 1 / 2⟩)
    (nbInput exGist (exFrame ⟨3, 1 / 2, 1 / 2⟩) exGist.Init)
    ⟨0, 3, 0, 3, 25 / 4, (Ecalc exGist (25 / 4) (-834 / 1000) (-834 / 1000) 1 1).1,
      (Ecalc exGist (25 / 4) (-834 / 1000) (-834 / 1000) 1 1).2, false⟩
    (by decide!)).1

/-! ## The tetrahedral order parameter -/

theorem addDbl_zero (a : Option ℚ) : addDbl a (some 0) = a := by
  cases a with
  | none => rfl
  | some x => simp [addDbl]

theorem zero_addDbl (a : Option ℚ) : addDbl (some 0) a = a := by
  cases a with
  | none => rfl
  | some x => simp [addDbl]

theorem addDbl_assoc (a b c : Option ℚ) : addDbl (addDbl a b) c = addDbl a (addDbl b c) := by
  cases a <;> cases b <;> cases c <;> simp [addDbl, add_assoc]

theorem foldl_addDbl (l : List (Option ℚ)) (a : Option ℚ) :
    l.foldl addDbl a = addDbl a (sumDbl l) := by
  unfold sumDbl
  induction l generalizing a with
  | nil => exact (addDbl_zero a).symm
  | cons x t ih =>
    rw [List.foldl_cons, List.foldl_cons, ih (addDbl a x), ih (addDbl (some 0) x), zero_addDbl,
      addDbl_assoc]

theorem sumDbl_append (l1 l2 : List (Option ℚ)) :
    sumDbl (l1 ++ l2) = addDbl (sumDbl l1) (sumDbl l2) := by
  conv_lhs => unfold sumDbl
  rw [List.foldl_append, foldl_addDbl l2]
  rfl

theorem sub_Magnitude2_pos (a b : Vec3) (h : a ≠ b) : 0 < (a.sub b).Magnitude2 := by
  have hx := mul_self_nonneg (a.x - b.x)
  have hy := mul_self_nonneg (a.y - b.y)
  have hz := mul_self_nonneg (a.z - b.z)
  unfold Vec3.sub Vec3.Magnitude2
  simp only
  by_contra hn
  have h0 : (a.x - b.x) * (a.x - b.x) + (a.y - b.y) * (a.y - b.y)
      + (a.z - b.z) * (a.z - b.z) = 0 := by linarith
  have e1 : (a.x - b.x) * (a.x - b.x) = 0 := by linarith
  have e2 : (a.y - b.y) * (a.y - b.y) = 0 := by linarith
  have e3 : (a.z - b.z) * (a.z - b.z) = 0 := by linarith
  apply h
  obtain ⟨ax, ay, az⟩ := a
  obtain ⟨bx, by', bz⟩ := b
  simp only at e1 e2 e3
  rw [Vec3.mk.injEq]
  exact ⟨sub_eq_zero.mp (mul_self_eq_zero.mp e1), sub_eq_zero.mp (mul_self_eq_zero.mp e2),
    sub_eq_zero.mp (mul_self_eq_zero.mp e3)⟩

theorem orderTerm_some (m : MathFns) (WAT : Nat → Vec3) (XYZ1 : Vec3) (i j : Nat)
    (h : m.sqrt (((WAT i).sub XYZ1).Magnitude2 * ((WAT j).sub XYZ1).Magnitude2) ≠ 0) :
    orderTerm m WAT XYZ1 i j
      = some ((cosTheta m WAT XYZ1 i j + 1 / 3) * (cosTheta m WAT XYZ1 i j + 1 / 3)) := by
  unfold orderTerm cosTheta divDbl
  simp only [if_neg h, Option.map_some']

theorem orderSum_unfold (m : MathFns) (WAT : Nat → Vec3) (XYZ1 : Vec3) :
    orderSum m WAT XYZ1
      = addDbl (addDbl (addDbl (addDbl (addDbl (addDbl (some 0)
          (orderTerm m WAT XYZ1 0 1)) (orderTerm m WAT XYZ1 0 2)) (orderTerm m WAT XYZ1 0 3))
          (orderTerm m WAT XYZ1 1 2)) (orderTerm m WAT XYZ1 1 3)) (orderTerm m WAT XYZ1 2 3) :=
  rfl

theorem orderSum_eq (m : MathFns) (WAT : Nat → Vec3) (XYZ1 : Vec3)
    (hden : ∀ i j, i < j → j < 4 →
      m.sqrt (((WAT i).sub XYZ1).Magnitude2 * ((WAT j).sub XYZ1).Magnitude2) ≠ 0) :
    orderSum m WAT XYZ1
      = some ((cosTheta m WAT XYZ1 0 1 + 1 / 3) * (cosTheta m WAT XYZ1 0 1 + 1 / 3)
        + (cosTheta m WAT XYZ1 0 2 + 1 / 3) * (cosTheta m WAT XYZ1 0 2 + 1 / 3)
        + (cosTheta m WAT XYZ1 0 3 + 1 / 3) * (cosTheta m WAT XYZ1 0 3 + 1 / 3)
        + (cosTheta m WAT XYZ1 1 2 + 1 / 3) * (cosTheta m WAT XYZ1 1 2 + 1 / 3)
        + (cosTheta m WAT XYZ1 1 3 + 1 / 3) * (cosTheta m WAT XYZ1 1 3 + 1 / 3)
        + (cosTheta m WAT XYZ1 2 3 + 1 / 3) * (cosTheta m WAT XYZ1 2 3 + 1 / 3)) := by
  rw [orderSum_unfold, orderTerm_some m WAT XYZ1 0 1 (hden 0 1 (by decide) (by decide)),
    orderTerm_some m WAT XYZ1 0 2 (hden 0 2 (by decide) (by decide)),
    orderTerm_some m WAT XYZ1 0 3 (hden 0 3 (by decide) (by decide)),
    orderTerm_some m WAT XYZ1 1 2 (hden 1 2 (by decide) (by decide)),
    orderTerm_some m WAT XYZ1 1 3 (hden 1 3 (by decide) (by decide)),
    orderTerm_some m WAT XYZ1 2 3 (hden 2 3 (by decide) (by decide))]
  simp only [addDbl, zero_add]

theorem sqrtIter_pos (fuel n x : Nat) (hn : 1 ≤ n) (hx : 1 ≤ x) : 1 ≤ sqrtIter fuel n x := by
  induction fuel generalizing x with
  | zero => exact hx
  | succ f ih =>
    unfold sqrtIter
    simp only
    split
    · apply ih
      rcases Nat.lt_or_ge x 2 with h | h
      · have e : x = 1 := by omega
        subst e
        rw [Nat.div_one]
        omega
      · have : 0 ≤ n / x := Nat.zero_le _
        omega
    · exact hx

theorem ratSqrt_ne_zero (x : ℚ) (hx : 0 < x) : ratSqrt x ≠ 0 := by
  unfold ratSqrt natSqrt
  have hnum : 0 < x.num := Rat.num_pos.mpr hx
  have h1 : 1 ≤ x.num.toNat := by omega
  have h2 : 1 ≤ x.den := x.den_pos
  have a := sqrtIter_pos x.num.toNat x.num.toNat x.num.toNat h1 h1
  have b := sqrtIter_pos x.den x.den x.den h2 h2
  apply div_ne_zero
  · exact_mod_cast (by omega : sqrtIter x.num.toNat x.num.toNat x.num.toNat ≠ 0)
  · exact_mod_cast (by omega : sqrtIter x.den x.den x.den ≠ 0)

/-- C9 (amended): the value `Order` adds to the voxel of an on-grid water is
`orderValue`.  When none of the four neighbours lies at the position of the
water itself (and the square root does not vanish at a positive number, as the
exact one and the one of `<cmath>` do not), no division is by zero and the
value is the number `1 - (3/8)*S`, with S the sum over the six pairs i<j of the
four neighbour vectors of `(cos θ_ij + 1/3)²` and
`cos θ_ij = (v_i·v_j)/sqrt(r_i r_j)`; it is at most 1, and equals 1 when all
six cosines are -1/3. -/
theorem order_value_tetrahedral (m : MathFns) (WAT : Nat → Vec3) (XYZ1 : Vec3)
    (hsqrt : ∀ x : ℚ, 0 < x → m.sqrt x ≠ 0)
    (hnb : ∀ i, i < 4 → WAT i ≠ XYZ1) :
    (∀ (g : Gist) (frm : Frame) (st : GistState) (gidx : Nat),
        (orderMol g frm st gidx).order
          = UpdateVoxel st.order
              (st.atom_voxel_.getD (st.OnGrid_idxs_.getD gidx 0) OFF_GRID_).toNat
              (orderValue g.math (orderScan g frm st gidx).WAT (onGridXYZ st gidx)))
      ∧ ∃ value : ℚ, orderValue m WAT XYZ1 = some value
        ∧ value = 1 - (3 / 8) *
          ((cosTheta m WAT XYZ1 0 1 + 1 / 3) ^ 2 + (cosTheta m WAT XYZ1 0 2 + 1 / 3) ^ 2
            + (cosTheta m WAT XYZ1 0 3 + 1 / 3) ^ 2 + (cosTheta m WAT XYZ1 1 2 + 1 / 3) ^ 2
            + (cosTheta m WAT XYZ1 1 3 + 1 / 3) ^ 2 + (cosTheta m WAT XYZ1 2 3 + 1 / 3) ^ 2)
        ∧ value ≤ 1
        ∧ ((∀ i j, i < j → j < 4 → cosTheta m WAT XYZ1 i j = -(1 / 3)) → value = 1) := by
  have hden : ∀ i j, i < j → j < 4 →
      m.sqrt (((WAT i).sub XYZ1).Magnitude2 * ((WAT j).sub XYZ1).Magnitude2) ≠ 0 := by
    intro i j hij hj
    exact hsqrt _ (mul_pos (sub_Magnitude2_pos _ _ (hnb i (by omega)))
      (sub_Magnitude2_pos _ _ (hnb j hj)))
  refine ⟨fun g frm st gidx => rfl, _, ?_, rfl, ?_, ?_⟩
  · unfold orderValue
    rw [orderSum_eq m WAT XYZ1 hden, Option.map_some']
    congr 1
    ring
  · nlinarith [sq_nonneg (cosTheta m WAT XYZ1 0 1 + 1 / 3),
      sq_nonneg (cosTheta m WAT XYZ1 0 2 + 1 / 3),
      sq_nonneg (cosTheta m WAT XYZ1 0 3 + 1 / 3),
      sq_nonneg (cosTheta m WAT XYZ1 1 2 + 1 / 3),
      sq_nonneg (cosTheta m WAT XYZ1 1 3 + 1 / 3),
      sq_nonneg (cosTheta m WAT XYZ1 2 3 + 1 / 3)]
  · intro h
    rw [h 0 1 (by decide) (by decide), h 0 2 (by decide) (by decide),
      h 0 3 (by decide) (by decide), h 1 2 (by decide) (by decide),
      h 1 3 (by decide) (by decide), h 2 3 (by decide) (by decide)]
    norm_num

/-- Witness for C9 (amended): four neighbours at the vertices of a regular
tetrahedron around the water at (1/2,1/2,1/2): all six cosines are -1/3 and the
value is 1. -/
theorem order_value_tetrahedral_witness :
    cosTheta exMath (tetrahedron ⟨1 / 2, 1 / 2, 1 / 2⟩) ⟨1 / 2, 1 / 2, 1 / 2⟩ 0 1 = -(1 / 3)
      ∧ orderValue exMath (tetrahedron ⟨1 / 2, 1 / 2, 1 / 2⟩) ⟨1 / 2, 1 / 2, 1 / 2⟩ = some 1 := by
  obtain ⟨value, h1, -, -, h4⟩ :=
    (order_value_tetrahedral exMath (tetrahedron ⟨1 / 2, 1 / 2, 1 / 2⟩) ⟨1 / 2, 1 / 2, 1 / 2⟩
      (fun x hx => ratSqrt_ne_zero x hx)
      (fun i hi => by interval_cases i <;> decide!)).2
  refine ⟨by decide!, ?_⟩
  rw [h1, h4 (fun i j hij hj => by interval_cases j <;> interval_cases i <;> decide!)]

/-- C9 (counterexample): a neighbour configuration for which the value is not
at most 1.  The nearest neighbour lies at the position (1/2,1/2,1/2) of the
water itself, the other three at vertices of the tetrahedron: for the pair
(0,1) the numerator `v1*v2` and the divisor `sqrt(r1*r2)` of source line 1034
are both zero, the quotient `0.0/0.0` is not a number, and neither is the value
passed to `UpdateVoxel`.  In a frame of the five-water example in which the
second water lies on the first, both order updates and the order output of
their voxel are not numbers. -/
theorem order_value_neighbour_on_water :
    (((exNeighbourOnWater ⟨1 / 2, 1 / 2, 1 / 2⟩ 0).sub ⟨1 / 2, 1 / 2, 1 / 2⟩).dot
        ((exNeighbourOnWater ⟨1 / 2, 1 / 2, 1 / 2⟩ 1).sub ⟨1 / 2, 1 / 2, 1 / 2⟩) = 0)
      ∧ exMath.sqrt
          (((exNeighbourOnWater ⟨1 / 2, 1 / 2, 1 / 2⟩ 0).sub ⟨1 / 2, 1 / 2, 1 / 2⟩).Magnitude2
            * ((exNeighbourOnWater ⟨1 / 2, 1 / 2, 1 / 2⟩ 1).sub ⟨1 / 2, 1 / 2, 1 / 2⟩).Magnitude2)
          = 0
      ∧ orderTerm exMath (exNeighbourOnWater ⟨1 / 2, 1 / 2, 1 / 2⟩) ⟨1 / 2, 1 / 2, 1 / 2⟩ 0 1
          = none
      ∧ orderValue exMath (exNeighbourOnWater ⟨1 / 2, 1 / 2, 1 / 2⟩) ⟨1 / 2, 1 / 2, 1 / 2⟩
          = none
      ∧ (¬ ∃ value : ℚ,
          orderValue exMath (exNeighbourOnWater ⟨1 / 2, 1 / 2, 1 / 2⟩) ⟨1 / 2, 1 / 2, 1 / 2⟩
            = some value ∧ value ≤ 1)
      ∧ (exGist5.run [exFrame5OnWater]).orderUpdates = [(4, none), (4, none)]
      ∧ (Print exGist5 (exGist5.run [exFrame5OnWater])).qtet.getD 4 (some 0) = none := by
  refine ⟨by decide!, by decide!, by decide!, by decide!, ?_, by decide!, by decide!⟩
  rintro ⟨value, h, -⟩
  rw [show orderValue exMath (exNeighbourOnWater ⟨1 / 2, 1 / 2, 1 / 2⟩) ⟨1 / 2, 1 / 2, 1 / 2⟩
    = none by decide!] at h
  exact Option.noConfusion h

/-! ## The order grid over a run -/

theorem molOnGrid_voxel (g : Gist) (hI : g.InitOK) (frm : Frame) (o : Nat)
    (h : g.molOnGrid frm o = true) :
    g.molVoxel frm o ≠ OFF_GRID_ ∧ (g.molVoxel frm o).toNat < g.MAX_GRID_PT_ := by
  unfold Gist.molOnGrid at h
  simp only [Bool.and_eq_true, decide_eq_true_eq] at h
  have hv : g.molVoxel frm o ≠ OFF_GRID_ := h.2
  refine ⟨hv, ?_⟩
  have hc : (g.gridBin_.Calc (g.molCenter frm o).x (g.molCenter frm o).y
      (g.molCenter frm o).z).isSome = true := by
    by_contra hn
    have hn' : (g.gridBin_.Calc (g.molCenter frm o).x (g.molCenter frm o).y
        (g.molCenter frm o).z).isSome = false := by simpa using hn
    exact hv (g.calcVoxelIndex_off _ hn')
  exact (g.calcVoxelIndex_on hI _ hc).2.1

theorem molStep_N_waters_code (g : Gist) (frm : Frame) (st : GistState) (o : Nat) :
    (molStep g frm st o).N_waters_ =
      if g.molOnGrid frm o = true then incrAt st.N_waters_ (g.molVoxel frm o).toNat
      else st.N_waters_ := by
  unfold Gist.molOnGrid Gist.molVoxel Gist.molCenter
  simp only [molStep]
  by_cases hn : g.nearGrid ((g.calcMolCenter frm o (o + g.nMolAtoms_)).sub g.gridBin_.O) = true
  · rw [if_pos hn, recordDensity_N_waters]
    by_cases hv : g.calcVoxelIndex (g.calcMolCenter frm o (o + g.nMolAtoms_)) ≠ OFF_GRID_
    · rw [if_pos hv, recordOnGrid_N_waters]
      simp [hn, hv]
    · rw [if_neg hv]
      simp [hn, hv]
  · rw [if_neg hn]
    simp [hn]

theorem assign_N_waters_getD (g : Gist) (hI : g.InitOK) (frm : Frame) (v : Nat) (l : List Nat)
    (st : GistState) (hlen : st.N_waters_.length = g.MAX_GRID_PT_) :
    (l.foldl (molStep g frm) st).N_waters_.length = g.MAX_GRID_PT_
      ∧ (l.foldl (molStep g frm) st).N_waters_.getD v 0
          = st.N_waters_.getD v 0
            + ((l.filter (g.molOnGrid frm)).map fun o => (g.molVoxel frm o).toNat).count v := by
  induction l generalizing st with
  | nil => simp [hlen]
  | cons o t ih =>
    rw [List.foldl_cons]
    have hs := molStep_N_waters_code g frm st o
    by_cases hc : g.molOnGrid frm o = true
    · rw [if_pos hc] at hs
      have hv := (molOnGrid_voxel g hI frm o hc).2
      obtain ⟨i1, i2⟩ := ih (molStep g frm st o) (by rw [hs, incrAt_length, hlen])
      refine ⟨i1, ?_⟩
      rw [i2, hs, incrAt_getD _ _ _ (by rw [hlen]; exact hv), List.filter_cons_of_pos hc,
        List.map_cons, List.count_cons]
      by_cases e : v = (g.molVoxel frm o).toNat
      · subst e
        rw [if_pos rfl, if_pos (beq_self_eq_true _)]
        ring
      · have e' : ¬ ((g.molVoxel frm o).toNat == v) = true := by
          rw [beq_iff_eq]
          exact fun h => e h.symm
        rw [if_neg e, if_neg e']
        ring
    · rw [if_neg hc] at hs
      obtain ⟨i1, i2⟩ := ih (molStep g frm st o) (by rw [hs, hlen])
      refine ⟨i1, ?_⟩
      rw [i2, hs, List.filter_cons_of_neg hc]

theorem assign_layout (g : Gist) (hn : 1 ≤ g.nMolAtoms_) (frm : Frame) (l : List Nat)
    (hsorted : l.Pairwise (fun o o' => o + g.nMolAtoms_ ≤ o'))
    (hframe : ∀ o ∈ l, o + g.nMolAtoms_ ≤ frm.Natom)
    (s : GistState) (hlen : s.atom_voxel_.length = frm.Natom) :
    (l.foldl (molStep g frm) s).OnGrid_idxs_
        = s.OnGrid_idxs_ ++ (l.filter (g.molOnGrid frm)).flatMap
            (fun o => (List.range g.nMolAtoms_).map (fun i => o + i))
      ∧ (l.foldl (molStep g frm) s).N_ON_GRID_
        = s.N_ON_GRID_ + g.nMolAtoms_ * (l.filter (g.molOnGrid frm)).length
      ∧ (l.foldl (molStep g frm) s).atom_voxel_.length = frm.Natom
      ∧ (∀ a, (∀ o ∈ l, a < o) →
          (l.foldl (molStep g frm) s).atom_voxel_.getD a OFF_GRID_
            = s.atom_voxel_.getD a OFF_GRID_)
      ∧ (∀ o ∈ l.filter (g.molOnGrid frm),
          (l.foldl (molStep g frm) s).atom_voxel_.getD o OFF_GRID_ = g.molVoxel frm o) := by
  induction l generalizing s with
  | nil => simp [hlen]
  | cons o rest ih =>
    rw [List.foldl_cons]
    rw [List.pairwise_cons] at hsorted
    obtain ⟨hhead, hrest⟩ := hsorted
    have hfo : o + g.nMolAtoms_ ≤ frm.Natom := hframe o (List.mem_cons_self _ _)
    have hf' : ∀ o' ∈ rest, o' + g.nMolAtoms_ ≤ frm.Natom :=
      fun o' ho' => hframe o' (List.mem_cons_of_mem _ ho')
    by_cases hon : g.molOnGrid frm o = true
    · have hsame := (molStep_sample g frm s o).1 hon
      obtain ⟨r1, r2, r3, r4⟩ := recordOnGrid_sample g frm o (g.molCenter frm o)
        (g.calcVoxelIndex (g.molCenter frm o)) s
      obtain ⟨m1, m2, m3, m4⟩ := hsame
      have hlen' : (molStep g frm s o).atom_voxel_.length = frm.Natom := by
        rw [m1, r2, hlen]
      obtain ⟨i1, i2, i3, i4, i5⟩ := ih hrest hf' (molStep g frm s o) hlen'
      refine ⟨?_, ?_, i3, ?_, ?_⟩
      · rw [i1, m2, r1, List.filter_cons_of_pos hon, List.flatMap_cons, List.append_assoc]
      · rw [i2, m4, r4, List.filter_cons_of_pos hon, List.length_cons]
        ring
      · intro a ha
        rw [i4 a (fun o' ho' => ha o' (List.mem_cons_of_mem _ ho')), m1, r3 a]
        have := ha o (List.mem_cons_self _ _)
        rw [if_neg (by omega)]
      · intro o' ho'
        rw [List.filter_cons_of_pos hon, List.mem_cons] at ho'
        rcases ho' with rfl | ho'
        · rw [i4 o' (fun o'' ho'' => by have := hhead o'' ho''; omega), m1, r3 o',
            if_pos ⟨le_refl _, by omega, by omega⟩]
          rfl
        · exact i5 o' ho'
    · have hoff : g.molOnGrid frm o = false := by simpa using hon
      obtain ⟨m1, m2, m3, m4⟩ := (molStep_sample g frm s o).2 hoff
      have hlen' : (molStep g frm s o).atom_voxel_.length = frm.Natom := by rw [m1, hlen]
      obtain ⟨i1, i2, i3, i4, i5⟩ := ih hrest hf' (molStep g frm s o) hlen'
      refine ⟨?_, ?_, i3, ?_, ?_⟩
      · rw [i1, m2, List.filter_cons_of_neg hon]
      · rw [i2, m4, List.filter_cons_of_neg hon]
      · intro a ha
        rw [i4 a (fun o' ho' => ha o' (List.mem_cons_of_mem _ ho')), m1]
      · intro o' ho'
        rw [List.filter_cons_of_neg hon] at ho'
        exact i5 o' ho'

theorem orderUpdateOf_congr (g : Gist) (frm : Frame) (s t : GistState) (h : sameSample s t)
    (gidx : Nat) : orderUpdateOf g frm s gidx = orderUpdateOf g frm t gidx := by
  obtain ⟨h1, h2, h3, _⟩ := h
  simp only [orderUpdateOf, onGridXYZ, h1, h2, h3]

theorem orderMol_eq (g : Gist) (frm : Frame) (st : GistState) (gidx : Nat) :
    orderMol g frm st gidx =
      { st with
        order := UpdateVoxel st.order (orderUpdateOf g frm st gidx).1
          (orderUpdateOf g frm st gidx).2
        orderUpdates := st.orderUpdates ++ [orderUpdateOf g frm st gidx] } := rfl

theorem order_fold (g : Gist) (frm : Frame) (t : GistState) (idxs : List Nat) (s : GistState)
    (hs : sameSample s t) :
    (idxs.foldl (orderMol g frm) s).orderUpdates
        = s.orderUpdates ++ idxs.map (orderUpdateOf g frm t)
      ∧ (idxs.foldl (orderMol g frm) s).order
        = (idxs.map (orderUpdateOf g frm t)).foldl (fun o u => UpdateVoxel o u.1 u.2)
            s.order := by
  induction idxs generalizing s with
  | nil => simp
  | cons i rest ih =>
    rw [List.foldl_cons]
    have hs' : sameSample (orderMol g frm s i) t :=
      sameSample_trans ⟨rfl, rfl, rfl, rfl⟩ hs
    obtain ⟨i1, i2⟩ := ih (orderMol g frm s i) hs'
    rw [i1, i2, orderMol_eq, orderUpdateOf_congr g frm s t hs]
    simp only [List.map_cons, List.foldl_cons, List.append_assoc, List.singleton_append,
      and_self]

theorem UpdateVoxel_length (l : List (Option ℚ)) (v : Nat) (x : Option ℚ) :
    (UpdateVoxel l v x).length = l.length := by
  induction l generalizing v with
  | nil => rfl
  | cons a t ih => cases v <;> simp [UpdateVoxel, ih]

theorem UpdateVoxel_getD (l : List (Option ℚ)) (v u : Nat) (x : Option ℚ) (hv : v < l.length) :
    (UpdateVoxel l v x).getD u (some 0)
      = if u = v then addDbl (l.getD u (some 0)) x else l.getD u (some 0) := by
  induction l generalizing v u with
  | nil => simp at hv
  | cons a t ih =>
    cases v with
    | zero =>
      cases u with
      | zero => simp [UpdateVoxel]
      | succ n => simp [UpdateVoxel]
    | succ k =>
      cases u with
      | zero => simp [UpdateVoxel]
      | succ n =>
        have := ih k n (by simpa using hv)
        simpa [UpdateVoxel] using this

theorem UpdateVoxel_getD_ne (l : List (Option ℚ)) (v u : Nat) (x : Option ℚ) (h : u ≠ v) :
    (UpdateVoxel l v x).getD u (some 0) = l.getD u (some 0) := by
  induction l generalizing v u with
  | nil => rfl
  | cons a t ih =>
    cases v with
    | zero =>
      cases u with
      | zero => exact absurd rfl h
      | succ n => simp [UpdateVoxel]
    | succ k =>
      cases u with
      | zero => simp [UpdateVoxel]
      | succ n =>
        have := ih k n (fun e => h (by rw [e]))
        simpa [UpdateVoxel] using this

theorem foldl_UpdateVoxel_length (us : List (Nat × Option ℚ)) (ord : List (Option ℚ)) :
    (us.foldl (fun o u => UpdateVoxel o u.1 u.2) ord).length = ord.length := by
  induction us generalizing ord with
  | nil => rfl
  | cons u t ih => rw [List.foldl_cons, ih, UpdateVoxel_length]

theorem foldl_UpdateVoxel_getD (us : List (Nat × Option ℚ)) (ord : List (Option ℚ)) (v : Nat)
    (h : ∀ u ∈ us, u.1 < ord.length) :
    (us.foldl (fun o u => UpdateVoxel o u.1 u.2) ord).getD v (some 0)
      = addDbl (ord.getD v (some 0))
          (sumDbl ((us.filter fun u => decide (u.1 = v)).map fun u => u.2)) := by
  induction us generalizing ord with
  | nil => exact (addDbl_zero _).symm
  | cons u t ih =>
    rw [List.foldl_cons, ih _ (fun u' hu' => by
      rw [UpdateVoxel_length]; exact h u' (List.mem_cons_of_mem _ hu')),
      UpdateVoxel_getD _ _ _ _ (h u (List.mem_cons_self _ _))]
    by_cases e : u.1 = v
    · rw [List.filter_cons_of_pos (by simpa using e), List.map_cons, if_pos e.symm,
        show sumDbl (u.2 :: ((t.filter fun u => decide (u.1 = v)).map fun u => u.2))
          = addDbl u.2 (sumDbl ((t.filter fun u => decide (u.1 = v)).map fun u => u.2)) from by
            rw [← List.singleton_append, sumDbl_append]
            congr 1
            exact zero_addDbl _,
        addDbl_assoc]
    · rw [List.filter_cons_of_neg (by simpa using e), if_neg (fun h => e h.symm)]

theorem blocks_getD (n : Nat) (hn : 1 ≤ n) (os : List Nat) (k : Nat) (hk : k < os.length) :
    (os.flatMap (fun o => (List.range n).map (fun i => o + i))).getD (k * n) 0
      = os.getD k 0 := by
  induction os generalizing k with
  | nil => simp at hk
  | cons o rest ih =>
    rw [List.flatMap_cons]
    cases k with
    | zero =>
      obtain ⟨m, rfl⟩ : ∃ m, n = m + 1 := ⟨n - 1, by omega⟩
      simp [List.range_succ_eq_map]
    | succ k =>
      have hlen : ((List.range n).map (fun i => o + i)).length = n := by simp
      have hge : ((List.range n).map (fun i => o + i)).length ≤ (k + 1) * n := by
        rw [hlen]
        nlinarith
      rw [List.getD_eq_getElem?_getD, List.getElem?_append_right hge, hlen]
      have e : (k + 1) * n - n = k * n := by
        rw [Nat.add_mul, Nat.one_mul, Nat.add_sub_cancel]
      rw [e, ← List.getD_eq_getElem?_getD, ih k (by simpa using hk)]
      simp

theorem order_iterations (n k : Nat) (hn : 1 ≤ n) : (n * k + n - 1) / n = k := by
  have e : n * k + n - 1 = (n - 1) + n * k := by omega
  rw [e, Nat.add_mul_div_left _ _ (by omega : 0 < n), Nat.div_eq_of_lt (by omega), Nat.zero_add]

theorem count_map_fst (ups : List (Nat × Option ℚ)) (v : Nat) :
    (ups.map Prod.fst).count v = (ups.filter fun u => decide (u.1 = v)).length := by
  induction ups with
  | nil => rfl
  | cons u t ih =>
    rw [List.map_cons, List.count_cons, ih]
    by_cases e : u.1 = v
    · rw [List.filter_cons_of_pos (by simpa using e), List.length_cons,
        if_pos (by rw [beq_iff_eq]; exact e)]
    · rw [List.filter_cons_of_neg (by simpa using e),
        if_neg (by rw [beq_iff_eq]; exact e)]
      rfl

theorem getD_set_ne (l : List Int) (i a : Nat) (x d : Int) (h : a ≠ i) :
    (l.set i x).getD a d = l.getD a d := by
  rw [List.getD_eq_getElem?_getD, List.getD_eq_getElem?_getD, List.getElem?_set,
    if_neg (fun e => h e.symm)]

theorem assignSolute_order (g : Gist) (frm : Frame) (st : GistState) :
    sameSample (assignSolute g frm st)
        { st with atom_voxel_ := (assignSolute g frm st).atom_voxel_ }
      ∧ (assignSolute g frm st).order = st.order
      ∧ (assignSolute g frm st).orderUpdates = st.orderUpdates
      ∧ (assignSolute g frm st).OnGrid_idxs_ = st.OnGrid_idxs_
      ∧ (assignSolute g frm st).OnGrid_XYZ_ = st.OnGrid_XYZ_
      ∧ (assignSolute g frm st).N_ON_GRID_ = st.N_ON_GRID_
      ∧ (∀ a, a ∉ g.U_idxs_ →
          (assignSolute g frm st).atom_voxel_.getD a OFF_GRID_
            = st.atom_voxel_.getD a OFF_GRID_) := by
  have key : ∀ (l : List Nat) (s : GistState),
      (l.foldl (soluteStep g frm) s).order = s.order
        ∧ (l.foldl (soluteStep g frm) s).orderUpdates = s.orderUpdates
        ∧ (l.foldl (soluteStep g frm) s).OnGrid_idxs_ = s.OnGrid_idxs_
        ∧ (l.foldl (soluteStep g frm) s).OnGrid_XYZ_ = s.OnGrid_XYZ_
        ∧ (l.foldl (soluteStep g frm) s).N_ON_GRID_ = s.N_ON_GRID_
        ∧ (∀ a, a ∉ l → (l.foldl (soluteStep g frm) s).atom_voxel_.getD a OFF_GRID_
            = s.atom_voxel_.getD a OFF_GRID_) := by
    intro l
    induction l with
    | nil => intro s; simp
    | cons u t ih =>
      intro s
      rw [List.foldl_cons]
      obtain ⟨i1, i2, i3, i4, i5, i6⟩ := ih (soluteStep g frm s u)
      have hstep : (soluteStep g frm s u).order = s.order
          ∧ (soluteStep g frm s u).orderUpdates = s.orderUpdates
          ∧ (soluteStep g frm s u).OnGrid_idxs_ = s.OnGrid_idxs_
          ∧ (soluteStep g frm s u).OnGrid_XYZ_ = s.OnGrid_XYZ_
          ∧ (soluteStep g frm s u).N_ON_GRID_ = s.N_ON_GRID_
          ∧ (∀ a, a ≠ u → (soluteStep g frm s u).atom_voxel_.getD a OFF_GRID_
              = s.atom_voxel_.getD a OFF_GRID_) := by
        unfold soluteStep
        simp only
        split
        · split
          · exact ⟨rfl, rfl, rfl, rfl, rfl, fun a ha => getD_set_ne _ _ _ _ _ ha⟩
          · exact ⟨rfl, rfl, rfl, rfl, rfl, fun _ _ => rfl⟩
        · exact ⟨rfl, rfl, rfl, rfl, rfl, fun _ _ => rfl⟩
      obtain ⟨j1, j2, j3, j4, j5, j6⟩ := hstep
      refine ⟨i1.trans j1, i2.trans j2, i3.trans j3, i4.trans j4, i5.trans j5, ?_⟩
      intro a ha
      rw [List.mem_cons, not_or] at ha
      rw [i6 a ha.2, j6 a ha.1]
  unfold assignSolute
  split
  · obtain ⟨k1, k2, k3, k4, k5, k6⟩ := key g.U_idxs_ { st with U_onGrid_idxs_ := [] }
    exact ⟨⟨rfl, k3, k4, k5⟩, k1, k2, k3, k4, k5, k6⟩
  · exact ⟨⟨rfl, rfl, rfl, rfl⟩, rfl, rfl, rfl, rfl, rfl, fun _ _ => rfl⟩

theorem molStep_order (g : Gist) (frm : Frame) (st : GistState) (o : Nat) :
    (molStep g frm st o).order = st.order
      ∧ (molStep g frm st o).orderUpdates = st.orderUpdates := by
  have hd : ∀ s : GistState, (recordDensity g frm o s).order = s.order
      ∧ (recordDensity g frm o s).orderUpdates = s.orderUpdates := by
    intro s
    unfold recordDensity
    constructor
    · refine foldl_preserves _ GistState.order ?_ _ _
      intro t a
      simp only
      split <;> rfl
    · refine foldl_preserves _ GistState.orderUpdates ?_ _ _
      intro t a
      simp only
      split <;> rfl
  have hr : ∀ (c : Vec3) (v : Int) (s : GistState),
      (recordOnGrid g frm o c v s).order = s.order
        ∧ (recordOnGrid g frm o c v s).orderUpdates = s.orderUpdates := by
    intro c v s
    have h1 : ((List.range g.nMolAtoms_).foldl (recordAtom frm o v) s).order = s.order :=
      foldl_preserves (recordAtom frm o v) GistState.order (fun _ _ => rfl) _ _
    have h2 : ((List.range g.nMolAtoms_).foldl (recordAtom frm o v) s).orderUpdates
        = s.orderUpdates :=
      foldl_preserves (recordAtom frm o v) GistState.orderUpdates (fun _ _ => rfl) _ _
    exact ⟨h1, h2⟩
  unfold molStep
  simp only
  split
  · rw [(hd _).1, (hd _).2]
    split
    · exact hr _ _ _
    · exact ⟨rfl, rfl⟩
  · exact ⟨rfl, rfl⟩

theorem energyPhase_order (g : Gist) (frm : Frame) (st : GistState) :
    (energyPhase g frm st).order = st.order
      ∧ (energyPhase g frm st).orderUpdates = st.orderUpdates := by
  have hp : ∀ (a1 : Nat) (s : GistState) (gidx : Nat),
      (nbPair g frm a1 s gidx).order = s.order
        ∧ (nbPair g frm a1 s gidx).orderUpdates = s.orderUpdates := by
    intro a1 s gidx
    unfold nbPair pairSolute pairSolvent
    simp only
    split_ifs <;> exact ⟨rfl, rfl⟩
  have hN : (NonbondEnergy g frm st).order = st.order
      ∧ (NonbondEnergy g frm st).orderUpdates = st.orderUpdates := by
    unfold NonbondEnergy
    simp only
    constructor
    · rw [foldl_preserves
        (fun s aidx => (List.range s.N_ON_GRID_).foldl (nbPair g frm aidx) s) GistState.order
        (fun s a => foldl_preserves (nbPair g frm a) GistState.order
          (fun s' i => (hp a s' i).1) _ s)]
      split <;> rfl
    · rw [foldl_preserves
        (fun s aidx => (List.range s.N_ON_GRID_).foldl (nbPair g frm aidx) s)
        GistState.orderUpdates
        (fun s a => foldl_preserves (nbPair g frm a) GistState.orderUpdates
          (fun s' i => (hp a s' i).2) _ s)]
      split <;> rfl
  unfold energyPhase
  split
  · split
    · exact ⟨rfl, rfl⟩
    · exact hN
  · exact ⟨rfl, rfl⟩

theorem DoAction_order_frame (g : Gist) (hI : g.InitOK) (hS : g.SetupOK)
    (hO : g.doOrder_ = true) (hU : ∀ u ∈ g.U_idxs_, u ∉ g.O_idxs_) (frm : Frame)
    (hF : g.FrameOK frm) (st : GistState) (hlenN : st.N_waters_.length = g.MAX_GRID_PT_) :
    ∃ ups : List (Nat × Option ℚ),
      (DoAction g st frm).orderUpdates = st.orderUpdates ++ ups
        ∧ (DoAction g st frm).order = ups.foldl (fun o u => UpdateVoxel o u.1 u.2) st.order
        ∧ ups.map Prod.fst = g.onGridVoxels frm
        ∧ (DoAction g st frm).N_waters_.length = g.MAX_GRID_PT_
        ∧ ∀ v, (DoAction g st frm).N_waters_.getD v 0
            = st.N_waters_.getD v 0 + (g.onGridVoxels frm).count v := by
  obtain ⟨L1, L2, _, _, L5⟩ := assign_layout g hS.nMol_pos frm g.O_idxs_ hS.mols_sorted hF
    (frameStart frm st) (by simp [frameStart])
  have L1' : (assignMolecules g frm (frameStart frm st)).OnGrid_idxs_
      = (g.onGridHeads frm).flatMap
          (fun o => (List.range g.nMolAtoms_).map (fun i => o + i)) := L1
  have L2' : (assignMolecules g frm (frameStart frm st)).N_ON_GRID_
      = g.nMolAtoms_ * (g.onGridHeads frm).length := L2.trans (Nat.zero_add _)
  have L5' : ∀ o ∈ g.onGridHeads frm,
      (assignMolecules g frm (frameStart frm st)).atom_voxel_.getD o OFF_GRID_
        = g.molVoxel frm o := L5
  obtain ⟨_, A2, A3, A4, _, A6, A7⟩ :=
    assignSolute_order g frm (assignMolecules g frm (frameStart frm st))
  have hk : ((assignSolute g frm (assignMolecules g frm (frameStart frm st))).N_ON_GRID_
      + g.nMolAtoms_ - 1) / g.nMolAtoms_ = (g.onGridHeads frm).length := by
    rw [A6, L2']
    exact order_iterations _ _ hS.nMol_pos
  obtain ⟨F1, F2⟩ := order_fold g frm (assignSolute g frm (assignMolecules g frm
    (frameStart frm st)))
    ((List.range (g.onGridHeads frm).length).map (fun k => k * g.nMolAtoms_))
    (assignSolute g frm (assignMolecules g frm (frameStart frm st))) (sameSample_refl _)
  have hord0 : (assignMolecules g frm (frameStart frm st)).order = st.order := by
    unfold assignMolecules
    rw [foldl_preserves (molStep g frm) GistState.order (fun s o => (molStep_order g frm s o).1)]
    rfl
  have hupd0 : (assignMolecules g frm (frameStart frm st)).orderUpdates = st.orderUpdates := by
    unfold assignMolecules
    rw [foldl_preserves (molStep g frm) GistState.orderUpdates
      (fun s o => (molStep_order g frm s o).2)]
    rfl
  have hDo : DoAction g st frm = energyPhase g frm (Order g frm (assignSolute g frm
      (assignMolecules g frm (frameStart frm st)))) := by
    unfold DoAction orderPhase
    rw [if_pos hO]
  have hOrd : Order g frm (assignSolute g frm (assignMolecules g frm (frameStart frm st)))
      = ((List.range (g.onGridHeads frm).length).map (fun k => k * g.nMolAtoms_)).foldl
          (orderMol g frm) (assignSolute g frm (assignMolecules g frm (frameStart frm st))) := by
    unfold Order
    rw [hk]
  refine ⟨((List.range (g.onGridHeads frm).length).map (fun k => k * g.nMolAtoms_)).map
    (orderUpdateOf g frm (assignSolute g frm (assignMolecules g frm (frameStart frm st)))),
    ?_, ?_, ?_, ?_, ?_⟩
  · rw [hDo, (energyPhase_order g frm _).2, hOrd, F1, A3, hupd0]
  · rw [hDo, (energyPhase_order g frm _).1, hOrd, F2, A2, hord0]
  · rw [List.map_map, List.map_map]
    have hheads : g.onGridVoxels frm
        = (List.range (g.onGridHeads frm).length).map
            (fun j => (g.molVoxel frm ((g.onGridHeads frm).getD j 0)).toNat) := by
      unfold Gist.onGridVoxels
      conv_lhs => rw [← map_getD_range (g.onGridHeads frm) 0]
      rw [List.map_map]
      rfl
    rw [hheads]
    apply List.map_congr_left
    intro j hj
    rw [List.mem_range] at hj
    have hmem : (g.onGridHeads frm).getD j 0 ∈ g.onGridHeads frm := by
      rw [List.getD_eq_getElem _ _ hj]
      exact List.getElem_mem _
    have hO' : (g.onGridHeads frm).getD j 0 ∈ g.O_idxs_ := by
      unfold Gist.onGridHeads at hmem
      exact (List.mem_filter.mp hmem).1
    have hnotU : (g.onGridHeads frm).getD j 0 ∉ g.U_idxs_ := fun hu => hU _ hu hO'
    simp only [Function.comp, orderUpdateOf]
    have hb := blocks_getD g.nMolAtoms_ hS.nMol_pos (g.onGridHeads frm) j hj
    rw [A4, L1', hb, A7 _ hnotU, L5' _ hmem]
  · rw [DoAction_N_waters]
    exact (assign_N_waters_getD g hI frm 0 g.O_idxs_ (frameStart frm st) hlenN).1
  · intro v
    rw [DoAction_N_waters]
    exact (assign_N_waters_getD g hI frm v g.O_idxs_ (frameStart frm st) hlenN).2

theorem run_order_inv (g : Gist) (hI : g.InitOK) (hS : g.SetupOK)
    (hO : g.doOrder_ = true) (hU : ∀ u ∈ g.U_idxs_, u ∉ g.O_idxs_) (frames : List Frame)
    (hF : ∀ f ∈ frames, g.FrameOK f) (st : GistState)
    (hN : st.N_waters_.length = g.MAX_GRID_PT_) (hL : st.order.length = g.MAX_GRID_PT_)
    (hinv : ∀ v, orderCount st v = st.N_waters_.getD v 0
      ∧ st.order.getD v (some 0) = orderSumAt st v) :
    (frames.foldl (DoAction g) st).N_waters_.length = g.MAX_GRID_PT_
      ∧ (frames.foldl (DoAction g) st).order.length = g.MAX_GRID_PT_
      ∧ ∀ v, orderCount (frames.foldl (DoAction g) st) v
            = (frames.foldl (DoAction g) st).N_waters_.getD v 0
          ∧ (frames.foldl (DoAction g) st).order.getD v (some 0)
            = orderSumAt (frames.foldl (DoAction g) st) v := by
  induction frames generalizing st with
  | nil => exact ⟨hN, hL, hinv⟩
  | cons f t ih =>
    rw [List.foldl_cons]
    obtain ⟨ups, u1, u2, u3, u4, u5⟩ :=
      DoAction_order_frame g hI hS hO hU f (hF f (List.mem_cons_self _ _)) st hN
    have hbound : ∀ u ∈ ups, u.1 < st.order.length := by
      intro u hu
      have hm : u.1 ∈ ups.map Prod.fst := List.mem_map_of_mem _ hu
      rw [u3] at hm
      unfold Gist.onGridVoxels Gist.onGridHeads at hm
      obtain ⟨o, ho, e⟩ := List.mem_map.mp hm
      rw [hL, ← e]
      exact (molOnGrid_voxel g hI f o (List.mem_filter.mp ho).2).2
    refine ih (fun f' hf' => hF f' (List.mem_cons_of_mem _ hf')) _ u4 ?_ ?_
    · rw [u2, foldl_UpdateVoxel_length, hL]
    · intro v
      constructor
      · unfold orderCount
        rw [u1, List.filter_append, List.length_append, u5, ← u3, count_map_fst]
        have := (hinv v).1
        unfold orderCount at this
        rw [this]
      · unfold orderSumAt
        rw [u1, u2, List.filter_append, List.map_append, sumDbl_append,
          foldl_UpdateVoxel_getD ups st.order v hbound, (hinv v).2]
        rfl

/-- C10: with the order calculation enabled for the whole run, for every voxel v
that received at least one order update, the order output after `Print` equals
`order_sum[v] / order_count[v]`: the sum of the per-water order values
accumulated into v divided by the number of order updates made to v (which is
`N_waters_[v]`, the divisor that `Print` uses); when one of these values is not
a finite number, neither is the sum nor the output. -/
theorem order_output_is_mean (g : Gist) (hI : g.InitOK) (hS : g.SetupOK)
    (hO : g.doOrder_ = true) (hU : ∀ u ∈ g.U_idxs_, u ∉ g.O_idxs_) (frames : List Frame)
    (hF : ∀ f ∈ frames, g.FrameOK f) (v : Nat) (hv : v < g.MAX_GRID_PT_)
    (hc : 1 ≤ orderCount (g.run frames) v) :
    (Print g (g.run frames)).qtet.getD v (some 0)
        = (orderSumAt (g.run frames) v).map
            (fun sum => sum / (orderCount (g.run frames) v : ℚ))
      ∧ (g.run frames).order.getD v (some 0) = orderSumAt (g.run frames) v
      ∧ orderCount (g.run frames) v = (g.run frames).N_waters_.getD v 0 := by
  have h0 : ∀ v, orderCount g.Init v = g.Init.N_waters_.getD v 0
      ∧ g.Init.order.getD v (some 0) = orderSumAt g.Init v := by
    intro v
    constructor
    · simp only [orderCount, Gist.Init, List.filter_nil, List.length_nil,
        List.getD_eq_getElem?_getD, List.getElem?_replicate]
      split <;> rfl
    · simp only [orderSumAt, Gist.Init, List.filter_nil, List.map_nil]
      exact getD_replicate_some_zero _ _
  obtain ⟨r1, r2, r3⟩ := run_order_inv g hI hS hO hU frames hF g.Init
    (by simp [Gist.Init]) (by simp [Gist.Init]) h0
  have r3v := r3 v
  unfold Gist.run at hc ⊢
  refine ⟨?_, r3v.2, r3v.1⟩
  have hne : (List.foldl (DoAction g) g.Init frames).N_waters_.getD v 0 ≠ 0 := by
    rw [← r3v.1]
    omega
  simp only [Print]
  rw [NormalizeDataSet_getD _ _ _ (by rw [r2]; exact hv), if_neg hne, r3v.2, r3v.1]

/-! ## The Eij matrix -/

theorem sum_indicator (L : List Nat) (hL : L.Nodup) (j0 : Nat) (e : ℚ) :
    (L.map fun j => if j = j0 then e else 0).sum = if j0 ∈ L then e else 0 := by
  induction L with
  | nil => simp
  | cons a t ih =>
    rw [List.nodup_cons] at hL
    rw [List.map_cons, List.sum_cons, ih hL.2]
    by_cases h : a = j0
    · subst h
      rw [if_pos rfl, if_neg hL.1, if_pos (List.mem_cons_self _ _), add_zero]
    · rw [if_neg h, zero_add]
      have : (j0 ∈ a :: t) ↔ j0 ∈ t := by
        rw [List.mem_cons]
        exact ⟨fun h' => h'.elim (fun e' => absurd e'.symm h) id, Or.inr⟩
      simp only [this]

theorem GetElement_update (m : TriMatrix) (x y : Nat) (e : ℚ) (hxy : x ≠ y) (v j : Nat)
    (hj : j ≠ v) :
    (m.UpdateElement x y e).GetElement v j
      = m.GetElement v j + if (v = x ∧ j = y) ∨ (v = y ∧ j = x) then e else 0 := by
  unfold TriMatrix.UpdateElement TriMatrix.GetElement
  rw [if_neg hxy, if_neg (fun h => hj h.symm), if_neg (fun h => hj h.symm)]
  simp only
  by_cases c : (v = x ∧ j = y) ∨ (v = y ∧ j = x)
  · rw [if_pos c]
    have : min v j = min x y ∧ max v j = max x y := by
      rcases c with ⟨rfl, rfl⟩ | ⟨rfl, rfl⟩
      · exact ⟨rfl, rfl⟩
      · exact ⟨min_comm _ _, max_comm _ _⟩
    rw [if_pos this]
  · rw [if_neg c]
    have : ¬(min v j = min x y ∧ max v j = max x y) := by
      intro h
      apply c
      omega
    rw [if_neg this, add_zero]

theorem rowSum_update (m : TriMatrix) (n x y : Nat) (e : ℚ) (hxy : x ≠ y) (hx : x < n)
    (hy : y < n) (v : Nat) :
    rowSum (m.UpdateElement x y e) n v = rowSum m n v + if v = x ∨ v = y then e else 0 := by
  unfold rowSum
  have hnd : ((List.range n).filter fun j => decide (j ≠ v)).Nodup :=
    (List.nodup_range n).filter _
  have hmem : ∀ j, j ∈ ((List.range n).filter fun j => decide (j ≠ v)) ↔ j < n ∧ j ≠ v := by
    intro j
    simp [List.mem_filter]
  have e1 : ((List.range n).filter fun j => decide (j ≠ v)).map
        (fun j => (m.UpdateElement x y e).GetElement v j)
      = ((List.range n).filter fun j => decide (j ≠ v)).map
        (fun j => m.GetElement v j
          + if j = (if v = x then y else x) then (if v = x ∨ v = y then e else 0) else 0) := by
    apply List.map_congr_left
    intro j hj
    have hjv := ((hmem j).mp hj).2
    rw [GetElement_update m x y e hxy v j hjv]
    congr 1
    by_cases c1 : v = x
    · rw [if_pos c1]
      by_cases c2 : j = y
      · rw [if_pos (Or.inl ⟨c1, c2⟩), if_pos c2, if_pos (Or.inl c1)]
      · rw [if_neg (fun h => h.elim (fun h => c2 h.2) (fun h => hjv (h.2.trans c1.symm))),
          if_neg c2]
    · rw [if_neg c1]
      by_cases c3 : j = x
      · by_cases c2 : v = y
        · rw [if_pos (Or.inr ⟨c2, c3⟩), if_pos c3, if_pos (Or.inr c2)]
        · rw [if_neg (fun h => h.elim (fun h => c1 h.1) (fun h => c2 h.1)), if_pos c3,
            if_neg (fun h => h.elim c1 c2)]
      · rw [if_neg (fun h => h.elim (fun h => c1 h.1) (fun h => c3 h.2)), if_neg c3]
  rw [e1, List.sum_map_add, sum_indicator _ hnd]
  congr 1
  by_cases c : v = x ∨ v = y
  · rw [if_pos c]
    have hin : (if v = x then y else x) ∈ ((List.range n).filter fun j => decide (j ≠ v)) := by
      rw [hmem]
      by_cases c1 : v = x
      · rw [if_pos c1]
        exact ⟨hy, fun h => hxy (c1.symm.trans h.symm)⟩
      · rw [if_neg c1]
        exact ⟨hx, fun h => c1 h.symm⟩
    rw [if_pos hin]
  · rw [if_neg c, ite_self]

theorem molOnGrid_voxel_nonneg (g : Gist) (hI : g.InitOK) (frm : Frame) (o : Nat)
    (h : g.molOnGrid frm o = true) : 0 ≤ g.molVoxel frm o := by
  unfold Gist.molOnGrid at h
  simp only [Bool.and_eq_true, decide_eq_true_eq] at h
  have hv : g.molVoxel frm o ≠ OFF_GRID_ := h.2
  have hc : (g.gridBin_.Calc (g.molCenter frm o).x (g.molCenter frm o).y
      (g.molCenter frm o).z).isSome = true := by
    by_contra hn
    have hn' : (g.gridBin_.Calc (g.molCenter frm o).x (g.molCenter frm o).y
        (g.molCenter frm o).z).isSome = false := by simpa using hn
    exact hv (g.calcVoxelIndex_off _ hn')
  exact (g.calcVoxelIndex_on hI _ hc).1

theorem assign_voxels_ok (g : Gist) (hI : g.InitOK) (frm : Frame) (l : List Nat)
    (s : GistState) (hs : ∀ a, voxelOK g.MAX_GRID_PT_ (s.atom_voxel_.getD a OFF_GRID_)) :
    ∀ a, voxelOK g.MAX_GRID_PT_ ((l.foldl (molStep g frm) s).atom_voxel_.getD a OFF_GRID_) := by
  induction l generalizing s with
  | nil => exact hs
  | cons o rest ih =>
    rw [List.foldl_cons]
    apply ih
    intro a
    by_cases hon : g.molOnGrid frm o = true
    · obtain ⟨m1, _, _, _⟩ := (molStep_sample g frm s o).1 hon
      obtain ⟨_, _, r3, _⟩ := recordOnGrid_sample g frm o (g.molCenter frm o)
        (g.calcVoxelIndex (g.molCenter frm o)) s
      rw [m1, r3 a]
      split
      · exact Or.inr ⟨molOnGrid_voxel_nonneg g hI frm o hon, (molOnGrid_voxel g hI frm o hon).2⟩
      · exact hs a
    · have hoff : g.molOnGrid frm o = false := by simpa using hon
      obtain ⟨m1, _, _, _⟩ := (molStep_sample g frm s o).2 hoff
      rw [m1]
      exact hs a

theorem frameCalls_voxelsOK (g : Gist) (hI : g.InitOK) (hS : g.SetupOK)
    (hp : g.usePme_ = false) (frm : Frame) (hF : g.FrameOK frm) (st : GistState)
    (c : EcalcCall) (hc : c ∈ frameCalls g frm (nbInput g frm st)) :
    c.voxelsOK g.MAX_GRID_PT_ := by
  have hin : nbInput g frm st
      = nbStart frm (orderPhase g frm (assignMolecules g frm (frameStart frm st))) := by
    simp [nbInput, assignSolute, hp]
  rw [hin] at hc
  have hst : SampleOK (orderPhase g frm (assignMolecules g frm (frameStart frm st))) frm :=
    SampleOK_of_sameSample (orderPhase_sameSample g frm _)
      (assignMolecules_sample g hS frm hF st)
  have hns := nbStart_sample frm _ hst
  obtain ⟨f1, _, _⟩ := nbStart_fields frm
    (orderPhase g frm (assignMolecules g frm (frameStart frm st)))
  have hvox : ∀ a, voxelOK g.MAX_GRID_PT_
      ((nbStart frm (orderPhase g frm (assignMolecules g frm
        (frameStart frm st)))).atom_voxel_.getD a OFF_GRID_) := by
    intro a
    rw [f1, (orderPhase_sameSample g frm _).1]
    unfold assignMolecules
    apply assign_voxels_ok g hI frm
    intro b
    left
    have := (frameStart_sample frm st).onGrid_iff b
    simp only [frameStart, List.not_mem_nil, false_iff, not_not] at this
    exact this
  obtain ⟨a1, _, gidx, hg, hcall⟩ := mem_frameCalls g frm _ c hc
  obtain ⟨_, _, e3, e4, _, _, _⟩ := nbCall_some g frm _ a1 gidx c hcall
  constructor
  · have hmem : (nbStart frm (orderPhase g frm (assignMolecules g frm
        (frameStart frm st)))).OnGrid_idxs_.getD gidx 0
        ∈ (nbStart frm (orderPhase g frm (assignMolecules g frm
          (frameStart frm st)))).OnGrid_idxs_ := by
      rw [hns.count] at hg
      rw [List.getD_eq_getElem _ _ hg]
      exact List.getElem_mem _
    have hne := (hns.onGrid_iff _).mp hmem
    rw [e4]
    rcases hvox ((nbStart frm (orderPhase g frm (assignMolecules g frm
      (frameStart frm st)))).OnGrid_idxs_.getD gidx 0) with h | h
    · exact absurd h hne
    · exact h
  · rw [e3]
    exact hvox a1

theorem wwEnergy_append (cs : List EcalcCall) (c : EcalcCall) (v : Nat) :
    wwEnergy (cs ++ [c]) v = wwEnergy cs v + c.wwAt v := by
  simp [wwEnergy]

theorem crossEnergy_append (cs : List EcalcCall) (c : EcalcCall) (v : Nat) :
    crossEnergy (cs ++ [c]) v = crossEnergy cs v + if c.crossAt v = true then c.E else 0 := by
  unfold crossEnergy
  rw [List.filter_append, List.map_append, List.sum_append]
  congr 1
  by_cases h : c.crossAt v = true
  · simp [List.filter_cons, h]
  · simp [List.filter_cons, h]

theorem applyCall_fields (g : Gist) (t : GistState) (c : EcalcCall) :
    (applyCall g t c).calls = t.calls ++ [c]
      ∧ (applyCall g t c).E_VV_VDW_
        = (if c.solute = true then t.E_VV_VDW_
          else if c.a1_voxel ≠ OFF_GRID_ then
            addAt (addAt t.E_VV_VDW_ c.a2_voxel.toNat c.Evdw) c.a1_voxel.toNat c.Evdw
          else addAt t.E_VV_VDW_ c.a2_voxel.toNat c.Evdw)
      ∧ (applyCall g t c).E_VV_Elec_
        = (if c.solute = true then t.E_VV_Elec_
          else if c.a1_voxel ≠ OFF_GRID_ then
            addAt (addAt t.E_VV_Elec_ c.a2_voxel.toNat c.Eelec) c.a1_voxel.toNat c.Eelec
          else addAt t.E_VV_Elec_ c.a2_voxel.toNat c.Eelec)
      ∧ (applyCall g t c).ww_Eij_
        = (if c.solute = true then t.ww_Eij_
          else if c.a1_voxel ≠ OFF_GRID_ then
            if g.doEij_ = true ∧ c.a1_voxel ≠ c.a2_voxel then
              t.ww_Eij_.UpdateElement c.a1_voxel.toNat c.a2_voxel.toNat (c.Evdw + c.Eelec)
            else t.ww_Eij_
          else t.ww_Eij_) := by
  unfold applyCall
  simp only
  split_ifs <;> exact ⟨rfl, rfl, rfl, rfl⟩

theorem applyCall_eijInv (g : Gist) (c : EcalcCall) (hc : c.voxelsOK g.MAX_GRID_PT_)
    (t : GistState) (hQ : eijInv g t.nbAcc) : eijInv g (applyCall g t c).nbAcc := by
  obtain ⟨f1, f2, f3, f4⟩ := applyCall_fields g t c
  obtain ⟨l1, l2, hv, hw, hm⟩ := hQ
  simp only [GistState.nbAcc] at l1 l2 hv hw hm
  obtain ⟨⟨n2, b2⟩, h1⟩ := hc
  unfold eijInv
  simp only [GistState.nbAcc]
  rw [f1, f2, f3, f4]
  refine ⟨?_, ?_, ?_, ?_, ?_⟩
  · split_ifs <;> simp [addAt_length, l1]
  · split_ifs <;> simp [addAt_length, l2]
  · intro c' hc'
    rw [List.mem_append, List.mem_singleton] at hc'
    rcases hc' with h | h
    · exact hv c' h
    · rw [h]
      exact ⟨⟨n2, b2⟩, h1⟩
  · intro v hvv
    rw [wwEnergy_append, ← hw v hvv]
    unfold EcalcCall.wwAt EcalcCall.E
    by_cases hs : c.solute = true
    · rw [if_pos hs, if_pos hs, if_pos hs]
      ring
    · rw [if_neg hs, if_neg hs, if_neg hs]
      by_cases ha : c.a1_voxel ≠ OFF_GRID_
      · have hb1 : c.a1_voxel.toNat < g.MAX_GRID_PT_ := by
          rcases h1 with h | h
          · exact absurd h ha
          · exact h.2
        rw [if_pos ha, if_pos ha,
          addAt_getD _ _ _ _ (by rw [addAt_length, l1]; exact hb1),
          addAt_getD _ _ _ _ (by rw [l1]; exact b2),
          addAt_getD _ _ _ _ (by rw [addAt_length, l2]; exact hb1),
          addAt_getD _ _ _ _ (by rw [l2]; exact b2)]
        split_ifs <;> first | (exfalso; omega) | (exfalso; tauto) | ring1
      · rw [if_neg ha, if_neg ha,
          addAt_getD _ _ _ _ (by rw [l1]; exact b2),
          addAt_getD _ _ _ _ (by rw [l2]; exact b2)]
        split_ifs <;> first | (exfalso; omega) | (exfalso; tauto) | ring1
  · intro hE v hvv
    rw [crossEnergy_append, ← hm hE v hvv]
    unfold EcalcCall.crossAt EcalcCall.E
    by_cases hs : c.solute = true
    · rw [if_pos hs, if_neg (by
        rw [decide_eq_true_eq]
        intro h
        rw [hs] at h
        exact Bool.noConfusion h.1), add_zero]
    · have hs' : c.solute = false := by simpa using hs
      rw [if_neg hs]
      by_cases ha : c.a1_voxel ≠ OFF_GRID_
      · rw [if_pos ha]
        obtain ⟨n1, b1⟩ : 0 ≤ c.a1_voxel ∧ c.a1_voxel.toNat < g.MAX_GRID_PT_ := by
          rcases h1 with h | h
          · exact absurd h ha
          · exact h
        by_cases hd : c.a1_voxel ≠ c.a2_voxel
        · have hne : c.a1_voxel.toNat ≠ c.a2_voxel.toNat := by
            intro h
            apply hd
            omega
          rw [if_pos ⟨hE, hd⟩, rowSum_update _ _ _ _ _ hne b1 b2]
          congr 1
          by_cases e : v = c.a1_voxel.toNat ∨ v = c.a2_voxel.toNat
          · rw [if_pos e, if_pos (by
              rw [decide_eq_true_eq]
              exact ⟨hs', ha, hd, e.elim (fun h => Or.inl h.symm) (fun h => Or.inr h.symm)⟩)]
          · rw [if_neg e, if_neg (by
              rw [decide_eq_true_eq]
              intro h
              exact e (h.2.2.2.elim (fun h => Or.inl h.symm) (fun h => Or.inr h.symm)))]
        · rw [if_neg (fun h => hd h.2), if_neg (by
            rw [decide_eq_true_eq]
            intro h
            exact hd h.2.2.1), add_zero]
      · rw [if_neg ha, if_neg (by
          rw [decide_eq_true_eq]
          intro h
          exact ha h.2.1), add_zero]

theorem rowSum_zero (n v : Nat) : rowSum ⟨fun _ _ => 0⟩ n v = 0 := by
  unfold rowSum TriMatrix.GetElement
  simp

theorem run_eijInv (g : Gist) (hI : g.InitOK) (hS : g.SetupOK) (hp : g.usePme_ = false)
    (frames : List Frame) (hF : ∀ f ∈ frames, g.FrameOK f) : eijInv g (g.run frames).nbAcc := by
  unfold Gist.run
  refine run_nbAcc_inv g hp (eijInv g) frames ?_ g.Init ?_
  · intro frm hf st c hc t hQ
    exact applyCall_eijInv g c (frameCalls_voxelsOK g hI hS hp frm (hF frm hf) st c hc) t hQ
  · unfold eijInv
    simp only [GistState.nbAcc, Gist.Init]
    refine ⟨by simp, by simp, by simp, ?_, ?_⟩
    · intro v _
      rw [getD_replicate_zero]
      simp [wwEnergy]
    · intro _ v _
      rw [rowSum_zero]
      simp [crossEnergy]

theorem rowSum_normalize (g : Gist) (NF : Nat) (m : TriMatrix) (n v : Nat) (hv : v < n)
    (hsmall : ∀ i, i < n → ∀ j, j < n → |m.elt i j| < g.SMALL → m.elt i j = 0) :
    rowSum (normalizeEij g NF m) n v = rowSum m n v * (1 / ((NF * 2 : Nat) : ℚ)) := by
  unfold rowSum
  rw [← List.sum_map_mul_right]
  congr 1
  apply List.map_congr_left
  intro j hj
  have hj' : j < n := by
    have := (List.mem_filter.mp hj).1
    exact List.mem_range.mp this
  unfold TriMatrix.GetElement normalizeEij
  simp only
  by_cases e : v = j
  · rw [if_pos e, if_pos e, zero_mul]
  · rw [if_neg e, if_neg e]
    by_cases hs : |m.elt (min v j) (max v j)| < g.SMALL
    · rw [if_pos hs, hsmall _ (by omega) _ (by omega) hs, zero_mul]
    · rw [if_neg hs]

theorem wwAt_eq_cross (c : EcalcCall) (n v : Nat) (hc : c.voxelsOK n)
    (hx : c.solute = false → c.a1_voxel ≠ OFF_GRID_ ∧ c.a1_voxel ≠ c.a2_voxel) :
    c.wwAt v = if c.crossAt v = true then c.E else 0 := by
  obtain ⟨⟨n2, _⟩, h1⟩ := hc
  unfold EcalcCall.wwAt EcalcCall.crossAt
  by_cases hs : c.solute = true
  · rw [if_pos hs, if_neg (by
      rw [decide_eq_true_eq]
      intro h
      rw [hs] at h
      exact Bool.noConfusion h.1)]
  · have hs' : c.solute = false := by simpa using hs
    obtain ⟨ha, hd⟩ := hx hs'
    have n1 : 0 ≤ c.a1_voxel := by
      rcases h1 with h | h
      · exact absurd h ha
      · exact h.1
    have hne : c.a1_voxel.toNat ≠ c.a2_voxel.toNat := by
      intro h
      apply hd
      omega
    rw [if_neg hs]
    by_cases e1 : c.a1_voxel.toNat = v
    · have e2 : ¬ c.a2_voxel.toNat = v := fun h => hne (e1.trans h.symm)
      rw [if_neg e2, if_pos ⟨ha, e1⟩, zero_add, if_pos (by
        rw [decide_eq_true_eq]
        exact ⟨hs', ha, hd, Or.inl e1⟩)]
    · by_cases e2 : c.a2_voxel.toNat = v
      · rw [if_pos e2, if_neg (fun h => e1 h.2), add_zero, if_pos (by
          rw [decide_eq_true_eq]
          exact ⟨hs', ha, hd, Or.inr e2⟩)]
      · rw [if_neg e2, if_neg (fun h => e1 h.2), add_zero, if_neg (by
          rw [decide_eq_true_eq]
          intro h
          exact h.2.2.2.elim e1 e2)]

theorem wwEnergy_eq_cross (calls : List EcalcCall) (n v : Nat)
    (hc : ∀ c ∈ calls, c.voxelsOK n)
    (hx : ∀ c ∈ calls, c.solute = false → c.a1_voxel ≠ OFF_GRID_ ∧ c.a1_voxel ≠ c.a2_voxel) :
    wwEnergy calls v = crossEnergy calls v := by
  induction calls with
  | nil => simp [wwEnergy, crossEnergy]
  | cons c t ih =>
    have iht := ih (fun c' h' => hc c' (List.mem_cons_of_mem _ h'))
      (fun c' h' => hx c' (List.mem_cons_of_mem _ h'))
    have hcc := wwAt_eq_cross c n v (hc c (List.mem_cons_self _ _)) (hx c (List.mem_cons_self _ _))
    unfold wwEnergy crossEnergy at iht ⊢
    rw [List.map_cons, List.sum_cons, iht, hcc]
    by_cases h : c.crossAt v = true
    · simp [List.filter_cons, h]
    · simp [List.filter_cons, h]

/-- Counterexample to C8 as stated: the small-grid example with the Eij matrix
enabled and the second water off the grid (oxygen at x = 5/2 on a grid that
ends at x = 2).  The water-water energy of voxel 0, divided by the number of
frames and by 2, is not zero, while the row of voxel 0 of the Eij matrix after
`Print` sums to zero: pairs with an off-grid water are not entered into the
matrix. -/
theorem Eij_row_sum_misses_off_grid :
    exGist2.doEij_ = true
      ∧ (exRun2 ⟨5 / 2, 1 / 2, 1 / 2⟩).N_waters_ = [1, 0]
      ∧ rowSum (Print exGist2 (exRun2 ⟨5 / 2, 1 / 2, 1 / 2⟩)).ww_Eij 2 0 = 0
      ∧ ((exRun2 ⟨5 / 2, 1 / 2, 1 / 2⟩).E_VV_VDW_.getD 0 0
          + (exRun2 ⟨5 / 2, 1 / 2, 1 / 2⟩).E_VV_Elec_.getD 0 0)
          / ((exRun2 ⟨5 / 2, 1 / 2, 1 / 2⟩).NFRAME_ : ℚ) / 2 ≠ 0 := by
  decide!

/-- C8 (amended): with doeij enabled (CPU path), after normalisation in `Print`,
for every voxel v the row sum of the Eij matrix for v equals, divided by
N_frames and by 2, the sum of Evdw+Eelec over the evaluated water-water pairs
whose two atoms are both on the grid and in different voxels, one of them v
(provided no stored element is smaller in magnitude than SMALL, which `Print`
sets to zero).  The water-water energy `E_VV_VDW_[v] + E_VV_Elec_[v]` is the
sum of what every water-water pair adds to v, so the row sum equals
`(E_VV_VDW_[v] + E_VV_Elec_[v]) / N_frames / 2` when every evaluated
water-water pair is between on-grid atoms of different voxels. -/
theorem Eij_row_sum (g : Gist) (hI : g.InitOK) (hS : g.SetupOK) (hp : g.usePme_ = false)
    (hE : g.doEij_ = true) (frames : List Frame) (hF : ∀ f ∈ frames, g.FrameOK f)
    (v : Nat) (hv : v < g.MAX_GRID_PT_)
    (hsmall : ∀ i, i < g.MAX_GRID_PT_ → ∀ j, j < g.MAX_GRID_PT_ →
      |(g.run frames).ww_Eij_.elt i j| < g.SMALL → (g.run frames).ww_Eij_.elt i j = 0) :
    rowSum (Print g (g.run frames)).ww_Eij g.MAX_GRID_PT_ v
        = crossEnergy (g.run frames).calls v / ((g.run frames).NFRAME_ : ℚ) / 2
      ∧ (g.run frames).E_VV_VDW_.getD v 0 + (g.run frames).E_VV_Elec_.getD v 0
        = wwEnergy (g.run frames).calls v
      ∧ ((∀ c ∈ (g.run frames).calls, c.solute = false →
            c.a1_voxel ≠ OFF_GRID_ ∧ c.a1_voxel ≠ c.a2_voxel) →
          rowSum (Print g (g.run frames)).ww_Eij g.MAX_GRID_PT_ v
            = ((g.run frames).E_VV_VDW_.getD v 0 + (g.run frames).E_VV_Elec_.getD v 0)
                / ((g.run frames).NFRAME_ : ℚ) / 2) := by
  obtain ⟨_, _, q3, q4, q5⟩ := run_eijInv g hI hS hp frames hF
  simp only [GistState.nbAcc] at q3 q4 q5
  have hrow : rowSum (Print g (g.run frames)).ww_Eij g.MAX_GRID_PT_ v
      = crossEnergy (g.run frames).calls v / ((g.run frames).NFRAME_ : ℚ) / 2 := by
    simp only [Print, hE, if_true]
    rw [rowSum_normalize g _ _ _ v hv hsmall, q5 hE v hv]
    push_cast
    rw [mul_one_div, div_div]
  refine ⟨hrow, q4 v hv, ?_⟩
  intro hx
  rw [hrow, q4 v hv, wwEnergy_eq_cross _ g.MAX_GRID_PT_ v q3 hx]

/-- Witness for C8 (amended): the small-grid example with both waters on the
grid, in voxels 0 and 1: every evaluated pair is between on-grid atoms of
different voxels, and the row of voxel 0 sums to the water-water energy of
voxel 0 divided by the number of frames and by 2. -/
theorem Eij_row_sum_witness :
    (exRun2 ⟨3 / 2, 1 / 2, 1 / 2⟩).N_waters_ = [1, 1]
      ∧ rowSum (Print exGist2 (exRun2 ⟨3 / 2, 1 / 2, 1 / 2⟩)).ww_Eij exGist2.MAX_GRID_PT_ 0
        = ((exRun2 ⟨3 / 2, 1 / 2, 1 / 2⟩).E_VV_VDW_.getD 0 0
            + (exRun2 ⟨3 / 2, 1 / 2, 1 / 2⟩).E_VV_Elec_.getD 0 0)
            / ((exRun2 ⟨3 / 2, 1 / 2, 1 / 2⟩).NFRAME_ : ℚ) / 2 :=
  ⟨by decide!,
    (Eij_row_sum exGist2 exGist2_InitOK exGist2_SetupOK rfl rfl [exFrame ⟨3 / 2, 1 / 2, 1 / 2⟩]
      (fun f hf => by
        rw [List.mem_singleton] at hf
        rw [hf]
        exact exGist2_FrameOK _) 0 (by decide!) (by decide!)).2.2 (by decide!)⟩

/-! ## The worked example -/

/-- Witness for C2: one frame with both waters on the grid; two molecules are
counted, one in voxel 0 and one in voxel 3. -/
theorem N_waters_sum_eq_onGrid_count_witness :
    exGist.InitOK ∧ 0 < exGist.gridBin_.h
      ∧ (exGist.run [exFrame ⟨3, 1 / 2, 1 / 2⟩]).N_waters_ = [1, 0, 0, 1, 0, 0, 0, 0]
      ∧ (exGist.run [exFrame ⟨3, 1 / 2, 1 / 2⟩]).N_waters_.sum
          = ([exFrame ⟨3, 1 / 2, 1 / 2⟩].map exGist.onGridMolecules).sum :=
  ⟨exGist_InitOK, by decide!, by decide!,
    (N_waters_sum_eq_onGrid_count exGist exGist_InitOK (by decide!)
      [exFrame ⟨3, 1 / 2, 1 / 2⟩]).2.1⟩

/-- Witness for C3: the two oxygens (atoms 0 and 3) of the example frame, both
on the grid, are the subject of exactly one call. -/
theorem NonbondEnergy_pair_once_witness :
    pairCount (frameCalls exGist (exFrame ⟨3, 1 / 2, 1 / 2⟩)
      (nbStart (exFrame ⟨3, 1 / 2, 1 / 2⟩)
        (orderPhase exGist (exFrame ⟨3, 1 / 2, 1 / 2⟩)
          (assignMolecules exGist (exFrame ⟨3, 1 / 2, 1 / 2⟩)
            (frameStart (exFrame ⟨3, 1 / 2, 1 / 2⟩) exGist.Init))))) 0 3 = 1 :=
  (NonbondEnergy_pair_once exGist exGist_SetupOK (exFrame ⟨3, 1 / 2, 1 / 2⟩)
    (exGist_FrameOK _) exGist.Init 0 3 (by decide) (by decide) rfl rfl (by decide)).2.2.1
    (Or.inl (by decide!))

theorem exGist5_InitOK : exGist5.InitOK := by
  refine ⟨?_, ?_, ?_, ?_, ?_, ?_, ?_, ?_, ?_⟩ <;> simp [exGist5, exGist]

theorem exGist5_SetupOK : exGist5.SetupOK := by
  refine ⟨?_, ?_, ?_⟩ <;> simp [exGist5, exGist]

theorem exGist5_FrameOK : exGist5.FrameOK exFrame5 := by
  intro o ho
  simp [exGist5, exGist] at ho
  rcases ho with rfl | rfl | rfl | rfl | rfl <;> simp [exGist5, exGist, exFrame5, exFrame]

/-- Witness for C10: one frame with a water in voxel 4 surrounded by four
waters at the vertices of a regular tetrahedron: one order update to voxel 4,
of value 1, and the order output of voxel 4 is 1. -/
theorem order_output_is_mean_witness :
    (exGist5.run [exFrame5]).orderUpdates = [(4, some 1)]
      ∧ (Print exGist5 (exGist5.run [exFrame5])).qtet.getD 4 (some 0)
          = (orderSumAt (exGist5.run [exFrame5]) 4).map
              (fun sum => sum / (orderCount (exGist5.run [exFrame5]) 4 : ℚ)) :=
  ⟨by decide!,
    (order_output_is_mean exGist5 exGist5_InitOK exGist5_SetupOK rfl
      (fun u hu => by simp [exGist5, exGist] at hu) [exFrame5]
      (fun f hf => by
        rw [List.mem_singleton] at hf
        rw [hf]
        exact exGist5_FrameOK) 4 (by decide!) (by decide!)).1⟩

/-! ## A center on a voxel boundary -/

/-- The bins that `Print` recovers from the voxel index of an on-grid point are
the bins that `Calc` gave. -/
theorem printBins_calcVoxelIndex (g : Gist) (hI : g.InitOK) (p : Vec3) (i j k : Nat)
    (hc : g.gridBin_.Calc p.x p.y p.z = some (i, j, k)) :
    printBins g.griddim_ (g.calcVoxelIndex p).toNat = (i, j, k) := by
  obtain ⟨hi, hj, hk⟩ := Calc_some_lt _ _ _ _ _ _ _ hc
  have hi' : (i : Int) < g.griddim_.nx := by rw [← hI.bin_nx]; exact_mod_cast hi
  have hj' : (j : Int) < g.griddim_.ny := by rw [← hI.bin_ny]; exact_mod_cast hj
  have hk' : (k : Int) < g.griddim_.nz := by rw [← hI.bin_nz]; exact_mod_cast hk
  have hv := (voxelOfBins_eq g.griddim_ i j k hI.nx_pos hI.ny_pos hI.nz_pos hI.fits hi' hj' hk').1
  have e : g.calcVoxelIndex p = voxelOfBins g.griddim_ i j k := by
    simp only [Gist.calcVoxelIndex, GIST.calcVoxelIndex, hc]
  rw [e, hv, ← hI.bin_ny, ← hI.bin_nz]
  have e2 : ((i : Int) * (g.gridBin_.ny : Int) * (g.gridBin_.nz : Int)
      + (j : Int) * (g.gridBin_.nz : Int) + (k : Int)).toNat
      = i * g.gridBin_.ny * g.gridBin_.nz + j * g.gridBin_.nz + k := by
    have : ((i : Int) * (g.gridBin_.ny : Int) * (g.gridBin_.nz : Int)
      + (j : Int) * (g.gridBin_.nz : Int) + (k : Int))
      = ((i * g.gridBin_.ny * g.gridBin_.nz + j * g.gridBin_.nz + k : Nat) : Int) := by
      push_cast; ring
    rw [this, Int.toNat_natCast]
  rw [e2]
  obtain ⟨b1, b2, b3⟩ := nat_bins_of_index g.gridBin_.ny g.gridBin_.nz i j k hj hk
  have hny : g.griddim_.ny.toNat = g.gridBin_.ny := by rw [← hI.bin_ny, Int.toNat_natCast]
  have hnz : g.griddim_.nz.toNat = g.gridBin_.nz := by rw [← hI.bin_nz, Int.toNat_natCast]
  simp only [printBins, hny, hnz]
  rw [b1, b2, b3]

/-- C13 (counterexample): on the 8 x 1 x 1 example grid of spacing 1 with
origin (0,0,0), the center (1, 1/2, 1/2) lies exactly on the boundary between
the voxel layers 0 and 1 along x ((p-O)/h = 1), and the voxel assigned to it is
voxel 1, of bins (1,0,0), not the voxel of the smaller index 0; a water with
this center is counted in voxel 1. -/
theorem boundary_center_not_in_lower_voxel :
    ((1 : ℚ) - exGist.gridBin_.O.x) / exGist.gridBin_.h = 1
      ∧ exGist.calcVoxelIndex ⟨1, 1 / 2, 1 / 2⟩ = 1
      ∧ printBins exGist.griddim_ (exGist.calcVoxelIndex ⟨1, 1 / 2, 1 / 2⟩).toNat = (1, 0, 0)
      ∧ (exRun ⟨1, 1 / 2, 1 / 2⟩).N_waters_ = [1, 1, 0, 0, 0, 0, 0, 0] := by
  decide!

/-- C13 (amended): a center that `Calc` locates on the grid and whose
coordinate along an axis lies exactly on the boundary `(p-O)/h = m` between the
voxel layers `m-1` and `m` is assigned the voxel of index `m` along that axis
(the floor of `(p-O)/h`), the larger of the two. -/
theorem boundary_center_voxel (g : Gist) (hI : g.InitOK) (p : Vec3)
    (hon : (g.gridBin_.Calc p.x p.y p.z).isSome = true) (m : Nat) :
    ((p.x - g.gridBin_.O.x) / g.gridBin_.h = m →
        (printBins g.griddim_ (g.calcVoxelIndex p).toNat).1 = m)
      ∧ ((p.y - g.gridBin_.O.y) / g.gridBin_.h = m →
        (printBins g.griddim_ (g.calcVoxelIndex p).toNat).2.1 = m)
      ∧ ((p.z - g.gridBin_.O.z) / g.gridBin_.h = m →
        (printBins g.griddim_ (g.calcVoxelIndex p).toNat).2.2 = m) := by
  obtain ⟨⟨i, j, k⟩, hc⟩ := Option.isSome_iff_exists.mp hon
  rw [printBins_calcVoxelIndex g hI p i j k hc]
  unfold GridBin.Calc at hc
  dsimp only at hc
  split_ifs at hc with hw
  obtain ⟨rfl, rfl, rfl⟩ : ⌊(p.x - g.gridBin_.O.x) / g.gridBin_.h⌋.toNat = i
      ∧ ⌊(p.y - g.gridBin_.O.y) / g.gridBin_.h⌋.toNat = j
      ∧ ⌊(p.z - g.gridBin_.O.z) / g.gridBin_.h⌋.toNat = k := by
    simpa using hc
  refine ⟨fun h => ?_, fun h => ?_, fun h => ?_⟩ <;>
  · show Int.toNat ⌊_⌋ = m
    rw [h]
    simp

theorem boundary_center_voxel_witness :
    (printBins exGist.griddim_ (exGist.calcVoxelIndex ⟨3, 1 / 2, 1 / 2⟩).toNat).1 = 3 :=
  (boundary_center_voxel exGist exGist_InitOK ⟨3, 1 / 2, 1 / 2⟩ (by decide!) 3).1 (by decide!)


/-! ## `Init`: option validation -/

theorem Init_eq_none_iff (a : InitArgs) :
    Init a = none ↔
      (a.datafileOK = false ∨ a.infofileOK = false
        ∨ ¬ (a.floatfmt = "" ∨ a.floatfmt = "double" ∨ a.floatfmt = "scientific"
              ∨ a.floatfmt = "general")
        ∨ (a.skipE = true ∧ a.doeij = true)
        ∨ (a.pme = true ∧ a.doeij = true)
        ∨ (a.pme = true ∧ (a.LIBPME = false ∨ a.pmeOptsFail = true))
        ∨ (a.doeij = true ∧ a.eijfileOK = false)
        ∨ a.temp.getD 300 < 0
        ∨ a.gridcntr = some none
        ∨ a.griddim = some none
        ∨ (∃ nx ny nz, a.griddim.getD (some (40, 40, 40)) = some (nx, ny, nz)
              ∧ (nx < 1 ∨ ny < 1 ∨ nz < 1))
        ∨ a.datasetsOK = false
        ∨ (a.doeij = true ∧ (a.eijSetOK = false ∨ a.eijAllocFail = true))) := by
  unfold Init
  by_cases h1 : a.datafileOK = false
  · simp only [h1, if_true, true_or]
  rw [if_neg h1]
  by_cases h2 : a.infofileOK = false
  · simp only [h2, if_true, true_or, or_true]
  rw [if_neg h2]
  by_cases h3 : ¬ (a.floatfmt = "" ∨ a.floatfmt = "double" ∨ a.floatfmt = "scientific"
      ∨ a.floatfmt = "general")
  · rw [if_pos h3]; exact ⟨fun _ => Or.inr (Or.inr (Or.inl h3)), fun _ => rfl⟩
  rw [if_neg h3]
  dsimp only
  by_cases h4 : a.skipE = true ∧ a.doeij = true
  · rw [if_pos h4]; exact ⟨fun _ => Or.inr (Or.inr (Or.inr (Or.inl h4))), fun _ => rfl⟩
  rw [if_neg h4]
  have hp : (if a.pme = true then true else false) = a.pme := by cases a.pme <;> rfl
  rw [hp]
  by_cases h5 : a.pme = true ∧ a.doeij = true
  · rw [if_pos h5]; exact ⟨fun _ => Or.inr (Or.inr (Or.inr (Or.inr (Or.inl h5)))), fun _ => rfl⟩
  rw [if_neg h5]
  by_cases h6 : a.pme = true ∧ (a.LIBPME = false ∨ a.pmeOptsFail = true)
  · rw [if_pos h6]; refine ⟨fun _ => ?_, fun _ => rfl⟩; iterate 5 right
    exact Or.inl h6
  rw [if_neg h6]
  by_cases h7 : a.doeij = true ∧ a.eijfileOK = false
  · rw [if_pos h7]; refine ⟨fun _ => ?_, fun _ => rfl⟩; iterate 6 right
    exact Or.inl h7
  rw [if_neg h7]
  by_cases h8 : a.temp.getD 300 < 0
  · rw [if_pos h8]; refine ⟨fun _ => ?_, fun _ => rfl⟩; iterate 7 right
    exact Or.inl h8
  rw [if_neg h8]
  by_cases h9 : a.gridcntr = some none
  · rw [h9]; refine ⟨fun _ => ?_, fun _ => rfl⟩; iterate 8 right
    exact Or.inl rfl
  obtain ⟨c, hc⟩ : ∃ c, a.gridcntr.getD (some ⟨0, 0, 0⟩) = some c := by
    rcases hc : a.gridcntr with _ | _ | c
    · exact ⟨_, rfl⟩
    · exact absurd hc h9
    · exact ⟨c, rfl⟩
  rw [hc]
  dsimp only
  by_cases h10 : a.griddim = some none
  · rw [h10]; refine ⟨fun _ => ?_, fun _ => rfl⟩; iterate 9 right
    exact Or.inl rfl
  obtain ⟨nx, ny, nz, hd⟩ : ∃ nx ny nz, a.griddim.getD (some (40, 40, 40)) = some (nx, ny, nz) := by
    rcases hd : a.griddim with _ | _ | ⟨nx, ny, nz⟩
    · exact ⟨_, _, _, rfl⟩
    · exact absurd hd h10
    · exact ⟨nx, ny, nz, rfl⟩
  rw [hd]
  dsimp only
  by_cases h11 : nx < 1 ∨ ny < 1 ∨ nz < 1
  · rw [if_pos h11]; refine ⟨fun _ => ?_, fun _ => rfl⟩; iterate 10 right
    exact Or.inl ⟨nx, ny, nz, rfl, h11⟩
  rw [if_neg h11]
  by_cases h12 : a.datasetsOK = false
  · rw [if_pos h12]; refine ⟨fun _ => ?_, fun _ => rfl⟩; iterate 11 right
    exact Or.inl h12
  rw [if_neg h12]
  by_cases h13 : a.doeij = true ∧ a.eijSetOK = false
  · rw [if_pos h13]; refine ⟨fun _ => ?_, fun _ => rfl⟩; iterate 12 right
    exact ⟨h13.1, Or.inl h13.2⟩
  rw [if_neg h13]
  by_cases h14 : a.doeij = true ∧ a.eijAllocFail = true
  · rw [if_pos h14]; refine ⟨fun _ => ?_, fun _ => rfl⟩; iterate 12 right
    exact ⟨h14.1, Or.inr h14.2⟩
  rw [if_neg h14]
  refine ⟨fun h => Option.noConfusion h, ?_⟩
  rintro (h | h | h | h | h | h | h | h | h | h | h | h | h)
  · exact absurd h h1
  · exact absurd h h2
  · exact absurd h h3
  · exact absurd h h4
  · exact absurd h h5
  · exact absurd h h6
  · exact absurd h h7
  · exact absurd h h8
  · exact absurd h h9
  · exact absurd h h10
  · obtain ⟨x, y, z, e, hh⟩ := h
    obtain ⟨rfl, rfl, rfl⟩ : nx = x ∧ ny = y ∧ nz = z := by
      simpa using e
    exact absurd hh h11
  · exact absurd h h12
  · rcases h with ⟨hd1, hs | hs⟩
    · exact absurd ⟨hd1, hs⟩ h13
    · exact absurd ⟨hd1, hs⟩ h14


/-- What holds of the members when `Init` returns `Action::OK`. -/
theorem Init_some (a : InitArgs) (m : InitMembers) (h : Init a = some m) :
    m.temperature_ = a.temp.getD 300 ∧ 0 ≤ m.temperature_
      ∧ m.gridspacing_ = a.gridspacn.getD (1 / 2) ∧ m.gridBin_.h = m.gridspacing_
      ∧ a.griddim.getD (some (40, 40, 40)) = some (m.griddim_.nx, m.griddim_.ny, m.griddim_.nz)
      ∧ 1 ≤ m.griddim_.nx ∧ 1 ≤ m.griddim_.ny ∧ 1 ≤ m.griddim_.nz
      ∧ m.doEij_ = a.doeij ∧ m.usePme_ = a.pme ∧ m.skipE_ = a.skipE
      ∧ m.G_max_ = ⟨(m.griddim_.nx : ℚ) * m.gridspacing_ + 3 / 2,
                    (m.griddim_.ny : ℚ) * m.gridspacing_ + 3 / 2,
                    (m.griddim_.nz : ℚ) * m.gridspacing_ + 3 / 2⟩ := by
  unfold Init at h
  by_cases h1 : a.datafileOK = false
  · rw [if_pos h1] at h; exact Option.noConfusion h
  rw [if_neg h1] at h
  by_cases h2 : a.infofileOK = false
  · rw [if_pos h2] at h; exact Option.noConfusion h
  rw [if_neg h2] at h
  by_cases h3 : ¬ (a.floatfmt = "" ∨ a.floatfmt = "double" ∨ a.floatfmt = "scientific"
      ∨ a.floatfmt = "general")
  · rw [if_pos h3] at h; exact Option.noConfusion h
  rw [if_neg h3] at h
  dsimp only at h
  by_cases h4 : a.skipE = true ∧ a.doeij = true
  · rw [if_pos h4] at h; exact Option.noConfusion h
  rw [if_neg h4] at h
  have hp : (if a.pme = true then true else false) = a.pme := by cases a.pme <;> rfl
  rw [hp] at h
  by_cases h5 : a.pme = true ∧ a.doeij = true
  · rw [if_pos h5] at h; exact Option.noConfusion h
  rw [if_neg h5] at h
  by_cases h6 : a.pme = true ∧ (a.LIBPME = false ∨ a.pmeOptsFail = true)
  · rw [if_pos h6] at h; exact Option.noConfusion h
  rw [if_neg h6] at h
  by_cases h7 : a.doeij = true ∧ a.eijfileOK = false
  · rw [if_pos h7] at h; exact Option.noConfusion h
  rw [if_neg h7] at h
  by_cases h8 : a.temp.getD 300 < 0
  · rw [if_pos h8] at h; exact Option.noConfusion h
  rw [if_neg h8] at h
  rcases hc : a.gridcntr.getD (some ⟨0, 0, 0⟩) with _ | c
  · rw [hc] at h; exact Option.noConfusion h
  rw [hc] at h
  dsimp only at h
  rcases hd : a.griddim.getD (some (40, 40, 40)) with _ | ⟨nx, ny, nz⟩
  · rw [hd] at h; exact Option.noConfusion h
  rw [hd] at h
  dsimp only at h
  by_cases h11 : nx < 1 ∨ ny < 1 ∨ nz < 1
  · rw [if_pos h11] at h; exact Option.noConfusion h
  rw [if_neg h11] at h
  by_cases h12 : a.datasetsOK = false
  · rw [if_pos h12] at h; exact Option.noConfusion h
  rw [if_neg h12] at h
  by_cases h13 : a.doeij = true ∧ a.eijSetOK = false
  · rw [if_pos h13] at h; exact Option.noConfusion h
  rw [if_neg h13] at h
  by_cases h14 : a.doeij = true ∧ a.eijAllocFail = true
  · rw [if_pos h14] at h; exact Option.noConfusion h
  rw [if_neg h14] at h
  have hm := Option.some.inj h
  subst hm
  refine ⟨rfl, not_lt.mp h8, rfl, rfl, rfl, ?_, ?_, ?_, rfl, rfl, rfl, rfl⟩
  · show 1 ≤ nx
    omega
  · show 1 ≤ ny
    omega
  · show 1 ≤ nz
    omega

/-- C19: `Init` returns `Action::ERR` whenever the temperature is negative,
whenever a grid dimension is below 1, and whenever `doeij` is combined with
`pme` or with `skipE`; it returns `Action::OK` for a temperature of exactly 0
and grid dimensions that are all at least 1 when no other check fails. -/
theorem Init_option_validation (a : InitArgs) :
    (a.temp.getD 300 < 0 → Init a = none)
      ∧ (∀ nx ny nz : Int, a.griddim = some (some (nx, ny, nz)) →
          (nx < 1 ∨ ny < 1 ∨ nz < 1) → Init a = none)
      ∧ (a.doeij = true → a.pme = true → Init a = none)
      ∧ (a.doeij = true → a.skipE = true → Init a = none)
      ∧ (∀ nx ny nz : Int, a.temp = some 0 → a.griddim = some (some (nx, ny, nz)) →
          1 ≤ nx → 1 ≤ ny → 1 ≤ nz →
          a.datafileOK = true → a.infofileOK = true → a.floatfmt = "" →
          a.doeij = false → a.pme = false → a.gridcntr = none → a.datasetsOK = true →
          ∃ m, Init a = some m ∧ m.temperature_ = 0 ∧ m.griddim_ = ⟨nx, ny, nz⟩) := by
  refine ⟨fun h => ?_, fun nx ny nz hd h => ?_, fun h1 h2 => ?_, fun h1 h2 => ?_, ?_⟩
  · rw [Init_eq_none_iff]; iterate 7 right
    exact Or.inl h
  · rw [Init_eq_none_iff]; iterate 10 right
    exact Or.inl ⟨nx, ny, nz, by rw [hd]; rfl, h⟩
  · rw [Init_eq_none_iff]; iterate 4 right
    exact Or.inl ⟨h2, h1⟩
  · rw [Init_eq_none_iff]; iterate 3 right
    exact Or.inl ⟨h2, h1⟩
  · intro nx ny nz ht hd hx hy hz f1 f2 f3 f4 f5 f6 f7
    have hne : Init a ≠ none := by
      rw [Ne, Init_eq_none_iff]
      rintro (h | h | h | h | h | h | h | h | h | h | h | h | h)
      · rw [f1] at h; exact Bool.noConfusion h
      · rw [f2] at h; exact Bool.noConfusion h
      · exact h (Or.inl f3)
      · rw [f4] at h; exact Bool.noConfusion h.2
      · rw [f5] at h; exact Bool.noConfusion h.1
      · rw [f5] at h; exact Bool.noConfusion h.1
      · rw [f4] at h; exact Bool.noConfusion h.1
      · rw [ht] at h; exact absurd h (by norm_num)
      · rw [f6] at h; exact Option.noConfusion h
      · rw [hd] at h; exact Option.noConfusion (Option.some.inj h)
      · obtain ⟨x, y, z, e, hh⟩ := h
        rw [hd] at e
        obtain ⟨rfl, rfl, rfl⟩ : nx = x ∧ ny = y ∧ nz = z := by
          simpa using e
        omega
      · rw [f7] at h; exact Bool.noConfusion h
      · rw [f4] at h; exact Bool.noConfusion h.1
    obtain ⟨m, hm⟩ := Option.ne_none_iff_exists'.mp hne
    have hs := Init_some a m hm
    refine ⟨m, hm, ?_, ?_⟩
    · rw [hs.1, ht]; rfl
    · have e := hs.2.2.2.2.1
      rw [hd] at e
      obtain ⟨e1, e2, e3⟩ : nx = m.griddim_.nx ∧ ny = m.griddim_.ny ∧ nz = m.griddim_.nz := by
        simpa using e
      rw [e1, e2, e3]

theorem Init_option_validation_witness :
    ∃ m, Init { defaultArgs with temp := some 0, griddim := some (some (1, 1, 1)) } = some m
      ∧ m.temperature_ = 0 ∧ m.griddim_ = ⟨1, 1, 1⟩ :=
  (Init_option_validation
    { defaultArgs with temp := some 0, griddim := some (some (1, 1, 1)) }).2.2.2.2
    1 1 1 rfl rfl (by decide) (by decide) (by decide) rfl rfl rfl rfl rfl rfl rfl

/-! ## The grid spacing -/

/-- C20 (counterexample): `Init` returns `Action::OK` for `gridspacn 0` and for
`gridspacn -1`, with the spacing it was given. -/
theorem Init_accepts_nonpositive_gridspacn :
    (Init { defaultArgs with gridspacn := some 0 }).map InitMembers.gridspacing_ = some 0
      ∧ (Init { defaultArgs with gridspacn := some (-1) }).map InitMembers.gridspacing_
          = some (-1)
      ∧ (Init { defaultArgs with gridspacn := some 0 }).map
          (fun m => m.gridBin_.VoxelVolume) = some 0 := by
  decide!

theorem cube_pos_iff (h : ℚ) : 0 < h * h * h ↔ 0 < h := by
  constructor
  · intro hp
    by_contra hn
    have h0 : h ≤ 0 := not_lt.mp hn
    have : h * h * h ≤ 0 := mul_nonpos_of_nonneg_of_nonpos (mul_self_nonneg h) h0
    exact absurd hp (not_lt.mpr this)
  · intro hp
    positivity

/-- C20 (amended): `Init` does not examine the `gridspacn` value: whether it
returns `Action::OK` does not depend on it, and when it does the grid has the
spacing that was given (0.5 when the keyword is absent); so the spacing, and
with it the voxel volume h^3, is positive after `Init` exactly when the given
value is positive. -/
theorem Init_keeps_gridspacn (a : InitArgs) (m : InitMembers) (h : Init a = some m) :
    m.gridspacing_ = a.gridspacn.getD (1 / 2)
      ∧ m.gridBin_.h = a.gridspacn.getD (1 / 2)
      ∧ (0 < m.gridBin_.h ↔ 0 < a.gridspacn.getD (1 / 2))
      ∧ (0 < m.gridBin_.VoxelVolume ↔ 0 < a.gridspacn.getD (1 / 2))
      ∧ ∀ s : Option ℚ, (Init { a with gridspacn := s }).isSome = true := by
  have hs := Init_some a m h
  have e : m.gridBin_.h = a.gridspacn.getD (1 / 2) := hs.2.2.2.1.trans hs.2.2.1
  refine ⟨hs.2.2.1, e, by rw [e], ?_, fun s => ?_⟩
  · unfold GridBin.VoxelVolume
    rw [cube_pos_iff, e]
  · have hne : Init a ≠ none := by rw [h]; exact Option.some_ne_none m
    have hne2 : Init { a with gridspacn := s } ≠ none := by
      rw [Ne, Init_eq_none_iff]
      exact (Init_eq_none_iff a).not.mp hne
    exact Option.isSome_iff_ne_none.mpr hne2

theorem Init_keeps_gridspacn_witness :
    ∃ m, Init defaultArgs = some m ∧ m.gridspacing_ = 1 / 2 ∧ 0 < m.gridBin_.VoxelVolume := by
  have hne : (Init defaultArgs).isSome = true := by decide!
  obtain ⟨m, hm⟩ := Option.isSome_iff_exists.mp hne
  exact ⟨m, hm, (Init_keeps_gridspacn defaultArgs m hm).1,
    (Init_keeps_gridspacn defaultArgs m hm).2.2.2.1.mpr (by decide!)⟩

/-! ## The entropy grids of `Print` -/

theorem getD_map_range_zero (n v : Nat) (f : Nat → ℚ) (h : v < n → f v = 0) :
    ((List.range n).map f).getD v 0 = 0 := by
  by_cases hv : v < n
  · rw [getD_map_range n v f hv, h hv]
  · rw [List.getD_eq_getElem?_getD, List.getElem?_eq_none (by simpa using hv)]
    rfl

/-- The scan of `orient_NNr` over a list of samples, from a running value. -/
theorem orient_scan_inv (m : MathFns) (Q : List ℚ) (n0 : Nat) (l : List Nat) (N0 : ℚ) :
    let NNr := l.foldl
      (fun NNr n1 =>
        if n0 ≠ n1 then
          if quat_rR m Q n0 n1 > 0 ∧ quat_rR m Q n0 n1 < NNr then quat_rR m Q n0 n1 else NNr
        else NNr) N0
    (NNr = N0 ∨ ∃ n1 ∈ l, n1 ≠ n0 ∧ NNr = quat_rR m Q n0 n1 ∧ 0 < quat_rR m Q n0 n1)
      ∧ NNr ≤ N0
      ∧ ∀ n1 ∈ l, n1 ≠ n0 → 0 < quat_rR m Q n0 n1 → NNr ≤ quat_rR m Q n0 n1 := by
  induction l generalizing N0 with
  | nil => exact ⟨Or.inl rfl, le_refl _, fun _ h => absurd h (List.not_mem_nil _)⟩
  | cons a t ih =>
    intro NNr
    rw [show NNr = t.foldl _ _ from List.foldl_cons _ _]
    set N1 := (if n0 ≠ a then
          if quat_rR m Q n0 a > 0 ∧ quat_rR m Q n0 a < N0 then quat_rR m Q n0 a else N0
        else N0) with hN1
    obtain ⟨i1, i2, i3⟩ := ih N1
    have hle : N1 ≤ N0 := by
      rw [hN1]; split_ifs with h1 h2
      · exact h2.2.le
      · exact le_refl _
      · exact le_refl _
    have hcase : N1 = N0 ∨ (a ≠ n0 ∧ N1 = quat_rR m Q n0 a ∧ 0 < quat_rR m Q n0 a) := by
      rw [hN1]; split_ifs with h1 h2
      · exact Or.inr ⟨fun e => h1 e.symm, rfl, h2.1⟩
      · exact Or.inl rfl
      · exact Or.inl rfl
    have ha : a ≠ n0 → 0 < quat_rR m Q n0 a → N1 ≤ quat_rR m Q n0 a := by
      intro hne hpos
      rw [hN1, if_pos (fun e => hne e.symm)]
      split_ifs with h2
      · exact le_refl _
      · exact not_lt.mp (fun hlt => h2 ⟨hpos, hlt⟩)
    refine ⟨?_, i2.trans hle, ?_⟩
    · rcases i1 with e | ⟨n1, hn1, h⟩
      · rcases hcase with e2 | ⟨h1, h2, h3⟩
        · exact Or.inl (e.trans e2)
        · exact Or.inr ⟨a, List.mem_cons_self _ _, h1, e.trans h2, h3⟩
      · exact Or.inr ⟨n1, List.mem_cons_of_mem _ hn1, h⟩
    · intro n1 hn1 hne hpos
      rcases List.mem_cons.mp hn1 with rfl | hmem
      · exact i2.trans (ha hne hpos)
      · exact i3 n1 hmem hne hpos


theorem foldl_cond_add {α : Type} (l : List α) (p : α → Bool) (f : α → ℚ) (s0 : ℚ) :
    l.foldl (fun s a => if p a = true then s + f a else s) s0
      = s0 + (l.map fun a => if p a = true then f a else 0).sum := by
  induction l generalizing s0 with
  | nil => simp
  | cons a t ih =>
    rw [List.foldl_cons, ih, List.map_cons, List.sum_cons]
    split_ifs <;> ring

/-- C16 (counterexample): a voxel with three samples, the first two with the
same quaternion and the third with another.  For the first sample the minimum
over all other samples of `2·acos(|q_a · q_b|)` is 0 (the second sample is at
distance 0), yet the estimator uses `NNr = 1.287`, the distance to the third
sample, and the first sample does add a logarithm. -/
theorem orient_zero_distance_still_contributes :
    (exGistQ.run [exFrameQ h2Tilt, exFrameQ h2Tilt, exFrameQ h2Flat]).N_waters_.getD 0 0 = 3
      ∧ quat_rR exMathQ ((exGistQ.run [exFrameQ h2Tilt, exFrameQ h2Tilt,
          exFrameQ h2Flat]).voxel_Q_.getD 0 []) 0 1 = 0
      ∧ spec_d_min exMathQ ((exGistQ.run [exFrameQ h2Tilt, exFrameQ h2Tilt,
          exFrameQ h2Flat]).voxel_Q_.getD 0 []) 3 0 = some 0
      ∧ orient_NNr exMathQ ((exGistQ.run [exFrameQ h2Tilt, exFrameQ h2Tilt,
          exFrameQ h2Flat]).voxel_Q_.getD 0 []) 3 0 = 1287 / 1000
      ∧ orientGuard (orient_NNr exMathQ ((exGistQ.run [exFrameQ h2Tilt, exFrameQ h2Tilt,
          exFrameQ h2Flat]).voxel_Q_.getD 0 []) 3 0) = true := by
  decide!

/-- C16 (amended): for a voxel with `nw_total` samples and a sample `n0`, the
estimator uses `NNr` = the minimum of `2·acos(|q_n0 · q_n1|)` over the other
samples `n1` at a distance greater than 0 (samples at distance 0 are passed
over), or 10000 when there is none below that; sample `n0` adds a logarithm if
and only if some other sample is at a distance `0 < d < 9999`; so a sample with
an identical quaternion among the others does not keep it from contributing,
and a sample contributes nothing when all others are at distance 0;
`sorient_norm` is the sum of the logarithms of the contributing samples. -/
theorem orient_NNr_min_positive (g : Gist) (Q : List ℚ) (nw_total n0 : Nat) :
    (orient_NNr g.math Q nw_total n0 = 10000
        ∨ ∃ n1, n1 < nw_total ∧ n1 ≠ n0 ∧ orient_NNr g.math Q nw_total n0 = quat_rR g.math Q n0 n1
            ∧ 0 < quat_rR g.math Q n0 n1)
      ∧ (∀ n1, n1 < nw_total → n1 ≠ n0 → 0 < quat_rR g.math Q n0 n1 →
          orient_NNr g.math Q nw_total n0 ≤ quat_rR g.math Q n0 n1)
      ∧ (orientGuard (orient_NNr g.math Q nw_total n0) = true
          ↔ ∃ n1, n1 < nw_total ∧ n1 ≠ n0 ∧ 0 < quat_rR g.math Q n0 n1
              ∧ quat_rR g.math Q n0 n1 < 9999)
      ∧ ((∀ n1, n1 < nw_total → n1 ≠ n0 → quat_rR g.math Q n0 n1 = 0) →
          orientGuard (orient_NNr g.math Q nw_total n0) = false)
      ∧ sorient_norm g Q nw_total
          = ((List.range nw_total).map fun n =>
              if orientGuard (orient_NNr g.math Q nw_total n) = true then
                orient_dbl g nw_total (orient_NNr g.math Q nw_total n)
              else 0).sum := by
  obtain ⟨i1, i2, i3⟩ := orient_scan_inv g.math Q n0 (List.range nw_total) 10000
  have h1 : orient_NNr g.math Q nw_total n0 = 10000
      ∨ ∃ n1, n1 < nw_total ∧ n1 ≠ n0
          ∧ orient_NNr g.math Q nw_total n0 = quat_rR g.math Q n0 n1
          ∧ 0 < quat_rR g.math Q n0 n1 := by
    rcases i1 with e | ⟨n1, hm, h⟩
    · exact Or.inl e
    · exact Or.inr ⟨n1, List.mem_range.mp hm, h⟩
  have h2 : ∀ n1, n1 < nw_total → n1 ≠ n0 → 0 < quat_rR g.math Q n0 n1 →
      orient_NNr g.math Q nw_total n0 ≤ quat_rR g.math Q n0 n1 :=
    fun n1 hn => i3 n1 (List.mem_range.mpr hn)
  have h3 : orientGuard (orient_NNr g.math Q nw_total n0) = true
      ↔ ∃ n1, n1 < nw_total ∧ n1 ≠ n0 ∧ 0 < quat_rR g.math Q n0 n1
          ∧ quat_rR g.math Q n0 n1 < 9999 := by
    unfold orientGuard
    rw [decide_eq_true_eq]
    constructor
    · rintro ⟨hlt, hpos⟩
      rcases h1 with e | ⟨n1, hn, hne, e, hp⟩
      · rw [e] at hlt; norm_num at hlt
      · exact ⟨n1, hn, hne, hp, by rw [← e]; exact hlt⟩
    · rintro ⟨n1, hn, hne, hp, hlt⟩
      refine ⟨lt_of_le_of_lt (h2 n1 hn hne hp) hlt, ?_⟩
      rcases h1 with e | ⟨n2, _, _, e, hp2⟩
      · rw [e]; norm_num
      · rw [e]; exact hp2
  refine ⟨h1, h2, h3, fun hz => ?_, ?_⟩
  · rw [Bool.eq_false_iff, Ne, h3]
    rintro ⟨n1, hn, hne, hp, -⟩
    rw [hz n1 hn hne] at hp
    exact lt_irrefl _ hp
  · unfold sorient_norm
    rw [foldl_cond_add (List.range nw_total)
      (fun n => orientGuard (orient_NNr g.math Q nw_total n))
      (fun n => orient_dbl g nw_total (orient_NNr g.math Q nw_total n)) 0, zero_add]

theorem orient_NNr_min_positive_witness :
    orientGuard (orient_NNr exGistQ.math
      ((exGistQ.run [exFrameQ h2Tilt, exFrameQ h2Tilt]).voxel_Q_.getD 0 []) 2 0) = false :=
  (orient_NNr_min_positive exGistQ
    ((exGistQ.run [exFrameQ h2Tilt, exFrameQ h2Tilt]).voxel_Q_.getD 0 []) 2 0).2.2.2.1
    (by decide!)

/-! ## The orientation quaternion -/

theorem quat_sar_eq (m : MathFns) (O H1 : Vec3) :
    quat_sar m O H1 = ⟨0, (quat_H_wat m O H1).z, -(quat_H_wat m O H1).y⟩ := by
  unfold quat_sar Vec3.Cross x_lab_
  simp only [Vec3.mk.injEq]
  refine ⟨?_, ?_, ?_⟩ <;> ring

theorem recordOnGrid_voxel_Q (g : Gist) (frm : Frame) (oidx : Nat) (c : Vec3) (voxel : Int)
    (st : GistState) :
    (recordOnGrid g frm oidx c voxel st).voxel_Q_
      = pushAt st.voxel_Q_ voxel.toNat
          (waterQuaternion g.math g.SMALL (frm.XYZ (oidx + g.rigidAtomIndices_.1))
            (frm.XYZ (oidx + g.rigidAtomIndices_.2.1))
            (frm.XYZ (oidx + g.rigidAtomIndices_.2.2))) := by
  have h : ((List.range g.nMolAtoms_).foldl (recordAtom frm oidx voxel) st).voxel_Q_
      = st.voxel_Q_ :=
    foldl_preserves (recordAtom frm oidx voxel) GistState.voxel_Q_ (fun _ _ => rfl) _ _
  simp only [recordOnGrid, h]

/-! ## The orientation quaternion as a rotation -/

theorem quat_theta1_eq (m : MathFns) (SMALL : ℚ) (O H1 : Vec3) (hSMALL : 0 ≤ SMALL) :
    quat_theta1 m SMALL O H1 = m.acos (x_lab_.dot (quat_H_wat m O H1)) / (-2) := by
  unfold quat_theta1
  rw [if_neg]
  rw [quat_sar_eq]
  have e : (⟨0, (quat_H_wat m O H1).z, -(quat_H_wat m O H1).y⟩ : Vec3).dot (quat_H_wat m O H1)
      = 0 := by
    unfold Vec3.dot
    ring
  rw [e]
  exact not_lt.mpr hSMALL

/-! ## Two runs that differ by what was accumulated before -/

theorem addAt_of_ge (l : List ℚ) (v : Nat) (x : ℚ) (hv : l.length ≤ v) : addAt l v x = l := by
  induction l generalizing v with
  | nil => rfl
  | cons a t ih =>
    cases v with
    | zero => simp at hv
    | succ n =>
      simp only [addAt]
      rw [ih n (by simpa using hv)]

theorem ShiftL_addAt (d l l' : List ℚ) (h : ShiftL d l l') (i : Nat) (x : ℚ) :
    ShiftL d (addAt l i x) (addAt l' i x) := by
  obtain ⟨hl, hv⟩ := h
  refine ⟨by rw [addAt_length, addAt_length, hl], fun v => ?_⟩
  by_cases hi : i < l.length
  · rw [addAt_getD l i v x hi, addAt_getD l' i v x (by rw [hl]; exact hi), hv v]
    ring
  · rw [addAt_of_ge l i x (not_lt.mp hi), addAt_of_ge l' i x (by rw [hl]; exact not_lt.mp hi)]
    exact hv v

theorem densityUpdate_length (L : List (List ℚ)) (i v : Nat) :
    (densityUpdate L i v).length = L.length := by
  induction L generalizing i with
  | nil => rfl
  | cons a t ih => cases i <;> simp [densityUpdate, ih]

theorem densityUpdate_getD (L : List (List ℚ)) (i v j : Nat) :
    (densityUpdate L i v).getD j [] = if j = i then addAt (L.getD j []) v 1 else L.getD j [] := by
  induction L generalizing i j with
  | nil =>
    simp only [densityUpdate, List.getD_nil]
    split_ifs <;> rfl
  | cons a t ih =>
    cases i with
    | zero =>
      cases j with
      | zero => simp [densityUpdate]
      | succ m => simp [densityUpdate]
    | succ n =>
      cases j with
      | zero => simp [densityUpdate]
      | succ m =>
        have := ih n m
        simpa [densityUpdate] using this

theorem ShiftLL_densityUpdate (d L L' : List (List ℚ)) (h : ShiftLL d L L') (i v : Nat) :
    ShiftLL d (densityUpdate L i v) (densityUpdate L' i v) := by
  obtain ⟨hl, hv⟩ := h
  refine ⟨by rw [densityUpdate_length, densityUpdate_length, hl], fun j => ?_⟩
  rw [densityUpdate_getD, densityUpdate_getD]
  split_ifs
  · exact ShiftL_addAt _ _ _ (hv j) v 1
  · exact hv j

theorem foldl_rel {α σ : Type} (R : σ → σ → Prop) (f f' : σ → α → σ)
    (h : ∀ s t a, R s t → R (f s a) (f' t a)) (l : List α) (s t : σ) (hst : R s t) :
    R (l.foldl f s) (l.foldl f' t) := by
  induction l generalizing s t with
  | nil => exact hst
  | cons a l ih =>
    rw [List.foldl_cons, List.foldl_cons]
    exact ih _ _ (h s t a hst)

theorem Shifted_recordAtom (d s t : GistState) (frm : Frame) (o : Nat) (v : Int) (i : Nat)
    (h : Shifted d s t) : Shifted d (recordAtom frm o v s i) (recordAtom frm o v t i) := by
  obtain ⟨⟨a1, a2, a3, a4⟩, b1, b2, b3, b4, b5, b6, b7, b8, b9⟩ := h
  refine ⟨⟨?_, ?_, ?_, a4⟩, b1, b2, b3, b4, b5, b6, b7, b8, b9⟩
  · show s.atom_voxel_.set _ _ = t.atom_voxel_.set _ _
    rw [a1]
  · show s.OnGrid_idxs_ ++ _ = t.OnGrid_idxs_ ++ _
    rw [a2]
  · show s.OnGrid_XYZ_ ++ _ = t.OnGrid_XYZ_ ++ _
    rw [a3]

theorem Shifted_recordOnGrid (g : Gist) (d s t : GistState) (frm : Frame) (o : Nat) (c : Vec3)
    (v : Int) (h : Shifted d s t) :
    Shifted d (recordOnGrid g frm o c v s) (recordOnGrid g frm o c v t) := by
  have h1 := foldl_rel (Shifted d) (recordAtom frm o v) (recordAtom frm o v)
    (fun s t i hst => Shifted_recordAtom d s t frm o v i hst) (List.range g.nMolAtoms_) s t h
  obtain ⟨⟨a1, a2, a3, a4⟩, b1, b2, b3, b4, b5, b6, b7, b8, b9⟩ := h1
  refine ⟨⟨a1, a2, a3, ?_⟩, b1, b2, b3, b4, b5, ShiftL_addAt _ _ _ b6 _ _,
    ShiftL_addAt _ _ _ b7 _ _, ShiftL_addAt _ _ _ b8 _ _, b9⟩
  show _ + g.nMolAtoms_ = _ + g.nMolAtoms_
  rw [a4]

theorem Shifted_recordDensity (g : Gist) (d s t : GistState) (frm : Frame) (o : Nat)
    (h : Shifted d s t) :
    Shifted d (recordDensity g frm o s) (recordDensity g frm o t) := by
  unfold recordDensity
  refine foldl_rel (Shifted d) _ _ ?_ _ s t h
  intro s t i hst
  simp only
  split
  · obtain ⟨a, b1, b2, b3, b4, b5, b6, b7, b8, b9⟩ := hst
    exact ⟨a, b1, b2, b3, b4, b5, b6, b7, b8, ShiftLL_densityUpdate _ _ _ b9 _ _⟩
  · exact hst

theorem Shifted_molStep (g : Gist) (d s t : GistState) (frm : Frame) (o : Nat)
    (h : Shifted d s t) : Shifted d (molStep g frm s o) (molStep g frm t o) := by
  unfold molStep
  simp only
  split
  · apply Shifted_recordDensity
    split
    · exact Shifted_recordOnGrid g d s t frm o _ _ h
    · exact h
  · exact h

theorem Shifted_of_fields (d s t s' t' : GistState) (h : Shifted d s t)
    (hs : sameSample s' t')
    (e1 : s'.E_UV_VDW_ = s.E_UV_VDW_ ∧ s'.E_UV_Elec_ = s.E_UV_Elec_
      ∧ s'.E_VV_VDW_ = s.E_VV_VDW_ ∧ s'.E_VV_Elec_ = s.E_VV_Elec_ ∧ s'.neighbor_ = s.neighbor_
      ∧ s'.dipolex = s.dipolex ∧ s'.dipoley = s.dipoley ∧ s'.dipolez = s.dipolez
      ∧ s'.density = s.density)
    (e2 : t'.E_UV_VDW_ = t.E_UV_VDW_ ∧ t'.E_UV_Elec_ = t.E_UV_Elec_
      ∧ t'.E_VV_VDW_ = t.E_VV_VDW_ ∧ t'.E_VV_Elec_ = t.E_VV_Elec_ ∧ t'.neighbor_ = t.neighbor_
      ∧ t'.dipolex = t.dipolex ∧ t'.dipoley = t.dipoley ∧ t'.dipolez = t.dipolez
      ∧ t'.density = t.density) :
    Shifted d s' t' := by
  obtain ⟨_, b1, b2, b3, b4, b5, b6, b7, b8, b9⟩ := h
  obtain ⟨p1, p2, p3, p4, p5, p6, p7, p8, p9⟩ := e1
  obtain ⟨q1, q2, q3, q4, q5, q6, q7, q8, q9⟩ := e2
  refine ⟨hs, ?_, ?_, ?_, ?_, ?_, ?_, ?_, ?_, ?_⟩
  · rw [p1, q1]; exact b1
  · rw [p2, q2]; exact b2
  · rw [p3, q3]; exact b3
  · rw [p4, q4]; exact b4
  · rw [p5, q5]; exact b5
  · rw [p6, q6]; exact b6
  · rw [p7, q7]; exact b7
  · rw [p8, q8]; exact b8
  · rw [p9, q9]; exact b9

/-- The grids behind the density outputs, as one value. -/
theorem orderMol_fields (g : Gist) (frm : Frame) (l : List Nat) (s : GistState) :
    (l.foldl (orderMol g frm) s).E_UV_VDW_ = s.E_UV_VDW_
      ∧ (l.foldl (orderMol g frm) s).E_UV_Elec_ = s.E_UV_Elec_
      ∧ (l.foldl (orderMol g frm) s).E_VV_VDW_ = s.E_VV_VDW_
      ∧ (l.foldl (orderMol g frm) s).E_VV_Elec_ = s.E_VV_Elec_
      ∧ (l.foldl (orderMol g frm) s).neighbor_ = s.neighbor_
      ∧ (l.foldl (orderMol g frm) s).dipolex = s.dipolex
      ∧ (l.foldl (orderMol g frm) s).dipoley = s.dipoley
      ∧ (l.foldl (orderMol g frm) s).dipolez = s.dipolez
      ∧ (l.foldl (orderMol g frm) s).density = s.density :=
  ⟨foldl_preserves (orderMol g frm) GistState.E_UV_VDW_ (fun _ _ => rfl) _ _,
   foldl_preserves (orderMol g frm) GistState.E_UV_Elec_ (fun _ _ => rfl) _ _,
   foldl_preserves (orderMol g frm) GistState.E_VV_VDW_ (fun _ _ => rfl) _ _,
   foldl_preserves (orderMol g frm) GistState.E_VV_Elec_ (fun _ _ => rfl) _ _,
   foldl_preserves (orderMol g frm) GistState.neighbor_ (fun _ _ => rfl) _ _,
   foldl_preserves (orderMol g frm) GistState.dipolex (fun _ _ => rfl) _ _,
   foldl_preserves (orderMol g frm) GistState.dipoley (fun _ _ => rfl) _ _,
   foldl_preserves (orderMol g frm) GistState.dipolez (fun _ _ => rfl) _ _,
   foldl_preserves (orderMol g frm) GistState.density (fun _ _ => rfl) _ _⟩

theorem Shifted_orderPhase (g : Gist) (d s t : GistState) (frm : Frame) (h : Shifted d s t) :
    Shifted d (orderPhase g frm s) (orderPhase g frm t) := by
  have hs : sameSample (orderPhase g frm s) (orderPhase g frm t) :=
    sameSample_trans (orderPhase_sameSample g frm s)
      (sameSample_trans h.sample
        (by
          obtain ⟨a, b, c, e⟩ := orderPhase_sameSample g frm t
          exact ⟨a.symm, b.symm, c.symm, e.symm⟩))
  unfold orderPhase at hs ⊢
  split
  · rename_i ho
    rw [if_pos ho, if_pos ho] at hs
    unfold Order at hs ⊢
    exact Shifted_of_fields d s t _ _ h hs (orderMol_fields g frm _ s) (orderMol_fields g frm _ t)
  · exact h

theorem Shifted_nbStart (d s t : GistState) (frm : Frame) (h : Shifted d s t) :
    Shifted d (nbStart frm s) (nbStart frm t) := by
  unfold nbStart
  split
  · obtain ⟨⟨a1, a2, a3, a4⟩, b1, b2, b3, b4, b5, b6, b7, b8, b9⟩ := h
    refine ⟨⟨a1, a2, ?_, a4⟩, b1, b2, b3, b4, b5, b6, b7, b8, b9⟩
    show wrapOnGrid frm s.OnGrid_XYZ_ = wrapOnGrid frm t.OnGrid_XYZ_
    rw [a3]
  · exact h

theorem Shifted_applyCall (g : Gist) (d s t : GistState) (c : EcalcCall) (h : Shifted d s t) :
    Shifted d (applyCall g s c) (applyCall g t c) := by
  obtain ⟨a, b1, b2, b3, b4, b5, b6, b7, b8, b9⟩ := h
  unfold applyCall
  simp only
  split_ifs <;> refine ⟨a, ?_, ?_, ?_, ?_, ?_, b6, b7, b8, b9⟩ <;>
    first
      | assumption
      | exact ShiftL_addAt _ _ _ (by assumption) _ _
      | exact ShiftL_addAt _ _ _ (ShiftL_addAt _ _ _ (by assumption) _ _) _ _

theorem frameCalls_congr (g : Gist) (frm : Frame) (s t : GistState) (h : sameSample s t) :
    frameCalls g frm s = frameCalls g frm t := by
  unfold frameCalls
  rw [h.2.2.2]
  congr 1
  funext a1
  congr 1
  funext gidx
  exact nbCall_congr g frm s t h a1 gidx

theorem Shifted_energyPhase (g : Gist) (hp : g.usePme_ = false) (d s t : GistState) (frm : Frame)
    (h : Shifted d s t) : Shifted d (energyPhase g frm s) (energyPhase g frm t) := by
  unfold energyPhase
  split
  · rw [if_neg (by rw [hp]; exact Bool.false_ne_true),
      if_neg (by rw [hp]; exact Bool.false_ne_true), NonbondEnergy_eq, NonbondEnergy_eq]
    have h1 := Shifted_nbStart d s t frm h
    rw [frameCalls_congr g frm _ _ h1.sample]
    exact foldl_rel (Shifted d) (applyCall g) (applyCall g)
      (fun s t c hst => Shifted_applyCall g d s t c hst) _ _ _ h1
  · exact h

/-- Two states whose accumulated grids differ by those of `d` still do so after
the same frame. -/
theorem Shifted_DoAction (g : Gist) (hp : g.usePme_ = false) (d s t : GistState) (frm : Frame)
    (h : ShiftL d.E_UV_VDW_ s.E_UV_VDW_ t.E_UV_VDW_ ∧ ShiftL d.E_UV_Elec_ s.E_UV_Elec_ t.E_UV_Elec_
      ∧ ShiftL d.E_VV_VDW_ s.E_VV_VDW_ t.E_VV_VDW_ ∧ ShiftL d.E_VV_Elec_ s.E_VV_Elec_ t.E_VV_Elec_
      ∧ ShiftL d.neighbor_ s.neighbor_ t.neighbor_ ∧ ShiftL d.dipolex s.dipolex t.dipolex
      ∧ ShiftL d.dipoley s.dipoley t.dipoley ∧ ShiftL d.dipolez s.dipolez t.dipolez
      ∧ ShiftLL d.density s.density t.density) :
    Shifted d (DoAction g s frm) (DoAction g t frm) := by
  obtain ⟨b1, b2, b3, b4, b5, b6, b7, b8, b9⟩ := h
  have h0 : Shifted d (frameStart frm s) (frameStart frm t) :=
    ⟨⟨rfl, rfl, rfl, rfl⟩, b1, b2, b3, b4, b5, b6, b7, b8, b9⟩
  have h1 : Shifted d (assignMolecules g frm (frameStart frm s))
      (assignMolecules g frm (frameStart frm t)) :=
    foldl_rel (Shifted d) (molStep g frm) (molStep g frm)
      (fun s t o hst => Shifted_molStep g d s t frm o hst) _ _ _ h0
  have h2 : Shifted d (assignSolute g frm (assignMolecules g frm (frameStart frm s)))
      (assignSolute g frm (assignMolecules g frm (frameStart frm t))) := by
    unfold assignSolute
    rw [if_neg (by rw [hp]; exact Bool.false_ne_true),
      if_neg (by rw [hp]; exact Bool.false_ne_true)]
    exact h1
  exact Shifted_energyPhase g hp d _ _ frm (Shifted_orderPhase g d _ _ frm h2)

theorem densityUpdate_lengths (L : List (List ℚ)) (i v : Nat) :
    (densityUpdate L i v).map List.length = L.map List.length := by
  induction L generalizing i with
  | nil => rfl
  | cons a t ih => cases i <;> simp [densityUpdate, ih, addAt_length]

theorem molStep_accLens (g : Gist) (frm : Frame) (s : GistState) (o : Nat) :
    (molStep g frm s o).accLens = s.accLens := by
  have hd : ∀ t : GistState, (recordDensity g frm o t).accLens = t.accLens := by
    intro t
    unfold recordDensity
    refine foldl_preserves _ GistState.accLens ?_ _ _
    intro u a
    simp only
    split
    · simp only [GistState.accLens, densityUpdate_lengths]
    · rfl
  have hr : ∀ (c : Vec3) (v : Int) (t : GistState),
      (recordOnGrid g frm o c v t).accLens = t.accLens := by
    intro c v t
    have h : ((List.range g.nMolAtoms_).foldl (recordAtom frm o v) t).accLens = t.accLens :=
      foldl_preserves (recordAtom frm o v) GistState.accLens (fun _ _ => rfl) _ _
    rw [← h]
    simp only [recordOnGrid, GistState.accLens, addAt_length]
  unfold molStep
  simp only
  split
  · rw [hd]
    split
    · rw [hr]
    · rfl
  · rfl

theorem applyCall_accLens (g : Gist) (s : GistState) (c : EcalcCall) :
    (applyCall g s c).accLens = s.accLens := by
  unfold applyCall
  simp only
  split_ifs <;> simp only [GistState.accLens, addAt_length]

theorem DoAction_accLens (g : Gist) (hp : g.usePme_ = false) (s : GistState) (frm : Frame) :
    (DoAction g s frm).accLens = s.accLens := by
  have h1 : (assignMolecules g frm (frameStart frm s)).accLens = s.accLens := by
    unfold assignMolecules
    rw [foldl_preserves (molStep g frm) GistState.accLens (molStep_accLens g frm)]
    rfl
  have h2 : ∀ t : GistState, (assignSolute g frm t).accLens = t.accLens := by
    intro t
    unfold assignSolute
    rw [if_neg (by rw [hp]; exact Bool.false_ne_true)]
  have h3 : ∀ t : GistState, (orderPhase g frm t).accLens = t.accLens := by
    intro t
    unfold orderPhase
    split
    · unfold Order
      exact foldl_preserves (orderMol g frm) GistState.accLens (fun _ _ => rfl) _ _
    · rfl
  have h4 : ∀ t : GistState, (energyPhase g frm t).accLens = t.accLens := by
    intro t
    unfold energyPhase
    split
    · rw [if_neg (by rw [hp]; exact Bool.false_ne_true), NonbondEnergy_eq,
        foldl_preserves (applyCall g) GistState.accLens (applyCall_accLens g)]
      unfold nbStart
      split <;> rfl
    · rfl
  unfold DoAction
  rw [h4, h3, h2, h1]

theorem DoAction_NFRAME (g : Gist) (hp : g.usePme_ = false) (s : GistState) (frm : Frame) :
    (DoAction g s frm).NFRAME_ = s.NFRAME_ + 1 := by
  have hm : ∀ (t : GistState) (o : Nat), (molStep g frm t o).NFRAME_ = t.NFRAME_ := by
    intro t o
    have hd : ∀ u : GistState, (recordDensity g frm o u).NFRAME_ = u.NFRAME_ := by
      intro u
      unfold recordDensity
      refine foldl_preserves _ GistState.NFRAME_ ?_ _ _
      intro w a
      simp only
      split <;> rfl
    have hr : ∀ (c : Vec3) (v : Int) (u : GistState),
        (recordOnGrid g frm o c v u).NFRAME_ = u.NFRAME_ := by
      intro c v u
      have h : ((List.range g.nMolAtoms_).foldl (recordAtom frm o v) u).NFRAME_ = u.NFRAME_ :=
        foldl_preserves (recordAtom frm o v) GistState.NFRAME_ (fun _ _ => rfl) _ _
      rw [← h]
      rfl
    unfold molStep
    simp only
    split
    · rw [hd]
      split
      · rw [hr]
      · rfl
    · rfl
  have h1 : (assignMolecules g frm (frameStart frm s)).NFRAME_ = s.NFRAME_ + 1 := by
    unfold assignMolecules
    rw [foldl_preserves (molStep g frm) GistState.NFRAME_ hm]
    rfl
  have h2 : ∀ t : GistState, (assignSolute g frm t).NFRAME_ = t.NFRAME_ := by
    intro t
    unfold assignSolute
    rw [if_neg (by rw [hp]; exact Bool.false_ne_true)]
  have h3 : ∀ t : GistState, (orderPhase g frm t).NFRAME_ = t.NFRAME_ := by
    intro t
    unfold orderPhase
    split
    · unfold Order
      exact foldl_preserves (orderMol g frm) GistState.NFRAME_ (fun _ _ => rfl) _ _
    · rfl
  have h4 : ∀ t : GistState, (energyPhase g frm t).NFRAME_ = t.NFRAME_ := by
    intro t
    unfold energyPhase
    split
    · rw [if_neg (by rw [hp]; exact Bool.false_ne_true), NonbondEnergy_eq,
        foldl_preserves (applyCall g) GistState.NFRAME_]
      · unfold nbStart
        split <;> rfl
      · intro u c
        unfold applyCall
        simp only
        split_ifs <;> rfl
    · rfl
  unfold DoAction
  rw [h4, h3, h2, h1]

theorem ext_getD (l l' : List ℚ) (hl : l.length = l'.length)
    (h : ∀ v, l.getD v 0 = l'.getD v 0) : l = l' := by
  refine List.ext_getElem hl (fun i h1 h2 => ?_)
  have := h i
  simpa [List.getD_eq_getElem?_getD, List.getElem?_eq_getElem h1,
    List.getElem?_eq_getElem h2] using this

theorem scale_double (l l' : List ℚ) (h : ShiftL l l l') (c c' : ℚ) (hc : 2 * c' = c) :
    ScaleFarray l' c' = ScaleFarray l c := by
  refine ext_getD _ _ (by simp [ScaleFarray, h.1]) (fun v => ?_)
  rw [ScaleFarray_getD, ScaleFarray_getD, h.2 v, ← hc]
  ring

theorem ShiftL_map_range (n : Nat) (f f' : Nat → ℚ) (h : ∀ v, f' v = f v + f v) :
    ShiftL ((List.range n).map f) ((List.range n).map f) ((List.range n).map f') := by
  refine ⟨by simp, fun v => ?_⟩
  by_cases hv : v < n
  · rw [getD_map_range n v f hv, getD_map_range n v f' hv, h v]
  · rw [getD_map_range_zero n v f (fun hlt => absurd hlt hv),
      getD_map_range_zero n v f' (fun hlt => absurd hlt hv)]
    ring

theorem ShiftL_init (n : Nat) (l : List ℚ) (hl : l.length = (List.replicate n (0 : ℚ)).length) :
    ShiftL l (List.replicate n 0) l :=
  ⟨hl, fun v => by rw [getD_replicate_zero, zero_add]⟩

theorem ShiftLL_init (k n : Nat) (L : List (List ℚ))
    (hL : L.map List.length = (List.replicate k (List.replicate n (0 : ℚ))).map List.length) :
    ShiftLL L (List.replicate k (List.replicate n 0)) L := by
  have hlen : L.length = (List.replicate k (List.replicate n (0 : ℚ))).length := by
    have := congrArg List.length hL
    simpa using this
  refine ⟨hlen, fun i => ⟨?_, fun v => ?_⟩⟩
  · have h1 : ∀ M : List (List ℚ), (M.getD i []).length = (M.map List.length).getD i 0 := by
      intro M
      rw [List.getD_eq_getElem?_getD, List.getD_eq_getElem?_getD, List.getElem?_map]
      cases M[i]? <;> rfl
    rw [h1 L, h1 (List.replicate k (List.replicate n 0)), hL]
  · have hz : ((List.replicate k (List.replicate n (0 : ℚ))).getD i []).getD v 0 = 0 := by
      have e : (List.replicate k (List.replicate n (0 : ℚ))).getD i []
          = if i < k then List.replicate n 0 else [] := by
        rw [List.getD_eq_getElem?_getD, List.getElem?_replicate]
        split_ifs <;> rfl
      rw [e]
      split_ifs
      · exact getD_replicate_zero n v
      · rfl
    rw [hz, zero_add]

/-- C11: for every frame F (energies computed by the pair loop, not by the
mesh-Ewald back-end), running the engine on the trajectory (F, F) yields, in
exact arithmetic, the same density outputs as running it on (F): Esw_density,
Eww_density, neighbor density, the three dipole component densities, the dipole
magnitude and every per-element density are equal voxel by voxel. -/
theorem identical_frames_same_densities (g : Gist) (hp : g.usePme_ = false) (F : Frame) :
    (Print g (g.run [F, F])).Esw_dens = (Print g (g.run [F])).Esw_dens
      ∧ (Print g (g.run [F, F])).Eww_dens = (Print g (g.run [F])).Eww_dens
      ∧ (Print g (g.run [F, F])).neighbor_dens = (Print g (g.run [F])).neighbor_dens
      ∧ (Print g (g.run [F, F])).dipolex = (Print g (g.run [F])).dipolex
      ∧ (Print g (g.run [F, F])).dipoley = (Print g (g.run [F])).dipoley
      ∧ (Print g (g.run [F, F])).dipolez = (Print g (g.run [F])).dipolez
      ∧ (Print g (g.run [F, F])).pol = (Print g (g.run [F])).pol
      ∧ (Print g (g.run [F, F])).density = (Print g (g.run [F])).density := by
  have r1 : g.run [F] = DoAction g g.Init F := rfl
  have r2 : g.run [F, F] = DoAction g (DoAction g g.Init F) F := rfl
  rw [r1, r2]
  generalize hs1 : DoAction g g.Init F = s1
  have hL : s1.accLens = g.Init.accLens := by rw [← hs1]; exact DoAction_accLens g hp _ F
  have hN1 : s1.NFRAME_ = 1 := by rw [← hs1, DoAction_NFRAME g hp]; rfl
  have hN2 : (DoAction g s1 F).NFRAME_ = 2 := by rw [DoAction_NFRAME g hp, hN1]
  simp only [GistState.accLens, Prod.mk.injEq] at hL
  obtain ⟨l1, l2, l3, l4, l5, l6, l7, l8, l9⟩ := hL
  have hS := Shifted_DoAction g hp s1 g.Init s1 F
    ⟨ShiftL_init _ _ l1, ShiftL_init _ _ l2, ShiftL_init _ _ l3, ShiftL_init _ _ l4,
     ShiftL_init _ _ l5, ShiftL_init _ _ l6, ShiftL_init _ _ l7, ShiftL_init _ _ l8,
     ShiftLL_init _ _ _ l9⟩
  rw [hs1] at hS
  generalize DoAction g s1 F = s2 at hS hN2
  obtain ⟨-, b1, b2, b3, b4, b5, b6, b7, b8, b9⟩ := hS
  have c1 : ∀ V : ℚ, 2 * (1 / (((2 : ℕ) : ℚ) * V)) = 1 / (((1 : ℕ) : ℚ) * V) := by
    intro V
    push_cast
    by_cases hV : V = 0
    · rw [hV]; simp
    · field_simp
  have hx : ScaleFarray s2.dipolex (1 / (g.DEBYE_EA * (s2.NFRAME_ : ℚ) * g.gridBin_.VoxelVolume))
      = ScaleFarray s1.dipolex (1 / (g.DEBYE_EA * (s1.NFRAME_ : ℚ) * g.gridBin_.VoxelVolume)) := by
    refine scale_double _ _ b6 _ _ ?_
    rw [hN1, hN2]
    have := c1 (g.DEBYE_EA * g.gridBin_.VoxelVolume)
    rw [show g.DEBYE_EA * ((2 : ℕ) : ℚ) * g.gridBin_.VoxelVolume
      = ((2 : ℕ) : ℚ) * (g.DEBYE_EA * g.gridBin_.VoxelVolume) by ring,
      show g.DEBYE_EA * ((1 : ℕ) : ℚ) * g.gridBin_.VoxelVolume
      = ((1 : ℕ) : ℚ) * (g.DEBYE_EA * g.gridBin_.VoxelVolume) by ring]
    exact this
  have hy : ScaleFarray s2.dipoley (1 / (g.DEBYE_EA * (s2.NFRAME_ : ℚ) * g.gridBin_.VoxelVolume))
      = ScaleFarray s1.dipoley (1 / (g.DEBYE_EA * (s1.NFRAME_ : ℚ) * g.gridBin_.VoxelVolume)) := by
    refine scale_double _ _ b7 _ _ ?_
    rw [hN1, hN2]
    have := c1 (g.DEBYE_EA * g.gridBin_.VoxelVolume)
    rw [show g.DEBYE_EA * ((2 : ℕ) : ℚ) * g.gridBin_.VoxelVolume
      = ((2 : ℕ) : ℚ) * (g.DEBYE_EA * g.gridBin_.VoxelVolume) by ring,
      show g.DEBYE_EA * ((1 : ℕ) : ℚ) * g.gridBin_.VoxelVolume
      = ((1 : ℕ) : ℚ) * (g.DEBYE_EA * g.gridBin_.VoxelVolume) by ring]
    exact this
  have hz : ScaleFarray s2.dipolez (1 / (g.DEBYE_EA * (s2.NFRAME_ : ℚ) * g.gridBin_.VoxelVolume))
      = ScaleFarray s1.dipolez (1 / (g.DEBYE_EA * (s1.NFRAME_ : ℚ) * g.gridBin_.VoxelVolume)) := by
    refine scale_double _ _ b8 _ _ ?_
    rw [hN1, hN2]
    have := c1 (g.DEBYE_EA * g.gridBin_.VoxelVolume)
    rw [show g.DEBYE_EA * ((2 : ℕ) : ℚ) * g.gridBin_.VoxelVolume
      = ((2 : ℕ) : ℚ) * (g.DEBYE_EA * g.gridBin_.VoxelVolume) by ring,
      show g.DEBYE_EA * ((1 : ℕ) : ℚ) * g.gridBin_.VoxelVolume
      = ((1 : ℕ) : ℚ) * (g.DEBYE_EA * g.gridBin_.VoxelVolume) by ring]
    exact this
  refine ⟨?_, ?_, ?_, hx, hy, hz, ?_, ?_⟩
  · show ScaleFarray (SumEVV _ _ _) _ = ScaleFarray (SumEVV _ _ _) _
    refine scale_double _ _ ?_ _ _ (by rw [hN1, hN2]; exact c1 _)
    unfold SumEVV
    refine ShiftL_map_range _ _ _ (fun v => ?_)
    rw [b1.2 v, b2.2 v]
    ring
  · show ScaleFarray (SumEVV _ _ _) _ = ScaleFarray (SumEVV _ _ _) _
    refine scale_double _ _ ?_ _ _ ?_
    · unfold SumEVV
      refine ShiftL_map_range _ _ _ (fun v => ?_)
      rw [b3.2 v, b4.2 v]
      ring
    · rw [hN1, hN2]
      have := c1 (2 * g.gridBin_.VoxelVolume)
      rw [show 2 * ((2 : ℕ) : ℚ) * g.gridBin_.VoxelVolume
        = ((2 : ℕ) : ℚ) * (2 * g.gridBin_.VoxelVolume) by ring,
        show 2 * ((1 : ℕ) : ℚ) * g.gridBin_.VoxelVolume
        = ((1 : ℕ) : ℚ) * (2 * g.gridBin_.VoxelVolume) by ring]
      exact this
  · show ScaleFarray _ _ = ScaleFarray _ _
    refine scale_double _ _ ?_ _ _ (by rw [hN1, hN2]; exact c1 _)
    refine ShiftL_map_range _ _ _ (fun v => ?_)
    rw [b5.2 v]
    ring
  · show (List.range g.MAX_GRID_PT_).map _ = (List.range g.MAX_GRID_PT_).map _
    rw [hx, hy, hz]
  · show (List.range g.n_unique_elements).map _ = (List.range g.n_unique_elements).map _
    refine List.map_congr_left (fun i _ => ?_)
    refine scale_double _ _ (b9.2 i) _ _ ?_
    rw [hN1, hN2]
    have := c1 (g.gridBin_.VoxelVolume * g.BULK_DENS_ * (g.element_count.getD i 0 : ℚ))
    rw [show ((2 : ℕ) : ℚ) * g.gridBin_.VoxelVolume * g.BULK_DENS_
        * (g.element_count.getD i 0 : ℚ)
      = ((2 : ℕ) : ℚ) * (g.gridBin_.VoxelVolume * g.BULK_DENS_
        * (g.element_count.getD i 0 : ℚ)) by ring,
      show ((1 : ℕ) : ℚ) * g.gridBin_.VoxelVolume * g.BULK_DENS_
        * (g.element_count.getD i 0 : ℚ)
      = ((1 : ℕ) : ℚ) * (g.gridBin_.VoxelVolume * g.BULK_DENS_
        * (g.element_count.getD i 0 : ℚ)) by ring]
    exact this

theorem identical_frames_same_densities_witness :
    (Print exGist (exGist.run [exFrame ⟨7 / 2, 1 / 2, 1 / 2⟩,
        exFrame ⟨7 / 2, 1 / 2, 1 / 2⟩])).Eww_dens
      = (Print exGist (exGist.run [exFrame ⟨7 / 2, 1 / 2, 1 / 2⟩])).Eww_dens
      ∧ (Print exGist (exGist.run [exFrame ⟨7 / 2, 1 / 2, 1 / 2⟩,
        exFrame ⟨7 / 2, 1 / 2, 1 / 2⟩])).pol
      = (Print exGist (exGist.run [exFrame ⟨7 / 2, 1 / 2, 1 / 2⟩])).pol :=
  ⟨(identical_frames_same_densities exGist rfl (exFrame ⟨7 / 2, 1 / 2, 1 / 2⟩)).2.1,
   (identical_frames_same_densities exGist rfl (exFrame ⟨7 / 2, 1 / 2, 1 / 2⟩)).2.2.2.2.2.2.1⟩

/-- C12 (counterexample): the frame `exFrameOrtho (5/2,1/2,1/2)` has imaging on
(orthorhombic box of edge 10) and its box vector `1·a + 0·b + 0·c` is
`(10,0,0)`.  On the untranslated frame the two waters are counted in voxels 0
and 2 and voxel 0 has a non-zero Eww density; with every atom translated by
that box vector no water is counted in any voxel and the Eww density of
voxel 0 is zero: the voxel of a molecule is computed from its coordinates as
they are (source lines 1095-1105 and 1337-1343), without imaging. -/
theorem box_translation_changes_populations :
    (exFrameOrtho ⟨5 / 2, 1 / 2, 1 / 2⟩).imaging = ImagingType.ORTHO
      ∧ (exFrameOrtho ⟨5 / 2, 1 / 2, 1 / 2⟩).boxShift 1 0 0 = ⟨10, 0, 0⟩
      ∧ (exGist.run [exFrameOrtho ⟨5 / 2, 1 / 2, 1 / 2⟩]).N_waters_ = [1, 0, 1, 0, 0, 0, 0, 0]
      ∧ (exGist.run [(exFrameOrtho ⟨5 / 2, 1 / 2, 1 / 2⟩).translate
            ((exFrameOrtho ⟨5 / 2, 1 / 2, 1 / 2⟩).boxShift 1 0 0)]).N_waters_
          = [0, 0, 0, 0, 0, 0, 0, 0]
      ∧ (Print exGist (exGist.run [exFrameOrtho ⟨5 / 2, 1 / 2, 1 / 2⟩])).Eww_dens.getD 0 0 ≠ 0
      ∧ (Print exGist (exGist.run [(exFrameOrtho ⟨5 / 2, 1 / 2, 1 / 2⟩).translate
            ((exFrameOrtho ⟨5 / 2, 1 / 2, 1 / 2⟩).boxShift 1 0 0)])).Eww_dens.getD 0 0 = 0 := by
  decide!

/-! ## Translating the atoms and the grid together -/

theorem shiftXYZ_append (t : Vec3) (m : Nat) (l r : List ℚ) (hl : l.length = 3 * m) :
    shiftXYZ t (l ++ r) = shiftXYZ t l ++ shiftXYZ t r := by
  induction m generalizing l with
  | zero =>
    have : l = [] := List.length_eq_zero.mp (by simpa using hl)
    subst this
    rfl
  | succ m ih =>
    match l, hl with
    | x :: y :: z :: rest, hl =>
      have hr : rest.length = 3 * m := by
        simp only [List.length_cons] at hl
        omega
      show (x + t.x) :: (y + t.y) :: (z + t.z) :: shiftXYZ t (rest ++ r) = _
      rw [ih rest hr]
      rfl
    | [], hl => simp at hl
    | [_], hl => simp at hl; omega
    | [_, _], hl => simp at hl; omega

theorem shiftXYZ_getD (t : Vec3) (l : List ℚ) (k : Nat) (hk : 3 * k + 2 < l.length) :
    (shiftXYZ t l).getD (k * 3) 0 = l.getD (k * 3) 0 + t.x
      ∧ (shiftXYZ t l).getD (k * 3 + 1) 0 = l.getD (k * 3 + 1) 0 + t.y
      ∧ (shiftXYZ t l).getD (k * 3 + 2) 0 = l.getD (k * 3 + 2) 0 + t.z := by
  induction k generalizing l with
  | zero =>
    match l, hk with
    | x :: y :: z :: rest, _ => simp [shiftXYZ]
    | [], hk => simp at hk
    | [_], hk => simp at hk
    | [_, _], hk => simp at hk
  | succ k ih =>
    match l, hk with
    | x :: y :: z :: rest, hk =>
      have hr : 3 * k + 2 < rest.length := by
        simp only [List.length_cons] at hk
        omega
      obtain ⟨h1, h2, h3⟩ := ih rest hr
      have e0 : (k + 1) * 3 = k * 3 + 1 + 1 + 1 := by ring
      have e1 : (k + 1) * 3 + 1 = k * 3 + 1 + 1 + 1 + 1 := by ring
      have e2 : (k + 1) * 3 + 2 = k * 3 + 2 + 1 + 1 + 1 := by ring
      refine ⟨?_, ?_, ?_⟩
      · rw [e0]; simpa [shiftXYZ] using h1
      · rw [e1]; simpa [shiftXYZ] using h2
      · rw [e2]; simpa [shiftXYZ] using h3
    | [], hk => simp at hk
    | [_], hk => simp at hk
    | [_, _], hk => simp at hk

theorem TimesVec_add (M : Matrix_3x3) (v t : Vec3) :
    M.TimesVec (v.add t)
      = ⟨(M.TimesVec v).x + (M.TimesVec t).x, (M.TimesVec v).y + (M.TimesVec t).y,
         (M.TimesVec v).z + (M.TimesVec t).z⟩ := by
  unfold Matrix_3x3.TimesVec Vec3.add Vec3.dot
  simp only [Vec3.mk.injEq]
  refine ⟨?_, ?_, ?_⟩ <;> ring

theorem fract_add_int (a : ℚ) (n : Int) : a + (n : ℚ) - ⌊a + (n : ℚ)⌋ = a - ⌊a⌋ := by
  rw [Int.floor_add_int]
  push_cast
  ring

theorem wrapOnGrid_shift (frm : Frame) (t : Vec3) (n1 n2 n3 : Int)
    (ht : frm.FracCell.TimesVec t = ⟨n1, n2, n3⟩) (l : List ℚ) :
    wrapOnGrid frm (shiftXYZ t l) = wrapOnGrid frm l := by
  induction l using shiftXYZ.induct t with
  | case1 x y z rest ih =>
    have e := TimesVec_add frm.FracCell ⟨x, y, z⟩ t
    rw [ht] at e
    have e' : frm.FracCell.TimesVec ⟨x + t.x, y + t.y, z + t.z⟩
        = ⟨(frm.FracCell.TimesVec ⟨x, y, z⟩).x + (n1 : ℚ),
           (frm.FracCell.TimesVec ⟨x, y, z⟩).y + (n2 : ℚ),
           (frm.FracCell.TimesVec ⟨x, y, z⟩).z + (n3 : ℚ)⟩ := e
    simp only [shiftXYZ, wrapOnGrid, e', fract_add_int, ih]
  | case2 l h =>
    unfold shiftXYZ
    split
    · exact absurd rfl (h _ _ _ _)
    · rfl

theorem vImages_shift (frm : Frame) (t : Vec3) (n1 n2 n3 : Int)
    (ht : frm.FracCell.TimesVec t = ⟨n1, n2, n3⟩) (A : Vec3) :
    vImages (frm.translate t) (A.add t) = vImages frm A := by
  have e := TimesVec_add frm.FracCell A t
  rw [ht] at e
  have e' : frm.FracCell.TimesVec (A.add t)
      = ⟨(frm.FracCell.TimesVec A).x + (n1 : ℚ), (frm.FracCell.TimesVec A).y + (n2 : ℚ),
         (frm.FracCell.TimesVec A).z + (n3 : ℚ)⟩ := e
  have hF : (frm.translate t).FracCell = frm.FracCell := rfl
  have hU : (frm.translate t).UnitCell = frm.UnitCell := rfl
  have hI : (frm.translate t).imaging = frm.imaging := rfl
  unfold vImages
  simp only [hF, hU, hI, e', fract_add_int]

theorem sum_mass_shift (l : List Nat) (M x : Nat → ℚ) (c : ℚ) :
    (l.map fun a => M a * (x a + c)).sum = (l.map fun a => M a * x a).sum + c * (l.map M).sum := by
  induction l with
  | nil => simp
  | cons a l ih =>
    simp only [List.map_cons, List.sum_cons, ih]
    ring

theorem calcMolCenter_translate (g : Gist) (frm : Frame) (t : Vec3) (o : Nat)
    (hm : g.useCom_ = true → g.molMass o ≠ 0) :
    (g.translateGrid t).calcMolCenter (frm.translate t) o (o + g.nMolAtoms_)
      = (g.calcMolCenter frm o (o + g.nMolAtoms_)).add t := by
  unfold Gist.calcMolCenter
  show (if g.useCom_ = true then VCenterOfMass g.CurrentParm_ (frm.translate t) o
      (o + g.nMolAtoms_) else (frm.XYZ (o + g.rigidAtomIndices_.1)).add t) = _
  split
  · rename_i hc
    have hm' := hm hc
    unfold Gist.molMass at hm'
    unfold VCenterOfMass Frame.translate Vec3.add
    simp only [Vec3.mk.injEq]
    refine ⟨?_, ?_, ?_⟩
    · rw [sum_mass_shift, add_div, mul_div_assoc, div_self hm', mul_one]
    · rw [sum_mass_shift, add_div, mul_div_assoc, div_self hm', mul_one]
    · rw [sum_mass_shift, add_div, mul_div_assoc, div_self hm', mul_one]
  · rfl

theorem calcVoxelIndex_translate (g : Gist) (t p : Vec3) :
    (g.translateGrid t).calcVoxelIndex (p.add t) = g.calcVoxelIndex p := by
  unfold Gist.calcVoxelIndex GIST.calcVoxelIndex GridBin.Calc Gist.translateGrid Vec3.add
  simp only [add_sub_add_right_eq_sub]

theorem sub_translate (c O t : Vec3) : (c.add t).sub (O.add t) = c.sub O := by
  unfold Vec3.add Vec3.sub
  simp only [add_sub_add_right_eq_sub]

theorem molOnGrid_translate (g : Gist) (frm : Frame) (t : Vec3) (o : Nat)
    (hm : g.useCom_ = true → g.molMass o ≠ 0) :
    (g.translateGrid t).molOnGrid (frm.translate t) o = g.molOnGrid frm o
      ∧ (g.translateGrid t).molVoxel (frm.translate t) o = g.molVoxel frm o := by
  have hc := calcMolCenter_translate g frm t o hm
  have hc' : (g.translateGrid t).molCenter (frm.translate t) o = (g.molCenter frm o).add t := hc
  constructor
  · unfold Gist.molOnGrid
    rw [hc', calcVoxelIndex_translate]
    show (g.nearGrid (((g.molCenter frm o).add t).sub (g.gridBin_.O.add t)) && _) = _
    rw [sub_translate]
  · unfold Gist.molVoxel
    rw [hc', calcVoxelIndex_translate]

theorem recordAtom_foldl_fields (frm : Frame) (o : Nat) (v : Int) (l : List Nat)
    (s : GistState) :
    (l.foldl (recordAtom frm o v) s).atom_voxel_
        = l.foldl (fun av i => av.set (o + i) v) s.atom_voxel_
      ∧ (l.foldl (recordAtom frm o v) s).OnGrid_idxs_ = s.OnGrid_idxs_ ++ l.map (fun i => o + i)
      ∧ (l.foldl (recordAtom frm o v) s).OnGrid_XYZ_
        = s.OnGrid_XYZ_ ++ l.flatMap
            (fun i => [(frm.XYZ (o + i)).x, (frm.XYZ (o + i)).y, (frm.XYZ (o + i)).z])
      ∧ (l.foldl (recordAtom frm o v) s).N_ON_GRID_ = s.N_ON_GRID_ := by
  induction l generalizing s with
  | nil => simp
  | cons a l ih =>
    obtain ⟨h1, h2, h3, h4⟩ := ih (recordAtom frm o v s a)
    rw [List.foldl_cons]
    refine ⟨?_, ?_, ?_, ?_⟩
    · rw [h1]; rfl
    · rw [h2]; simp [recordAtom]
    · rw [h3]; simp [recordAtom]
    · rw [h4]; rfl

theorem shiftXYZ_coords (frm : Frame) (t : Vec3) (o : Nat) (l : List Nat) :
    shiftXYZ t (l.flatMap
        (fun i => [(frm.XYZ (o + i)).x, (frm.XYZ (o + i)).y, (frm.XYZ (o + i)).z]))
      = l.flatMap (fun i => [((frm.translate t).XYZ (o + i)).x,
          ((frm.translate t).XYZ (o + i)).y, ((frm.translate t).XYZ (o + i)).z]) := by
  induction l with
  | nil => rfl
  | cons a l ih =>
    rw [List.flatMap_cons, List.flatMap_cons]
    show (_ + t.x) :: (_ + t.y) :: (_ + t.z) :: shiftXYZ t (l.flatMap
        (fun i => [(frm.XYZ (o + i)).x, (frm.XYZ (o + i)).y, (frm.XYZ (o + i)).z])) = _
    rw [ih]
    rfl

theorem coords_length (frm : Frame) (o : Nat) (l : List Nat) :
    (l.flatMap
      (fun i => [(frm.XYZ (o + i)).x, (frm.XYZ (o + i)).y, (frm.XYZ (o + i)).z])).length
      = 3 * l.length := by
  induction l with
  | nil => rfl
  | cons a l ih =>
    simp only [List.flatMap_cons, List.length_append, ih, List.length_cons, List.length_nil]
    omega

theorem molStep_NFRAME (g : Gist) (frm : Frame) (t : GistState) (o : Nat) :
    (molStep g frm t o).NFRAME_ = t.NFRAME_ := by
  have hd : ∀ u : GistState, (recordDensity g frm o u).NFRAME_ = u.NFRAME_ := by
    intro u
    unfold recordDensity
    refine foldl_preserves _ GistState.NFRAME_ ?_ _ _
    intro w a
    simp only
    split <;> rfl
  have hr : ∀ (c : Vec3) (v : Int) (u : GistState),
      (recordOnGrid g frm o c v u).NFRAME_ = u.NFRAME_ := by
    intro c v u
    have h : ((List.range g.nMolAtoms_).foldl (recordAtom frm o v) u).NFRAME_ = u.NFRAME_ :=
      foldl_preserves (recordAtom frm o v) GistState.NFRAME_ (fun _ _ => rfl) _ _
    rw [← h]
    rfl
  unfold molStep
  simp only
  split
  · rw [hd]
    split
    · rw [hr]
    · rfl
  · rfl

theorem Trans_recordOnGrid (g : Gist) (frm : Frame) (t : Vec3) (o : Nat) (c c' : Vec3) (v : Int)
    (s s' : GistState) (h : Trans t s s') :
    (recordOnGrid (g.translateGrid t) (frm.translate t) o c' v s').atom_voxel_
        = (recordOnGrid g frm o c v s).atom_voxel_
      ∧ (recordOnGrid (g.translateGrid t) (frm.translate t) o c' v s').OnGrid_idxs_
        = (recordOnGrid g frm o c v s).OnGrid_idxs_
      ∧ (recordOnGrid (g.translateGrid t) (frm.translate t) o c' v s').N_ON_GRID_
        = (recordOnGrid g frm o c v s).N_ON_GRID_
      ∧ (recordOnGrid (g.translateGrid t) (frm.translate t) o c' v s').OnGrid_XYZ_
        = shiftXYZ t (recordOnGrid g frm o c v s).OnGrid_XYZ_
      ∧ (recordOnGrid g frm o c v s).OnGrid_XYZ_.length
        = 3 * (recordOnGrid g frm o c v s).N_ON_GRID_ := by
  obtain ⟨a1, a2, a3, a4⟩ := recordAtom_foldl_fields frm o v (List.range g.nMolAtoms_) s
  obtain ⟨b1, b2, b3, b4⟩ :=
    recordAtom_foldl_fields (frm.translate t) o v (List.range g.nMolAtoms_) s'
  refine ⟨?_, ?_, ?_, ?_, ?_⟩
  · show ((List.range g.nMolAtoms_).foldl (recordAtom (frm.translate t) o v) s').atom_voxel_
      = ((List.range g.nMolAtoms_).foldl (recordAtom frm o v) s).atom_voxel_
    rw [a1, b1, h.voxel]
  · show ((List.range g.nMolAtoms_).foldl (recordAtom (frm.translate t) o v) s').OnGrid_idxs_
      = ((List.range g.nMolAtoms_).foldl (recordAtom frm o v) s).OnGrid_idxs_
    rw [a2, b2, h.idxs]
  · show ((List.range g.nMolAtoms_).foldl (recordAtom (frm.translate t) o v) s').N_ON_GRID_
        + g.nMolAtoms_
      = ((List.range g.nMolAtoms_).foldl (recordAtom frm o v) s).N_ON_GRID_ + g.nMolAtoms_
    rw [a4, b4, h.count]
  · show ((List.range g.nMolAtoms_).foldl (recordAtom (frm.translate t) o v) s').OnGrid_XYZ_
      = shiftXYZ t ((List.range g.nMolAtoms_).foldl (recordAtom frm o v) s).OnGrid_XYZ_
    rw [a3, b3, h.xyz, shiftXYZ_append t _ _ _ h.xyz_len, shiftXYZ_coords]
  · show ((List.range g.nMolAtoms_).foldl (recordAtom frm o v) s).OnGrid_XYZ_.length
      = 3 * (((List.range g.nMolAtoms_).foldl (recordAtom frm o v) s).N_ON_GRID_
        + g.nMolAtoms_)
    rw [a3, a4, List.length_append, coords_length, h.xyz_len, List.length_range]
    ring

theorem Trans_molStep (g : Gist) (frm : Frame) (t : Vec3) (o : Nat)
    (hm : g.useCom_ = true → g.molMass o ≠ 0) (s s' : GistState) (h : Trans t s s') :
    Trans t (molStep g frm s o) (molStep (g.translateGrid t) (frm.translate t) s' o) := by
  obtain ⟨hon, hvox⟩ := molOnGrid_translate g frm t o hm
  have hacc : (molStep (g.translateGrid t) (frm.translate t) s' o).nbAcc
      = (molStep g frm s o).nbAcc := by
    rw [molStep_nbAcc, molStep_nbAcc, h.acc]
  have hw : (molStep (g.translateGrid t) (frm.translate t) s' o).N_waters_
      = (molStep g frm s o).N_waters_ := by
    rw [molStep_N_waters_code, molStep_N_waters_code, hon, hvox, h.waters]
  have hn : (molStep (g.translateGrid t) (frm.translate t) s' o).NFRAME_
      = (molStep g frm s o).NFRAME_ := by
    rw [molStep_NFRAME, molStep_NFRAME, h.nframe]
  by_cases hg : g.molOnGrid frm o = true
  · obtain ⟨u1, u2, u3, u4⟩ := (molStep_sample g frm s o).1 hg
    obtain ⟨w1, w2, w3, w4⟩ :=
      (molStep_sample (g.translateGrid t) (frm.translate t) s' o).1 (by rw [hon]; exact hg)
    have hv : (g.translateGrid t).calcVoxelIndex
        ((g.translateGrid t).molCenter (frm.translate t) o)
        = g.calcVoxelIndex (g.molCenter frm o) := hvox
    rw [hv] at w1 w2 w3 w4
    obtain ⟨r1, r2, r3, r4, r5⟩ := Trans_recordOnGrid g frm t o (g.molCenter frm o)
      ((g.translateGrid t).molCenter (frm.translate t) o)
      (g.calcVoxelIndex (g.molCenter frm o)) s s' h
    exact ⟨by rw [w1, u1, r1], by rw [w2, u2, r2], by rw [w4, u4, r3], by rw [w3, u3, r4],
      by rw [u3, u4]; exact r5, hacc, hw, hn⟩
  · have hg' : g.molOnGrid frm o = false := by simpa using hg
    obtain ⟨u1, u2, u3, u4⟩ := (molStep_sample g frm s o).2 hg'
    obtain ⟨w1, w2, w3, w4⟩ :=
      (molStep_sample (g.translateGrid t) (frm.translate t) s' o).2 (by rw [hon]; exact hg')
    exact ⟨by rw [w1, u1, h.voxel], by rw [w2, u2, h.idxs], by rw [w4, u4, h.count],
      by rw [w3, u3, h.xyz], by rw [u3, u4]; exact h.xyz_len, hacc, hw, hn⟩

theorem foldl_rel_mem {α σ : Type} (R : σ → σ → Prop) (f f' : σ → α → σ) (l : List α)
    (h : ∀ s t, ∀ a ∈ l, R s t → R (f s a) (f' t a)) (s t : σ) (hst : R s t) :
    R (l.foldl f s) (l.foldl f' t) := by
  induction l generalizing s t with
  | nil => exact hst
  | cons a l ih =>
    rw [List.foldl_cons, List.foldl_cons]
    exact ih (fun s t b hb => h s t b (List.mem_cons_of_mem _ hb)) _ _
      (h s t a (List.mem_cons_self _ _) hst)

theorem Trans_frameStart (t : Vec3) (frm : Frame) (s s' : GistState) (h : Kept s s') :
    Trans t (frameStart frm s) (frameStart (frm.translate t) s') := by
  obtain ⟨h1, h2, h3⟩ := h
  refine ⟨rfl, rfl, rfl, rfl, rfl, h1, h2, ?_⟩
  show s'.NFRAME_ + 1 = s.NFRAME_ + 1
  rw [h3]

theorem Trans_assignMolecules (g : Gist) (frm : Frame) (t : Vec3)
    (hm : g.useCom_ = true → ∀ o ∈ g.O_idxs_, g.molMass o ≠ 0) (s s' : GistState)
    (h : Trans t s s') :
    Trans t (assignMolecules g frm s)
      (assignMolecules (g.translateGrid t) (frm.translate t) s') :=
  foldl_rel_mem (Trans t) (molStep g frm) (molStep (g.translateGrid t) (frm.translate t))
    g.O_idxs_ (fun u u' o ho hu => Trans_molStep g frm t o (fun hc => hm hc o ho) u u' hu) s s' h

theorem Trans_assignSolute (g : Gist) (hp : g.usePme_ = false) (frm : Frame) (t : Vec3)
    (s s' : GistState) (h : Trans t s s') :
    Trans t (assignSolute g frm s) (assignSolute (g.translateGrid t) (frm.translate t) s') := by
  have hp' : (g.translateGrid t).usePme_ = false := hp
  unfold assignSolute
  rw [if_neg (by rw [hp]; exact Bool.false_ne_true),
    if_neg (by rw [hp']; exact Bool.false_ne_true)]
  exact h

theorem orderPhase_keeps (g : Gist) (frm : Frame) (s : GistState) :
    (orderPhase g frm s).atom_voxel_ = s.atom_voxel_
      ∧ (orderPhase g frm s).OnGrid_idxs_ = s.OnGrid_idxs_
      ∧ (orderPhase g frm s).N_ON_GRID_ = s.N_ON_GRID_
      ∧ (orderPhase g frm s).OnGrid_XYZ_ = s.OnGrid_XYZ_
      ∧ (orderPhase g frm s).nbAcc = s.nbAcc
      ∧ (orderPhase g frm s).N_waters_ = s.N_waters_
      ∧ (orderPhase g frm s).NFRAME_ = s.NFRAME_ := by
  unfold orderPhase
  split
  · unfold Order
    exact ⟨foldl_preserves (orderMol g frm) GistState.atom_voxel_ (fun _ _ => rfl) _ _,
      foldl_preserves (orderMol g frm) GistState.OnGrid_idxs_ (fun _ _ => rfl) _ _,
      foldl_preserves (orderMol g frm) GistState.N_ON_GRID_ (fun _ _ => rfl) _ _,
      foldl_preserves (orderMol g frm) GistState.OnGrid_XYZ_ (fun _ _ => rfl) _ _,
      foldl_preserves (orderMol g frm) GistState.nbAcc (fun _ _ => rfl) _ _,
      foldl_preserves (orderMol g frm) GistState.N_waters_ (fun _ _ => rfl) _ _,
      foldl_preserves (orderMol g frm) GistState.NFRAME_ (fun _ _ => rfl) _ _⟩
  · exact ⟨rfl, rfl, rfl, rfl, rfl, rfl, rfl⟩

theorem Trans_orderPhase (g : Gist) (frm : Frame) (t : Vec3) (s s' : GistState)
    (h : Trans t s s') :
    Trans t (orderPhase g frm s) (orderPhase (g.translateGrid t) (frm.translate t) s') := by
  obtain ⟨a1, a2, a3, a4, a5, a6, a7⟩ := orderPhase_keeps g frm s
  obtain ⟨b1, b2, b3, b4, b5, b6, b7⟩ :=
    orderPhase_keeps (g.translateGrid t) (frm.translate t) s'
  exact ⟨by rw [b1, a1, h.voxel], by rw [b2, a2, h.idxs], by rw [b3, a3, h.count],
    by rw [b4, a4, h.xyz], by rw [a4, a3]; exact h.xyz_len, by rw [b5, a5, h.acc],
    by rw [b6, a6, h.waters], by rw [b7, a7, h.nframe]⟩

theorem wrapOnGrid_translate (frm : Frame) (t : Vec3) (l : List ℚ) :
    wrapOnGrid (frm.translate t) l = wrapOnGrid frm l := by
  induction l using shiftXYZ.induct t with
  | case1 x y z rest ih =>
    have hF : (frm.translate t).FracCell = frm.FracCell := rfl
    have hU : (frm.translate t).UnitCell = frm.UnitCell := rfl
    simp only [wrapOnGrid, hF, hU, ih]
  | case2 l h =>
    unfold wrapOnGrid
    split
    · exact absurd rfl (h _ _ _ _)
    · rfl

theorem DIST2_NoImage_translate (a b t : Vec3) :
    DIST2_NoImage (a.add t) (b.add t) = DIST2_NoImage a b := by
  unfold DIST2_NoImage Vec3.add
  simp only [add_sub_add_right_eq_sub]

theorem onGridXYZ_shift (t : Vec3) (s s' : GistState) (h : Trans t s s') (gidx : Nat)
    (hg : gidx < s.N_ON_GRID_) : onGridXYZ s' gidx = (onGridXYZ s gidx).add t := by
  obtain ⟨e1, e2, e3⟩ := shiftXYZ_getD t s.OnGrid_XYZ_ gidx (by rw [h.xyz_len]; omega)
  unfold onGridXYZ Vec3.add
  rw [h.xyz, e1, e2, e3]

theorem pairDist2_translate (frm : Frame) (t : Vec3) (hd : frm.distInvariant t)
    (s s' : GistState) (h : Trans t s s') (a1 gidx : Nat) (hg : gidx < s.N_ON_GRID_) :
    pairDist2 (frm.translate t) ((frm.translate t).XYZ a1)
        (onGridXYZ (nbStart (frm.translate t) s') gidx)
      = pairDist2 frm (frm.XYZ a1) (onGridXYZ (nbStart frm s) gidx) := by
  have hI : (frm.translate t).imaging = frm.imaging := rfl
  have hX : (frm.translate t).XYZ a1 = (frm.XYZ a1).add t := rfl
  unfold Frame.distInvariant at hd
  unfold pairDist2 nbStart
  rw [hI, hX]
  cases hi : frm.imaging with
  | NO_IMAGE =>
    simp only [reduceCtorEq, if_false]
    rw [onGridXYZ_shift t s s' h gidx hg, DIST2_NoImage_translate]
  | ORTHO =>
    rw [hi] at hd
    simp only [reduceCtorEq, if_false]
    rw [onGridXYZ_shift t s s' h gidx hg]
    exact hd _ _
  | NONORTHO =>
    rw [hi] at hd
    obtain ⟨n1, n2, n3, ht⟩ := hd
    simp only [if_true]
    rw [vImages_shift frm t n1 n2 n3 ht]
    have hw : onGridXYZ { s' with OnGrid_XYZ_ := wrapOnGrid (frm.translate t) s'.OnGrid_XYZ_ } gidx
        = onGridXYZ { s with OnGrid_XYZ_ := wrapOnGrid frm s.OnGrid_XYZ_ } gidx := by
      unfold onGridXYZ
      show (⟨(wrapOnGrid (frm.translate t) s'.OnGrid_XYZ_).getD (gidx * 3) 0,
        (wrapOnGrid (frm.translate t) s'.OnGrid_XYZ_).getD (gidx * 3 + 1) 0,
        (wrapOnGrid (frm.translate t) s'.OnGrid_XYZ_).getD (gidx * 3 + 2) 0⟩ : Vec3) = _
      have hwr : wrapOnGrid (frm.translate t) s'.OnGrid_XYZ_ = wrapOnGrid frm s.OnGrid_XYZ_ := by
        rw [h.xyz, wrapOnGrid_translate]
        exact wrapOnGrid_shift frm t n1 n2 n3 ht _
      rw [hwr]
    rw [hw]

theorem nbStart_keeps (frm : Frame) (s : GistState) :
    (nbStart frm s).atom_voxel_ = s.atom_voxel_ ∧ (nbStart frm s).OnGrid_idxs_ = s.OnGrid_idxs_
      ∧ (nbStart frm s).N_ON_GRID_ = s.N_ON_GRID_ ∧ (nbStart frm s).nbAcc = s.nbAcc
      ∧ (nbStart frm s).N_waters_ = s.N_waters_ ∧ (nbStart frm s).NFRAME_ = s.NFRAME_ := by
  unfold nbStart
  split <;> exact ⟨rfl, rfl, rfl, rfl, rfl, rfl⟩

theorem nbCall_translate (g : Gist) (frm : Frame) (t : Vec3) (hd : frm.distInvariant t)
    (s s' : GistState) (h : Trans t s s') (a1 gidx : Nat) (hg : gidx < s.N_ON_GRID_) :
    nbCall (g.translateGrid t) (frm.translate t) (nbStart (frm.translate t) s') a1 gidx
      = nbCall g frm (nbStart frm s) a1 gidx := by
  have hv : (nbStart (frm.translate t) s').atom_voxel_ = (nbStart frm s).atom_voxel_ := by
    rw [(nbStart_keeps _ _).1, (nbStart_keeps _ _).1, h.voxel]
  have hi : (nbStart (frm.translate t) s').OnGrid_idxs_ = (nbStart frm s).OnGrid_idxs_ := by
    rw [(nbStart_keeps _ _).2.1, (nbStart_keeps _ _).2.1, h.idxs]
  have hr := pairDist2_translate frm t hd s s' h a1 gidx hg
  unfold nbCall
  simp only [hv, hi, hr]
  rfl

theorem filterMap_congr_mem {α β : Type} (f f' : α → Option β) (l : List α)
    (h : ∀ a ∈ l, f a = f' a) : l.filterMap f = l.filterMap f' := by
  induction l with
  | nil => rfl
  | cons a l ih =>
    rw [List.filterMap_cons, List.filterMap_cons, h a (List.mem_cons_self _ _),
      ih (fun b hb => h b (List.mem_cons_of_mem _ hb))]

theorem frameCalls_translate (g : Gist) (frm : Frame) (t : Vec3) (hd : frm.distInvariant t)
    (s s' : GistState) (h : Trans t s s') :
    frameCalls (g.translateGrid t) (frm.translate t) (nbStart (frm.translate t) s')
      = frameCalls g frm (nbStart frm s) := by
  have hn : (nbStart (frm.translate t) s').N_ON_GRID_ = (nbStart frm s).N_ON_GRID_ := by
    rw [(nbStart_keeps _ _).2.2.1, (nbStart_keeps _ _).2.2.1, h.count]
  have hN : (frm.translate t).Natom = frm.Natom := rfl
  unfold frameCalls
  rw [hn, hN]
  congr 1
  funext a1
  refine filterMap_congr_mem _ _ _ (fun gidx hgi => ?_)
  refine nbCall_translate g frm t hd s s' h a1 gidx ?_
  rw [(nbStart_keeps _ _).2.2.1] at hgi
  exact List.mem_range.1 hgi

theorem applyCall_Kept (g : Gist) (t : Vec3) (s s' : GistState) (c : EcalcCall)
    (h : Kept s s') : Kept (applyCall g s c) (applyCall (g.translateGrid t) s' c) := by
  obtain ⟨h1, h2, h3⟩ := h
  have e : applyCall (g.translateGrid t) s' c = applyCall g s' c := rfl
  rw [e]
  unfold GistState.nbAcc at h1
  simp only [Prod.mk.injEq] at h1
  obtain ⟨c1, c2, c3, c4, c5, c6, c7⟩ := h1
  unfold Kept applyCall GistState.nbAcc
  simp only
  split_ifs <;> simp only [c1, c2, c3, c4, c5, c6, c7, h2, h3, and_self]

theorem Kept_energyPhase (g : Gist) (hp : g.usePme_ = false) (frm : Frame) (t : Vec3)
    (hd : frm.distInvariant t) (s s' : GistState) (h : Trans t s s') :
    Kept (energyPhase g frm s) (energyPhase (g.translateGrid t) (frm.translate t) s') := by
  have hp' : (g.translateGrid t).usePme_ = false := hp
  have hk : (g.translateGrid t).skipE_ = g.skipE_ := rfl
  unfold energyPhase
  rw [hk]
  split
  · rw [if_neg (by rw [hp]; exact Bool.false_ne_true),
      if_neg (by rw [hp']; exact Bool.false_ne_true), NonbondEnergy_eq, NonbondEnergy_eq,
      frameCalls_translate g frm t hd s s' h]
    refine foldl_rel Kept (applyCall g) (applyCall (g.translateGrid t))
      (fun u u' c hu => applyCall_Kept g t u u' c hu) _ _ _ ?_
    obtain ⟨-, -, -, a4, a5, a6⟩ := nbStart_keeps frm s
    obtain ⟨-, -, -, b4, b5, b6⟩ := nbStart_keeps (frm.translate t) s'
    exact ⟨by rw [b4, a4, h.acc], by rw [b5, a5, h.waters], by rw [b6, a6, h.nframe]⟩
  · exact ⟨h.acc, h.waters, h.nframe⟩

theorem Kept_DoAction (g : Gist) (hp : g.usePme_ = false) (frm : Frame) (t : Vec3)
    (hm : g.useCom_ = true → ∀ o ∈ g.O_idxs_, g.molMass o ≠ 0)
    (hd : frm.distInvariant t) (s s' : GistState) (h : Kept s s') :
    Kept (DoAction g s frm) (DoAction (g.translateGrid t) s' (frm.translate t)) := by
  unfold DoAction
  exact Kept_energyPhase g hp frm t hd _ _
    (Trans_orderPhase g frm t _ _
      (Trans_assignSolute g hp frm t _ _
        (Trans_assignMolecules g frm t hm _ _ (Trans_frameStart t frm s s' h))))

theorem Kept_run (g : Gist) (hp : g.usePme_ = false) (t : Vec3)
    (hm : g.useCom_ = true → ∀ o ∈ g.O_idxs_, g.molMass o ≠ 0) (frames : List Frame)
    (hd : ∀ frm ∈ frames, frm.distInvariant t) (s s' : GistState) (h : Kept s s') :
    Kept (frames.foldl (DoAction g) s)
      ((frames.map fun frm => frm.translate t).foldl (DoAction (g.translateGrid t)) s') := by
  induction frames generalizing s s' with
  | nil => exact h
  | cons frm l ih =>
    rw [List.map_cons, List.foldl_cons, List.foldl_cons]
    exact ih (fun f hf => hd f (List.mem_cons_of_mem _ hf)) _ _
      (Kept_DoAction g hp frm t hm (hd frm (List.mem_cons_self _ _)) s s' h)

/-- C12 (amended): translating every atom of every frame and the origin of the
grid by the same vector `t` leaves the per-voxel populations `N_waters` and the
per-voxel Esw and Eww outputs (density and per-water) unchanged, when the
energies come from the pair loop (not the mesh-Ewald back-end), the total mass
of every solvent molecule is non-zero if centers of mass are used, and the pair
distances of every frame are unchanged by the translation: always so without
imaging, required of `DIST2_ImageOrtho` for an orthorhombic cell, and for a
non-orthogonal cell `t` is an integer combination of the box vectors. -/
theorem translation_with_grid_invariant (g : Gist) (hp : g.usePme_ = false) (t : Vec3)
    (hm : g.useCom_ = true → ∀ o ∈ g.O_idxs_, g.molMass o ≠ 0) (frames : List Frame)
    (hd : ∀ frm ∈ frames, frm.distInvariant t) :
    ((g.translateGrid t).run (frames.map fun frm => frm.translate t)).N_waters_
        = (g.run frames).N_waters_
      ∧ (Print (g.translateGrid t)
          ((g.translateGrid t).run (frames.map fun frm => frm.translate t))).Esw_dens
        = (Print g (g.run frames)).Esw_dens
      ∧ (Print (g.translateGrid t)
          ((g.translateGrid t).run (frames.map fun frm => frm.translate t))).Esw_norm
        = (Print g (g.run frames)).Esw_norm
      ∧ (Print (g.translateGrid t)
          ((g.translateGrid t).run (frames.map fun frm => frm.translate t))).Eww_dens
        = (Print g (g.run frames)).Eww_dens
      ∧ (Print (g.translateGrid t)
          ((g.translateGrid t).run (frames.map fun frm => frm.translate t))).Eww_norm
        = (Print g (g.run frames)).Eww_norm := by
  have hK := Kept_run g hp t hm frames hd g.Init (g.translateGrid t).Init ⟨rfl, rfl, rfl⟩
  unfold Gist.run
  generalize frames.foldl (DoAction g) g.Init = s at hK
  generalize (frames.map fun frm => frm.translate t).foldl (DoAction (g.translateGrid t))
    (g.translateGrid t).Init = s' at hK
  obtain ⟨h1, h2, h3⟩ := hK
  unfold GistState.nbAcc at h1
  simp only [Prod.mk.injEq] at h1
  obtain ⟨c1, c2, c3, c4, -, -, -⟩ := h1
  refine ⟨h2, ?_, ?_, ?_, ?_⟩
  · show ScaleFarray (SumEVV g.MAX_GRID_PT_ s'.E_UV_VDW_ s'.E_UV_Elec_)
        (1 / ((s'.NFRAME_ : ℚ) * g.gridBin_.VoxelVolume))
      = ScaleFarray (SumEVV g.MAX_GRID_PT_ s.E_UV_VDW_ s.E_UV_Elec_)
        (1 / ((s.NFRAME_ : ℚ) * g.gridBin_.VoxelVolume))
    rw [c1, c2, h3]
  · show NormalizeFarray (SumEVV g.MAX_GRID_PT_ s'.E_UV_VDW_ s'.E_UV_Elec_) s'.N_waters_
      = NormalizeFarray (SumEVV g.MAX_GRID_PT_ s.E_UV_VDW_ s.E_UV_Elec_) s.N_waters_
    rw [c1, c2, h2]
  · show ScaleFarray (SumEVV g.MAX_GRID_PT_ s'.E_VV_VDW_ s'.E_VV_Elec_)
        (1 / (2 * (s'.NFRAME_ : ℚ) * g.gridBin_.VoxelVolume))
      = ScaleFarray (SumEVV g.MAX_GRID_PT_ s.E_VV_VDW_ s.E_VV_Elec_)
        (1 / (2 * (s.NFRAME_ : ℚ) * g.gridBin_.VoxelVolume))
    rw [c3, c4, h3]
  · show ScaleFarray
        (NormalizeFarray (SumEVV g.MAX_GRID_PT_ s'.E_VV_VDW_ s'.E_VV_Elec_) s'.N_waters_) (1 / 2)
      = ScaleFarray
        (NormalizeFarray (SumEVV g.MAX_GRID_PT_ s.E_VV_VDW_ s.E_VV_Elec_) s.N_waters_) (1 / 2)
    rw [c3, c4, h2]

theorem translation_with_grid_invariant_witness :
    (exFrameOrtho ⟨5 / 2, 1 / 2, 1 / 2⟩).imaging = ImagingType.ORTHO
      ∧ (exFrameOrtho ⟨5 / 2, 1 / 2, 1 / 2⟩).boxShift 1 0 0 = ⟨10, 0, 0⟩
      ∧ ((exGistCom.translateGrid ⟨10, 0, 0⟩).run
          ([exFrameOrtho ⟨5 / 2, 1 / 2, 1 / 2⟩].map fun frm => frm.translate ⟨10, 0, 0⟩)).N_waters_
        = (exGistCom.run [exFrameOrtho ⟨5 / 2, 1 / 2, 1 / 2⟩]).N_waters_
      ∧ (Print (exGistCom.translateGrid ⟨10, 0, 0⟩) ((exGistCom.translateGrid ⟨10, 0, 0⟩).run
          ([exFrameOrtho ⟨5 / 2, 1 / 2, 1 / 2⟩].map fun frm => frm.translate ⟨10, 0, 0⟩))).Eww_dens
        = (Print exGistCom (exGistCom.run [exFrameOrtho ⟨5 / 2, 1 / 2, 1 / 2⟩])).Eww_dens :=
  have h := translation_with_grid_invariant exGistCom rfl ⟨10, 0, 0⟩
    (fun _ o ho => by
      have ho' : o = 0 ∨ o = 3 := by simpa [exGistCom, exGist] using ho
      rcases ho' with rfl | rfl <;> decide!)
    [exFrameOrtho ⟨5 / 2, 1 / 2, 1 / 2⟩]
    (fun frm hf => by
      have hf' : frm = exFrameOrtho ⟨5 / 2, 1 / 2, 1 / 2⟩ := by simpa using hf
      subst hf'
      show ∀ a b : Vec3, orthoDist2 ⟨10, 10, 10⟩ (a.add ⟨10, 0, 0⟩) (b.add ⟨10, 0, 0⟩)
        = orthoDist2 ⟨10, 10, 10⟩ a b
      intro a b
      unfold orthoDist2 Vec3.add
      simp only [add_sub_add_right_eq_sub])
  ⟨rfl, by decide!, h.1, h.2.2.2.1⟩

/-! ## `analyzeSolventElements` -/

theorem findElement_none (U : List String) (x : String) (h : findElement U x = none) :
    x ∉ U := by
  induction U with
  | nil => simp
  | cons u rest ih =>
    unfold findElement at h
    split at h
    · simp at h
    · rename_i hne
      split at h
      · simp at h
      · rename_i hr
        intro hm
        rcases List.mem_cons.1 hm with e | e
        · exact hne e.symm
        · exact ih hr e

theorem findElement_some (U : List String) (x : String) (i : Nat)
    (h : findElement U x = some i) : U[i]? = some x := by
  induction U generalizing i with
  | nil => simp [findElement] at h
  | cons u rest ih =>
    unfold findElement at h
    split at h
    · rename_i he
      simp only [Option.some.injEq] at h
      subst h
      simp [he]
    · split at h
      · rename_i j hj
        simp only [Option.some.injEq] at h
        subst h
        simpa using ih j hj
      · simp at h

theorem AnalyzeInv_found (pre : List String) (info : SolventInfo) (x : String) (i : Nat)
    (h : AnalyzeInv pre info) (hf : findElement info.unique_elements x = some i) :
    AnalyzeInv (pre ++ [x])
      { info with
        i_element := info.i_element ++ [i]
        element_count := incrAt info.element_count i } := by
  have hi := findElement_some _ _ _ hf
  have hxU : x ∈ info.unique_elements := List.getElem?_mem hi
  have hxP : x ∈ pre := (h.mem x).1 hxU
  obtain ⟨hil, hie⟩ := List.getElem?_eq_some.1 hi
  refine ⟨h.nodup, ?_, ?_, ?_, ?_, ?_, ?_, ?_⟩
  · intro y
    show y ∈ info.unique_elements ↔ y ∈ pre ++ [x]
    rw [List.mem_append, List.mem_singleton, h.mem]
    constructor
    · exact Or.inl
    · rintro (e | e)
      · exact e
      · rw [e]; exact hxP
  · show (info.unique_elements.map fun u => (pre ++ [x]).indexOf u).Pairwise _
    have e : (info.unique_elements.map fun u => (pre ++ [x]).indexOf u)
        = info.unique_elements.map fun u => pre.indexOf u :=
      List.map_congr_left fun u hu => List.indexOf_append_of_mem ((h.mem u).1 hu)
    rw [e]
    exact h.order
  · show (info.i_element ++ [i]).length = (pre ++ [x]).length
    simp [h.idx_len]
  · intro a ha
    show info.unique_elements[(info.i_element ++ [i]).getD a 0]? = (pre ++ [x])[a]?
    rw [List.length_append, List.length_singleton] at ha
    by_cases hlt : a < pre.length
    · rw [List.getD_append _ _ _ _ (by rw [h.idx_len]; exact hlt),
        List.getElem?_append_left hlt]
      exact h.idx a hlt
    · have ea : a = pre.length := by omega
      subst ea
      rw [List.getD_append_right _ _ _ _ (by rw [h.idx_len]), h.idx_len, Nat.sub_self,
        List.getElem?_concat_length]
      simpa using hi
  · show (incrAt info.element_count i).length = info.unique_elements.length
    rw [incrAt_length, h.cnt_len]
  · intro j y hj
    show (incrAt info.element_count i).getD j 0 = (pre ++ [x]).count y
    rw [incrAt_getD _ _ _ (by rw [h.cnt_len]; exact hil), h.cnt j y hj, List.count_append,
      List.count_singleton]
    obtain ⟨hjl, hje⟩ := List.getElem?_eq_some.1 hj
    congr 1
    by_cases e : j = i
    · subst e
      have : x = y := by rw [← hie, ← hje]
      simp [this]
    · have : ¬ x = y := by
        intro exy
        apply e
        have := (@List.Nodup.getElem_inj_iff _ _ h.nodup j hjl i hil).1 (by rw [hje, hie, exy])
        exact this
      simp [e, this]
  · show (incrAt info.element_count i).sum = (pre ++ [x]).length
    rw [incrAt_sum _ _ (by rw [h.cnt_len]; exact hil), h.cnt_sum]
    simp

theorem AnalyzeInv_new (pre : List String) (info : SolventInfo) (x : String)
    (h : AnalyzeInv pre info) (hf : findElement info.unique_elements x = none) :
    AnalyzeInv (pre ++ [x])
      { unique_elements := info.unique_elements ++ [x]
        i_element := info.i_element ++ [(info.unique_elements ++ [x]).length - 1]
        element_count := info.element_count ++ [1] } := by
  have hxU : x ∉ info.unique_elements := findElement_none _ _ hf
  have hxP : x ∉ pre := fun hp => hxU ((h.mem x).2 hp)
  have hlen : (info.unique_elements ++ [x]).length - 1 = info.unique_elements.length := by
    simp
  refine ⟨?_, ?_, ?_, ?_, ?_, ?_, ?_, ?_⟩
  · show (info.unique_elements ++ [x]).Nodup
    refine List.Nodup.append h.nodup (List.nodup_singleton x) ?_
    intro y hy hy'
    rw [List.mem_singleton] at hy'
    exact hxU (hy' ▸ hy)
  · intro y
    show y ∈ info.unique_elements ++ [x] ↔ y ∈ pre ++ [x]
    rw [List.mem_append, List.mem_append, h.mem]
  · show ((info.unique_elements ++ [x]).map fun u => (pre ++ [x]).indexOf u).Pairwise _
    have e : (info.unique_elements.map fun u => (pre ++ [x]).indexOf u)
        = info.unique_elements.map fun u => pre.indexOf u :=
      List.map_congr_left fun u hu => List.indexOf_append_of_mem ((h.mem u).1 hu)
    have ex : (pre ++ [x]).indexOf x = pre.length := by
      rw [List.indexOf_append_of_not_mem hxP, List.indexOf_cons_self, Nat.add_zero]
    rw [List.map_append, e, List.map_singleton, ex, List.pairwise_append]
    refine ⟨h.order, List.pairwise_singleton _ _, ?_⟩
    intro p hp q hq
    rw [List.mem_singleton] at hq
    obtain ⟨u, hu, rfl⟩ := List.mem_map.1 hp
    rw [hq]
    exact List.indexOf_lt_length.2 ((h.mem u).1 hu)
  · show (info.i_element ++ [(info.unique_elements ++ [x]).length - 1]).length
      = (pre ++ [x]).length
    simp [h.idx_len]
  · intro a ha
    show (info.unique_elements ++ [x])[(info.i_element
      ++ [(info.unique_elements ++ [x]).length - 1]).getD a 0]? = (pre ++ [x])[a]?
    rw [List.length_append, List.length_singleton] at ha
    rw [hlen]
    by_cases hlt : a < pre.length
    · rw [List.getD_append _ _ _ _ (by rw [h.idx_len]; exact hlt),
        List.getElem?_append_left hlt]
      have hI := h.idx a hlt
      have hs : pre[a]? = some pre[a] := List.getElem?_eq_getElem hlt
      rw [hs] at hI ⊢
      obtain ⟨hb, -⟩ := List.getElem?_eq_some.1 hI
      rw [List.getElem?_append_left hb]
      exact hI
    · have ea : a = pre.length := by omega
      subst ea
      rw [List.getD_append_right _ _ _ _ (by rw [h.idx_len]), h.idx_len, Nat.sub_self,
        List.getElem?_concat_length]
      simp
  · show (info.element_count ++ [1]).length = (info.unique_elements ++ [x]).length
    simp [h.cnt_len]
  · intro j y hj
    show (info.element_count ++ [1]).getD j 0 = (pre ++ [x]).count y
    have hj' : (info.unique_elements ++ [x])[j]? = some y := hj
    rw [List.count_append, List.count_singleton]
    by_cases hlt : j < info.unique_elements.length
    · rw [List.getElem?_append_left hlt] at hj'
      have hyU : y ∈ info.unique_elements := List.getElem?_mem hj'
      have hne : ¬ x = y := fun e => hxU (e ▸ hyU)
      rw [List.getD_append _ _ _ _ (by rw [h.cnt_len]; exact hlt), h.cnt j y hj']
      simp [hne]
    · have hjl : j < (info.unique_elements ++ [x]).length :=
        (List.getElem?_eq_some.1 hj').1
      rw [List.length_append, List.length_singleton] at hjl
      have ej : j = info.unique_elements.length := by omega
      subst ej
      rw [List.getElem?_concat_length] at hj'
      have exy : x = y := by simpa using hj'
      subst exy
      rw [List.getD_append_right _ _ _ _ (by rw [h.cnt_len]), h.cnt_len, Nat.sub_self,
        List.count_eq_zero.2 hxP]
      simp
  · show (info.element_count ++ [1]).sum = (pre ++ [x]).length
    simp [h.cnt_sum]

theorem AnalyzeInv_step (pre : List String) (info : SolventInfo) (x : String)
    (h : AnalyzeInv pre info) : AnalyzeInv (pre ++ [x]) (analyzeElement info x) := by
  unfold analyzeElement
  split
  · rename_i i hf
    exact AnalyzeInv_found pre info x i h hf
  · rename_i hf
    exact AnalyzeInv_new pre info x h hf

theorem AnalyzeInv_foldl (l pre : List String) (info : SolventInfo) (h : AnalyzeInv pre info) :
    AnalyzeInv (pre ++ l) (l.foldl analyzeElement info) := by
  induction l generalizing pre info with
  | nil => simpa using h
  | cons x l ih =>
    rw [List.foldl_cons]
    have := ih (pre ++ [x]) (analyzeElement info x) (AnalyzeInv_step pre info x h)
    simpa using this

theorem AnalyzeInv_empty : AnalyzeInv [] ⟨[], [], []⟩ :=
  ⟨List.nodup_nil, fun _ => Iff.rfl, List.Pairwise.nil, rfl, fun a ha => by simp at ha, rfl,
    fun j x hj => by simp at hj, rfl⟩

/-- The element names of the atoms of a molecule as `analyzeSolventElements`
reads them: `top[o_idx + i_mol].ElementName()` for `i_mol < nMolAtoms_`. -/
theorem analyzeSolventElements_eq (mol : Molecule) (a : ActionSetup) (m : SetupMembers) :
    (analyzeSolventElements mol a m).solventInfo_
      = ((List.range m.nMolAtoms_).map fun i_mol => a.ElementName (mol.Front + i_mol)).foldl
          analyzeElement m.solventInfo_ := by
  unfold analyzeSolventElements
  rw [List.foldl_map]

/-! ## The loop of `Setup` over the molecules -/

theorem setupMol_solute (a : ActionSetup) (st : Bool × SetupMembers) (mol : Molecule)
    (h : st.2.isSolventMol mol = false) : setupMol a st mol = some st := by
  unfold SetupMembers.isSolventMol at h
  unfold setupMol
  simp only
  rw [if_neg]
  intro e
  rw [e] at h
  simp at h

theorem setupMol_check (a : ActionSetup) (m : SetupMembers) (mol : Molecule)
    (h : m.isSolventMol mol = true) :
    setupMol a (false, m) mol
      = if mol.NumAtoms ≠ m.nMolAtoms_ then none
        else some (false,
          { m with
            msgs := m.msgs ++ (checkSolventProperties mol a m).2
            O_idxs_ := m.O_idxs_ ++ [mol.Front]
            atomIsSolventO_ := m.atomIsSolventO_.set mol.Front true }) := by
  unfold SetupMembers.isSolventMol at h
  have h' : m.atomIsSolute_.getD mol.Front false = false := by simpa using h
  unfold setupMol
  simp only [h', if_true, Bool.false_eq_true, if_false]
  unfold checkSolventProperties
  simp only
  split_ifs <;> simp_all

theorem setupMol_first (a : ActionSetup) (m : SetupMembers) (mol : Molecule)
    (h : m.isSolventMol mol = true) :
    setupMol a (true, m) mol
      = if createAtomDensityDatasets a
            (analyzeSolventElements mol a (setSolventProperties mol a m).2) = false then none
        else some (false,
          { analyzeSolventElements mol a (setSolventProperties mol a m).2 with
            O_idxs_ := (analyzeSolventElements mol a (setSolventProperties mol a m).2).O_idxs_
              ++ [mol.Front]
            atomIsSolventO_ :=
              (analyzeSolventElements mol a (setSolventProperties mol a m).2).atomIsSolventO_.set
                mol.Front true }) := by
  unfold SetupMembers.isSolventMol at h
  have h' : m.atomIsSolute_.getD mol.Front false = false := by simpa using h
  have h0 : (setSolventProperties mol a m).1 = 0 := rfl
  unfold setupMol
  simp only [h', if_true, h0]
  split_ifs <;> simp_all

theorem setupLoop_rest (a : ActionSetup) (mols : List Molecule) (m : SetupMembers)
    (r : Bool × SetupMembers) (h : setupLoop a mols (false, m) = some r) :
    SameTemplate m r.2
      ∧ (∀ mol ∈ mols, m.isSolventMol mol = true → mol.NumAtoms = m.nMolAtoms_)
      ∧ r.2.O_idxs_
          = m.O_idxs_ ++ (mols.filter fun mol => m.isSolventMol mol).map Molecule.Front := by
  induction mols generalizing m with
  | nil =>
    simp only [setupLoop, Option.some.injEq] at h
    subst h
    exact ⟨⟨rfl, rfl, rfl, rfl, rfl⟩, fun _ hm => absurd hm (List.not_mem_nil _), by simp⟩
  | cons mol rest ih =>
    unfold setupLoop at h
    by_cases hs : m.isSolventMol mol = true
    · rw [setupMol_check a m mol hs] at h
      by_cases hn : mol.NumAtoms = m.nMolAtoms_
      · rw [if_neg (not_not.2 hn)] at h
        simp only at h
        obtain ⟨t, hall, hO⟩ := ih _ h
        have hsolv : ∀ x : Molecule, SetupMembers.isSolventMol
            { m with
              msgs := m.msgs ++ (checkSolventProperties mol a m).2
              O_idxs_ := m.O_idxs_ ++ [mol.Front]
              atomIsSolventO_ := m.atomIsSolventO_.set mol.Front true } x
            = m.isSolventMol x := fun _ => rfl
        refine ⟨⟨t.nMol, t.Q, t.info, t.solute, t.doOrder⟩, ?_, ?_⟩
        · intro x hx hxs
          rcases List.mem_cons.1 hx with e | e
          · rw [e]; exact hn
          · exact hall x e (by rw [hsolv]; exact hxs)
        · rw [hO, List.filter_cons_of_pos (by simpa using hs)]
          simp only [hsolv, List.map_cons, List.append_assoc, List.singleton_append]
      · rw [if_pos hn] at h
        simp at h
    · have hs' : m.isSolventMol mol = false := by simpa using hs
      rw [setupMol_solute a (false, m) mol hs'] at h
      simp only at h
      obtain ⟨t, hall, hO⟩ := ih _ h
      refine ⟨t, ?_, ?_⟩
      · intro x hx hxs
        rcases List.mem_cons.1 hx with e | e
        · rw [e] at hxs; exact absurd hxs hs
        · exact hall x e hxs
      · rw [hO, List.filter_cons_of_neg (by simpa using hs)]

/-- The loop of `Setup`, when it does not fail: nothing changes if there is no
solvent molecule; otherwise the atom count and the element record are those of
the first solvent molecule, every solvent molecule has that atom count, and
the first atoms of the solvent molecules are appended to `O_idxs_`. -/
theorem setupLoop_first (a : ActionSetup) (mols : List Molecule) (m : SetupMembers)
    (r : Bool × SetupMembers) (h : setupLoop a mols (true, m) = some r) :
    r.2.atomIsSolute_ = m.atomIsSolute_ ∧ r.2.doOrder_ = m.doOrder_
      ∧ r.2.O_idxs_
          = m.O_idxs_ ++ (mols.filter fun mol => m.isSolventMol mol).map Molecule.Front
      ∧ ∀ mol0 ∈ (mols.filter fun mol => m.isSolventMol mol).head?,
          r.2.nMolAtoms_ = mol0.NumAtoms
            ∧ r.2.solventInfo_
              = ((List.range mol0.NumAtoms).map fun i => a.ElementName (mol0.Front + i)).foldl
                  analyzeElement m.solventInfo_
            ∧ ∀ mol ∈ mols, m.isSolventMol mol = true → mol.NumAtoms = mol0.NumAtoms := by
  induction mols generalizing m with
  | nil =>
    simp only [setupLoop, Option.some.injEq] at h
    subst h
    exact ⟨rfl, rfl, by simp, by simp⟩
  | cons mol rest ih =>
    unfold setupLoop at h
    by_cases hs : m.isSolventMol mol = true
    · rw [setupMol_first a m mol hs] at h
      by_cases hc : createAtomDensityDatasets a
          (analyzeSolventElements mol a (setSolventProperties mol a m).2) = false
      · rw [if_pos hc] at h
        simp at h
      · rw [if_neg hc] at h
        simp only at h
        obtain ⟨t, hall, hO⟩ := setupLoop_rest a rest _ r h
        have hsolv : ∀ x : Molecule, SetupMembers.isSolventMol
            { analyzeSolventElements mol a (setSolventProperties mol a m).2 with
              O_idxs_ := (analyzeSolventElements mol a (setSolventProperties mol a m).2).O_idxs_
                ++ [mol.Front]
              atomIsSolventO_ :=
                (analyzeSolventElements mol a
                  (setSolventProperties mol a m).2).atomIsSolventO_.set mol.Front true } x
            = m.isSolventMol x := fun _ => rfl
        refine ⟨t.solute, t.doOrder, ?_, ?_⟩
        · rw [hO, List.filter_cons_of_pos (by simpa using hs)]
          simp only [hsolv, List.map_cons]
          show m.O_idxs_ ++ [mol.Front] ++ _ = _
          rw [List.append_assoc, List.singleton_append]
        · rw [List.filter_cons_of_pos (by simpa using hs)]
          intro mol0 hm0
          simp only [List.head?_cons, Option.mem_def, Option.some.injEq] at hm0
          subst hm0
          refine ⟨t.nMol, ?_, ?_⟩
          · rw [t.info]
            exact analyzeSolventElements_eq mol a (setSolventProperties mol a m).2
          · intro x hx hxs
            rcases List.mem_cons.1 hx with e | e
            · rw [e]
            · exact hall x e (by rw [hsolv]; exact hxs)
    · have hs' : m.isSolventMol mol = false := by simpa using hs
      rw [setupMol_solute a (true, m) mol hs'] at h
      simp only at h
      obtain ⟨h1, h2, h3, h4⟩ := ih _ h
      refine ⟨h1, h2, ?_, ?_⟩
      · rw [h3, List.filter_cons_of_neg (by simpa using hs)]
      · rw [List.filter_cons_of_neg (by simpa using hs)]
        intro mol0 hm0
        obtain ⟨c1, c2, c3⟩ := h4 mol0 hm0
        refine ⟨c1, c2, ?_⟩
        intro x hx hxs
        rcases List.mem_cons.1 hx with e | e
        · rw [e] at hxs; exact absurd hxs hs
        · exact c3 x e hxs

theorem foldl_cond_append {α β : Type} (l : List α) (p : α → Bool) (f : α → β) (acc : List β) :
    l.foldl (fun msgs i => if p i = true then msgs ++ [f i] else msgs) acc
      = acc ++ (l.filter p).map f := by
  induction l generalizing acc with
  | nil => simp
  | cons x l ih =>
    rw [List.foldl_cons, ih]
    by_cases hp : p x = true
    · rw [if_pos hp, List.filter_cons_of_pos hp]
      simp
    · rw [if_neg hp, List.filter_cons_of_neg hp]

theorem Setup_some (a : ActionSetup) (m m1 : SetupMembers) (h : Setup a m = some m1) :
    ∃ r, setupLoop a a.mols (true, setupStart a m) = some r
      ∧ m1.nMolAtoms_ = r.2.nMolAtoms_ ∧ m1.O_idxs_ = r.2.O_idxs_
      ∧ m1.solventInfo_ = r.2.solventInfo_ ∧ m1.NSOLVENT_ = r.2.O_idxs_.length
      ∧ (r.2.O_idxs_.length < 5 → m1.doOrder_ = false)
      ∧ (¬ r.2.O_idxs_.length < 5 → m1.doOrder_ = r.2.doOrder_) := by
  unfold Setup at h
  split at h
  · simp at h
  · split at h
    · simp at h
    · split at h
      · simp at h
      · rename_i f m3 hl
        refine ⟨(f, m3), hl, ?_⟩
        simp only [Option.some.injEq] at h
        subst h
        by_cases hc : m3.doOrder_ = true ∧ m3.O_idxs_.length < 5
        · rw [if_pos hc]
          exact ⟨rfl, rfl, rfl, rfl, fun _ => rfl, fun hn => absurd hc.2 hn⟩
        · rw [if_neg hc]
          refine ⟨rfl, rfl, rfl, rfl, ?_, fun _ => rfl⟩
          intro h5
          show m3.doOrder_ = false
          by_contra hd
          exact hc ⟨by simpa using hd, h5⟩

theorem Setup_solvent_counts (a : ActionSetup) (m m1 : SetupMembers) (h : Setup a m = some m1) :
    (∀ mol ∈ a.mols, (setupStart a m).isSolventMol mol = true → mol.NumAtoms = m1.nMolAtoms_)
      ∧ m1.O_idxs_ = m.O_idxs_
          ++ (a.mols.filter fun mol => (setupStart a m).isSolventMol mol).map Molecule.Front
      ∧ ∀ mol0 ∈ (a.mols.filter fun mol => (setupStart a m).isSolventMol mol).head?,
          m1.nMolAtoms_ = mol0.NumAtoms
            ∧ m1.solventInfo_
              = ((List.range mol0.NumAtoms).map fun i => a.ElementName (mol0.Front + i)).foldl
                  analyzeElement m.solventInfo_ := by
  obtain ⟨r, hl, e1, e2, e3, -, -, -⟩ := Setup_some a m m1 h
  obtain ⟨-, -, hO, hfirst⟩ := setupLoop_first a a.mols (setupStart a m) r hl
  refine ⟨?_, ?_, ?_⟩
  · intro mol hm hs
    have hmem : mol ∈ a.mols.filter fun mol => (setupStart a m).isSolventMol mol :=
      List.mem_filter.2 ⟨hm, hs⟩
    cases hf : a.mols.filter fun mol => (setupStart a m).isSolventMol mol with
    | nil => rw [hf] at hmem; exact absurd hmem (List.not_mem_nil _)
    | cons mol0 rest =>
      obtain ⟨c1, -, c3⟩ := hfirst mol0 (by rw [hf]; rfl)
      rw [e1, c1]
      exact c3 mol hm hs
  · rw [e2, hO]
    rfl
  · intro mol0 hm0
    obtain ⟨c1, c2, -⟩ := hfirst mol0 hm0
    exact ⟨by rw [e1, c1], by rw [e3, c2]; rfl⟩

/-- C21: `checkSolventProperties` returns an error (non-zero) if and only if the
atom count of the molecule differs from `nMolAtoms_`, the count recorded from
the first solvent molecule; with equal counts it returns 0 and prints one
warning for each atom whose charge deviates from the template beyond the
tolerance, nothing else.  Consequently `Setup` fails for a topology that
contains two solvent molecules with different atom counts. -/
theorem checkSolventProperties_error_iff (mol : Molecule) (a : ActionSetup) (m : SetupMembers) :
    ((checkSolventProperties mol a m).1 ≠ 0 ↔ mol.NumAtoms ≠ m.nMolAtoms_)
      ∧ (mol.NumAtoms = m.nMolAtoms_ →
          (checkSolventProperties mol a m).1 = 0
            ∧ (checkSolventProperties mol a m).2
              = ((List.range m.nMolAtoms_).filter fun IDX =>
                    NotEqual m.SMALL (m.Q_.getD IDX 0) (a.Top.Charge (mol.Front + IDX))).map
                  fun IDX => SetupMsg.chargeMismatch (mol.Front + IDX)
                    (a.Top.Charge (mol.Front + IDX)) (m.Q_.getD IDX 0))
      ∧ ∀ mol1 ∈ a.mols, ∀ mol2 ∈ a.mols,
          (setupStart a m).isSolventMol mol1 = true → (setupStart a m).isSolventMol mol2 = true →
          mol1.NumAtoms ≠ mol2.NumAtoms → Setup a m = none := by
  refine ⟨?_, ?_, ?_⟩
  · unfold checkSolventProperties
    simp only
    split_ifs with hn
    · simp [hn]
    · simp [hn]
  · intro hn
    unfold checkSolventProperties
    simp only
    rw [if_neg (not_not.2 hn)]
    refine ⟨rfl, ?_⟩
    simp only
    rw [foldl_cond_append]
    rfl
  · intro mol1 h1 mol2 h2 s1 s2 hne
    cases hS : Setup a m with
    | none => rfl
    | some m1 =>
      obtain ⟨hall, -, -⟩ := Setup_solvent_counts a m m1 hS
      exact absurd ((hall mol1 h1 s1).trans (hall mol2 h2 s2).symm) hne

theorem checkSolventProperties_error_iff_witness :
    (⟨0, 2, 3, true⟩ : Molecule).NumAtoms ≠ (⟨3, 6, 4, true⟩ : Molecule).NumAtoms
      ∧ Setup exSetupUneven exMembers = none
      ∧ (Setup exSetup exMembers).isSome = true :=
  ⟨by decide,
   (checkSolventProperties_error_iff ⟨0, 2, 3, true⟩ exSetupUneven exMembers).2.2
     ⟨0, 2, 3, true⟩ (by simp [exSetupUneven]) ⟨3, 6, 4, true⟩ (by simp [exSetupUneven])
     (by decide!) (by decide!) (by decide),
   by decide!⟩

/-- C22 (counterexample): in the example topology the second solvent molecule
has a charge of 1 on its first atom where the first molecule has -0.834 (the
difference exceeds the tolerance 1e-14) and the element sequence H, O, H where
the first molecule has O, H, H; `Setup` succeeds all the same, prints the
warning for the charge (and the one for fewer than 5 solvent molecules), and
takes both molecules as solvent. -/
theorem Setup_accepts_other_charges_and_elements :
    NotEqual exMembers.SMALL (exSetupMixed.Top.Charge 0) (exSetupMixed.Top.Charge 3) = true
      ∧ (List.range 3).map (fun i => exSetupMixed.ElementName (0 + i)) = ["O", "H", "H"]
      ∧ (List.range 3).map (fun i => exSetupMixed.ElementName (3 + i)) = ["H", "O", "H"]
      ∧ (Setup exSetupMixed exMembers).map (fun m => m.O_idxs_) = some [0, 3]
      ∧ (Setup exSetupMixed exMembers).map (fun m => m.msgs)
          = some [SetupMsg.chargeMismatch 3 1 (-834 / 1000), SetupMsg.fewSolvent] := by
  decide!

/-- C22 (amended): if `Setup` succeeds, every solvent molecule of the topology
has the same number of atoms as the first solvent molecule, which is the
`nMolAtoms_` that `Setup` leaves; and the element record `solventInfo_` is the
one computed from the element names of the first solvent molecule alone.
(Charges that deviate beyond the tolerance only add a warning, and the element
names of the later molecules are not read.) -/
theorem Setup_solvent_same_atom_count (a : ActionSetup) (m m1 : SetupMembers)
    (h : Setup a m = some m1) :
    (∀ mol ∈ a.mols, (setupStart a m).isSolventMol mol = true → mol.NumAtoms = m1.nMolAtoms_)
      ∧ ∀ mol0 ∈ (a.mols.filter fun mol => (setupStart a m).isSolventMol mol).head?,
          m1.nMolAtoms_ = mol0.NumAtoms
            ∧ m1.solventInfo_
              = ((List.range mol0.NumAtoms).map fun i => a.ElementName (mol0.Front + i)).foldl
                  analyzeElement m.solventInfo_ :=
  ⟨(Setup_solvent_counts a m m1 h).1, (Setup_solvent_counts a m m1 h).2.2⟩

theorem Setup_solvent_same_atom_count_witness :
    ∃ m1, Setup exSetupMixed exMembers = some m1
      ∧ (∀ mol ∈ exSetupMixed.mols, (setupStart exSetupMixed exMembers).isSolventMol mol = true →
          mol.NumAtoms = m1.nMolAtoms_)
      ∧ m1.nMolAtoms_ = 3 := by
  obtain ⟨m1, h⟩ := Option.isSome_iff_exists.1
    (show (Setup exSetupMixed exMembers).isSome = true by decide!)
  exact ⟨m1, h, (Setup_solvent_same_atom_count exSetupMixed exMembers m1 h).1,
    ((Setup_solvent_same_atom_count exSetupMixed exMembers m1 h).2 ⟨0, 2, 3, true⟩
      (show _ = some _ by decide!)).1⟩

/-- C25: starting from an empty solvent-element record, after
`analyzeSolventElements` on a molecule whose atoms have the element names
`e[0..n)`: `unique_elements` has no duplicates, holds exactly the names that
occur in `e`, and lists them in the order of their first occurrence in `e`;
`i_element` has length `n` and `unique_elements[i_element[a]] = e[a]` for every
atom `a`; `element_count` is as long as `unique_elements`, `element_count[j]`
is the number of atoms whose name is `unique_elements[j]`, every count is at
least 1, and the counts sum to `n`. -/
theorem analyzeSolventElements_record (mol : Molecule) (a : ActionSetup) (m : SetupMembers)
    (h0 : m.solventInfo_ = ⟨[], [], []⟩) :
    (analyzeSolventElements mol a m).solventInfo_.unique_elements.Nodup
      ∧ (∀ x, x ∈ (analyzeSolventElements mol a m).solventInfo_.unique_elements
          ↔ x ∈ (List.range m.nMolAtoms_).map fun i => a.ElementName (mol.Front + i))
      ∧ ((analyzeSolventElements mol a m).solventInfo_.unique_elements.map fun u =>
          ((List.range m.nMolAtoms_).map fun i => a.ElementName (mol.Front + i)).indexOf u).Pairwise
            (fun i j => i < j)
      ∧ (analyzeSolventElements mol a m).solventInfo_.i_element.length = m.nMolAtoms_
      ∧ (∀ i, i < m.nMolAtoms_ →
          (analyzeSolventElements mol a m).solventInfo_.unique_elements[
              (analyzeSolventElements mol a m).solventInfo_.i_element.getD i 0]?
            = some (a.ElementName (mol.Front + i)))
      ∧ (analyzeSolventElements mol a m).solventInfo_.element_count.length
          = (analyzeSolventElements mol a m).solventInfo_.unique_elements.length
      ∧ (∀ j x, (analyzeSolventElements mol a m).solventInfo_.unique_elements[j]? = some x →
          (analyzeSolventElements mol a m).solventInfo_.element_count.getD j 0
              = ((List.range m.nMolAtoms_).map fun i => a.ElementName (mol.Front + i)).count x
            ∧ 1 ≤ (analyzeSolventElements mol a m).solventInfo_.element_count.getD j 0)
      ∧ (analyzeSolventElements mol a m).solventInfo_.element_count.sum = m.nMolAtoms_ := by
  have hI := AnalyzeInv_foldl
    ((List.range m.nMolAtoms_).map fun i => a.ElementName (mol.Front + i)) [] ⟨[], [], []⟩
    AnalyzeInv_empty
  rw [← h0, ← analyzeSolventElements_eq, List.nil_append] at hI
  refine ⟨hI.nodup, hI.mem, hI.order, ?_, ?_, hI.cnt_len, ?_, ?_⟩
  · rw [hI.idx_len, List.length_map, List.length_range]
  · intro i hi
    have := hI.idx i (by rw [List.length_map, List.length_range]; exact hi)
    rw [this, List.getElem?_map, List.getElem?_range hi]
    rfl
  · intro j x hj
    have hc := hI.cnt j x hj
    refine ⟨hc, ?_⟩
    rw [hc]
    exact List.count_pos_iff.2 ((hI.mem x).1 (List.getElem?_mem hj))
  · rw [hI.cnt_sum, List.length_map, List.length_range]

theorem analyzeSolventElements_record_witness :
    ({ exMembers with nMolAtoms_ := 3 } : SetupMembers).solventInfo_ = ⟨[], [], []⟩
      ∧ (analyzeSolventElements ⟨0, 2, 3, true⟩ exSetup
          { exMembers with nMolAtoms_ := 3 }).solventInfo_.unique_elements = ["O", "H"]
      ∧ (analyzeSolventElements ⟨0, 2, 3, true⟩ exSetup
          { exMembers with nMolAtoms_ := 3 }).solventInfo_.i_element = [0, 1, 1]
      ∧ (analyzeSolventElements ⟨0, 2, 3, true⟩ exSetup
          { exMembers with nMolAtoms_ := 3 }).solventInfo_.element_count = [1, 2]
      ∧ (analyzeSolventElements ⟨0, 2, 3, true⟩ exSetup
          { exMembers with nMolAtoms_ := 3 }).solventInfo_.unique_elements.Nodup
      ∧ (analyzeSolventElements ⟨0, 2, 3, true⟩ exSetup
          { exMembers with nMolAtoms_ := 3 }).solventInfo_.element_count.sum = 3 :=
  ⟨rfl, by decide!, by decide!, by decide!,
   (analyzeSolventElements_record ⟨0, 2, 3, true⟩ exSetup { exMembers with nMolAtoms_ := 3 }
      rfl).1,
   (analyzeSolventElements_record ⟨0, 2, 3, true⟩ exSetup { exMembers with nMolAtoms_ := 3 }
      rfl).2.2.2.2.2.2.2⟩

/-! ## The first rotation of the quaternion construction -/

/-- C30: in the first rotation of the quaternion construction the sign quantity
`sign = (H1 x x_lab) . H1` is 0 for every vector `H1` in exact arithmetic, so
(with `Constants::SMALL` not negative) the test `sign > SMALL` is not satisfied
and the half angle is `theta1 = -acos(H1 . x_lab)/2`, whatever the direction of
`H1`. -/
theorem first_rotation_sign_zero (m : MathFns) (SMALL : ℚ) (O_XYZ H1_XYZ : Vec3)
    (hSMALL : 0 ≤ SMALL) :
    (∀ H1 : Vec3, (H1.Cross x_lab_).dot H1 = 0)
      ∧ (quat_sar m O_XYZ H1_XYZ).dot (quat_H_wat m O_XYZ H1_XYZ) = 0
      ∧ ¬ (quat_sar m O_XYZ H1_XYZ).dot (quat_H_wat m O_XYZ H1_XYZ) > SMALL
      ∧ quat_theta1 m SMALL O_XYZ H1_XYZ
          = -(m.acos ((quat_H_wat m O_XYZ H1_XYZ).dot x_lab_)) / 2 := by
  have h0 : ∀ H1 : Vec3, (H1.Cross x_lab_).dot H1 = 0 := by
    intro H1
    unfold Vec3.Cross Vec3.dot x_lab_
    ring
  have hs : (quat_sar m O_XYZ H1_XYZ).dot (quat_H_wat m O_XYZ H1_XYZ) = 0 :=
    h0 (quat_H_wat m O_XYZ H1_XYZ)
  refine ⟨h0, hs, ?_, ?_⟩
  · rw [hs]
    exact not_lt.mpr hSMALL
  · rw [quat_theta1_eq m SMALL O_XYZ H1_XYZ hSMALL]
    have hc : x_lab_.dot (quat_H_wat m O_XYZ H1_XYZ) = (quat_H_wat m O_XYZ H1_XYZ).dot x_lab_ := by
      unfold Vec3.dot
      ring
    rw [hc]
    ring

theorem first_rotation_sign_zero_witness :
    (0 : ℚ) ≤ 1 / 100000000000000
      ∧ (quat_sar exMathQ ⟨0, 0, 0⟩ ⟨3 / 5, 4 / 5, 0⟩).dot
          (quat_H_wat exMathQ ⟨0, 0, 0⟩ ⟨3 / 5, 4 / 5, 0⟩) = 0
      ∧ quat_theta1 exMathQ (1 / 100000000000000) ⟨0, 0, 0⟩ ⟨3 / 5, 4 / 5, 0⟩
          = -(exMathQ.acos ((quat_H_wat exMathQ ⟨0, 0, 0⟩ ⟨3 / 5, 4 / 5, 0⟩).dot x_lab_)) / 2 :=
  ⟨by norm_num,
   (first_rotation_sign_zero exMathQ (1 / 100000000000000) ⟨0, 0, 0⟩ ⟨3 / 5, 4 / 5, 0⟩
      (by norm_num)).2.1,
   (first_rotation_sign_zero exMathQ (1 / 100000000000000) ⟨0, 0, 0⟩ ⟨3 / 5, 4 / 5, 0⟩
      (by norm_num)).2.2.2⟩

/-! ## The dipole of a molecule under translation -/

theorem molDipole_fold (frm : Frame) (oidx : Nat) (Q : List ℚ) (l : List Nat) (D : Vec3) :
    l.foldl
        (fun D IDX => (⟨D.x + (frm.XYZ (oidx + IDX)).x * Q.getD IDX 0,
          D.y + (frm.XYZ (oidx + IDX)).y * Q.getD IDX 0,
          D.z + (frm.XYZ (oidx + IDX)).z * Q.getD IDX 0⟩ : Vec3)) D
      = ⟨D.x + (l.map fun IDX => (frm.XYZ (oidx + IDX)).x * Q.getD IDX 0).sum,
         D.y + (l.map fun IDX => (frm.XYZ (oidx + IDX)).y * Q.getD IDX 0).sum,
         D.z + (l.map fun IDX => (frm.XYZ (oidx + IDX)).z * Q.getD IDX 0).sum⟩ := by
  induction l generalizing D with
  | nil => simp
  | cons a l ih =>
    rw [List.foldl_cons, ih]
    simp only [List.map_cons, List.sum_cons, Vec3.mk.injEq]
    refine ⟨?_, ?_, ?_⟩ <;> ring

theorem sum_shift_charge (l : List Nat) (x Q : Nat → ℚ) (c : ℚ) :
    (l.map fun a => (x a + c) * Q a).sum = (l.map fun a => x a * Q a).sum + (l.map Q).sum * c := by
  induction l with
  | nil => simp
  | cons a l ih =>
    simp only [List.map_cons, List.sum_cons, ih]
    ring

theorem molDipole_translate (g : Gist) (frm : Frame) (t : Vec3) (oidx : Nat) :
    molDipole g (frm.translate t) oidx
      = ⟨(molDipole g frm oidx).x + g.q_sum * t.x, (molDipole g frm oidx).y + g.q_sum * t.y,
         (molDipole g frm oidx).z + g.q_sum * t.z⟩ := by
  unfold molDipole Gist.q_sum
  rw [molDipole_fold, molDipole_fold]
  have hx : ∀ a, ((frm.translate t).XYZ (oidx + a)).x = (frm.XYZ (oidx + a)).x + t.x :=
    fun _ => rfl
  have hy : ∀ a, ((frm.translate t).XYZ (oidx + a)).y = (frm.XYZ (oidx + a)).y + t.y :=
    fun _ => rfl
  have hz : ∀ a, ((frm.translate t).XYZ (oidx + a)).z = (frm.XYZ (oidx + a)).z + t.z :=
    fun _ => rfl
  simp only [hx, hy, hz, Vec3.mk.injEq, zero_add]
  exact ⟨sum_shift_charge _ (fun a => (frm.XYZ (oidx + a)).x) _ _,
    sum_shift_charge _ (fun a => (frm.XYZ (oidx + a)).y) _ _,
    sum_shift_charge _ (fun a => (frm.XYZ (oidx + a)).z) _ _⟩

/-! ## The dipole of a molecule and the choice of origin -/

/-- C29: the dipole sums of a molecule, `sum over atoms of Q_[a] * r_a` with
absolute coordinates, change by exactly `q_sum * t` when every atom is
translated by `t`, where `q_sum` is the sum of the template charges; so they
are unchanged when the charges sum to zero, and for a non-zero sum every
non-zero translation changes them.  `setSolventProperties` returns 0 whatever
the sum is: a non-zero sum only adds a warning. -/
theorem molDipole_translation (g : Gist) (frm : Frame) (t : Vec3) (oidx : Nat) :
    molDipole g (frm.translate t) oidx
        = ⟨(molDipole g frm oidx).x + g.q_sum * t.x, (molDipole g frm oidx).y + g.q_sum * t.y,
           (molDipole g frm oidx).z + g.q_sum * t.z⟩
      ∧ (g.q_sum = 0 → molDipole g (frm.translate t) oidx = molDipole g frm oidx)
      ∧ (g.q_sum ≠ 0 → t ≠ ⟨0, 0, 0⟩ → molDipole g (frm.translate t) oidx ≠ molDipole g frm oidx)
      ∧ ∀ (mol : Molecule) (a : ActionSetup) (m : SetupMembers),
          (setSolventProperties mol a m).1 = 0 := by
  have h := molDipole_translate g frm t oidx
  refine ⟨h, ?_, ?_, fun _ _ _ => rfl⟩
  · intro h0
    rw [h, h0]
    simp
  · intro hq ht he
    rw [h] at he
    apply ht
    have e := congrArg Vec3.x he
    have e2 := congrArg Vec3.y he
    have e3 := congrArg Vec3.z he
    simp only [add_right_eq_self, mul_eq_zero, hq, false_or] at e e2 e3
    cases t
    simp_all

theorem molDipole_translation_witness :
    exGist.q_sum = 0
      ∧ molDipole exGist ((exFrame ⟨7 / 2, 1 / 2, 1 / 2⟩).translate ⟨1, 2, 3⟩) 3
          = molDipole exGist (exFrame ⟨7 / 2, 1 / 2, 1 / 2⟩) 3
      ∧ ({ exGist with Q_ := [-1, 1 / 2, 1] } : Gist).q_sum ≠ 0
      ∧ molDipole { exGist with Q_ := [-1, 1 / 2, 1] }
            ((exFrame ⟨7 / 2, 1 / 2, 1 / 2⟩).translate ⟨1, 2, 3⟩) 3
          ≠ molDipole { exGist with Q_ := [-1, 1 / 2, 1] } (exFrame ⟨7 / 2, 1 / 2, 1 / 2⟩) 3 :=
  ⟨by decide!,
   (molDipole_translation exGist (exFrame ⟨7 / 2, 1 / 2, 1 / 2⟩) ⟨1, 2, 3⟩ 3).2.1 (by decide!),
   by decide!,
   (molDipole_translation { exGist with Q_ := [-1, 1 / 2, 1] } (exFrame ⟨7 / 2, 1 / 2, 1 / 2⟩)
      ⟨1, 2, 3⟩ 3).2.2.1 (by decide!) (by simp)⟩

/-! ## The columns of the output file -/

/-- C28 (the code at a failing input): the array `dTSorient_norm` is created
with zeros (source line 1513) and never written, so the column
`dTSorient-norm` is 0 for every voxel.  After two frames with the same tilted
water in voxel 0, `N_waters[0] = 2`, the orientational entropy total of the
voxel divided by `N_waters[0]` is not zero, and the column holds 0; the
columns `dTStrans-norm` and `dTSsix-norm` are their totals divided by
`N_waters` (source lines 1708-1711). -/
theorem dTSorient_norm_column_is_zero :
    (∀ (g : Gist) (st : GistState) (v : Nat), (Print g st).dTSorient_norm.getD v 0 = 0)
      ∧ (∀ (g : Gist) (st : GistState),
          (Print g st).dTStrans_norm
              = NormalizeFarray ((List.range g.MAX_GRID_PT_).map fun gr_pt =>
                  (dTStrans_voxel g st gr_pt).1) st.N_waters_
            ∧ (Print g st).dTSsix_norm
              = NormalizeFarray ((List.range g.MAX_GRID_PT_).map fun gr_pt =>
                  (dTStrans_voxel g st gr_pt).2) st.N_waters_)
      ∧ (exGistQ.run [exFrameQ h2Tilt, exFrameQ h2Tilt]).N_waters_.getD 0 0 = 2
      ∧ dTSorient_voxel exGistQ (exGistQ.run [exFrameQ h2Tilt, exFrameQ h2Tilt]) 0 / 2 ≠ 0
      ∧ (Print exGistQ (exGistQ.run [exFrameQ h2Tilt, exFrameQ h2Tilt])).dTSorient_norm.getD 0 0
          = 0 := by
  refine ⟨?_, fun _ _ => ⟨rfl, rfl⟩, by decide!, by decide!, by decide!⟩
  intro g st v
  show (List.replicate g.MAX_GRID_PT_ (0 : ℚ)).getD v 0 = 0
  rw [List.getD_eq_getElem?_getD, List.getElem?_replicate]
  split <;> rfl

/-! ## The solute atoms on the grid in PME mode -/

/-- C23 (the code at a failing input): on the 1 x 1 x 3 example grid in PME
mode a solute atom at (1/2,1/2,1/2) lies in voxel 0, yet after the frame its
`atom_voxel_` is `OFF_GRID_`, `N_solute_atoms_[0]` is 0 and the on-grid solute
list is empty: the window test of source line 1282 reads `U_G[2] >- -1.5`,
that is `U_G[2] > 1.5`.  The same atom at (1/2,1/2,5/2), in voxel 2, is
recorded. -/
theorem solute_atom_in_grid_not_recorded :
    exGistPme.calcVoxelIndex ⟨1 / 2, 1 / 2, 1 / 2⟩ = 0
      ∧ (exGistPme.run [exFramePme ⟨1 / 2, 1 / 2, 1 / 2⟩]).atom_voxel_.getD 6 OFF_GRID_
          = OFF_GRID_
      ∧ (exGistPme.run [exFramePme ⟨1 / 2, 1 / 2, 1 / 2⟩]).N_solute_atoms_ = [0, 0, 0]
      ∧ (exGistPme.run [exFramePme ⟨1 / 2, 1 / 2, 1 / 2⟩]).U_onGrid_idxs_ = []
      ∧ exGistPme.calcVoxelIndex ⟨1 / 2, 1 / 2, 5 / 2⟩ = 2
      ∧ (exGistPme.run [exFramePme ⟨1 / 2, 1 / 2, 5 / 2⟩]).atom_voxel_.getD 6 OFF_GRID_ = 2
      ∧ (exGistPme.run [exFramePme ⟨1 / 2, 1 / 2, 5 / 2⟩]).N_solute_atoms_ = [0, 0, 1]
      ∧ (exGistPme.run [exFramePme ⟨1 / 2, 1 / 2, 5 / 2⟩]).U_onGrid_idxs_ = [6] := by
  decide!

/-! ## The per-voxel samples of positions and quaternions -/

theorem pushAt_incrAt_lengths (k : Nat) (X : List (List ℚ)) (N : List Nat) (v : Nat)
    (xs : List ℚ) (hx : xs.length = k)
    (h : X.map List.length = N.map fun n => k * n) :
    (pushAt X v xs).map List.length = (incrAt N v).map fun n => k * n := by
  induction X generalizing N v with
  | nil =>
    cases N with
    | nil => rfl
    | cons n N => simp at h
  | cons a X ih =>
    cases N with
    | nil => simp at h
    | cons n N =>
      simp only [List.map_cons, List.cons.injEq] at h
      cases v with
      | zero =>
        simp only [pushAt, incrAt, List.map_cons, List.length_append, h.1, h.2, hx]
        rw [Nat.mul_add, Nat.mul_one]
      | succ v =>
        simp only [pushAt, incrAt, List.map_cons, h.1, ih N v h.2]

theorem lengths_getD (k : Nat) (X : List (List ℚ)) (N : List Nat)
    (h : X.map List.length = N.map fun n => k * n) (v : Nat) :
    (X.getD v []).length = k * N.getD v 0 := by
  have e1 : (X.map List.length).getD v 0 = (X.getD v []).length := by
    rw [List.getD_eq_getElem?_getD, List.getD_eq_getElem?_getD, List.getElem?_map]
    cases X[v]? <;> rfl
  have e2 : (N.map fun n => k * n).getD v 0 = k * N.getD v 0 := by
    rw [List.getD_eq_getElem?_getD, List.getD_eq_getElem?_getD, List.getElem?_map]
    cases N[v]? <;> simp
  rw [← e1, h, e2]

theorem waterQuaternion_length (m : MathFns) (SMALL : ℚ) (O H1 H2 : Vec3) :
    (waterQuaternion m SMALL O H1 H2).length = 4 := rfl

theorem recordOnGrid_voxel_xyz (g : Gist) (frm : Frame) (oidx : Nat) (c : Vec3) (voxel : Int)
    (st : GistState) :
    (recordOnGrid g frm oidx c voxel st).voxel_xyz_
      = pushAt st.voxel_xyz_ voxel.toNat [c.x, c.y, c.z] := by
  have h : ((List.range g.nMolAtoms_).foldl (recordAtom frm oidx voxel) st).voxel_xyz_
      = st.voxel_xyz_ :=
    foldl_preserves (recordAtom frm oidx voxel) GistState.voxel_xyz_ (fun _ _ => rfl) _ _
  simp only [recordOnGrid, h]

theorem SamplesOK_recordOnGrid (g : Gist) (frm : Frame) (oidx : Nat) (c : Vec3) (voxel : Int)
    (st : GistState) (h : SamplesOK st) : SamplesOK (recordOnGrid g frm oidx c voxel st) := by
  unfold SamplesOK
  rw [recordOnGrid_voxel_xyz, recordOnGrid_voxel_Q, recordOnGrid_N_waters]
  exact ⟨pushAt_incrAt_lengths 3 _ _ _ _ rfl h.1,
    pushAt_incrAt_lengths 4 _ _ _ _ (waterQuaternion_length _ _ _ _ _) h.2⟩

theorem SamplesOK_of_eq (s t : GistState) (h : SamplesOK s) (h1 : t.voxel_xyz_ = s.voxel_xyz_)
    (h2 : t.voxel_Q_ = s.voxel_Q_) (h3 : t.N_waters_ = s.N_waters_) : SamplesOK t := by
  unfold SamplesOK
  rw [h1, h2, h3]
  exact h

theorem recordDensity_samples (g : Gist) (frm : Frame) (oidx : Nat) (st : GistState) :
    (recordDensity g frm oidx st).voxel_xyz_ = st.voxel_xyz_
      ∧ (recordDensity g frm oidx st).voxel_Q_ = st.voxel_Q_ := by
  unfold recordDensity
  constructor
  · refine foldl_preserves _ GistState.voxel_xyz_ ?_ _ _
    intro s a
    simp only
    split <;> rfl
  · refine foldl_preserves _ GistState.voxel_Q_ ?_ _ _
    intro s a
    simp only
    split <;> rfl

theorem SamplesOK_molStep (g : Gist) (frm : Frame) (st : GistState) (o : Nat)
    (h : SamplesOK st) : SamplesOK (molStep g frm st o) := by
  unfold molStep
  simp only
  split
  · refine SamplesOK_of_eq _ _ ?_ (recordDensity_samples g frm o _).1
      (recordDensity_samples g frm o _).2 (recordDensity_N_waters g frm o _)
    split
    · exact SamplesOK_recordOnGrid g frm o _ _ st h
    · exact h
  · exact h

theorem assignSolute_samples (g : Gist) (frm : Frame) (st : GistState) :
    (assignSolute g frm st).voxel_xyz_ = st.voxel_xyz_
      ∧ (assignSolute g frm st).voxel_Q_ = st.voxel_Q_ := by
  unfold assignSolute
  split
  · constructor
    · rw [foldl_preserves (soluteStep g frm) GistState.voxel_xyz_]
      intro s u
      unfold soluteStep
      simp only
      split_ifs <;> rfl
    · rw [foldl_preserves (soluteStep g frm) GistState.voxel_Q_]
      intro s u
      unfold soluteStep
      simp only
      split_ifs <;> rfl
  · exact ⟨rfl, rfl⟩

theorem orderPhase_samples (g : Gist) (frm : Frame) (st : GistState) :
    (orderPhase g frm st).voxel_xyz_ = st.voxel_xyz_
      ∧ (orderPhase g frm st).voxel_Q_ = st.voxel_Q_ := by
  unfold orderPhase
  split
  · unfold Order
    exact ⟨foldl_preserves (orderMol g frm) GistState.voxel_xyz_ (fun _ _ => rfl) _ _,
      foldl_preserves (orderMol g frm) GistState.voxel_Q_ (fun _ _ => rfl) _ _⟩
  · exact ⟨rfl, rfl⟩

theorem nbPair_samples (g : Gist) (frm : Frame) (a1 : Nat) (st : GistState) (gidx : Nat) :
    (nbPair g frm a1 st gidx).voxel_xyz_ = st.voxel_xyz_
      ∧ (nbPair g frm a1 st gidx).voxel_Q_ = st.voxel_Q_ := by
  unfold nbPair pairSolute pairSolvent
  simp only
  split_ifs <;> exact ⟨rfl, rfl⟩

theorem energyPhase_samples (g : Gist) (frm : Frame) (st : GistState) :
    (energyPhase g frm st).voxel_xyz_ = st.voxel_xyz_
      ∧ (energyPhase g frm st).voxel_Q_ = st.voxel_Q_ := by
  unfold energyPhase
  split
  · split
    · exact ⟨rfl, rfl⟩
    · unfold NonbondEnergy
      simp only
      constructor
      · rw [foldl_preserves
          (fun s aidx => (List.range s.N_ON_GRID_).foldl (nbPair g frm aidx) s)
          GistState.voxel_xyz_
          (fun s a => foldl_preserves (nbPair g frm a) GistState.voxel_xyz_
            (fun s gidx => (nbPair_samples g frm a s gidx).1) _ s)]
        split <;> rfl
      · rw [foldl_preserves
          (fun s aidx => (List.range s.N_ON_GRID_).foldl (nbPair g frm aidx) s)
          GistState.voxel_Q_
          (fun s a => foldl_preserves (nbPair g frm a) GistState.voxel_Q_
            (fun s gidx => (nbPair_samples g frm a s gidx).2) _ s)]
        split <;> rfl
  · exact ⟨rfl, rfl⟩

theorem SamplesOK_DoAction (g : Gist) (st : GistState) (frm : Frame) (h : SamplesOK st) :
    SamplesOK (DoAction g st frm) := by
  have h0 : SamplesOK (frameStart frm st) := h
  have h1 : SamplesOK (assignMolecules g frm (frameStart frm st)) := by
    unfold assignMolecules
    generalize frameStart frm st = s at h0
    induction g.O_idxs_ generalizing s with
    | nil => exact h0
    | cons o l ih =>
      rw [List.foldl_cons]
      exact ih _ (SamplesOK_molStep g frm s o h0)
  unfold DoAction
  refine SamplesOK_of_eq _ _ h1 ?_ ?_ ?_
  · rw [(energyPhase_samples g frm _).1, (orderPhase_samples g frm _).1,
      (assignSolute_samples g frm _).1]
  · rw [(energyPhase_samples g frm _).2, (orderPhase_samples g frm _).2,
      (assignSolute_samples g frm _).2]
  · rw [energyPhase_N_waters, orderPhase_N_waters, assignSolute_N_waters]

theorem SamplesOK_run (g : Gist) (frames : List Frame) : SamplesOK (g.run frames) := by
  have h0 : SamplesOK g.Init := by
    unfold SamplesOK Gist.Init
    simp
  unfold Gist.run
  generalize g.Init = s at h0
  induction frames generalizing s with
  | nil => exact h0
  | cons f l ih =>
    rw [List.foldl_cons]
    exact ih _ (SamplesOK_DoAction g s f h0)

/-- C26: after `Init` and any sequence of `DoAction` calls, for every voxel `v`
the sample of positions `voxel_xyz_[v]` has length `3 * N_waters_[v]` and the
sample of quaternions `voxel_Q_[v]` has length `4 * N_waters_[v]`; so the reads
`voxel_xyz_[v][3*n0 .. 3*n0+2]` and `voxel_Q_[v][4*n .. 4*n+3]` that `Print`
makes for `n, n0 < N_waters_[v]` are in range. -/
theorem voxel_samples_lengths (g : Gist) (frames : List Frame) (v : Nat) :
    ((g.run frames).voxel_xyz_.getD v []).length = 3 * (g.run frames).N_waters_.getD v 0
      ∧ ((g.run frames).voxel_Q_.getD v []).length = 4 * (g.run frames).N_waters_.getD v 0
      ∧ ∀ n, n < (g.run frames).N_waters_.getD v 0 →
          3 * n + 2 < ((g.run frames).voxel_xyz_.getD v []).length
            ∧ n * 4 + 3 < ((g.run frames).voxel_Q_.getD v []).length := by
  obtain ⟨h1, h2⟩ := SamplesOK_run g frames
  have e1 := lengths_getD 3 _ _ h1 v
  have e2 := lengths_getD 4 _ _ h2 v
  refine ⟨e1, e2, ?_⟩
  intro n hn
  rw [e1, e2]
  omega

theorem voxel_samples_lengths_witness :
    (exGist.run [exFrame ⟨7 / 2, 1 / 2, 1 / 2⟩]).N_waters_.getD 3 0 = 1
      ∧ ((exGist.run [exFrame ⟨7 / 2, 1 / 2, 1 / 2⟩]).voxel_xyz_.getD 3 []).length
          = 3 * (exGist.run [exFrame ⟨7 / 2, 1 / 2, 1 / 2⟩]).N_waters_.getD 3 0
      ∧ ((exGist.run [exFrame ⟨7 / 2, 1 / 2, 1 / 2⟩]).voxel_Q_.getD 3 []).length
          = 4 * (exGist.run [exFrame ⟨7 / 2, 1 / 2, 1 / 2⟩]).N_waters_.getD 3 0 :=
  ⟨by decide!, (voxel_samples_lengths exGist [exFrame ⟨7 / 2, 1 / 2, 1 / 2⟩] 3).1,
   (voxel_samples_lengths exGist [exFrame ⟨7 / 2, 1 / 2, 1 / 2⟩] 3).2.1⟩

/-! ## The neighbour scan of `Order` -/

theorem ScanInv_step (frm : Frame) (XYZ1 : Vec3) (oidx1 oidx2 : Nat) (L : List (ℚ × Vec3))
    (s : NearestScan) (hne : oidx2 ≠ oidx1) (h : ScanInv L s) :
    ScanInv (L ++ [(DIST2_NoImage XYZ1 (frm.XYZ oidx2), frm.XYZ oidx2)])
      (orderScanStep frm XYZ1 oidx1 s oidx2) := by
  obtain ⟨h12, h23, h34, rest, hp, hr⟩ := h
  have he : ∀ e' : ℚ × Vec3, e' = (DIST2_NoImage XYZ1 (frm.XYZ oidx2), frm.XYZ oidx2) →
      ScanInv (L ++ [e']) (orderScanStep frm XYZ1 oidx1 s oidx2) := by
    intro e' ee
    have hb' : (L ++ [e']).Perm (e' :: (s.d1, s.WAT0) :: (s.d2, s.WAT1)
        :: (s.d3, s.WAT2) :: (s.d4, s.WAT3) :: rest) :=
      (List.perm_append_singleton _ _).trans (hp.cons _)
    have e1 : e'.1 = DIST2_NoImage XYZ1 (frm.XYZ oidx2) := by rw [ee]
    have e2 : e'.2 = frm.XYZ oidx2 := by rw [ee]
    have ep : e' = (e'.1, e'.2) := rfl
    unfold orderScanStep
    rw [if_pos hne]
    simp only
    rw [← e1, ← e2]
    split_ifs with c1 c2 c3 c4
    · refine ⟨le_of_lt c1, h12, h23, (s.d4, s.WAT3) :: rest, hb', ?_⟩
      intro x hx
      rcases List.mem_cons.1 hx with e | e
      · rw [e]; exact h34
      · exact le_trans h34 (hr x e)
    · refine ⟨not_lt.1 c1, le_of_lt c2, h23, (s.d4, s.WAT3) :: rest,
        hb'.trans (List.Perm.swap _ _ _), ?_⟩
      intro x hx
      rcases List.mem_cons.1 hx with e | e
      · rw [e]; exact h34
      · exact le_trans h34 (hr x e)
    · refine ⟨h12, not_lt.1 c2, le_of_lt c3, (s.d4, s.WAT3) :: rest,
        hb'.trans ((List.Perm.swap _ _ _).trans ((List.Perm.swap _ _ _).cons _)), ?_⟩
      intro x hx
      rcases List.mem_cons.1 hx with e | e
      · rw [e]; exact h34
      · exact le_trans h34 (hr x e)
    · refine ⟨h12, h23, not_lt.1 c3, (s.d4, s.WAT3) :: rest,
        hb'.trans ((List.Perm.swap _ _ _).trans (((List.Perm.swap _ _ _).trans
          ((List.Perm.swap _ _ _).cons _)).cons _)), ?_⟩
      intro x hx
      rcases List.mem_cons.1 hx with e | e
      · rw [e]; exact le_of_lt c4
      · exact le_trans (le_of_lt c4) (hr x e)
    · refine ⟨h12, h23, h34, e' :: rest,
        hb'.trans ((List.Perm.swap _ _ _).trans (((List.Perm.swap _ _ _).trans
          (((List.Perm.swap _ _ _).trans ((List.Perm.swap _ _ _).cons _)).cons _)).cons _)), ?_⟩
      intro x hx
      rcases List.mem_cons.1 hx with e | e
      · rw [e]; exact not_lt.1 c4
      · exact hr x e
  exact he _ rfl

theorem orderScanStep_self (frm : Frame) (XYZ1 : Vec3) (oidx1 : Nat) (s : NearestScan) :
    orderScanStep frm XYZ1 oidx1 s oidx1 = s := by
  unfold orderScanStep
  rw [if_neg (not_not.2 rfl)]

theorem ScanInv_foldl (frm : Frame) (XYZ1 : Vec3) (oidx1 : Nat) (l : List Nat)
    (L : List (ℚ × Vec3)) (s : NearestScan) (h : ScanInv L s) :
    ScanInv (L ++ scanInput frm XYZ1 oidx1 l) (l.foldl (orderScanStep frm XYZ1 oidx1) s) := by
  induction l generalizing L s with
  | nil =>
    simp only [scanInput, List.filter_nil, List.map_nil, List.append_nil, List.foldl_nil]
    exact h
  | cons o l ih =>
    rw [List.foldl_cons]
    by_cases ho : o = oidx1
    · have e : scanInput frm XYZ1 oidx1 (o :: l) = scanInput frm XYZ1 oidx1 l := by
        unfold scanInput
        rw [List.filter_cons_of_neg (by simpa using ho)]
      rw [e, ho, orderScanStep_self]
      exact ih L s h
    · have e : scanInput frm XYZ1 oidx1 (o :: l)
          = (DIST2_NoImage XYZ1 (frm.XYZ o), frm.XYZ o) :: scanInput frm XYZ1 oidx1 l := by
        unfold scanInput
        rw [List.filter_cons_of_pos (by simpa using ho), List.map_cons]
      rw [e]
      have := ih _ _ (ScanInv_step frm XYZ1 oidx1 o L s ho h)
      rw [List.append_assoc, List.singleton_append] at this
      exact this

theorem filter_ne_length (l : List Nat) (a : Nat) (h : l.Nodup) :
    l.length ≤ (l.filter fun x => decide (x ≠ a)).length + 1 := by
  induction l with
  | nil => simp
  | cons x l ih =>
    have hn := List.nodup_cons.1 h
    by_cases hx : x = a
    · rw [List.filter_cons_of_neg (by simpa using hx)]
      have hnot : a ∉ l := hx ▸ hn.1
      have e : (l.filter fun x => decide (x ≠ a)) = l := by
        rw [List.filter_eq_self]
        intro y hy
        simp only [ne_eq, decide_not, Bool.not_eq_true', decide_eq_false_iff_not]
        intro e
        exact hnot (e ▸ hy)
      rw [e, List.length_cons]
    · rw [List.filter_cons_of_pos (by simpa using hx), List.length_cons, List.length_cons]
      have := ih hn.2
      omega

/-- The scan once the four initial entries are set aside: when at least four
entries were scanned and all are below `maxD_`, the four running pairs are
entries of the scan and every other entry is at least as far as the fourth. -/
theorem ScanInv_final (P : List (ℚ × Vec3)) (u : Vec3) (s : NearestScan)
    (h : ScanInv ([(maxD_, u), (maxD_, u), (maxD_, u), (maxD_, u)] ++ P) s)
    (hfin : ∀ x ∈ P, x.1 < maxD_) (h4 : 4 ≤ P.length) :
    s.d4 < maxD_ ∧ ∃ rest, P.Perm (s.top ++ rest) ∧ ∀ x ∈ rest, s.d4 ≤ x.1 := by
  obtain ⟨h12, h23, h34, rest, hp, hr⟩ := h
  have hf := hp.filter fun x => decide (x.1 < maxD_)
  have hP : P.filter (fun x => decide (x.1 < maxD_)) = P := by
    rw [List.filter_eq_self]
    intro x hx
    simpa using hfin x hx
  have hL : ([(maxD_, u), (maxD_, u), (maxD_, u), (maxD_, u)] ++ P).filter
      (fun x => decide (x.1 < maxD_)) = P := by
    rw [List.filter_append, hP]
    simp
  rw [hL] at hf
  have hd4 : s.d4 < maxD_ := by
    by_contra hc
    have hc' : maxD_ ≤ s.d4 := not_lt.1 hc
    have hrest : rest.filter (fun x => decide (x.1 < maxD_)) = [] := by
      rw [List.filter_eq_nil_iff]
      intro x hx
      simpa using le_trans hc' (hr x hx)
    have hlen := hf.length_eq
    rw [List.filter_append, hrest, List.append_nil] at hlen
    have htop : (s.top.filter fun x => decide (x.1 < maxD_)).length ≤ 3 := by
      have e : s.top = [(s.d1, s.WAT0), (s.d2, s.WAT1), (s.d3, s.WAT2)] ++ [(s.d4, s.WAT3)] :=
        rfl
      have e4 : [(s.d4, s.WAT3)].filter (fun x => decide (x.1 < maxD_)) = [] := by
        rw [List.filter_cons_of_neg (by simpa using hc')]
        rfl
      rw [e, List.filter_append, e4, List.append_nil]
      exact List.length_filter_le _ _
    omega
  have htop : s.top.filter (fun x => decide (x.1 < maxD_)) = s.top := by
    rw [List.filter_eq_self]
    intro x hx
    have h3 : s.d3 < maxD_ := lt_of_le_of_lt h34 hd4
    have h2 : s.d2 < maxD_ := lt_of_le_of_lt h23 h3
    have h1 : s.d1 < maxD_ := lt_of_le_of_lt h12 h2
    simp only [NearestScan.top, List.mem_cons, List.mem_singleton, List.not_mem_nil,
      or_false] at hx
    rcases hx with e | e | e | e <;> rw [e] <;> simpa
  rw [List.filter_append, htop] at hf
  exact ⟨hd4, _, hf, fun x hx => hr x (List.mem_filter.1 hx).1⟩

/-- C24: in `Order`, for the on-grid water of slot `gidx` in a system with at
least 5 solvent molecules (distinct head atoms, all squared distances below
`DBL_MAX`), after the scan over the solvent head atoms the running distances
satisfy `d1 ≤ d2 ≤ d3 ≤ d4`; the four pairs `(d1, WAT[0]), ..., (d4, WAT[3])`
are, as a multiset, four of the pairs (squared distance, coordinates) of the
other molecules' head atoms, and every remaining pair is at least as far as
`d4`: they are the four smallest; so every `WAT[i]` has been assigned the
coordinates of a head atom of another molecule at squared distance `d(i+1)`.
When `Setup` sees fewer than 5 solvent molecules it clears `doOrder_`, and
`DoAction` then does not run `Order`. -/
theorem order_scan_four_nearest (g : Gist) (frm : Frame) (st : GistState) (gidx : Nat)
    (hn : g.O_idxs_.Nodup) (h5 : 5 ≤ g.NSOLVENT_)
    (hfin : ∀ o ∈ g.O_idxs_, DIST2_NoImage (onGridXYZ st gidx) (frm.XYZ o) < maxD_) :
    (orderScan g frm st gidx).d1 ≤ (orderScan g frm st gidx).d2
      ∧ (orderScan g frm st gidx).d2 ≤ (orderScan g frm st gidx).d3
      ∧ (orderScan g frm st gidx).d3 ≤ (orderScan g frm st gidx).d4
      ∧ (∃ rest,
          (scanInput frm (onGridXYZ st gidx) (st.OnGrid_idxs_.getD gidx 0) g.O_idxs_).Perm
              ((orderScan g frm st gidx).top ++ rest)
            ∧ ∀ x ∈ rest, (orderScan g frm st gidx).d4 ≤ x.1)
      ∧ (∀ t ∈ (orderScan g frm st gidx).top, ∃ o ∈ g.O_idxs_,
          o ≠ st.OnGrid_idxs_.getD gidx 0
            ∧ t = (DIST2_NoImage (onGridXYZ st gidx) (frm.XYZ o), frm.XYZ o))
      ∧ (∀ (a : ActionSetup) (m m1 : SetupMembers), Setup a m = some m1 →
          m1.NSOLVENT_ = m1.O_idxs_.length ∧ (m1.NSOLVENT_ < 5 → m1.doOrder_ = false))
      ∧ (g.doOrder_ = false → ∀ st1 : GistState, orderPhase g frm st1 = st1) := by
  have hI : ScanInv ([(maxD_, g.uninitVec3), (maxD_, g.uninitVec3), (maxD_, g.uninitVec3),
      (maxD_, g.uninitVec3)]
        ++ scanInput frm (onGridXYZ st gidx) (st.OnGrid_idxs_.getD gidx 0) g.O_idxs_)
      (orderScan g frm st gidx) :=
    ScanInv_foldl frm (onGridXYZ st gidx) (st.OnGrid_idxs_.getD gidx 0) g.O_idxs_ _
      ⟨maxD_, maxD_, maxD_, maxD_, g.uninitVec3, g.uninitVec3, g.uninitVec3, g.uninitVec3⟩
      ⟨le_refl _, le_refl _, le_refl _, [], by simp [NearestScan.top], by simp⟩
  have hP : ∀ x ∈ scanInput frm (onGridXYZ st gidx) (st.OnGrid_idxs_.getD gidx 0) g.O_idxs_,
      ∃ o ∈ g.O_idxs_, o ≠ st.OnGrid_idxs_.getD gidx 0
        ∧ x = (DIST2_NoImage (onGridXYZ st gidx) (frm.XYZ o), frm.XYZ o) := by
    intro x hx
    unfold scanInput at hx
    obtain ⟨o, ho, rfl⟩ := List.mem_map.1 hx
    obtain ⟨ho1, ho2⟩ := List.mem_filter.1 ho
    exact ⟨o, ho1, by simpa using ho2, rfl⟩
  have h4 : 4 ≤ (scanInput frm (onGridXYZ st gidx) (st.OnGrid_idxs_.getD gidx 0)
      g.O_idxs_).length := by
    unfold scanInput
    rw [List.length_map]
    have := filter_ne_length g.O_idxs_ (st.OnGrid_idxs_.getD gidx 0) hn
    unfold Gist.NSOLVENT_ at h5
    omega
  obtain ⟨-, rest, hperm, hrest⟩ := ScanInv_final _ g.uninitVec3 _ hI
    (fun x hx => by
      obtain ⟨o, ho, -, rfl⟩ := hP x hx
      exact hfin o ho) h4
  refine ⟨hI.le12, hI.le23, hI.le34, ⟨rest, hperm, hrest⟩, ?_, ?_, ?_⟩
  · intro t ht
    exact hP t (hperm.mem_iff.2 (List.mem_append_left _ ht))
  · intro a m m1 hS
    obtain ⟨r, -, -, e2, -, e4, e5, -⟩ := Setup_some a m m1 hS
    refine ⟨by rw [e4, e2], ?_⟩
    intro hlt
    rw [e4] at hlt
    exact e5 hlt
  · intro hd st1
    unfold orderPhase
    rw [if_neg (by rw [hd]; exact Bool.false_ne_true)]

theorem order_scan_four_nearest_witness :
    5 ≤ exGist5.NSOLVENT_
      ∧ (orderScan exGist5 exFrame5 (exGist5.run [exFrame5]) 0).d1
          ≤ (orderScan exGist5 exFrame5 (exGist5.run [exFrame5]) 0).d2
      ∧ (orderScan exGist5 exFrame5 (exGist5.run [exFrame5]) 0).d3
          ≤ (orderScan exGist5 exFrame5 (exGist5.run [exFrame5]) 0).d4
      ∧ (orderScan exGist5 exFrame5 (exGist5.run [exFrame5]) 0).d4 < maxD_ :=
  have h := order_scan_four_nearest exGist5 exFrame5 (exGist5.run [exFrame5]) 0
    (by decide) (by decide)
    (fun o ho => by
      have ho' : o = 0 ∨ o = 3 ∨ o = 6 ∨ o = 9 ∨ o = 12 := by
        simpa [exGist5, exGist] using ho
      rcases ho' with rfl | rfl | rfl | rfl | rfl <;> decide!)
  ⟨by decide, h.1, h.2.2.1, by decide!⟩

/-! ## Voxels without water -/

theorem addAt_getD_ne (l : List ℚ) (v u : Nat) (x : ℚ) (h : u ≠ v) :
    (addAt l v x).getD u 0 = l.getD u 0 := by
  by_cases hv : v < l.length
  · rw [addAt_getD l v u x hv, if_neg h, add_zero]
  · rw [addAt_of_ge l v x (not_lt.1 hv)]

theorem assign_voxel_mem (g : Gist) (frm : Frame) (l : List Nat) (s : GistState)
    (hl : ∀ o ∈ l, o ∈ g.O_idxs_)
    (hs : ∀ a, s.atom_voxel_.getD a OFF_GRID_ ≠ OFF_GRID_ →
      (s.atom_voxel_.getD a OFF_GRID_).toNat ∈ g.onGridVoxels frm) :
    ∀ a, (l.foldl (molStep g frm) s).atom_voxel_.getD a OFF_GRID_ ≠ OFF_GRID_ →
      ((l.foldl (molStep g frm) s).atom_voxel_.getD a OFF_GRID_).toNat ∈ g.onGridVoxels frm := by
  induction l generalizing s with
  | nil => exact hs
  | cons o l ih =>
    rw [List.foldl_cons]
    refine ih _ (fun x hx => hl x (List.mem_cons_of_mem _ hx)) ?_
    intro a ha
    by_cases hg : g.molOnGrid frm o = true
    · have h1 := ((molStep_sample g frm s o).1 hg).1
      rw [h1] at ha ⊢
      have h3 := (recordOnGrid_sample g frm o (g.molCenter frm o)
        (g.calcVoxelIndex (g.molCenter frm o)) s).2.2.1 a
      rw [h3] at ha ⊢
      split_ifs at ha ⊢ with hc
      · unfold Gist.onGridVoxels Gist.onGridHeads
        exact List.mem_map.2 ⟨o, List.mem_filter.2 ⟨hl o (List.mem_cons_self _ _), hg⟩, rfl⟩
      · exact hs a ha
    · have hg' : g.molOnGrid frm o = false := by simpa using hg
      have h1 := ((molStep_sample g frm s o).2 hg').1
      rw [h1] at ha ⊢
      exact hs a ha

/-- The state on which the pair loop runs has, for every atom with a voxel, the
voxel of an on-grid solvent molecule of the frame. -/
theorem nbInput_voxel_mem (g : Gist) (hp : g.usePme_ = false) (frm : Frame) (st : GistState)
    (a : Nat) (ha : (nbInput g frm st).atom_voxel_.getD a OFF_GRID_ ≠ OFF_GRID_) :
    ((nbInput g frm st).atom_voxel_.getD a OFF_GRID_).toNat ∈ g.onGridVoxels frm := by
  have hin : nbInput g frm st
      = nbStart frm (orderPhase g frm (assignMolecules g frm (frameStart frm st))) := by
    simp [nbInput, assignSolute, hp]
  rw [hin, (nbStart_fields frm _).1, (orderPhase_sameSample g frm _).1] at ha ⊢
  unfold assignMolecules at ha ⊢
  refine assign_voxel_mem g frm g.O_idxs_ (frameStart frm st) (fun _ h => h) ?_ a ha
  intro b hb
  exfalso
  apply hb
  have := (frameStart_sample frm st).onGrid_iff b
  simp only [frameStart, List.not_mem_nil, false_iff, not_not] at this
  exact this

theorem frameCalls_voxel_mem (g : Gist) (hI : g.InitOK) (hS : g.SetupOK)
    (hp : g.usePme_ = false) (frm : Frame) (hF : g.FrameOK frm) (st : GistState)
    (c : EcalcCall) (hc : c ∈ frameCalls g frm (nbInput g frm st)) :
    c.a2_voxel.toNat ∈ g.onGridVoxels frm
      ∧ (c.a1_voxel ≠ OFF_GRID_ → c.a1_voxel.toNat ∈ g.onGridVoxels frm) := by
  have hok := frameCalls_voxelsOK g hI hS hp frm hF st c hc
  obtain ⟨a1, _, gidx, hg, hcall⟩ := mem_frameCalls g frm _ c hc
  obtain ⟨_, _, e3, e4, _, _, _⟩ := nbCall_some g frm _ a1 gidx c hcall
  constructor
  · have hne : c.a2_voxel ≠ OFF_GRID_ := by
      intro e
      have := hok.1.1
      rw [e] at this
      exact absurd this (by decide)
    rw [e4] at hne ⊢
    exact nbInput_voxel_mem g hp frm st _ hne
  · intro hne
    rw [e3] at hne ⊢
    exact nbInput_voxel_mem g hp frm st _ hne

theorem applyCall_untouched (g : Gist) (t : GistState) (c : EcalcCall) (v : Nat)
    (h2 : v ≠ c.a2_voxel.toNat) (h1 : c.a1_voxel ≠ OFF_GRID_ → v ≠ c.a1_voxel.toNat) :
    nbAt (applyCall g t c).nbAcc v = nbAt t.nbAcc v := by
  unfold applyCall nbAt GistState.nbAcc
  simp only
  split_ifs with c1 c2 c3 c4 c5
  all_goals
    first
      | rfl
      | simp only [addAt_getD_ne _ _ _ _ h2, addAt_getD_ne _ _ _ _ (h1 c2)]
      | simp only [addAt_getD_ne _ _ _ _ h2]

theorem DoAction_nbAt (g : Gist) (hI : g.InitOK) (hS : g.SetupOK) (hp : g.usePme_ = false)
    (frm : Frame) (hF : g.FrameOK frm) (st : GistState) (v : Nat)
    (hv : v ∉ g.onGridVoxels frm) :
    nbAt (DoAction g st frm).nbAcc v = nbAt st.nbAcc v := by
  by_cases he : g.skipE_ = true
  · rw [DoAction_skipE_nbAcc g he]
  · have he' : g.skipE_ = false := by simpa using he
    rw [DoAction_eq_calls g hp he']
    have h := foldl_applyCall_inv g (fun acc => nbAt acc v = nbAt st.nbAcc v)
      (frameCalls g frm (nbInput g frm st))
      (fun c hc t ht => by
        obtain ⟨m2, m1⟩ := frameCalls_voxel_mem g hI hS hp frm hF st c hc
        show nbAt (applyCall g t c).nbAcc v = nbAt st.nbAcc v
        rw [applyCall_untouched g t c v (fun e => hv (e ▸ m2)) (fun hne e => hv (e ▸ m1 hne))]
        exact ht)
      (nbInput g frm st) (by rw [nbInput_nbAcc])
    exact h

theorem molStep_dipAt (g : Gist) (frm : Frame) (st : GistState) (o : Nat) (v : Nat)
    (ho : o ∈ g.O_idxs_) (hv : v ∉ g.onGridVoxels frm) :
    dipAt (molStep g frm st o).dip v = dipAt st.dip v := by
  have hd : ∀ s : GistState, (recordDensity g frm o s).dip = s.dip := by
    intro s
    unfold recordDensity
    refine foldl_preserves _ GistState.dip ?_ _ _
    intro t a
    simp only
    split <;> rfl
  unfold molStep
  simp only
  by_cases hn : g.nearGrid ((g.calcMolCenter frm o (o + g.nMolAtoms_)).sub g.gridBin_.O) = true
  · rw [if_pos hn, hd]
    by_cases hx : g.calcVoxelIndex (g.calcMolCenter frm o (o + g.nMolAtoms_)) ≠ OFF_GRID_
    · rw [if_pos hx]
      have hon : g.molOnGrid frm o = true := by
        unfold Gist.molOnGrid Gist.molCenter
        simp [hn, hx]
      have hmem : (g.calcVoxelIndex (g.calcMolCenter frm o (o + g.nMolAtoms_))).toNat
          ∈ g.onGridVoxels frm := by
        unfold Gist.onGridVoxels Gist.onGridHeads
        exact List.mem_map.2 ⟨o, List.mem_filter.2 ⟨ho, hon⟩, rfl⟩
      have hne : v ≠ (g.calcVoxelIndex (g.calcMolCenter frm o (o + g.nMolAtoms_))).toNat :=
        fun e => hv (e ▸ hmem)
      have h1 : ((List.range g.nMolAtoms_).foldl (recordAtom frm o
          (g.calcVoxelIndex (g.calcMolCenter frm o (o + g.nMolAtoms_)))) st).dip = st.dip :=
        foldl_preserves (recordAtom frm o _) GistState.dip (fun _ _ => rfl) _ _
      unfold GistState.dip at h1
      simp only [Prod.mk.injEq] at h1
      obtain ⟨d1, d2, d3⟩ := h1
      unfold recordOnGrid dipAt GistState.dip
      simp only [d1, d2, d3, addAt_getD_ne _ _ _ _ hne]
    · rw [if_neg hx]
  · rw [if_neg hn]

theorem assignMolecules_dipAt (g : Gist) (frm : Frame) (l : List Nat) (st : GistState) (v : Nat)
    (hl : ∀ o ∈ l, o ∈ g.O_idxs_) (hv : v ∉ g.onGridVoxels frm) :
    dipAt (l.foldl (molStep g frm) st).dip v = dipAt st.dip v := by
  induction l generalizing st with
  | nil => rfl
  | cons o l ih =>
    rw [List.foldl_cons, ih _ (fun x hx => hl x (List.mem_cons_of_mem _ hx)),
      molStep_dipAt g frm st o v (hl o (List.mem_cons_self _ _)) hv]

theorem energyPhase_dip (g : Gist) (hp : g.usePme_ = false) (frm : Frame) (st : GistState) :
    (energyPhase g frm st).dip = st.dip := by
  have hpair : ∀ (a1 : Nat) (s : GistState) (gidx : Nat),
      (nbPair g frm a1 s gidx).dip = s.dip := by
    intro a1 s gidx
    unfold nbPair pairSolute pairSolvent
    simp only
    split_ifs <;> rfl
  unfold energyPhase
  split
  · rw [if_neg (by rw [hp]; exact Bool.false_ne_true)]
    unfold NonbondEnergy
    simp only
    rw [foldl_preserves
      (fun s aidx => (List.range s.N_ON_GRID_).foldl (nbPair g frm aidx) s) GistState.dip
      (fun s a => foldl_preserves (nbPair g frm a) GistState.dip
        (fun s1 i => hpair a s1 i) _ s)]
    split <;> rfl
  · rfl

theorem DoAction_dipAt (g : Gist) (hp : g.usePme_ = false) (frm : Frame) (st : GistState)
    (v : Nat) (hv : v ∉ g.onGridVoxels frm) :
    dipAt (DoAction g st frm).dip v = dipAt st.dip v := by
  have ho : ∀ s : GistState, (orderPhase g frm s).dip = s.dip := by
    intro s
    unfold orderPhase
    split
    · unfold Order
      exact foldl_preserves (orderMol g frm) GistState.dip (fun _ _ => rfl) _ _
    · rfl
  have hs : ∀ s : GistState, assignSolute g frm s = s := by
    intro s
    unfold assignSolute
    rw [if_neg (by rw [hp]; exact Bool.false_ne_true)]
  unfold DoAction
  rw [energyPhase_dip g hp, ho, hs]
  unfold assignMolecules
  rw [assignMolecules_dipAt g frm g.O_idxs_ _ v (fun _ h => h) hv]
  rfl

theorem foldl_UpdateVoxel_untouched (us : List (Nat × Option ℚ)) (ord : List (Option ℚ))
    (v : Nat) (h : ∀ u ∈ us, v ≠ u.1) :
    (us.foldl (fun o u => UpdateVoxel o u.1 u.2) ord).getD v (some 0)
      = ord.getD v (some 0) := by
  induction us generalizing ord with
  | nil => rfl
  | cons u us ih =>
    rw [List.foldl_cons, ih _ (fun x hx => h x (List.mem_cons_of_mem _ hx)),
      UpdateVoxel_getD_ne _ _ _ _ (h u (List.mem_cons_self _ _))]

theorem DoAction_order_untouched (g : Gist) (hS : g.SetupOK) (hp : g.usePme_ = false)
    (frm : Frame) (hF : g.FrameOK frm) (st : GistState) (v : Nat)
    (hv : v ∉ g.onGridVoxels frm) :
    (DoAction g st frm).order.getD v (some 0) = st.order.getD v (some 0) := by
  have hs : ∀ s : GistState, assignSolute g frm s = s := by
    intro s
    unfold assignSolute
    rw [if_neg (by rw [hp]; exact Bool.false_ne_true)]
  have hA : (assignMolecules g frm (frameStart frm st)).order = st.order := by
    unfold assignMolecules
    rw [foldl_preserves (molStep g frm) GistState.order (fun s o => (molStep_order g frm s o).1)]
    rfl
  have hsamp := assignMolecules_sample g hS frm hF st
  unfold DoAction
  rw [(energyPhase_order g frm _).1, hs]
  have hK : ∀ a, (assignMolecules g frm (frameStart frm st)).atom_voxel_.getD a OFF_GRID_
        ≠ OFF_GRID_ →
      ((assignMolecules g frm (frameStart frm st)).atom_voxel_.getD a OFF_GRID_).toNat
        ∈ g.onGridVoxels frm := by
    unfold assignMolecules
    refine assign_voxel_mem g frm g.O_idxs_ (frameStart frm st) (fun _ h => h) ?_
    intro b hb
    exfalso
    apply hb
    have := (frameStart_sample frm st).onGrid_iff b
    simp only [frameStart, List.not_mem_nil, false_iff, not_not] at this
    exact this
  generalize assignMolecules g frm (frameStart frm st) = s at hA hsamp hK
  unfold orderPhase
  split
  · unfold Order
    rw [(order_fold g frm s _ s (sameSample_refl s)).2, ← hA]
    refine foldl_UpdateVoxel_untouched _ _ v ?_
    intro u hu
    obtain ⟨gidx, hg, rfl⟩ := List.mem_map.1 hu
    obtain ⟨k, hk, rfl⟩ := List.mem_map.1 hg
    have hn := hS.nMol_pos
    have hlt : k * g.nMolAtoms_ < s.N_ON_GRID_ := by
      have h1 := (Nat.le_div_iff_mul_le (by omega : 0 < g.nMolAtoms_)).1
        (Nat.succ_le_of_lt (List.mem_range.1 hk))
      rw [Nat.succ_mul] at h1
      omega
    have hmem : s.OnGrid_idxs_.getD (k * g.nMolAtoms_) 0 ∈ s.OnGrid_idxs_ := by
      rw [hsamp.count] at hlt
      rw [List.getD_eq_getElem _ _ hlt]
      exact List.getElem_mem _
    have hin := hK _ ((hsamp.onGrid_iff _).1 hmem)
    intro e
    apply hv
    rw [e]
    exact hin
  · rw [hA]

theorem rawAt_eq (s : GistState) (v : Nat) :
    s.rawAt v = (nbAt s.nbAcc v ++ dipAt s.dip v).map some ++ [s.order.getD v (some 0)] := rfl

theorem DoAction_rawAt (g : Gist) (hI : g.InitOK) (hS : g.SetupOK) (hp : g.usePme_ = false)
    (frm : Frame) (hF : g.FrameOK frm) (st : GistState) (v : Nat)
    (hv : v ∉ g.onGridVoxels frm) :
    (DoAction g st frm).rawAt v = st.rawAt v := by
  rw [rawAt_eq, rawAt_eq, DoAction_nbAt g hI hS hp frm hF st v hv, DoAction_dipAt g hp frm st v hv,
    DoAction_order_untouched g hS hp frm hF st v hv]

theorem DoAction_N_waters_getD (g : Gist) (hI : g.InitOK) (frm : Frame) (st : GistState)
    (v : Nat) (hlen : st.N_waters_.length = g.MAX_GRID_PT_) :
    (DoAction g st frm).N_waters_.length = g.MAX_GRID_PT_
      ∧ (DoAction g st frm).N_waters_.getD v 0
          = st.N_waters_.getD v 0 + (g.onGridVoxels frm).count v := by
  rw [DoAction_N_waters]
  unfold assignMolecules
  exact assign_N_waters_getD g hI frm v g.O_idxs_ (frameStart frm st) hlen

theorem run_rawAt (g : Gist) (hI : g.InitOK) (hS : g.SetupOK) (hp : g.usePme_ = false)
    (frames : List Frame) (hF : ∀ f ∈ frames, g.FrameOK f) (v : Nat) (s : GistState)
    (hlen : s.N_waters_.length = g.MAX_GRID_PT_)
    (h0 : (frames.foldl (DoAction g) s).N_waters_.getD v 0 = 0) :
    (frames.foldl (DoAction g) s).rawAt v = s.rawAt v ∧ s.N_waters_.getD v 0 = 0 := by
  induction frames generalizing s with
  | nil => exact ⟨rfl, h0⟩
  | cons f l ih =>
    rw [List.foldl_cons] at h0 ⊢
    obtain ⟨n1, n2⟩ := DoAction_N_waters_getD g hI f s v hlen
    obtain ⟨r1, r2⟩ := ih (fun x hx => hF x (List.mem_cons_of_mem _ hx)) _ n1 h0
    rw [n2] at r2
    have hc : (g.onGridVoxels f).count v = 0 := by omega
    have hv : v ∉ g.onGridVoxels f := List.count_eq_zero.1 hc
    rw [r1, DoAction_rawAt g hI hS hp f (hF f (List.mem_cons_self _ _)) s v hv]
    exact ⟨rfl, by omega⟩

/-- C27: after any sequence of frames (energies from the pair loop, not the
mesh-Ewald back-end; solvent molecules contiguous and inside every frame),
every voxel `v` with `N_waters[v] = 0` has all its raw accumulators equal to
zero: the solute-water and water-water energy sums (van der Waals and
electrostatic), the neighbour count, the three dipole sums and the order sum.
And a frame leaves the energy sums and the neighbour count of every voxel that
holds no on-grid solvent molecule in that frame as they were: every call of
`Ecalc` adds to voxels of on-grid solvent molecules of the frame only. -/
theorem empty_voxel_accumulators_zero (g : Gist) (hI : g.InitOK) (hS : g.SetupOK)
    (hp : g.usePme_ = false) (frames : List Frame) (hF : ∀ f ∈ frames, g.FrameOK f) (v : Nat)
    (h0 : (g.run frames).N_waters_.getD v 0 = 0) :
    ((g.run frames).E_UV_VDW_.getD v 0 = 0 ∧ (g.run frames).E_UV_Elec_.getD v 0 = 0
        ∧ (g.run frames).E_VV_VDW_.getD v 0 = 0 ∧ (g.run frames).E_VV_Elec_.getD v 0 = 0
        ∧ (g.run frames).neighbor_.getD v 0 = 0 ∧ (g.run frames).dipolex.getD v 0 = 0
        ∧ (g.run frames).dipoley.getD v 0 = 0 ∧ (g.run frames).dipolez.getD v 0 = 0
        ∧ (g.run frames).order.getD v (some 0) = some 0)
      ∧ (∀ frm ∈ frames, ∀ (st : GistState) (u : Nat), u ∉ g.onGridVoxels frm →
          (DoAction g st frm).E_UV_VDW_.getD u 0 = st.E_UV_VDW_.getD u 0
            ∧ (DoAction g st frm).E_UV_Elec_.getD u 0 = st.E_UV_Elec_.getD u 0
            ∧ (DoAction g st frm).E_VV_VDW_.getD u 0 = st.E_VV_VDW_.getD u 0
            ∧ (DoAction g st frm).E_VV_Elec_.getD u 0 = st.E_VV_Elec_.getD u 0
            ∧ (DoAction g st frm).neighbor_.getD u 0 = st.neighbor_.getD u 0)
      ∧ (∀ frm ∈ frames, ∀ (st : GistState), ∀ c ∈ frameCalls g frm (nbInput g frm st),
          c.a2_voxel.toNat ∈ g.onGridVoxels frm
            ∧ (c.a1_voxel ≠ OFF_GRID_ → c.a1_voxel.toNat ∈ g.onGridVoxels frm)) := by
  refine ⟨?_, ?_, ?_⟩
  · have h := (run_rawAt g hI hS hp frames hF v g.Init (by simp [Gist.Init]) h0).1
    have hz : g.Init.rawAt v
        = [some 0, some 0, some 0, some 0, some 0, some 0, some 0, some 0, some 0] := by
      unfold GistState.rawAt Gist.Init
      simp only [getD_replicate_zero, getD_replicate_some_zero]
    rw [hz] at h
    unfold Gist.run
    unfold GistState.rawAt at h
    simp only [List.cons.injEq, Option.some.injEq, and_true] at h
    exact h
  · intro frm hf st u hu
    have h := DoAction_nbAt g hI hS hp frm (hF frm hf) st u hu
    unfold nbAt GistState.nbAcc at h
    simp only [List.cons.injEq, and_true] at h
    exact h
  · intro frm hf st c hc
    exact frameCalls_voxel_mem g hI hS hp frm (hF frm hf) st c hc

theorem empty_voxel_accumulators_zero_witness :
    (exGist.run [exFrame ⟨7 / 2, 1 / 2, 1 / 2⟩]).N_waters_ = [1, 0, 0, 1, 0, 0, 0, 0]
      ∧ (exGist.run [exFrame ⟨7 / 2, 1 / 2, 1 / 2⟩]).E_VV_VDW_.getD 1 0 = 0
      ∧ (exGist.run [exFrame ⟨7 / 2, 1 / 2, 1 / 2⟩]).dipolex.getD 1 0 = 0
      ∧ (exGist.run [exFrame ⟨7 / 2, 1 / 2, 1 / 2⟩]).E_VV_VDW_.getD 0 0 ≠ 0 :=
  have h := empty_voxel_accumulators_zero exGist exGist_InitOK exGist_SetupOK rfl
    [exFrame ⟨7 / 2, 1 / 2, 1 / 2⟩]
    (fun f hf => by
      rw [List.mem_singleton] at hf
      rw [hf]
      exact exGist_FrameOK _) 1 (by decide!)
  ⟨by decide!, h.1.2.2.1, h.1.2.2.2.2.2.1, by decide!⟩

/-! ## The orientation quaternion in exact arithmetic: unit norm and rotation -/

/-- The square root, arc cosine, cosine and sine of the real numbers satisfy
the identities of exact arithmetic. -/
theorem real_exact : (⟨Real.sqrt, Real.arccos, Real.cos, Real.sin⟩ : MathFnsK ℝ).Exact where
  sqrt_mul_self := fun x hx => Real.mul_self_sqrt hx
  sqrt_nonneg := fun x => Real.sqrt_nonneg x
  cos_sq_add_sin_sq := fun t => by
    have := Real.cos_sq_add_sin_sq t
    simp only
    nlinarith
  cos_acos := fun x h1 h2 => Real.cos_arccos h1 h2
  sin_acos := fun x _ _ => by
    show Real.sin (Real.arccos x) = Real.sqrt (1 - x * x)
    rw [Real.sin_arccos, pow_two]
  cos_half := fun t => by
    show Real.cos (t / 2) * Real.cos (t / 2) - Real.sin (t / 2) * Real.sin (t / 2) = Real.cos t
    have h := Real.cos_two_mul (t / 2)
    have h2 := Real.cos_sq_add_sin_sq (t / 2)
    rw [show 2 * (t / 2) = t by ring] at h
    rw [h]
    nlinarith
  sin_half := fun t => by
    show 2 * Real.sin (t / 2) * Real.cos (t / 2) = Real.sin t
    have h := Real.sin_two_mul (t / 2)
    rw [show 2 * (t / 2) = t by ring] at h
    rw [h]
  cos_neg := fun t => Real.cos_neg t
  sin_neg := fun t => Real.sin_neg t

theorem Vec3K.Magnitude2_nonneg {K : Type} [LinearOrderedField K] (v : Vec3K K) :
    0 ≤ v.Magnitude2 := by
  unfold Vec3K.Magnitude2
  nlinarith [mul_self_nonneg v.x, mul_self_nonneg v.y, mul_self_nonneg v.z]

theorem Vec3K.Normalize_some {K : Type} [LinearOrderedField K] (m : MathFnsK K)
    (hm : m.Exact) (v : Vec3K K) (hv : v.Magnitude2 ≠ 0) :
    m.sqrt v.Magnitude2 ≠ 0
      ∧ m.sqrt v.Magnitude2 * m.sqrt v.Magnitude2 = v.Magnitude2
      ∧ ∃ u : Vec3K K, v.Normalize m = some u ∧ u.Magnitude2 = 1
        ∧ u.x = v.x * (1 / m.sqrt v.Magnitude2) ∧ u.y = v.y * (1 / m.sqrt v.Magnitude2)
        ∧ u.z = v.z * (1 / m.sqrt v.Magnitude2) := by
  have hs := hm.sqrt_mul_self _ v.Magnitude2_nonneg
  have hs0 : m.sqrt v.Magnitude2 ≠ 0 := by
    intro h0
    rw [h0, mul_zero] at hs
    exact hv hs.symm
  refine ⟨hs0, hs, _, by unfold Vec3K.Normalize; rw [if_neg hs0], ?_, rfl, rfl, rfl⟩
  have e : (⟨v.x * (1 / m.sqrt v.Magnitude2), v.y * (1 / m.sqrt v.Magnitude2),
      v.z * (1 / m.sqrt v.Magnitude2)⟩ : Vec3K K).Magnitude2
      = v.Magnitude2 / (m.sqrt v.Magnitude2 * m.sqrt v.Magnitude2) := by
    unfold Vec3K.Magnitude2
    field_simp
  rw [e, hs, div_self hv]

theorem Quat4K.norm2_mul {K : Type} [LinearOrderedField K] (p q : Quat4K K) :
    (p.mul q).norm2 = p.norm2 * q.norm2 := by
  unfold Quat4K.mul Quat4K.norm2
  ring

theorem Quat4K.rotate_mul {K : Type} [LinearOrderedField K] (p q : Quat4K K) (v : Vec3K K) :
    (p.mul q).rotate v = q.rotate (p.rotate v) := by
  unfold Quat4K.rotate Quat4K.mul
  simp only [Vec3K.mk.injEq]
  refine ⟨?_, ?_, ?_⟩ <;> ring

theorem Quat4K.rotate_cross {K : Type} [LinearOrderedField K] (q : Quat4K K) (u v : Vec3K K) :
    (q.rotate u).Cross (q.rotate v)
      = ⟨q.norm2 * (q.rotate (u.Cross v)).x, q.norm2 * (q.rotate (u.Cross v)).y,
         q.norm2 * (q.rotate (u.Cross v)).z⟩ := by
  unfold Quat4K.rotate Quat4K.norm2 Vec3K.Cross
  simp only [Vec3K.mk.injEq]
  refine ⟨?_, ?_, ?_⟩ <;> ring

theorem Quat4K.rotate_Magnitude2 {K : Type} [LinearOrderedField K] (q : Quat4K K)
    (v : Vec3K K) : (q.rotate v).Magnitude2 = q.norm2 * q.norm2 * v.Magnitude2 := by
  unfold Quat4K.rotate Quat4K.norm2 Vec3K.Magnitude2
  ring

theorem Quat4K.rotate_smul {K : Type} [LinearOrderedField K] (q : Quat4K K) (v : Vec3K K)
    (t : K) :
    q.rotate ⟨v.x * t, v.y * t, v.z * t⟩
      = ⟨(q.rotate v).x * t, (q.rotate v).y * t, (q.rotate v).z * t⟩ := by
  unfold Quat4K.rotate
  simp only [Vec3K.mk.injEq]
  refine ⟨?_, ?_, ?_⟩ <;> ring

theorem Vec3K.eta {K : Type} (v : Vec3K K) : (⟨v.x, v.y, v.z⟩ : Vec3K K) = v := rfl

theorem Vec3K.Magnitude2_ne_of_yz {K : Type} [LinearOrderedField K] (v : Vec3K K)
    (h : v.y ≠ 0 ∨ v.z ≠ 0) : v.Magnitude2 ≠ 0 := by
  have hx := mul_self_nonneg v.x
  have hy := mul_self_nonneg v.y
  have hz := mul_self_nonneg v.z
  unfold Vec3K.Magnitude2
  rcases h with h | h
  · have := mul_self_pos.mpr h
    intro e; linarith
  · have := mul_self_pos.mpr h
    intro e; linarith

theorem Vec3K.cross_x_lab {K : Type} [LinearOrderedField K] (a : Vec3K K) :
    a.Cross x_labK = ⟨0, a.z, -a.y⟩ := by
  unfold Vec3K.Cross x_labK
  simp only [Vec3K.mk.injEq]
  refine ⟨?_, ?_, ?_⟩ <;> ring

/-- The first rotation is defined and of unit norm for a unit vector that is
not parallel to the lab x axis. -/
theorem quatK_q1_some {K : Type} [LinearOrderedField K] (m : MathFnsK K) (hm : m.Exact)
    (SMALL : K) (a : Vec3K K) (hpar : a.y ≠ 0 ∨ a.z ≠ 0) :
    ∃ q1 : Quat4K K, quatK_q1 m SMALL a = some q1 ∧ q1.norm2 = 1
      ∧ q1.w = m.cos (quatK_theta1 m SMALL a)
      ∧ q1.x = 0
      ∧ q1.y = a.z * (1 / m.sqrt (a.y * a.y + a.z * a.z)) * m.sin (quatK_theta1 m SMALL a)
      ∧ q1.z = -a.y * (1 / m.sqrt (a.y * a.y + a.z * a.z)) * m.sin (quatK_theta1 m SMALL a) := by
  have hsar : (a.Cross x_labK).Magnitude2 ≠ 0 := by
    rw [Vec3K.cross_x_lab]
    apply Vec3K.Magnitude2_ne_of_yz
    rcases hpar with h | h
    · exact Or.inr (neg_ne_zero.mpr h)
    · exact Or.inl h
  have hM : (a.Cross x_labK).Magnitude2 = a.y * a.y + a.z * a.z := by
    rw [Vec3K.cross_x_lab]
    unfold Vec3K.Magnitude2
    ring
  obtain ⟨-, -, ar1, h1, h2, h3, h4, h5⟩ := Vec3K.Normalize_some m hm _ hsar
  have hc := hm.cos_sq_add_sin_sq (quatK_theta1 m SMALL a)
  refine ⟨_, by unfold quatK_q1; rw [h1, Option.map_some'], ?_, rfl, ?_, ?_, ?_⟩
  · unfold Vec3K.Magnitude2 at h2
    unfold Quat4K.norm2
    simp only
    linear_combination hc + m.sin (quatK_theta1 m SMALL a)
      * m.sin (quatK_theta1 m SMALL a) * h2
  · show ar1.x * _ = 0
    rw [h3, Vec3K.cross_x_lab]
    simp
  · show ar1.y * _ = _
    rw [h4, hM, Vec3K.cross_x_lab]
  · show ar1.z * _ = _
    rw [h5, hM, Vec3K.cross_x_lab]

theorem rot_to_xK {K : Type} [LinearOrderedField K] (ax ay az c k : K)
    (hu : ax * ax + ay * ay + az * az = 1)
    (h1 : c * c - k * k * (ay * ay + az * az) = ax) (h2 : 2 * k * c = -1) :
    (⟨c, 0, az * k, -ay * k⟩ : Quat4K K).rotate ⟨ax, ay, az⟩ = ⟨1, 0, 0⟩ := by
  unfold Quat4K.rotate
  simp only [Vec3K.mk.injEq]
  refine ⟨?_, ?_, ?_⟩
  · linear_combination hu - (ay * ay + az * az) * h2 + ax * h1
  · linear_combination ay * h1 + ay * ax * h2
  · linear_combination az * h1 + az * ax * h2

theorem rot_to_zK {K : Type} [LinearOrderedField K] (u v c3 s3 : K) (huv : u * u + v * v = 1)
    (h1 : c3 * c3 - s3 * s3 = v) (h2 : 2 * s3 * c3 = -u) :
    (⟨c3, s3, 0, 0⟩ : Quat4K K).rotate ⟨0, u, v⟩ = ⟨0, 0, 1⟩ := by
  unfold Quat4K.rotate
  simp only [Vec3K.mk.injEq]
  refine ⟨?_, ?_, ?_⟩
  · ring
  · linear_combination v * h2 + u * h1
  · linear_combination v * h1 - u * h2 + huv

theorem rot_keeps_xK {K : Type} [LinearOrderedField K] (c3 s3 : K)
    (h : c3 * c3 + s3 * s3 = 1) :
    (⟨c3, s3, 0, 0⟩ : Quat4K K).rotate ⟨1, 0, 0⟩ = ⟨1, 0, 0⟩ := by
  unfold Quat4K.rotate
  simp only [Vec3K.mk.injEq]
  refine ⟨?_, ?_, ?_⟩
  · linear_combination h
  · ring
  · ring

/-- The half-angle identities at `acos x / (-2)`. -/
theorem Exact.half_neg {K : Type} [LinearOrderedField K] (m : MathFnsK K) (hm : m.Exact)
    (x : K) (h1 : -1 ≤ x) (h2 : x ≤ 1) :
    m.cos (m.acos x / (-2)) * m.cos (m.acos x / (-2))
        - m.sin (m.acos x / (-2)) * m.sin (m.acos x / (-2)) = x
      ∧ 2 * m.sin (m.acos x / (-2)) * m.cos (m.acos x / (-2)) = -m.sqrt (1 - x * x) := by
  have e : m.acos x / (-2) = -(m.acos x / 2) := by ring
  rw [e, hm.cos_neg, hm.sin_neg]
  have a := hm.cos_half (m.acos x)
  have b := hm.sin_half (m.acos x)
  rw [hm.cos_acos x h1 h2] at a
  rw [hm.sin_acos x h1 h2] at b
  constructor
  · linear_combination a
  · linear_combination -b

/-- The half-angle identities at `acos x / 2`. -/
theorem Exact.half_pos {K : Type} [LinearOrderedField K] (m : MathFnsK K) (hm : m.Exact)
    (x : K) (h1 : -1 ≤ x) (h2 : x ≤ 1) :
    m.cos (m.acos x / 2) * m.cos (m.acos x / 2)
        - m.sin (m.acos x / 2) * m.sin (m.acos x / 2) = x
      ∧ 2 * m.sin (m.acos x / 2) * m.cos (m.acos x / 2) = m.sqrt (1 - x * x) := by
  have a := hm.cos_half (m.acos x)
  have b := hm.sin_half (m.acos x)
  rw [hm.cos_acos x h1 h2] at a
  rw [hm.sin_acos x h1 h2] at b
  exact ⟨a, b⟩

theorem unit_component_bounds {K : Type} [LinearOrderedField K] (p q r : K)
    (h : p * p + q * q + r * r = 1) : -1 ≤ p ∧ p ≤ 1 := by
  constructor <;> nlinarith [mul_self_nonneg q, mul_self_nonneg r, mul_self_nonneg (p - 1),
    mul_self_nonneg (p + 1)]

/-- The first rotation takes the unit vector `a` onto the lab x axis. -/
theorem quatK_q1_rotate {K : Type} [LinearOrderedField K] (m : MathFnsK K) (hm : m.Exact)
    (SMALL : K) (hSMALL : 0 ≤ SMALL) (a : Vec3K K) (ha : a.Magnitude2 = 1)
    (hpar : a.y ≠ 0 ∨ a.z ≠ 0) (q1 : Quat4K K) (hq : quatK_q1 m SMALL a = some q1) :
    q1.rotate a = x_labK := by
  obtain ⟨q, h1, -, hw, hx, hy, hz⟩ := quatK_q1_some m hm SMALL a hpar
  rw [hq] at h1
  cases Option.some.inj h1
  have hth : quatK_theta1 m SMALL a = m.acos a.x / (-2) := by
    unfold quatK_theta1
    have e : (a.Cross x_labK).dot a = 0 := by
      rw [Vec3K.cross_x_lab]
      unfold Vec3K.dot
      ring
    have e2 : Vec3K.dot x_labK a = a.x := by
      unfold Vec3K.dot x_labK
      ring
    rw [e, e2, if_neg (not_lt.mpr hSMALL)]
  unfold Vec3K.Magnitude2 at ha
  obtain ⟨b1, b2⟩ := unit_component_bounds _ _ _ ha
  obtain ⟨hc, hd⟩ := Exact.half_neg m hm a.x b1 b2
  rw [← hth] at hc hd
  have hyz : a.y * a.y + a.z * a.z ≠ 0 := by
    have := Vec3K.Magnitude2_ne_of_yz ⟨0, a.y, a.z⟩ hpar
    unfold Vec3K.Magnitude2 at this
    simpa using this
  have hyz0 : 0 ≤ a.y * a.y + a.z * a.z := by
    nlinarith [mul_self_nonneg a.y, mul_self_nonneg a.z]
  have harg : 1 - a.x * a.x = a.y * a.y + a.z * a.z := by linear_combination -ha
  rw [harg] at hd
  have hsq := hm.sqrt_mul_self _ hyz0
  have hs1 : m.sqrt (a.y * a.y + a.z * a.z) ≠ 0 := by
    intro h0
    rw [h0, mul_zero] at hsq
    exact hyz hsq.symm
  generalize m.sqrt (a.y * a.y + a.z * a.z) = s1 at hy hz hd hsq hs1
  generalize m.cos (quatK_theta1 m SMALL a) = c at hw hc hd
  generalize m.sin (quatK_theta1 m SMALL a) = sn at hy hz hc hd
  have hq1 : q1 = ⟨c, 0, a.z * ((1 / s1) * sn), -a.y * ((1 / s1) * sn)⟩ := by
    obtain ⟨w, x, y, z⟩ := q1
    simp only at hw hx hy hz
    rw [Quat4K.mk.injEq]
    refine ⟨hw, hx, ?_, ?_⟩
    · rw [hy]; ring
    · rw [hz]; ring
  have hk : (1 / s1) * sn * s1 = sn := by field_simp
  rw [hq1, ← Vec3K.eta a]
  show _ = (⟨1, 0, 0⟩ : Vec3K K)
  apply rot_to_xK _ _ _ _ _ ha
  · rw [← hsq]
    linear_combination hc - (sn + 1 / s1 * sn * s1) * hk
  · have h2 : s1 * (2 * (1 / s1 * sn) * c + 1) = 0 := by
      linear_combination hd + 2 * c * hk
    rcases mul_eq_zero.mp h2 with h | h
    · exact absurd h hs1
    · linear_combination h

/-- The second rotation is defined and of unit norm when the two rotated
vectors are not collinear. -/
theorem quatK_q3_some {K : Type} [LinearOrderedField K] (m : MathFnsK K) (hm : m.Exact)
    (H_temp H_temp2 : Vec3K K) (hcol : (H_temp.Cross H_temp2).Magnitude2 ≠ 0) :
    ∃ (ar2 : Vec3K K) (q3 : Quat4K K),
      (H_temp.Cross H_temp2).Normalize m = some ar2 ∧ ar2.Magnitude2 = 1
        ∧ quatK_q3 m H_temp H_temp2 = some q3 ∧ q3.norm2 = 1
        ∧ q3 = ⟨m.cos (quatK_theta2 m ar2 H_temp), m.sin (quatK_theta2 m ar2 H_temp), 0, 0⟩ := by
  obtain ⟨-, -, ar2, h1, h2, -, -, -⟩ := Vec3K.Normalize_some m hm _ hcol
  have hc := hm.cos_sq_add_sin_sq (quatK_theta2 m ar2 H_temp)
  have e : (⟨m.cos (quatK_theta2 m ar2 H_temp),
        (x_labK : Vec3K K).x * m.sin (quatK_theta2 m ar2 H_temp),
        (x_labK : Vec3K K).y * m.sin (quatK_theta2 m ar2 H_temp),
        (x_labK : Vec3K K).z * m.sin (quatK_theta2 m ar2 H_temp)⟩ : Quat4K K)
      = ⟨m.cos (quatK_theta2 m ar2 H_temp), m.sin (quatK_theta2 m ar2 H_temp), 0, 0⟩ := by
    unfold x_labK
    simp only [Quat4K.mk.injEq, true_and]
    refine ⟨?_, ?_, ?_⟩ <;> ring
  refine ⟨ar2, _, h1, h2, by unfold quatK_q3; rw [h1, Option.map_some', e], ?_, rfl⟩
  unfold Quat4K.norm2
  simp only
  linear_combination hc

/-- The second rotation takes `ar2` onto the lab z axis and keeps the lab x
axis, when the first rotated vector is the lab x axis. -/
theorem quatK_q3_rotate {K : Type} [LinearOrderedField K] (m : MathFnsK K) (hm : m.Exact)
    (h2 : Vec3K K) (ar2 : Vec3K K) (har : ((x_labK : Vec3K K).Cross h2).Normalize m = some ar2)
    (hcol : ((x_labK : Vec3K K).Cross h2).Magnitude2 ≠ 0) :
    (⟨m.cos (quatK_theta2 m ar2 x_labK), m.sin (quatK_theta2 m ar2 x_labK), 0, 0⟩ :
        Quat4K K).rotate ar2 = z_labK
      ∧ (⟨m.cos (quatK_theta2 m ar2 x_labK), m.sin (quatK_theta2 m ar2 x_labK), 0, 0⟩ :
        Quat4K K).rotate x_labK = x_labK := by
  obtain ⟨-, -, u, h1, hu, ux, -, -⟩ := Vec3K.Normalize_some m hm _ hcol
  rw [har] at h1
  cases Option.some.inj h1
  have hx : ar2.x = 0 := by
    rw [ux]
    unfold Vec3K.Cross x_labK
    simp
  have hsign : (ar2.Cross z_labK).dot x_labK = ar2.y := by
    unfold Vec3K.Cross Vec3K.dot x_labK z_labK
    ring
  have hdp : ar2.dot z_labK = ar2.z := by
    unfold Vec3K.dot z_labK
    ring
  have huv : ar2.y * ar2.y + ar2.z * ar2.z = 1 := by
    unfold Vec3K.Magnitude2 at hu
    rw [hx] at hu
    linear_combination hu
  obtain ⟨b1, b2⟩ := unit_component_bounds ar2.z ar2.y 0 (by linear_combination huv)
  have harg : 1 - ar2.z * ar2.z = ar2.y * ar2.y := by linear_combination -huv
  have hsq := hm.sqrt_mul_self _ (mul_self_nonneg ar2.y)
  have hnn := hm.sqrt_nonneg (ar2.y * ar2.y)
  have habs : m.sqrt (ar2.y * ar2.y) = |ar2.y| := by
    have h1 : m.sqrt (ar2.y * ar2.y) * m.sqrt (ar2.y * ar2.y) = |ar2.y| * |ar2.y| := by
      rw [hsq, abs_mul_abs_self]
    exact (mul_self_inj hnn (abs_nonneg _)).mp h1
  have key : m.cos (quatK_theta2 m ar2 x_labK) * m.cos (quatK_theta2 m ar2 x_labK)
        - m.sin (quatK_theta2 m ar2 x_labK) * m.sin (quatK_theta2 m ar2 x_labK) = ar2.z
      ∧ 2 * m.sin (quatK_theta2 m ar2 x_labK) * m.cos (quatK_theta2 m ar2 x_labK)
        = -ar2.y := by
    unfold quatK_theta2
    rw [hsign, hdp]
    by_cases hneg : ar2.y < 0
    · rw [if_pos hneg]
      obtain ⟨p1, p2⟩ := Exact.half_pos m hm ar2.z b1 b2
      rw [harg, habs, abs_of_neg hneg] at p2
      exact ⟨p1, p2⟩
    · rw [if_neg hneg]
      obtain ⟨p1, p2⟩ := Exact.half_neg m hm ar2.z b1 b2
      rw [harg, habs, abs_of_nonneg (not_lt.mp hneg)] at p2
      exact ⟨p1, p2⟩
  obtain ⟨k2, k3⟩ := key
  have k1 := hm.cos_sq_add_sin_sq (quatK_theta2 m ar2 x_labK)
  constructor
  · have r := rot_to_zK ar2.y ar2.z _ _ huv k2 k3
    have e : (⟨0, ar2.y, ar2.z⟩ : Vec3K K) = ar2 :=
      congrArg (fun t => (⟨t, ar2.y, ar2.z⟩ : Vec3K K)) hx.symm
    rw [e] at r
    exact r
  · exact rot_keeps_xK _ _ k1

theorem Vec3K.cross_scale {K : Type} [LinearOrderedField K] (u v : Vec3K K) (s t : K) :
    (Vec3K.Cross ⟨u.x * s, u.y * s, u.z * s⟩ ⟨v.x * t, v.y * t, v.z * t⟩).Magnitude2
      = (s * t) * (s * t) * (u.Cross v).Magnitude2 := by
  unfold Vec3K.Cross Vec3K.Magnitude2
  ring

/-- With exact functions, for a water whose vector H1-O is not parallel to the
lab x axis and whose vectors H1-O and H2-O are not collinear, every step of the
quaternion construction is defined, and the two rotations have unit norm. -/
theorem waterQuaternionK_some {K : Type} [LinearOrderedField K] (m : MathFnsK K)
    (hm : m.Exact) (SMALL : K) (O H1 H2 : Vec3K K)
    (hpar : (H1.sub O).y ≠ 0 ∨ (H1.sub O).z ≠ 0)
    (hcol : ((H1.sub O).Cross (H2.sub O)).Magnitude2 ≠ 0) :
    ∃ (a b : Vec3K K) (q1 q3 : Quat4K K),
      (H1.sub O).Normalize m = some a ∧ (H2.sub O).Normalize m = some b
        ∧ a.Magnitude2 = 1 ∧ b.Magnitude2 = 1 ∧ (a.y ≠ 0 ∨ a.z ≠ 0)
        ∧ (a.Cross b).Magnitude2 ≠ 0
        ∧ quatK_q1 m SMALL a = some q1 ∧ q1.norm2 = 1
        ∧ quatK_q3 m (q1.rotate a) (q1.rotate b) = some q3 ∧ q3.norm2 = 1
        ∧ waterQuaternionK m SMALL O H1 H2 = some (q1.mul q3) := by
  have hv1 : (H1.sub O).Magnitude2 ≠ 0 := Vec3K.Magnitude2_ne_of_yz _ hpar
  have hv2 : (H2.sub O).Magnitude2 ≠ 0 := by
    intro h0
    apply hcol
    have hx := mul_self_nonneg (H2.sub O).x
    have hy := mul_self_nonneg (H2.sub O).y
    have hz := mul_self_nonneg (H2.sub O).z
    unfold Vec3K.Magnitude2 at h0
    have ex : (H2.sub O).x = 0 := mul_self_eq_zero.mp (by linarith)
    have ey : (H2.sub O).y = 0 := mul_self_eq_zero.mp (by linarith)
    have ez : (H2.sub O).z = 0 := mul_self_eq_zero.mp (by linarith)
    unfold Vec3K.Cross Vec3K.Magnitude2
    simp only [ex, ey, ez]
    ring
  obtain ⟨s1, -, a, e1, ha, ax, ay, az⟩ := Vec3K.Normalize_some m hm _ hv1
  obtain ⟨s2, -, b, e2, hb, bx, bY, bz⟩ := Vec3K.Normalize_some m hm _ hv2
  have hpar' : a.y ≠ 0 ∨ a.z ≠ 0 := by
    rcases hpar with h | h
    · exact Or.inl (by rw [ay]; exact mul_ne_zero h (one_div_ne_zero s1))
    · exact Or.inr (by rw [az]; exact mul_ne_zero h (one_div_ne_zero s1))
  have hab : (a.Cross b).Magnitude2 ≠ 0 := by
    have e : a.Cross b = Vec3K.Cross
        ⟨(H1.sub O).x * (1 / m.sqrt (H1.sub O).Magnitude2),
          (H1.sub O).y * (1 / m.sqrt (H1.sub O).Magnitude2),
          (H1.sub O).z * (1 / m.sqrt (H1.sub O).Magnitude2)⟩
        ⟨(H2.sub O).x * (1 / m.sqrt (H2.sub O).Magnitude2),
          (H2.sub O).y * (1 / m.sqrt (H2.sub O).Magnitude2),
          (H2.sub O).z * (1 / m.sqrt (H2.sub O).Magnitude2)⟩ := by
      rw [← ax, ← ay, ← az, ← bx, ← bY, ← bz]
    rw [e, Vec3K.cross_scale]
    exact mul_ne_zero (mul_ne_zero (mul_ne_zero (one_div_ne_zero s1) (one_div_ne_zero s2))
      (mul_ne_zero (one_div_ne_zero s1) (one_div_ne_zero s2))) hcol
  obtain ⟨q1, f1, n1, -, -, -, -⟩ := quatK_q1_some m hm SMALL a hpar'
  have hrot : ((q1.rotate a).Cross (q1.rotate b)).Magnitude2 ≠ 0 := by
    rw [Quat4K.rotate_cross, n1]
    simp only [one_mul]
    rw [Vec3K.eta, Quat4K.rotate_Magnitude2, n1]
    simpa using hab
  obtain ⟨ar2, q3, -, -, f3, n3, -⟩ := quatK_q3_some m hm _ _ hrot
  refine ⟨a, b, q1, q3, e1, e2, ha, hb, hpar', hab, f1, n1, f3, n3, ?_⟩
  unfold waterQuaternionK
  rw [e1, Option.some_bind, e2, Option.some_bind, f1, Option.some_bind, f3, Option.map_some']

/-- With exact functions and `SMALL` not negative, the construction takes the
unit vector `a` along H1-O to the lab x axis and the unit normal `n` of the
plane of the water to the lab z axis. -/
theorem waterQuaternionK_rotate {K : Type} [LinearOrderedField K] (m : MathFnsK K)
    (hm : m.Exact) (SMALL : K) (hSMALL : 0 ≤ SMALL) (O H1 H2 : Vec3K K)
    (hpar : (H1.sub O).y ≠ 0 ∨ (H1.sub O).z ≠ 0)
    (hcol : ((H1.sub O).Cross (H2.sub O)).Magnitude2 ≠ 0) :
    ∃ (a b n : Vec3K K) (q1 q4 : Quat4K K),
      (H1.sub O).Normalize m = some a ∧ (H2.sub O).Normalize m = some b
        ∧ (a.Cross b).Normalize m = some n
        ∧ a.Magnitude2 = 1 ∧ b.Magnitude2 = 1 ∧ n.Magnitude2 = 1
        ∧ quatK_q1 m SMALL a = some q1 ∧ q1.rotate a = x_labK
        ∧ waterQuaternionK m SMALL O H1 H2 = some q4
        ∧ q4.norm2 = 1 ∧ q4.rotate a = x_labK ∧ q4.rotate n = z_labK := by
  obtain ⟨a, b, q1, q3, e1, e2, ha, hb, hpar', hab, f1, n1, f3, n3, f4⟩ :=
    waterQuaternionK_some m hm SMALL O H1 H2 hpar hcol
  have hH := quatK_q1_rotate m hm SMALL hSMALL a ha hpar' q1 f1
  obtain ⟨-, -, n, g1, g2, nx, ny, nz⟩ := Vec3K.Normalize_some m hm _ hab
  -- the rotated cross product
  have hc : (q1.rotate a).Cross (q1.rotate b) = q1.rotate (a.Cross b) := by
    rw [Quat4K.rotate_cross, n1]
    simp only [one_mul]
  have hcm : ((q1.rotate a).Cross (q1.rotate b)).Magnitude2 = (a.Cross b).Magnitude2 := by
    rw [hc, Quat4K.rotate_Magnitude2, n1]
    ring
  have hrot : ((q1.rotate a).Cross (q1.rotate b)).Magnitude2 ≠ 0 := by
    rw [hcm]; exact hab
  obtain ⟨ar2, q3', r1, -, r3, -, r5⟩ := quatK_q3_some m hm _ _ hrot
  rw [f3] at r3
  cases Option.some.inj r3
  -- ar2 is the rotated normal
  have har2 : ar2 = q1.rotate n := by
    obtain ⟨-, -, u, u1, -, ux, uy, uz⟩ := Vec3K.Normalize_some m hm _ hrot
    rw [r1] at u1
    cases Option.some.inj u1
    have en : n = ⟨(a.Cross b).x * (1 / m.sqrt (a.Cross b).Magnitude2),
        (a.Cross b).y * (1 / m.sqrt (a.Cross b).Magnitude2),
        (a.Cross b).z * (1 / m.sqrt (a.Cross b).Magnitude2)⟩ := by
      rw [← nx, ← ny, ← nz]
    rw [en, Quat4K.rotate_smul, ← hc, ← hcm, ← ux, ← uy, ← uz]
  have hrot' : ((x_labK : Vec3K K).Cross (q1.rotate b)).Magnitude2 ≠ 0 := by
    rw [← hH]; exact hrot
  have r1' : ((x_labK : Vec3K K).Cross (q1.rotate b)).Normalize m = some ar2 := by
    rw [← hH]; exact r1
  obtain ⟨z1, z2⟩ := quatK_q3_rotate m hm (q1.rotate b) ar2 r1' hrot'
  rw [hH] at r5
  refine ⟨a, b, n, q1, q1.mul q3, e1, e2, g1, ha, hb, g2, f1, hH, f4, ?_, ?_, ?_⟩
  · rw [Quat4K.norm2_mul, n1, n3, mul_one]
  · rw [Quat4K.rotate_mul, hH, r5]
    exact z2
  · rw [Quat4K.rotate_mul, ← har2, r5]
    exact z1

/-- C18: in exact arithmetic (the functions of the real numbers, and
`Constants::SMALL` not negative), for a water whose vector H1-O is not parallel
to the lab x axis and whose vectors H1-O and H2-O are not collinear, with the
unit vectors `a` along H1-O and `b` along H2-O and the unit normal
`n = (a x b)/|a x b|` of the molecular plane: the first rotation `q1`, applied
with the rotation formula of the code, takes `a` onto the lab x axis
(`H_temp = (1,0,0)`), and the stored quaternion `q4 = q1 ⊗ q3`, which has unit
norm, applied with the same formula, takes `a` to the lab x axis and `n` to the
lab z axis. -/
theorem quaternion_round_trip (SMALL : ℝ) (O H1 H2 : Vec3K ℝ) (hSMALL : 0 ≤ SMALL)
    (hpar : (H1.sub O).y ≠ 0 ∨ (H1.sub O).z ≠ 0)
    (hcol : ((H1.sub O).Cross (H2.sub O)).Magnitude2 ≠ 0) :
    ∃ (a b n : Vec3K ℝ) (q1 q4 : Quat4K ℝ),
      (H1.sub O).Normalize ⟨Real.sqrt, Real.arccos, Real.cos, Real.sin⟩ = some a
        ∧ (H2.sub O).Normalize ⟨Real.sqrt, Real.arccos, Real.cos, Real.sin⟩ = some b
        ∧ (a.Cross b).Normalize ⟨Real.sqrt, Real.arccos, Real.cos, Real.sin⟩ = some n
        ∧ a.Magnitude2 = 1 ∧ b.Magnitude2 = 1 ∧ n.Magnitude2 = 1
        ∧ quatK_q1 ⟨Real.sqrt, Real.arccos, Real.cos, Real.sin⟩ SMALL a = some q1
        ∧ q1.rotate a = x_labK
        ∧ waterQuaternionK ⟨Real.sqrt, Real.arccos, Real.cos, Real.sin⟩ SMALL O H1 H2 = some q4
        ∧ q4.norm2 = 1 ∧ q4.rotate a = x_labK ∧ q4.rotate n = z_labK :=
  waterQuaternionK_rotate _ real_exact SMALL hSMALL O H1 H2 hpar hcol

/-- Witness for C18: the water with its oxygen at the origin and its hydrogens
on the y and the z axis, in exact arithmetic; and the water of the example with
`a = (7/25, 24/25, 0)` and a tilted plane, whose stored quaternion
`(16/25, -12/25, -9/25, 12/25)` takes `a` to the lab x axis and the normal
`(-576/625, 168/625, 7/25)` to the lab z axis. -/
theorem quaternion_round_trip_witness :
    (∃ (a b n : Vec3K ℝ) (q1 q4 : Quat4K ℝ),
      ((⟨0, 1, 0⟩ : Vec3K ℝ).sub ⟨0, 0, 0⟩).Normalize
            ⟨Real.sqrt, Real.arccos, Real.cos, Real.sin⟩ = some a
        ∧ ((⟨0, 0, 1⟩ : Vec3K ℝ).sub ⟨0, 0, 0⟩).Normalize
            ⟨Real.sqrt, Real.arccos, Real.cos, Real.sin⟩ = some b
        ∧ (a.Cross b).Normalize ⟨Real.sqrt, Real.arccos, Real.cos, Real.sin⟩ = some n
        ∧ a.Magnitude2 = 1 ∧ b.Magnitude2 = 1 ∧ n.Magnitude2 = 1
        ∧ quatK_q1 ⟨Real.sqrt, Real.arccos, Real.cos, Real.sin⟩ 0 a = some q1
        ∧ q1.rotate a = x_labK
        ∧ waterQuaternionK ⟨Real.sqrt, Real.arccos, Real.cos, Real.sin⟩ 0 ⟨0, 0, 0⟩ ⟨0, 1, 0⟩
            ⟨0, 0, 1⟩ = some q4
        ∧ q4.norm2 = 1 ∧ q4.rotate a = x_labK ∧ q4.rotate n = z_labK)
      ∧ (waterQuaternionK exMathQ.toK (1 / 100000000000000) ⟨1 / 2, 1 / 2, 1 / 2⟩
            ⟨1 / 2 + 7 / 25, 1 / 2 + 24 / 25, 1 / 2⟩
            ⟨1 / 2 - 168 / 625, 1 / 2 + 49 / 625, 1 / 2 - 24 / 25⟩).map
          (fun q => [q.w, q.x, q.y, q.z, (q.rotate ⟨7 / 25, 24 / 25, 0⟩).x,
            (q.rotate ⟨7 / 25, 24 / 25, 0⟩).y, (q.rotate ⟨7 / 25, 24 / 25, 0⟩).z,
            (q.rotate ⟨-(576 / 625), 168 / 625, 7 / 25⟩).x,
            (q.rotate ⟨-(576 / 625), 168 / 625, 7 / 25⟩).y,
            (q.rotate ⟨-(576 / 625), 168 / 625, 7 / 25⟩).z])
          = some [16 / 25, -(12 / 25), -(9 / 25), 12 / 25, 1, 0, 0, 0, 0, 1] :=
  ⟨quaternion_round_trip 0 ⟨0, 0, 0⟩ ⟨0, 1, 0⟩ ⟨0, 0, 1⟩ (le_refl 0)
      (Or.inl (by norm_num [Vec3K.sub]))
      (by norm_num [Vec3K.sub, Vec3K.Cross, Vec3K.Magnitude2]),
    by decide!⟩

end GIST
